import Mathlib

/-!
# Escrow, offer, property and user chaincode: a shallow embedding

The four contracts of `src/chaincode` run against a Hyperledger Fabric
chaincode stub.  The stub is modelled as explicit state: the world state (a map
from keys to stored values) and the timestamp of the enclosing transaction.
Every contract operation takes the stub and returns the Go `error` result
together with the stub after the call, so that "nothing was written" is a
statement about the returned stub.

Modelling of the libraries the contracts call:

* `GetState` and `PutState` are a lookup and an upsert in the world state and do
  not fail; `GetTxTimestamp` fails exactly when the stub carries no timestamp.
  The error branches of the source are kept where the source has them.
* Stored values are JSON documents, kept in parsed form with scalar leaves typed
  the way the struct field reading them is typed.  `json.Unmarshal` follows Go:
  absent keys and `null` leave the zero value, unknown keys are ignored, a leaf
  of the wrong type is an error.  A document written for one record type can
  therefore be decoded as another.
* `float64` values are finite and `time.Time` values are instants that RFC 3339
  can print, so `json.Marshal` succeeds on every record and `json.Unmarshal`
  inverts it.
* A stored time is kept as its instant.  The text that `json.Marshal` writes for
  it also carries the offset of the location of the time, which for a time made
  by `time.Unix` is the local zone of the peer.  Where a property speaks of the
  stored text, `Time.marshalJSON` and `Json.written` give it.
* Go `int` is a 64-bit two's complement integer.
* The bulk reads work on the iterators of the ledger, given by a `ReadStub`:
  opening an iterator may fail, and an open iterator is the list of what its
  successive `Next` calls return.
* The history of a key is kept by the ledger, not by the contracts.  Where a
  property speaks of it, the ledger is a `Ledger`: a committed transaction adds
  one version to each key it writes, a failed invocation commits nothing, and
  the history iterator hands the versions out oldest first.
* The text of a selector query is read by the ledger as a JSON document.  Where
  a property speaks of the predicates of a query, the text is read by
  `Selector.parse`.
-/

/-! ## Go values used by the records -/

/-- A finite `float64`, kept as mantissa and binary exponent.  The contracts only
copy such values and pass them through `encoding/json`. -/
structure Float64 where
  mant : Int
  exp : Int
deriving DecidableEq, Repr

/-- The zero value of `float64`. -/
def Float64.zero : Float64 := ⟨0, 0⟩

/-- An instant of `time.Time`: seconds since the Unix epoch and nanoseconds
within the second. -/
structure Time where
  sec : Int
  nsec : Int
deriving DecidableEq, Repr

/-- The zero value `time.Time{}`: January 1, year 1, 00:00:00 UTC. -/
def Time.zero : Time := ⟨-62135596800, 0⟩

/-- The protobuf timestamp returned by `GetTxTimestamp`. -/
structure Timestamp where
  Seconds : Int
  Nanos : Int
deriving DecidableEq, Repr

/-- Go's `time.Unix(sec, nsec)`: nanoseconds outside `[0, 1e9)` are carried into
the seconds. -/
def timeUnix (sec nsec : Int) : Time :=
  if nsec < 0 ∨ nsec ≥ 1000000000 then
    let n := Int.tdiv nsec 1000000000
    let sec1 := sec + n
    let nsec1 := nsec - n * 1000000000
    if nsec1 < 0 then ⟨sec1 - 1, nsec1 + 1000000000⟩ else ⟨sec1, nsec1⟩
  else ⟨sec, nsec⟩

/-! ### The text of a time

`timeUnix` keeps the instant of `time.Unix(sec, nsec)`.  The Go value also has a
location, the local zone of the process that made it, and `Time.MarshalJSON`
prints the instant in that location.  The local zone of a peer is taken as a
fixed offset in seconds east of UTC. -/

namespace Time

/-- The decimal digit of `n` at the place `place` (1, 10, 100, ...). -/
def digitAt (n place : Nat) : Char := Char.ofNat (48 + n / place % 10)

/-- Two decimal digits. -/
def pad2 (n : Nat) : String := String.mk [digitAt n 10, digitAt n 1]

/-- Four decimal digits. -/
def pad4 (n : Nat) : String :=
  String.mk [digitAt n 1000, digitAt n 100, digitAt n 10, digitAt n 1]

/-- The civil date (year, month, day) of a day counted from 1970-01-01, in the
proleptic Gregorian calendar. -/
def civilFromDays (days : Int) : Int × Int × Int :=
  let z := days + 719468
  let era := z / 146097
  let doe := z - era * 146097
  let yoe := (doe - doe / 1460 + doe / 36524 - doe / 146096) / 365
  let doy := doe - (365 * yoe + yoe / 4 - yoe / 100)
  let mp := (5 * doy + 2) / 153
  let d := doy - (153 * mp + 2) / 5 + 1
  let m := if mp < 10 then mp + 3 else mp - 9
  let y := yoe + era * 400
  (if m ≤ 2 then y + 1 else y, m, d)

/-- The fraction of a second as the layout `.999999999` prints it: nothing for
zero, else a point and the nine digits without trailing zeros. -/
def fraction (nsec : Nat) : String :=
  if nsec = 0 then ""
  else
    String.mk ('.' :: ((([digitAt nsec 100000000, digitAt nsec 10000000, digitAt nsec 1000000,
      digitAt nsec 100000, digitAt nsec 10000, digitAt nsec 1000, digitAt nsec 100,
      digitAt nsec 10, digitAt nsec 1].reverse).dropWhile (fun c => c = '0')).reverse))

/-- The zone as the layout `Z07:00` prints it: `Z` for the offset zero, else the
sign, the hours and the minutes. -/
def zoneText (offset : Int) : String :=
  if offset = 0 then "Z"
  else
    let minutes := Int.tdiv offset 60
    (if minutes < 0 then "-" else "+") ++ pad2 (minutes.natAbs / 60) ++ ":" ++
      pad2 (minutes.natAbs % 60)

/-- Go's `Time.MarshalJSON` on a time whose location has the offset `offset`: the
quoted RFC 3339 text with nanoseconds, and an error for a year outside
`[0, 9999]`. -/
def marshalJSON (offset : Int) (t : Time) : Except String String :=
  let localSec := t.sec + offset
  let days := localSec / 86400
  let rem := localSec % 86400
  match civilFromDays days with
  | (y, m, d) =>
    if y < 0 ∨ y ≥ 10000 then .error "Time.MarshalJSON: year outside of range [0,9999]"
    else
      .ok ("\"" ++ pad4 y.toNat ++ "-" ++ pad2 m.toNat ++ "-" ++ pad2 d.toNat ++ "T" ++
        pad2 (rem / 3600).toNat ++ ":" ++ pad2 (rem % 3600 / 60).toNat ++ ":" ++
        pad2 (rem % 60).toNat ++ fraction t.nsec.toNat ++ zoneText offset ++ "\"")

end Time

/-- Wrap-around of a Go `int` (64 bits, two's complement). -/
def wrapInt64 (x : Int) : Int :=
  (x + 9223372036854775808) % 18446744073709551616 - 9223372036854775808

/-! ## JSON documents -/

/-- A parsed JSON document.  A JSON number is `int` where an integer field reads
it and `num` where a `float64` field reads it; a JSON string is `time` where it
is the RFC 3339 text of a `time.Time` field and `str` otherwise.  Object keys
are the struct tags they bind to.  Bytes that are not a JSON text at all decode
like a document of the wrong shape and have no constructor of their own. -/
inductive Json where
  | null : Json
  | bool (b : Bool) : Json
  | int (i : Int) : Json
  | num (f : Float64) : Json
  | str (s : String) : Json
  | time (t : Time) : Json
  | arr (xs : List Json) : Json
  | obj (kvs : List (String × Json)) : Json

namespace Json

/-- The value bound to `name` in an object; as in `encoding/json`, the last
occurrence of a repeated key wins. -/
def lookupField : List (String × Json) → String → Option Json
  | [], _ => none
  | (k, v) :: rest, name =>
    match lookupField rest name with
    | some w => some w
    | none => if k = name then some v else none

/-- Decode a `string` field: an absent key or `null` leaves the zero value. -/
def getString (kvs : List (String × Json)) (name : String) : Except String String :=
  match lookupField kvs name with
  | none => .ok ""
  | some .null => .ok ""
  | some (.str s) => .ok s
  | some _ => .error ("json: cannot unmarshal value into Go struct field ." ++ name ++ " of type string")

/-- Decode a `float64` field. -/
def getFloat (kvs : List (String × Json)) (name : String) : Except String Float64 :=
  match lookupField kvs name with
  | none => .ok Float64.zero
  | some .null => .ok Float64.zero
  | some (.num f) => .ok f
  | some _ => .error ("json: cannot unmarshal value into Go struct field ." ++ name ++ " of type float64")

/-- Decode an `int` field; a number outside the 64-bit range is rejected. -/
def getInt (kvs : List (String × Json)) (name : String) : Except String Int :=
  match lookupField kvs name with
  | none => .ok 0
  | some .null => .ok 0
  | some (.int i) =>
    if -9223372036854775808 ≤ i ∧ i < 9223372036854775808 then .ok i
    else .error ("json: cannot unmarshal number into Go struct field ." ++ name ++ " of type int")
  | some _ => .error ("json: cannot unmarshal value into Go struct field ." ++ name ++ " of type int")

/-- Decode a `bool` field. -/
def getBool (kvs : List (String × Json)) (name : String) : Except String Bool :=
  match lookupField kvs name with
  | none => .ok false
  | some .null => .ok false
  | some (.bool b) => .ok b
  | some _ => .error ("json: cannot unmarshal value into Go struct field ." ++ name ++ " of type bool")

/-- Decode a `time.Time` field. -/
def getTime (kvs : List (String × Json)) (name : String) : Except String Time :=
  match lookupField kvs name with
  | none => .ok Time.zero
  | some .null => .ok Time.zero
  | some (.time t) => .ok t
  | some _ => .error ("parsing time: cannot parse value of field ." ++ name)

/-- Decode one element of a `[]string`. -/
def elemString : Json → Except String String
  | .null => .ok ""
  | .str s => .ok s
  | _ => .error "json: cannot unmarshal value into Go value of type string"

/-- Decode a `[]string` field.  The nil slice and the empty slice are both the
empty list. -/
def getStrings (kvs : List (String × Json)) (name : String) : Except String (List String) :=
  match lookupField kvs name with
  | none => .ok []
  | some .null => .ok []
  | some (.arr xs) => xs.mapM elemString
  | some _ => .error ("json: cannot unmarshal value into Go struct field ." ++ name ++ " of type []string")

end Json

/-- The field `name` of a document that is an object. -/
def Json.field (j : Json) (name : String) : Option Json :=
  match j with
  | .obj kvs => Json.lookupField kvs name
  | _ => none

mutual

/-- The document as `json.Marshal` writes it on a peer whose local zone has the
offset `offset`, for a document all of whose times were made by `time.Unix` in
the execution that writes it: each time leaf becomes the text that
`Time.MarshalJSON` prints in the local zone, and the other leaves are written
alike on every peer.  A time read back from the ledger keeps the offset of its
stored text and the zero time is in UTC; documents with such times are not
covered. -/
def Json.written (offset : Int) : Json → Except String Json
  | .time t =>
    match Time.marshalJSON offset t with
    | .ok text => .ok (.str text)
    | .error err => .error err
  | .arr xs =>
    match Json.writtenList offset xs with
    | .ok ys => .ok (.arr ys)
    | .error err => .error err
  | .obj kvs =>
    match Json.writtenFields offset kvs with
    | .ok ys => .ok (.obj ys)
    | .error err => .error err
  | .null => .ok .null
  | .bool b => .ok (.bool b)
  | .int i => .ok (.int i)
  | .num f => .ok (.num f)
  | .str s => .ok (.str s)

/-- The elements of an array as `Json.written` gives them. -/
def Json.writtenList (offset : Int) : List Json → Except String (List Json)
  | [] => .ok []
  | x :: xs =>
    match Json.written offset x, Json.writtenList offset xs with
    | .ok y, .ok ys => .ok (y :: ys)
    | .error err, _ => .error err
    | _, .error err => .error err

/-- The members of an object as `Json.written` gives them. -/
def Json.writtenFields (offset : Int) :
    List (String × Json) → Except String (List (String × Json))
  | [] => .ok []
  | (k, x) :: xs =>
    match Json.written offset x, Json.writtenFields offset xs with
    | .ok y, .ok ys => .ok ((k, y) :: ys)
    | .error err, _ => .error err
    | _, .error err => .error err

end

/-! ## The chaincode stub -/

/-- The chaincode stub of one transaction: the world state and the transaction
timestamp (`none` when `GetTxTimestamp` fails). -/
structure Stub where
  state : String → Option Json
  txTimestamp : Option Timestamp

namespace Stub

/-- The ledger with no key set. -/
def empty (ts : Option Timestamp) : Stub := ⟨fun _ => none, ts⟩

/-- Go's `GetState`: the stored value, `none` (Go `nil`) for an unset key. -/
def GetState (ctx : Stub) (key : String) : Except String (Option Json) :=
  .ok (ctx.state key)

/-- Go's `PutState`: upsert of the value under `key`. -/
def PutState (ctx : Stub) (key : String) (value : Json) : Except String Unit × Stub :=
  (.ok (), { ctx with state := fun k => if k = key then some value else ctx.state k })

/-- Go's `GetTxTimestamp`. -/
def GetTxTimestamp (ctx : Stub) : Except String Timestamp :=
  match ctx.txTimestamp with
  | some ts => .ok ts
  | none => .error "transaction timestamp unavailable"

/-- The same ledger seen by a later transaction with timestamp `ts`. -/
def withTx (ctx : Stub) (ts : Option Timestamp) : Stub := { ctx with txTimestamp := ts }

end Stub

/-! ## Iterators of the ledger -/

/-- A key with its stored value, as a state or query iterator hands it out
(`queryresult.KV`). -/
structure KV where
  Key : String
  Value : Json

/-- One version of a key, as a history iterator hands it out
(`queryresult.KeyModification`).  `Value` is `none` when the version carries no
bytes, as for a delete. -/
structure KeyModification where
  TxId : String
  Value : Option Json
  Timestamp : Timestamp
  IsDelete : Bool

/-- The reading side of the stub: what `GetStateByRange`, `GetQueryResult` and
`GetHistoryForKey` return.  Opening an iterator may fail; an open iterator is
the list of what its successive `Next` calls return, each of which may fail. -/
structure ReadStub where
  GetStateByRange : String → String → Except String (List (Except String KV))
  GetQueryResult : String → Except String (List (Except String KV))
  GetHistoryForKey : String → Except String (List (Except String KeyModification))

/-- One entry of a history read: the Go map with the keys `txId`, `timestamp`,
the record and `isDelete`. -/
structure HistoryEntry (α : Type) where
  txId : String
  timestamp : Timestamp
  record : α
  isDelete : Bool

/-- The loop of a bulk read that returns the error of a value that does not
decode: `for HasNext { Next; Unmarshal; append }` with `return nil, err` on both
errors. -/
def collectStrict {α : Type} (decode : Json → Except String α) :
    List (Except String KV) → List α → Except String (List α)
  | [], acc => .ok acc
  | .error err :: _, _ => .error err
  | .ok queryResponse :: rest, acc =>
    match decode queryResponse.Value with
    | .error err => .error err
    | .ok record => collectStrict decode rest (acc ++ [record])

/-- The loop of a bulk read that skips a value that does not decode: as
`collectStrict`, with `continue` on the decode error. -/
def collectLenient {α : Type} (decode : Json → Except String α) :
    List (Except String KV) → List α → Except String (List α)
  | [], acc => .ok acc
  | .error err :: _, _ => .error err
  | .ok queryResponse :: rest, acc =>
    match decode queryResponse.Value with
    | .error _ => collectLenient decode rest acc
    | .ok record => collectLenient decode rest (acc ++ [record])

/-- The loop of a history read: a version with bytes is decoded (an error is
returned), a version without bytes keeps the zero record. -/
def collectHistory {α : Type} (decode : Json → Except String α) (zero : α) :
    List (Except String KeyModification) → List (HistoryEntry α) →
    Except String (List (HistoryEntry α))
  | [], acc => .ok acc
  | .error err :: _, _ => .error err
  | .ok response :: rest, acc =>
    match response.Value with
    | none =>
      collectHistory decode zero rest
        (acc ++ [⟨response.TxId, response.Timestamp, zero, response.IsDelete⟩])
    | some value =>
      match decode value with
      | .error err => .error err
      | .ok record =>
        collectHistory decode zero rest
          (acc ++ [⟨response.TxId, response.Timestamp, record, response.IsDelete⟩])

/-- One step of the loop of a history read: the entry built from a version, or
the error of its value that does not decode. -/
def decodeVersion {α : Type} (decode : Json → Except String α) (zero : α)
    (response : KeyModification) : Except String (HistoryEntry α) :=
  match response.Value with
  | none => .ok ⟨response.TxId, response.Timestamp, zero, response.IsDelete⟩
  | some value =>
    match decode value with
    | .error err => .error err
    | .ok record => .ok ⟨response.TxId, response.Timestamp, record, response.IsDelete⟩

/-- A reading stub over a sequence of ledger values and a sequence of versions:
the range and query iterators hand out `kvs`, the history iterator hands out
`history`, and no call of the stub fails. -/
def ReadStub.ofLists (kvs : List KV) (history : List KeyModification) : ReadStub :=
  { GetStateByRange := fun _ _ => .ok (kvs.map .ok)
    GetQueryResult := fun _ => .ok (kvs.map .ok)
    GetHistoryForKey := fun _ => .ok (history.map .ok) }

/-- A reading stub that shows the text a method hands to `GetQueryResult`: the
query call fails with the query text as its error. -/
def ReadStub.echo : ReadStub :=
  { GetStateByRange := fun _ _ => .ok []
    GetQueryResult := fun queryString => .error queryString
    GetHistoryForKey := fun _ => .ok [] }

/-! ## A ledger that records versions

The history of a key is kept by the ledger, not by the contracts.  It is
modelled as the ledger keeps it: every committed transaction adds one version to
each key it writes, and a transaction whose invocation fails is not committed.
The history iterator hands the versions out oldest first. -/

/-- A transaction: its id, its timestamp and the invocation it carries. -/
structure Tx (Call : Type) where
  txId : String
  timestamp : Timestamp
  call : Call

/-- A ledger with history: the world state and, per key, the versions written so
far, oldest first. -/
structure Ledger where
  state : String → Option Json
  history : String → List KeyModification

namespace Ledger

/-- The ledger before any transaction. -/
def empty : Ledger := ⟨fun _ => none, fun _ => []⟩

/-- Commit a transaction of a contract whose invocations run by `run` and write
the keys `writes`: a failed invocation leaves the ledger as it was; a successful
one installs its world state and adds, to each key it writes, one version with
the transaction id, the value now under the key and the timestamp, not a
delete. -/
def commit {Call : Type} (run : Call → Stub → Except String Unit × Stub)
    (writes : Call → List String) (tx : Tx Call) (l : Ledger) : Ledger :=
  match run tx.call ⟨l.state, some tx.timestamp⟩ with
  | (.ok _, ctx) =>
    ⟨ctx.state, fun k =>
      if k ∈ writes tx.call then
        l.history k ++ [⟨tx.txId, ctx.state k, tx.timestamp, false⟩]
      else l.history k⟩
  | (.error _, _) => l

/-- Commit a sequence of transactions in order. -/
def commitAll {Call : Type} (run : Call → Stub → Except String Unit × Stub)
    (writes : Call → List String) : List (Tx Call) → Ledger → Ledger
  | [], l => l
  | tx :: rest, l => commitAll run writes rest (l.commit run writes tx)

/-- The reading stub of a ledger for history reads: the history iterator of a key
hands out its versions oldest first; scans and queries are not served. -/
def historyStub (l : Ledger) : ReadStub :=
  { GetStateByRange := fun _ _ => .error "range scans are not served by the history stub"
    GetQueryResult := fun _ => .error "queries are not served by the history stub"
    GetHistoryForKey := fun key => .ok ((l.history key).map .ok) }

end Ledger

/-- Three transactions that write a key, with transactions that do not write it
before, between and after them. -/
structure ThreeWrites (Call : Type) where
  start : Ledger
  key : String
  first : Tx Call
  between1 : List (Tx Call)
  second : Tx Call
  between2 : List (Tx Call)
  third : Tx Call
  after : List (Tx Call)

namespace ThreeWrites

/-- The ledger after the first of the three transactions. -/
def ledger1 {Call : Type} (run : Call → Stub → Except String Unit × Stub)
    (writes : Call → List String) (s : ThreeWrites Call) : Ledger :=
  s.start.commit run writes s.first

/-- The ledger before the second of the three transactions. -/
def before2 {Call : Type} (run : Call → Stub → Except String Unit × Stub)
    (writes : Call → List String) (s : ThreeWrites Call) : Ledger :=
  (s.ledger1 run writes).commitAll run writes s.between1

/-- The ledger after the second of the three transactions. -/
def ledger2 {Call : Type} (run : Call → Stub → Except String Unit × Stub)
    (writes : Call → List String) (s : ThreeWrites Call) : Ledger :=
  (s.before2 run writes).commit run writes s.second

/-- The ledger before the third of the three transactions. -/
def before3 {Call : Type} (run : Call → Stub → Except String Unit × Stub)
    (writes : Call → List String) (s : ThreeWrites Call) : Ledger :=
  (s.ledger2 run writes).commitAll run writes s.between2

/-- The ledger after the third of the three transactions. -/
def ledger3 {Call : Type} (run : Call → Stub → Except String Unit × Stub)
    (writes : Call → List String) (s : ThreeWrites Call) : Ledger :=
  (s.before3 run writes).commit run writes s.third

/-- The ledger after all the transactions. -/
def final {Call : Type} (run : Call → Stub → Except String Unit × Stub)
    (writes : Call → List String) (s : ThreeWrites Call) : Ledger :=
  (s.ledger3 run writes).commitAll run writes s.after

/-- The key is new at the start, each of the three transactions writes it and
succeeds, and no other transaction writes it. -/
def Valid {Call : Type} (run : Call → Stub → Except String Unit × Stub)
    (writes : Call → List String) (s : ThreeWrites Call) : Prop :=
  s.start.state s.key = none ∧ s.start.history s.key = [] ∧
  (s.key ∈ writes s.first.call ∧
    (run s.first.call ⟨s.start.state, some s.first.timestamp⟩).1 = .ok ()) ∧
  (∀ tx ∈ s.between1, s.key ∉ writes tx.call) ∧
  (s.key ∈ writes s.second.call ∧
    (run s.second.call ⟨(s.before2 run writes).state, some s.second.timestamp⟩).1 = .ok ()) ∧
  (∀ tx ∈ s.between2, s.key ∉ writes tx.call) ∧
  (s.key ∈ writes s.third.call ∧
    (run s.third.call ⟨(s.before3 run writes).state, some s.third.timestamp⟩).1 = .ok ()) ∧
  (∀ tx ∈ s.after, s.key ∉ writes tx.call)

end ThreeWrites

/-- What `writes` tells of `run`: an invocation fails and leaves the stub as it
was, or it succeeds, changes the world state at the keys of `writes` only, and
leaves under each of them a value that `decode` reads. -/
def WritesDecodable {Call α : Type} (run : Call → Stub → Except String Unit × Stub)
    (writes : Call → List String) (decode : Json → Except String α) : Prop :=
  ∀ (c : Call) (ctx : Stub), (∃ msg, run c ctx = (.error msg, ctx)) ∨
    ((run c ctx).1 = .ok () ∧ (∀ k, k ∉ writes c → (run c ctx).2.state k = ctx.state k) ∧
      ∀ k ∈ writes c, ∃ v r, (run c ctx).2.state k = some v ∧ decode v = .ok r)

/-! ## Escrow contract (`escrow-contract/escrow.go`) -/

namespace EscrowContract

/-- The `Escrow` record. -/
structure Escrow where
  EscrowID : String
  PropertyID : String
  Buyer : String
  Seller : String
  Amount : Float64
  Status : String
  TransactionHash : String
  CreatedAt : Time
  UpdatedAt : Time
deriving DecidableEq, Repr

/-- Go's `json.Marshal` on an `Escrow`. -/
def jsonMarshal (e : Escrow) : Except String Json :=
  .ok (.obj [("escrowId", .str e.EscrowID), ("propertyId", .str e.PropertyID),
    ("buyer", .str e.Buyer), ("seller", .str e.Seller), ("amount", .num e.Amount),
    ("status", .str e.Status), ("transactionHash", .str e.TransactionHash),
    ("createdAt", .time e.CreatedAt), ("updatedAt", .time e.UpdatedAt)])

/-- Go's `json.Unmarshal` into an `Escrow`: keys that are absent leave the zero
value, unknown keys are ignored, and the document `null` leaves the whole
record zero. -/
def jsonUnmarshal : Json → Except String Escrow
  | .null => .ok ⟨"", "", "", "", Float64.zero, "", "", Time.zero, Time.zero⟩
  | .obj kvs =>
    match Json.getString kvs "escrowId", Json.getString kvs "propertyId",
      Json.getString kvs "buyer", Json.getString kvs "seller", Json.getFloat kvs "amount",
      Json.getString kvs "status", Json.getString kvs "transactionHash",
      Json.getTime kvs "createdAt", Json.getTime kvs "updatedAt" with
    | .ok a, .ok b, .ok c, .ok d, .ok e, .ok f, .ok g, .ok h, .ok i => .ok ⟨a, b, c, d, e, f, g, h, i⟩
    | _, _, _, _, _, _, _, _, _ => .error "json: cannot unmarshal object into Go value of type main.Escrow"
  | _ => .error "json: cannot unmarshal value into Go value of type main.Escrow"

/-- Method `EscrowExists` of the contract. -/
def EscrowExists (ctx : Stub) (escrowID : String) : Except String Bool :=
  match ctx.GetState escrowID with
  | .error err => .error ("failed to read escrow: " ++ err)
  | .ok escrowJSON => .ok escrowJSON.isSome

/-- Method `GetEscrow` of the contract. -/
def GetEscrow (ctx : Stub) (escrowID : String) : Except String Escrow :=
  match ctx.GetState escrowID with
  | .error err => .error ("failed to read escrow: " ++ err)
  | .ok none => .error ("escrow " ++ escrowID ++ " does not exist")
  | .ok (some escrowJSON) => jsonUnmarshal escrowJSON

/-- Method `CreateEscrow` of the contract. -/
def CreateEscrow (ctx : Stub) (escrowID propertyID buyer seller : String) (amount : Float64) :
    Except String Unit × Stub :=
  match EscrowExists ctx escrowID with
  | .error err => (.error err, ctx)
  | .ok true => (.error ("escrow " ++ escrowID ++ " already exists"), ctx)
  | .ok false =>
    match ctx.GetTxTimestamp with
    | .error err => (.error ("failed to get transaction timestamp: " ++ err), ctx)
    | .ok txTimestamp =>
      let timestamp := timeUnix txTimestamp.Seconds txTimestamp.Nanos
      let escrow : Escrow :=
        { EscrowID := escrowID, PropertyID := propertyID, Buyer := buyer, Seller := seller,
          Amount := amount, Status := "CREATED", TransactionHash := "",
          CreatedAt := timestamp, UpdatedAt := timestamp }
      match jsonMarshal escrow with
      | .error err => (.error err, ctx)
      | .ok escrowJSON => ctx.PutState escrowID escrowJSON

/-- Method `FundEscrow` of the contract. -/
def FundEscrow (ctx : Stub) (escrowID txHash : String) : Except String Unit × Stub :=
  match GetEscrow ctx escrowID with
  | .error err => (.error err, ctx)
  | .ok escrow =>
    if escrow.Status ≠ "CREATED" then
      (.error ("escrow " ++ escrowID ++ " is not in CREATED status"), ctx)
    else
      match ctx.GetTxTimestamp with
      | .error err => (.error ("failed to get transaction timestamp: " ++ err), ctx)
      | .ok txTimestamp =>
        let timestamp := timeUnix txTimestamp.Seconds txTimestamp.Nanos
        let escrow1 : Escrow :=
          { escrow with Status := "FUNDED", TransactionHash := txHash, UpdatedAt := timestamp }
        match jsonMarshal escrow1 with
        | .error err => (.error err, ctx)
        | .ok escrowJSON => ctx.PutState escrowID escrowJSON

/-- Method `ReleaseEscrow` of the contract. -/
def ReleaseEscrow (ctx : Stub) (escrowID releaseTxHash : String) : Except String Unit × Stub :=
  match GetEscrow ctx escrowID with
  | .error err => (.error err, ctx)
  | .ok escrow =>
    if escrow.Status ≠ "FUNDED" then
      (.error ("escrow " ++ escrowID ++ " is not in FUNDED status"), ctx)
    else
      match ctx.GetTxTimestamp with
      | .error err => (.error ("failed to get transaction timestamp: " ++ err), ctx)
      | .ok txTimestamp =>
        let timestamp := timeUnix txTimestamp.Seconds txTimestamp.Nanos
        let escrow1 : Escrow :=
          { escrow with Status := "RELEASED", TransactionHash := releaseTxHash,
                        UpdatedAt := timestamp }
        match jsonMarshal escrow1 with
        | .error err => (.error err, ctx)
        | .ok escrowJSON => ctx.PutState escrowID escrowJSON

/-- Method `CancelEscrow` of the contract. -/
def CancelEscrow (ctx : Stub) (escrowID refundTxHash : String) : Except String Unit × Stub :=
  match GetEscrow ctx escrowID with
  | .error err => (.error err, ctx)
  | .ok escrow =>
    if escrow.Status = "RELEASED" then
      (.error ("escrow " ++ escrowID ++ " has already been released"), ctx)
    else
      match ctx.GetTxTimestamp with
      | .error err => (.error ("failed to get transaction timestamp: " ++ err), ctx)
      | .ok txTimestamp =>
        let timestamp := timeUnix txTimestamp.Seconds txTimestamp.Nanos
        let escrow1 : Escrow :=
          { escrow with Status := "CANCELLED", TransactionHash := refundTxHash,
                        UpdatedAt := timestamp }
        match jsonMarshal escrow1 with
        | .error err => (.error err, ctx)
        | .ok escrowJSON => ctx.PutState escrowID escrowJSON

/-- One invocation of a state-changing escrow operation. -/
inductive Call where
  | create (escrowID propertyID buyer seller : String) (amount : Float64)
  | fund (escrowID txHash : String)
  | release (escrowID releaseTxHash : String)
  | cancel (escrowID refundTxHash : String)

/-- Run an invocation against a stub. -/
def Call.run : Call → Stub → Except String Unit × Stub
  | .create escrowID propertyID buyer seller amount, ctx =>
    CreateEscrow ctx escrowID propertyID buyer seller amount
  | .fund escrowID txHash, ctx => FundEscrow ctx escrowID txHash
  | .release escrowID releaseTxHash, ctx => ReleaseEscrow ctx escrowID releaseTxHash
  | .cancel escrowID refundTxHash, ctx => CancelEscrow ctx escrowID refundTxHash

/-- The escrow id an invocation targets. -/
def Call.key : Call → String
  | .create escrowID _ _ _ _ => escrowID
  | .fund escrowID _ => escrowID
  | .release escrowID _ => escrowID
  | .cancel escrowID _ => escrowID

/-- The mutators are `FundEscrow`, `ReleaseEscrow` and `CancelEscrow`. -/
def Call.isMutator : Call → Bool
  | .create _ _ _ _ _ => false
  | _ => true

/-- World states reachable from the empty ledger by escrow invocations, each in
a transaction of its own (with or without a timestamp). -/
inductive Reachable : (String → Option Json) → Prop
  | empty : Reachable (fun _ => none)
  | step (w : String → Option Json) (ts : Option Timestamp) (c : Call) :
      Reachable w → Reachable (c.run ⟨w, ts⟩).2.state

/-- The status steps of the escrow state machine as the invariant of the record
states them. -/
def statedSteps : List (String × String) :=
  [("CREATED", "FUNDED"), ("FUNDED", "RELEASED"), ("CREATED", "CANCELLED"),
   ("FUNDED", "CANCELLED")]

/-- The status steps the mutators can take. -/
def steps : List (String × String) :=
  [("CREATED", "FUNDED"), ("FUNDED", "RELEASED"), ("CREATED", "CANCELLED"),
   ("FUNDED", "CANCELLED"), ("CANCELLED", "CANCELLED")]

/-- A sample escrow record `E1` in the given status. -/
def sampleEscrow (status : String) : Escrow :=
  ⟨"E1", "P1", "bob", "sue", ⟨5, 0⟩, status, "", ⟨100, 0⟩, ⟨100, 0⟩⟩

/-- A ledger holding only the sample escrow `E1` in the given status. -/
def sampleLedger (status : String) : String → Option Json :=
  fun k =>
    if k = "E1" then
      match jsonMarshal (sampleEscrow status) with
      | .ok j => some j
      | .error _ => none
    else none

/-- The four values of the escrow status. -/
def statuses : List String := ["CREATED", "FUNDED", "RELEASED", "CANCELLED"]

/-- Every stored value is the encoding of an escrow record whose status is one
of the four. -/
def WellFormed (w : String → Option Json) : Prop :=
  ∀ k v, w k = some v → ∃ e, jsonMarshal e = .ok v ∧ e.Status ∈ statuses

/-- The ledger after `CreateEscrow` of escrow `E1`. -/
def createdLedger : String → Option Json :=
  (Call.run (.create "E1" "P1" "bob" "sue" ⟨5, 0⟩) ⟨fun _ => none, some ⟨100, 0⟩⟩).2.state

/-- The ledger after `CreateEscrow` and `FundEscrow` of escrow `E1`. -/
def fundedLedger : String → Option Json :=
  (Call.run (.fund "E1" "f1") ⟨createdLedger, some ⟨150, 0⟩⟩).2.state

/-- The ledger after `CreateEscrow` and `CancelEscrow` of escrow `E1`. -/
def cancelledLedger : String → Option Json :=
  (Call.run (.cancel "E1" "r1") ⟨createdLedger, some ⟨200, 0⟩⟩).2.state

/-- Method `GetAllEscrows`: the scan stops with the error of a value that does
not decode. -/
def GetAllEscrows (q : ReadStub) : Except String (List Escrow) :=
  match q.GetStateByRange "" "" with
  | .error err => .error err
  | .ok resultsIterator => collectStrict jsonUnmarshal resultsIterator []

/-- Method `GetEscrowHistory` of the contract. -/
def GetEscrowHistory (q : ReadStub) (escrowID : String) :
    Except String (List (HistoryEntry Escrow)) :=
  match q.GetHistoryForKey escrowID with
  | .error err => .error err
  | .ok resultsIterator =>
    collectHistory jsonUnmarshal ⟨"", "", "", "", Float64.zero, "", "", Time.zero, Time.zero⟩
      resultsIterator []

/-- Every stored value is the encoding of an escrow record whose `escrowId` is the
key it is stored under. -/
def KeyAgrees (w : String → Option Json) : Prop :=
  ∀ k v, w k = some v → ∃ e, jsonMarshal e = .ok v ∧ e.EscrowID = k

/-- The zero value of `Escrow`, what `var escrow Escrow` holds before a decode. -/
def Escrow.zero : Escrow := ⟨"", "", "", "", Float64.zero, "", "", Time.zero, Time.zero⟩

/-- The keys an invocation writes when it succeeds: the escrow id. -/
def Call.writes (c : Call) : List String := [c.key]

/-- On the empty ledger: `CreateEscrow`, `FundEscrow` and `ReleaseEscrow` of escrow
`E1` in the transactions `tx1`, `tx2` and `tx3`. -/
def sampleWrites : ThreeWrites Call :=
  { start := Ledger.empty, key := "E1",
    first := ⟨"tx1", ⟨100, 0⟩, .create "E1" "P1" "bob" "sue" ⟨5, 0⟩⟩, between1 := [],
    second := ⟨"tx2", ⟨150, 0⟩, .fund "E1" "f1"⟩, between2 := [],
    third := ⟨"tx3", ⟨200, 0⟩, .release "E1" "r1"⟩, after := [] }

end EscrowContract

/-! ## Offer contract (`offer-contract/offer.go`) -/

namespace OfferContract

/-- The `Offer` record. -/
structure Offer where
  OfferID : String
  PropertyID : String
  BuyerID : String
  BuyerName : String
  SellerID : String
  SellerName : String
  OfferAmount : Float64
  Status : String
  Message : String
  AdminVerified : Bool
  AdminID : String
  VerifiedAt : Time
  SepoliaTxHash : String
  CreatedAt : Time
  UpdatedAt : Time
deriving DecidableEq, Repr

/-- Go's `json.Marshal` on an `Offer`. -/
def jsonMarshal (o : Offer) : Except String Json :=
  .ok (.obj [("offerId", .str o.OfferID), ("propertyId", .str o.PropertyID),
    ("buyerId", .str o.BuyerID), ("buyerName", .str o.BuyerName),
    ("sellerId", .str o.SellerID), ("sellerName", .str o.SellerName),
    ("offerAmount", .num o.OfferAmount), ("status", .str o.Status),
    ("message", .str o.Message), ("adminVerified", .bool o.AdminVerified),
    ("adminId", .str o.AdminID), ("verifiedAt", .time o.VerifiedAt),
    ("sepoliaTxHash", .str o.SepoliaTxHash), ("createdAt", .time o.CreatedAt),
    ("updatedAt", .time o.UpdatedAt)])

/-- Go's `json.Unmarshal` into an `Offer`. -/
def jsonUnmarshal : Json → Except String Offer
  | .null =>
    .ok ⟨"", "", "", "", "", "", Float64.zero, "", "", false, "", Time.zero, "", Time.zero, Time.zero⟩
  | .obj kvs =>
    match Json.getString kvs "offerId", Json.getString kvs "propertyId",
      Json.getString kvs "buyerId", Json.getString kvs "buyerName",
      Json.getString kvs "sellerId", Json.getString kvs "sellerName",
      Json.getFloat kvs "offerAmount", Json.getString kvs "status" with
    | .ok a, .ok b, .ok c, .ok d, .ok e, .ok f, .ok g, .ok h =>
      match Json.getString kvs "message", Json.getBool kvs "adminVerified",
        Json.getString kvs "adminId", Json.getTime kvs "verifiedAt",
        Json.getString kvs "sepoliaTxHash", Json.getTime kvs "createdAt",
        Json.getTime kvs "updatedAt" with
      | .ok i, .ok j, .ok k, .ok l, .ok m, .ok n, .ok p =>
        .ok ⟨a, b, c, d, e, f, g, h, i, j, k, l, m, n, p⟩
      | _, _, _, _, _, _, _ => .error "json: cannot unmarshal object into Go value of type main.Offer"
    | _, _, _, _, _, _, _, _ => .error "json: cannot unmarshal object into Go value of type main.Offer"
  | _ => .error "json: cannot unmarshal value into Go value of type main.Offer"

/-- Method `OfferExists` of the contract. -/
def OfferExists (ctx : Stub) (offerID : String) : Except String Bool :=
  match ctx.GetState offerID with
  | .error err => .error ("failed to read offer: " ++ err)
  | .ok offerJSON => .ok offerJSON.isSome

/-- Method `GetOffer` of the contract. -/
def GetOffer (ctx : Stub) (offerID : String) : Except String Offer :=
  match ctx.GetState offerID with
  | .error err => .error ("failed to read offer: " ++ err)
  | .ok none => .error ("offer " ++ offerID ++ " does not exist")
  | .ok (some offerJSON) => jsonUnmarshal offerJSON

/-- Method `CreateOffer` of the contract.  `VerifiedAt` is not set by the literal and stays the zero
time. -/
def CreateOffer (ctx : Stub) (offerID propertyID buyerID buyerName sellerID sellerName : String)
    (offerAmount : Float64) (message : String) : Except String Unit × Stub :=
  match OfferExists ctx offerID with
  | .error err => (.error err, ctx)
  | .ok true => (.error ("offer " ++ offerID ++ " already exists"), ctx)
  | .ok false =>
    match ctx.GetTxTimestamp with
    | .error err => (.error ("failed to get transaction timestamp: " ++ err), ctx)
    | .ok txTimestamp =>
      let timestamp := timeUnix txTimestamp.Seconds txTimestamp.Nanos
      let offer : Offer :=
        { OfferID := offerID, PropertyID := propertyID, BuyerID := buyerID,
          BuyerName := buyerName, SellerID := sellerID, SellerName := sellerName,
          OfferAmount := offerAmount, Status := "PENDING", Message := message,
          AdminVerified := false, AdminID := "", VerifiedAt := Time.zero, SepoliaTxHash := "",
          CreatedAt := timestamp, UpdatedAt := timestamp }
      match jsonMarshal offer with
      | .error err => (.error err, ctx)
      | .ok offerJSON => ctx.PutState offerID offerJSON

/-- Method `AcceptOffer` of the contract. -/
def AcceptOffer (ctx : Stub) (offerID : String) : Except String Unit × Stub :=
  match GetOffer ctx offerID with
  | .error err => (.error err, ctx)
  | .ok offer =>
    if offer.Status ≠ "PENDING" then
      (.error ("offer " ++ offerID ++ " is not in PENDING status"), ctx)
    else
      match ctx.GetTxTimestamp with
      | .error err => (.error ("failed to get transaction timestamp: " ++ err), ctx)
      | .ok txTimestamp =>
        let timestamp := timeUnix txTimestamp.Seconds txTimestamp.Nanos
        let offer1 : Offer := { offer with Status := "ACCEPTED", UpdatedAt := timestamp }
        match jsonMarshal offer1 with
        | .error err => (.error err, ctx)
        | .ok offerJSON => ctx.PutState offerID offerJSON

/-- Method `RejectOffer` of the contract. -/
def RejectOffer (ctx : Stub) (offerID : String) : Except String Unit × Stub :=
  match GetOffer ctx offerID with
  | .error err => (.error err, ctx)
  | .ok offer =>
    if offer.Status ≠ "PENDING" then
      (.error ("offer " ++ offerID ++ " is not in PENDING status"), ctx)
    else
      match ctx.GetTxTimestamp with
      | .error err => (.error ("failed to get transaction timestamp: " ++ err), ctx)
      | .ok txTimestamp =>
        let timestamp := timeUnix txTimestamp.Seconds txTimestamp.Nanos
        let offer1 : Offer := { offer with Status := "REJECTED", UpdatedAt := timestamp }
        match jsonMarshal offer1 with
        | .error err => (.error err, ctx)
        | .ok offerJSON => ctx.PutState offerID offerJSON

/-- Method `AdminVerifyOffer` of the contract. -/
def AdminVerifyOffer (ctx : Stub) (offerID adminID sepoliaTxHash : String) :
    Except String Unit × Stub :=
  match GetOffer ctx offerID with
  | .error err => (.error err, ctx)
  | .ok offer =>
    if offer.Status ≠ "ACCEPTED" then
      (.error ("offer " ++ offerID ++ " must be ACCEPTED before admin verification"), ctx)
    else
      match ctx.GetTxTimestamp with
      | .error err => (.error ("failed to get transaction timestamp: " ++ err), ctx)
      | .ok txTimestamp =>
        let timestamp := timeUnix txTimestamp.Seconds txTimestamp.Nanos
        let offer1 : Offer :=
          { offer with Status := "ADMIN_VERIFIED", AdminVerified := true, AdminID := adminID,
                       VerifiedAt := timestamp, SepoliaTxHash := sepoliaTxHash,
                       UpdatedAt := timestamp }
        match jsonMarshal offer1 with
        | .error err => (.error err, ctx)
        | .ok offerJSON => ctx.PutState offerID offerJSON

/-- Method `CompleteOffer` of the contract. -/
def CompleteOffer (ctx : Stub) (offerID : String) : Except String Unit × Stub :=
  match GetOffer ctx offerID with
  | .error err => (.error err, ctx)
  | .ok offer =>
    if offer.Status ≠ "ADMIN_VERIFIED" then
      (.error ("offer " ++ offerID ++ " must be ADMIN_VERIFIED before completion"), ctx)
    else
      match ctx.GetTxTimestamp with
      | .error err => (.error ("failed to get transaction timestamp: " ++ err), ctx)
      | .ok txTimestamp =>
        let timestamp := timeUnix txTimestamp.Seconds txTimestamp.Nanos
        let offer1 : Offer := { offer with Status := "COMPLETED", UpdatedAt := timestamp }
        match jsonMarshal offer1 with
        | .error err => (.error err, ctx)
        | .ok offerJSON => ctx.PutState offerID offerJSON

/-- Method `CancelOffer` of the contract. -/
def CancelOffer (ctx : Stub) (offerID : String) : Except String Unit × Stub :=
  match GetOffer ctx offerID with
  | .error err => (.error err, ctx)
  | .ok offer =>
    if offer.Status = "COMPLETED" then
      (.error ("cannot cancel completed offer " ++ offerID), ctx)
    else
      match ctx.GetTxTimestamp with
      | .error err => (.error ("failed to get transaction timestamp: " ++ err), ctx)
      | .ok txTimestamp =>
        let timestamp := timeUnix txTimestamp.Seconds txTimestamp.Nanos
        let offer1 : Offer := { offer with Status := "CANCELLED", UpdatedAt := timestamp }
        match jsonMarshal offer1 with
        | .error err => (.error err, ctx)
        | .ok offerJSON => ctx.PutState offerID offerJSON

/-- One invocation of a state-changing offer operation. -/
inductive Call where
  | create (offerID propertyID buyerID buyerName sellerID sellerName : String)
      (offerAmount : Float64) (message : String)
  | accept (offerID : String)
  | reject (offerID : String)
  | adminVerify (offerID adminID sepoliaTxHash : String)
  | complete (offerID : String)
  | cancel (offerID : String)

/-- Run an invocation against a stub. -/
def Call.run : Call → Stub → Except String Unit × Stub
  | .create offerID propertyID buyerID buyerName sellerID sellerName offerAmount message, ctx =>
    CreateOffer ctx offerID propertyID buyerID buyerName sellerID sellerName offerAmount message
  | .accept offerID, ctx => AcceptOffer ctx offerID
  | .reject offerID, ctx => RejectOffer ctx offerID
  | .adminVerify offerID adminID sepoliaTxHash, ctx =>
    AdminVerifyOffer ctx offerID adminID sepoliaTxHash
  | .complete offerID, ctx => CompleteOffer ctx offerID
  | .cancel offerID, ctx => CancelOffer ctx offerID

/-- The offer id an invocation targets. -/
def Call.key : Call → String
  | .create offerID _ _ _ _ _ _ _ => offerID
  | .accept offerID => offerID
  | .reject offerID => offerID
  | .adminVerify offerID _ _ => offerID
  | .complete offerID => offerID
  | .cancel offerID => offerID

/-- The mutators are all invocations but `CreateOffer`. -/
def Call.isMutator : Call → Bool
  | .create _ _ _ _ _ _ _ _ => false
  | _ => true

/-- World states reachable from the empty ledger by offer invocations, each in a
transaction of its own (with or without a timestamp). -/
inductive Reachable : (String → Option Json) → Prop
  | empty : Reachable (fun _ => none)
  | step (w : String → Option Json) (ts : Option Timestamp) (c : Call) :
      Reachable w → Reachable (c.run ⟨w, ts⟩).2.state

/-- The world state after a sequence of invocations, each with the timestamp of
its transaction. -/
def runAll : List (Option Timestamp × Call) → (String → Option Json) → (String → Option Json)
  | [], w => w
  | (ts, c) :: rest, w => runAll rest (c.run ⟨w, ts⟩).2.state

/-- A sample offer record `O1` in the given status. -/
def sampleOffer (status : String) : Offer :=
  ⟨"O1", "P1", "b1", "bob", "s1", "sue", ⟨5, 0⟩, status, "hello", false, "", Time.zero, "",
    ⟨100, 0⟩, ⟨100, 0⟩⟩

/-- A ledger holding only the sample offer `O1` in the given status. -/
def sampleLedger (status : String) : String → Option Json :=
  fun k =>
    if k = "O1" then
      match jsonMarshal (sampleOffer status) with
      | .ok j => some j
      | .error _ => none
    else none

/-- The six values of the offer status. -/
def statuses : List String :=
  ["PENDING", "ACCEPTED", "REJECTED", "ADMIN_VERIFIED", "COMPLETED", "CANCELLED"]

/-- Every stored value is the encoding of an offer record whose status is one of
the six. -/
def WellFormed (w : String → Option Json) : Prop :=
  ∀ k v, w k = some v → ∃ o, jsonMarshal o = .ok v ∧ o.Status ∈ statuses

/-- The ledger after `CreateOffer`, `AcceptOffer` and `AdminVerifyOffer` of offer
`O1`. -/
def verifiedLedger : String → Option Json :=
  runAll [(some ⟨100, 0⟩, .create "O1" "P1" "b1" "bob" "s1" "sue" ⟨5, 0⟩ "hello"),
    (some ⟨200, 0⟩, .accept "O1"), (some ⟨300, 0⟩, .adminVerify "O1" "admin" "0xabc")]
    (fun _ => none)

/-- The ledger after `CreateOffer`, `AcceptOffer`, `AdminVerifyOffer` and
`CompleteOffer` of offer `O1`. -/
def completedLedger : String → Option Json :=
  runAll [(some ⟨100, 0⟩, .create "O1" "P1" "b1" "bob" "s1" "sue" ⟨5, 0⟩ "hello"),
    (some ⟨200, 0⟩, .accept "O1"), (some ⟨300, 0⟩, .adminVerify "O1" "admin" "0xabc"),
    (some ⟨400, 0⟩, .complete "O1")] (fun _ => none)

/-- Whether a mutator may take the status from `a` to `b`. -/
def isStep (a b : String) : Prop :=
  (a = "PENDING" ∧ b = "ACCEPTED") ∨ (a = "ACCEPTED" ∧ b = "ADMIN_VERIFIED") ∨
  (a = "ADMIN_VERIFIED" ∧ b = "COMPLETED") ∨ (a = "PENDING" ∧ b = "REJECTED") ∨
  (a ≠ "COMPLETED" ∧ b = "CANCELLED")

/-- Method `queryOffers`: a value that does not decode is skipped. -/
def queryOffers (q : ReadStub) (queryString : String) : Except String (List Offer) :=
  match q.GetQueryResult queryString with
  | .error err => .error err
  | .ok resultsIterator => collectLenient jsonUnmarshal resultsIterator []

/-- Method `GetOffersByProperty`: the argument is pasted into the selector text by
`fmt.Sprintf` as it is. -/
def GetOffersByProperty (q : ReadStub) (propertyID : String) : Except String (List Offer) :=
  queryOffers q ("\x7b\"selector\":\x7b\"propertyId\":\"" ++ propertyID ++ "\"\x7d\x7d")

/-- Method `GetOffersByBuyer` of the contract. -/
def GetOffersByBuyer (q : ReadStub) (buyerID : String) : Except String (List Offer) :=
  queryOffers q ("\x7b\"selector\":\x7b\"buyerId\":\"" ++ buyerID ++ "\"\x7d\x7d")

/-- Method `GetOffersBySeller` of the contract. -/
def GetOffersBySeller (q : ReadStub) (sellerID : String) : Except String (List Offer) :=
  queryOffers q ("\x7b\"selector\":\x7b\"sellerId\":\"" ++ sellerID ++ "\"\x7d\x7d")

/-- Method `GetOffersByStatus` of the contract. -/
def GetOffersByStatus (q : ReadStub) (status : String) : Except String (List Offer) :=
  queryOffers q ("\x7b\"selector\":\x7b\"status\":\"" ++ status ++ "\"\x7d\x7d")

/-- Method `GetPendingAdminVerifications`: the selector text is a constant. -/
def GetPendingAdminVerifications (q : ReadStub) : Except String (List Offer) :=
  queryOffers q "\x7b\"selector\":\x7b\"status\":\"ACCEPTED\"\x7d\x7d"

/-- Method `GetAllOffers`: a value that does not decode is skipped. -/
def GetAllOffers (q : ReadStub) : Except String (List Offer) :=
  match q.GetStateByRange "" "" with
  | .error err => .error err
  | .ok resultsIterator => collectLenient jsonUnmarshal resultsIterator []

/-- Method `GetOfferHistory` of the contract. -/
def GetOfferHistory (q : ReadStub) (offerID : String) :
    Except String (List (HistoryEntry Offer)) :=
  match q.GetHistoryForKey offerID with
  | .error err => .error err
  | .ok resultsIterator =>
    collectHistory jsonUnmarshal
      ⟨"", "", "", "", "", "", Float64.zero, "", "", false, "", Time.zero, "", Time.zero,
        Time.zero⟩ resultsIterator []

/-- Every stored value is the encoding of an offer record whose `offerId` is the
key it is stored under. -/
def KeyAgrees (w : String → Option Json) : Prop :=
  ∀ k v, w k = some v → ∃ o, jsonMarshal o = .ok v ∧ o.OfferID = k

/-- The log of admin verifications after an invocation: per offer id, the
timestamps of the transactions in which `AdminVerifyOffer` succeeded on the
offer, oldest first. -/
def Call.logVerification (c : Call) (ctx : Stub) (log : String → List Timestamp) :
    String → List Timestamp :=
  match c, (c.run ctx).1, ctx.txTimestamp with
  | .adminVerify offerID _ _, .ok _, some t =>
    fun k => if k = offerID then log k ++ [t] else log k
  | _, _, _ => log

/-- World states reachable from the empty ledger by offer invocations, as
`Reachable`, together with the log of the admin verifications that led there. -/
inductive Traced : (String → Option Json) → (String → List Timestamp) → Prop
  | empty : Traced (fun _ => none) (fun _ => [])
  | step (w : String → Option Json) (log : String → List Timestamp) (ts : Option Timestamp)
      (c : Call) :
      Traced w log → Traced (c.run ⟨w, ts⟩).2.state (c.logVerification ⟨w, ts⟩ log)

/-- The admin fields of an offer agree with its status and with the verifications
`l` logged for it. -/
def AdminConsistent (l : List Timestamp) (o : Offer) : Prop :=
  ((o.Status = "ADMIN_VERIFIED" ∨ o.Status = "COMPLETED") → o.AdminVerified = true) ∧
  ((o.Status = "PENDING" ∨ o.Status = "ACCEPTED" ∨ o.Status = "REJECTED") →
    o.AdminVerified = false ∧ o.AdminID = "" ∧ o.SepoliaTxHash = "") ∧
  (o.AdminVerified = true → ∃ t, l = [t] ∧ o.VerifiedAt = timeUnix t.Seconds t.Nanos) ∧
  (o.AdminVerified = false → l = [])

/-- Every stored value is the encoding of an offer whose admin fields agree with
its status and its logged verifications, and a key without a value has none
logged. -/
def LogInv (w : String → Option Json) (log : String → List Timestamp) : Prop :=
  ∀ k, (w k = none → log k = []) ∧
    ∀ v, w k = some v → ∃ o, jsonMarshal o = .ok v ∧ AdminConsistent (log k) o

/-- The log after `CreateOffer`, `AcceptOffer` and `AdminVerifyOffer` of offer
`O1`: one verification, in the transaction with timestamp 300. -/
def verifiedLog : String → List Timestamp :=
  fun k => if k = "O1" then [] ++ [⟨300, 0⟩] else []

/-- The zero value of `Offer`, what `var offer Offer` holds before a decode. -/
def Offer.zero : Offer :=
  ⟨"", "", "", "", "", "", Float64.zero, "", "", false, "", Time.zero, "", Time.zero, Time.zero⟩

/-- The keys an invocation writes when it succeeds: the offer id. -/
def Call.writes (c : Call) : List String := [c.key]

/-- On the empty ledger: `CreateOffer`, `AcceptOffer` and `AdminVerifyOffer` of
offer `O1` in the transactions `tx1`, `tx2` and `tx3`. -/
def sampleWrites : ThreeWrites Call :=
  { start := Ledger.empty, key := "O1",
    first := ⟨"tx1", ⟨100, 0⟩, .create "O1" "P1" "b1" "bob" "s1" "sue" ⟨5, 0⟩ "hello"⟩,
    between1 := [],
    second := ⟨"tx2", ⟨200, 0⟩, .accept "O1"⟩, between2 := [],
    third := ⟨"tx3", ⟨300, 0⟩, .adminVerify "O1" "admin" "0xabc"⟩, after := [] }

end OfferContract

/-! ## Property contract (`property-contract/property.go`) -/

namespace PropertyContract

/-- The `Property` record.  `Views` is a Go `int`. -/
structure Property where
  PropertyID : String
  Owner : String
  OwnerName : String
  Location : String
  Area : Float64
  Price : Float64
  Status : String
  PropertyType : String
  Description : String
  Documents : List String
  VerifiedBy : String
  VerifiedAt : Time
  RegisteredAt : Time
  LastUpdated : Time
  Views : Int
  Latitude : Float64
  Longitude : Float64
deriving DecidableEq, Repr

/-- The `User` record of the property contract. -/
structure User where
  UserID : String
  Name : String
  Email : String
  Role : String
  WalletAddress : String
  Phone : String
  IsVerified : Bool
  RegisteredAt : Time
  LastLogin : Time
deriving DecidableEq, Repr

/-- The `Transaction` record. -/
structure Transaction where
  TransactionID : String
  PropertyID : String
  FromOwner : String
  ToOwner : String
  Amount : Float64
  Status : String
  EscrowID : String
  Timestamp : Time
deriving DecidableEq, Repr

/-- Go's `json.Marshal` on a `Property`. -/
def jsonMarshalProperty (p : Property) : Except String Json :=
  .ok (.obj [("propertyId", .str p.PropertyID), ("owner", .str p.Owner),
    ("ownerName", .str p.OwnerName), ("location", .str p.Location), ("area", .num p.Area),
    ("price", .num p.Price), ("status", .str p.Status), ("propertyType", .str p.PropertyType),
    ("description", .str p.Description), ("documents", .arr (p.Documents.map Json.str)),
    ("verifiedBy", .str p.VerifiedBy), ("verifiedAt", .time p.VerifiedAt),
    ("registeredAt", .time p.RegisteredAt), ("lastUpdated", .time p.LastUpdated),
    ("views", .int p.Views), ("latitude", .num p.Latitude), ("longitude", .num p.Longitude)])

/-- Go's `json.Unmarshal` into a `Property`. -/
def jsonUnmarshalProperty : Json → Except String Property
  | .null =>
    .ok ⟨"", "", "", "", Float64.zero, Float64.zero, "", "", "", [], "", Time.zero, Time.zero,
      Time.zero, 0, Float64.zero, Float64.zero⟩
  | .obj kvs =>
    match Json.getString kvs "propertyId", Json.getString kvs "owner",
      Json.getString kvs "ownerName", Json.getString kvs "location", Json.getFloat kvs "area",
      Json.getFloat kvs "price", Json.getString kvs "status", Json.getString kvs "propertyType",
      Json.getString kvs "description" with
    | .ok a, .ok b, .ok c, .ok d, .ok e, .ok f, .ok g, .ok h, .ok i =>
      match Json.getStrings kvs "documents", Json.getString kvs "verifiedBy",
        Json.getTime kvs "verifiedAt", Json.getTime kvs "registeredAt",
        Json.getTime kvs "lastUpdated", Json.getInt kvs "views", Json.getFloat kvs "latitude",
        Json.getFloat kvs "longitude" with
      | .ok j, .ok k, .ok l, .ok m, .ok n, .ok o, .ok q, .ok r =>
        .ok ⟨a, b, c, d, e, f, g, h, i, j, k, l, m, n, o, q, r⟩
      | _, _, _, _, _, _, _, _ =>
        .error "json: cannot unmarshal object into Go value of type main.Property"
    | _, _, _, _, _, _, _, _, _ =>
      .error "json: cannot unmarshal object into Go value of type main.Property"
  | _ => .error "json: cannot unmarshal value into Go value of type main.Property"

/-- Go's `json.Marshal` on a `User`. -/
def jsonMarshalUser (u : User) : Except String Json :=
  .ok (.obj [("userId", .str u.UserID), ("name", .str u.Name), ("email", .str u.Email),
    ("role", .str u.Role), ("walletAddress", .str u.WalletAddress), ("phone", .str u.Phone),
    ("isVerified", .bool u.IsVerified), ("registeredAt", .time u.RegisteredAt),
    ("lastLogin", .time u.LastLogin)])

/-- Go's `json.Unmarshal` into a `User`. -/
def jsonUnmarshalUser : Json → Except String User
  | .null => .ok ⟨"", "", "", "", "", "", false, Time.zero, Time.zero⟩
  | .obj kvs =>
    match Json.getString kvs "userId", Json.getString kvs "name", Json.getString kvs "email",
      Json.getString kvs "role", Json.getString kvs "walletAddress", Json.getString kvs "phone",
      Json.getBool kvs "isVerified", Json.getTime kvs "registeredAt",
      Json.getTime kvs "lastLogin" with
    | .ok a, .ok b, .ok c, .ok d, .ok e, .ok f, .ok g, .ok h, .ok i => .ok ⟨a, b, c, d, e, f, g, h, i⟩
    | _, _, _, _, _, _, _, _, _ => .error "json: cannot unmarshal object into Go value of type main.User"
  | _ => .error "json: cannot unmarshal value into Go value of type main.User"

/-- Go's `json.Marshal` on a `Transaction`. -/
def jsonMarshalTransaction (t : Transaction) : Except String Json :=
  .ok (.obj [("transactionId", .str t.TransactionID), ("propertyId", .str t.PropertyID),
    ("fromOwner", .str t.FromOwner), ("toOwner", .str t.ToOwner), ("amount", .num t.Amount),
    ("status", .str t.Status), ("escrowId", .str t.EscrowID), ("timestamp", .time t.Timestamp)])

/-- Go's `json.Unmarshal` into a `Transaction`.  The contract never decodes a
transaction record; this is how a reader of the ledger does. -/
def jsonUnmarshalTransaction : Json → Except String Transaction
  | .null => .ok ⟨"", "", "", "", Float64.zero, "", "", Time.zero⟩
  | .obj kvs =>
    match Json.getString kvs "transactionId", Json.getString kvs "propertyId",
      Json.getString kvs "fromOwner", Json.getString kvs "toOwner", Json.getFloat kvs "amount",
      Json.getString kvs "status", Json.getString kvs "escrowId", Json.getTime kvs "timestamp" with
    | .ok a, .ok b, .ok c, .ok d, .ok e, .ok f, .ok g, .ok h => .ok ⟨a, b, c, d, e, f, g, h⟩
    | _, _, _, _, _, _, _, _ =>
      .error "json: cannot unmarshal object into Go value of type main.Transaction"
  | _ => .error "json: cannot unmarshal value into Go value of type main.Transaction"

/-- Method `UserExists`: users live under the key `USER_` followed by the id. -/
def UserExists (ctx : Stub) (userID : String) : Except String Bool :=
  match ctx.GetState ("USER_" ++ userID) with
  | .error err => .error ("failed to read user: " ++ err)
  | .ok userJSON => .ok userJSON.isSome

/-- Method `GetUser` of the contract. -/
def GetUser (ctx : Stub) (userID : String) : Except String User :=
  match ctx.GetState ("USER_" ++ userID) with
  | .error err => .error ("failed to read user: " ++ err)
  | .ok none => .error ("user " ++ userID ++ " does not exist")
  | .ok (some userJSON) => jsonUnmarshalUser userJSON

/-- Method `RegisterUser` of the contract. -/
def RegisterUser (ctx : Stub) (userID name email role walletAddress phone : String) :
    Except String Unit × Stub :=
  match UserExists ctx userID with
  | .error err => (.error err, ctx)
  | .ok true => (.error ("user " ++ userID ++ " already exists"), ctx)
  | .ok false =>
    match ctx.GetTxTimestamp with
    | .error err => (.error ("failed to get transaction timestamp: " ++ err), ctx)
    | .ok txTimestamp =>
      let timestamp := timeUnix txTimestamp.Seconds txTimestamp.Nanos
      let user : User :=
        { UserID := userID, Name := name, Email := email, Role := role,
          WalletAddress := walletAddress, Phone := phone, IsVerified := false,
          RegisteredAt := timestamp, LastLogin := timestamp }
      match jsonMarshalUser user with
      | .error err => (.error err, ctx)
      | .ok userJSON => ctx.PutState ("USER_" ++ userID) userJSON

/-- Method `UpdateUserVerification` of the contract. -/
def UpdateUserVerification (ctx : Stub) (userID : String) (isVerified : Bool) :
    Except String Unit × Stub :=
  match GetUser ctx userID with
  | .error err => (.error err, ctx)
  | .ok user =>
    let user1 : User := { user with IsVerified := isVerified }
    match jsonMarshalUser user1 with
    | .error err => (.error err, ctx)
    | .ok userJSON => ctx.PutState ("USER_" ++ userID) userJSON

/-- Method `PropertyExists`: properties live under the bare property id. -/
def PropertyExists (ctx : Stub) (propertyID : String) : Except String Bool :=
  match ctx.GetState propertyID with
  | .error err => .error ("failed to read property: " ++ err)
  | .ok propertyJSON => .ok propertyJSON.isSome

/-- Method `GetProperty` of the contract. -/
def GetProperty (ctx : Stub) (propertyID : String) : Except String Property :=
  match ctx.GetState propertyID with
  | .error err => .error ("failed to read property: " ++ err)
  | .ok none => .error ("property " ++ propertyID ++ " does not exist")
  | .ok (some propertyJSON) => jsonUnmarshalProperty propertyJSON

/-- Method `RegisterProperty` of the contract.  `VerifiedAt` is not set by the literal and stays the zero
time. -/
def RegisterProperty (ctx : Stub) (propertyID owner ownerName location : String)
    (area price : Float64) (propertyType description : String) (latitude longitude : Float64) :
    Except String Unit × Stub :=
  match PropertyExists ctx propertyID with
  | .error err => (.error err, ctx)
  | .ok true => (.error ("property " ++ propertyID ++ " already exists"), ctx)
  | .ok false =>
    match ctx.GetTxTimestamp with
    | .error err => (.error ("failed to get transaction timestamp: " ++ err), ctx)
    | .ok txTimestamp =>
      let timestamp := timeUnix txTimestamp.Seconds txTimestamp.Nanos
      let property : Property :=
        { PropertyID := propertyID, Owner := owner, OwnerName := ownerName,
          Location := location, Area := area, Price := price,
          Status := "PENDING_VERIFICATION", PropertyType := propertyType,
          Description := description, Documents := [], VerifiedBy := "",
          VerifiedAt := Time.zero, RegisteredAt := timestamp, LastUpdated := timestamp,
          Views := 0, Latitude := latitude, Longitude := longitude }
      match jsonMarshalProperty property with
      | .error err => (.error err, ctx)
      | .ok propertyJSON => ctx.PutState propertyID propertyJSON

/-- Method `VerifyProperty` of the contract. -/
def VerifyProperty (ctx : Stub) (propertyID verifierID : String) : Except String Unit × Stub :=
  match GetProperty ctx propertyID with
  | .error err => (.error err, ctx)
  | .ok property =>
    match ctx.GetTxTimestamp with
    | .error err => (.error ("failed to get transaction timestamp: " ++ err), ctx)
    | .ok txTimestamp =>
      let timestamp := timeUnix txTimestamp.Seconds txTimestamp.Nanos
      let property1 : Property :=
        { property with Status := "VERIFIED", VerifiedBy := verifierID,
                        VerifiedAt := timestamp, LastUpdated := timestamp }
      match jsonMarshalProperty property1 with
      | .error err => (.error err, ctx)
      | .ok propertyJSON => ctx.PutState propertyID propertyJSON

/-- Method `UpdatePropertyPrice` of the contract. -/
def UpdatePropertyPrice (ctx : Stub) (propertyID : String) (price : Float64) :
    Except String Unit × Stub :=
  match GetProperty ctx propertyID with
  | .error err => (.error err, ctx)
  | .ok property =>
    match ctx.GetTxTimestamp with
    | .error err => (.error ("failed to get transaction timestamp: " ++ err), ctx)
    | .ok txTimestamp =>
      let timestamp := timeUnix txTimestamp.Seconds txTimestamp.Nanos
      let property1 : Property := { property with Price := price, LastUpdated := timestamp }
      match jsonMarshalProperty property1 with
      | .error err => (.error err, ctx)
      | .ok propertyJSON => ctx.PutState propertyID propertyJSON

/-- Method `IncrementPropertyViews`: `property.Views++` on a 64-bit `int`; the
transaction timestamp is not read and `LastUpdated` is not touched. -/
def IncrementPropertyViews (ctx : Stub) (propertyID : String) : Except String Unit × Stub :=
  match GetProperty ctx propertyID with
  | .error err => (.error err, ctx)
  | .ok property =>
    let property1 : Property := { property with Views := wrapInt64 (property.Views + 1) }
    match jsonMarshalProperty property1 with
    | .error err => (.error err, ctx)
    | .ok propertyJSON => ctx.PutState propertyID propertyJSON

/-- Method `TransferProperty`: the property is written under `propertyID`, then the
transaction record under `TXN_` followed by the transaction id.  `EscrowID` is
not set by the literal and stays empty. -/
def TransferProperty (ctx : Stub) (propertyID newOwner newOwnerName transactionID : String) :
    Except String Unit × Stub :=
  match GetProperty ctx propertyID with
  | .error err => (.error err, ctx)
  | .ok property =>
    match ctx.GetTxTimestamp with
    | .error err => (.error ("failed to get transaction timestamp: " ++ err), ctx)
    | .ok txTimestamp =>
      let timestamp := timeUnix txTimestamp.Seconds txTimestamp.Nanos
      let oldOwner := property.Owner
      let property1 : Property :=
        { property with Owner := newOwner, OwnerName := newOwnerName, Status := "SOLD",
                        LastUpdated := timestamp }
      match jsonMarshalProperty property1 with
      | .error err => (.error err, ctx)
      | .ok propertyJSON =>
        match ctx.PutState propertyID propertyJSON with
        | (.error err, ctx1) => (.error err, ctx1)
        | (.ok _, ctx1) =>
          let transaction : Transaction :=
            { TransactionID := transactionID, PropertyID := propertyID, FromOwner := oldOwner,
              ToOwner := newOwner, Amount := property1.Price, Status := "COMPLETED",
              EscrowID := "", Timestamp := timestamp }
          match jsonMarshalTransaction transaction with
          | .error err => (.error err, ctx1)
          | .ok transactionJSON => ctx1.PutState ("TXN_" ++ transactionID) transactionJSON

/-- Method `UpdatePropertyStatus` of the contract. -/
def UpdatePropertyStatus (ctx : Stub) (propertyID status : String) : Except String Unit × Stub :=
  match GetProperty ctx propertyID with
  | .error err => (.error err, ctx)
  | .ok property =>
    match ctx.GetTxTimestamp with
    | .error err => (.error ("failed to get transaction timestamp: " ++ err), ctx)
    | .ok txTimestamp =>
      let timestamp := timeUnix txTimestamp.Seconds txTimestamp.Nanos
      let property1 : Property := { property with Status := status, LastUpdated := timestamp }
      match jsonMarshalProperty property1 with
      | .error err => (.error err, ctx)
      | .ok propertyJSON => ctx.PutState propertyID propertyJSON

/-- A sample property record `P1` in the given status. -/
def sampleProperty (status : String) : Property :=
  ⟨"P1", "alice", "Alice", "12 Hill Road", ⟨1, 0⟩, ⟨2, 0⟩, status, "RESIDENTIAL", "plot", [],
    "", Time.zero, ⟨100, 0⟩, ⟨100, 0⟩, 0, ⟨3, 0⟩, ⟨4, 0⟩⟩

/-- A ledger holding only the sample property `P1` in the given status. -/
def sampleLedger (status : String) : String → Option Json :=
  fun k =>
    if k = "P1" then
      match jsonMarshalProperty (sampleProperty status) with
      | .ok j => some j
      | .error _ => none
    else none

/-- The ledger after `RegisterUser` of user `u1` on the empty ledger. -/
def userLedger : String → Option Json :=
  (RegisterUser ⟨fun _ => none, some ⟨100, 0⟩⟩ "u1" "Una" "una@example.org" "BUYER" "0x01"
    "555").2.state

/-- The ledger after `RegisterProperty` of a property whose id is `TXN_1`. -/
def prefixedLedger : String → Option Json :=
  (RegisterProperty ⟨fun _ => none, some ⟨100, 0⟩⟩ "TXN_1" "alice" "Alice" "12 Hill Road"
    ⟨1, 0⟩ ⟨2, 0⟩ "RESIDENTIAL" "plot" ⟨3, 0⟩ ⟨4, 0⟩).2.state

/-- One invocation of a state-changing operation of the property contract. -/
inductive Call where
  | registerUser (userID name email role walletAddress phone : String)
  | updateUserVerification (userID : String) (isVerified : Bool)
  | registerProperty (propertyID owner ownerName location : String) (area price : Float64)
      (propertyType description : String) (latitude longitude : Float64)
  | verifyProperty (propertyID verifierID : String)
  | updatePropertyPrice (propertyID : String) (price : Float64)
  | incrementPropertyViews (propertyID : String)
  | transferProperty (propertyID newOwner newOwnerName transactionID : String)
  | updatePropertyStatus (propertyID status : String)

/-- Run an invocation against a stub. -/
def Call.run : Call → Stub → Except String Unit × Stub
  | .registerUser userID name email role walletAddress phone, ctx =>
    RegisterUser ctx userID name email role walletAddress phone
  | .updateUserVerification userID isVerified, ctx => UpdateUserVerification ctx userID isVerified
  | .registerProperty propertyID owner ownerName location area price propertyType description
      latitude longitude, ctx =>
    RegisterProperty ctx propertyID owner ownerName location area price propertyType description
      latitude longitude
  | .verifyProperty propertyID verifierID, ctx => VerifyProperty ctx propertyID verifierID
  | .updatePropertyPrice propertyID price, ctx => UpdatePropertyPrice ctx propertyID price
  | .incrementPropertyViews propertyID, ctx => IncrementPropertyViews ctx propertyID
  | .transferProperty propertyID newOwner newOwnerName transactionID, ctx =>
    TransferProperty ctx propertyID newOwner newOwnerName transactionID
  | .updatePropertyStatus propertyID status, ctx => UpdatePropertyStatus ctx propertyID status

/-- World states reachable from the empty ledger by invocations of the property
contract, each in a transaction of its own (with or without a timestamp). -/
inductive Reachable : (String → Option Json) → Prop
  | empty : Reachable (fun _ => none)
  | step (w : String → Option Json) (ts : Option Timestamp) (c : Call) :
      Reachable w → Reachable (c.run ⟨w, ts⟩).2.state

/-- The stub after `n` successive calls of `IncrementPropertyViews` on the same
property. -/
def incrementViewsN : Nat → Stub → String → Stub
  | 0, ctx, _ => ctx
  | n + 1, ctx, propertyID => incrementViewsN n (IncrementPropertyViews ctx propertyID).2 propertyID

/-- A ledger holding only the sample property `P1`, AVAILABLE, with the given
view count. -/
def viewedLedger (views : Int) : String → Option Json :=
  fun k =>
    if k = "P1" then
      match jsonMarshalProperty { sampleProperty "AVAILABLE" with Views := views } with
      | .ok j => some j
      | .error _ => none
    else none

/-- The ledger after `RegisterProperty` of `P1` and its `TransferProperty` to `bob`
under transaction id `T1`. -/
def transferredLedger : String → Option Json :=
  (TransferProperty ⟨(RegisterProperty ⟨fun _ => none, some ⟨100, 0⟩⟩ "P1" "alice" "Alice"
    "12 Hill Road" ⟨1, 0⟩ ⟨2, 0⟩ "RESIDENTIAL" "plot" ⟨3, 0⟩ ⟨4, 0⟩).2.state, some ⟨200, 0⟩⟩
    "P1" "bob" "Bob" "T1").2.state

/-- The ledger after `RegisterProperty` of a property whose id is `USER_u1`. -/
def prefixedUserLedger : String → Option Json :=
  (RegisterProperty ⟨fun _ => none, some ⟨100, 0⟩⟩ "USER_u1" "alice" "Alice" "12 Hill Road"
    ⟨1, 0⟩ ⟨2, 0⟩ "RESIDENTIAL" "plot" ⟨3, 0⟩ ⟨4, 0⟩).2.state

/-- A key outside the two prefixed families `TXN_` and `USER_`. -/
def PlainKey (k : String) : Prop :=
  (∀ t : String, k ≠ "TXN_" ++ t) ∧ (∀ u : String, k ≠ "USER_" ++ u)

/-- The ledger `w` holds, under some `TXN_` key, a transaction record whose
`propertyId` is `propertyID` and whose `toOwner` is `owner`. -/
def HasTransaction (w : String → Option Json) (propertyID owner : String) : Prop :=
  ∃ (t : String) (v : Json) (tx : Transaction), w ("TXN_" ++ t) = some v ∧
    jsonUnmarshalTransaction v = .ok tx ∧ tx.PropertyID = propertyID ∧ tx.ToOwner = owner

/-- Every stored property whose status is SOLD has a matching transaction
record. -/
def SoldHasTransaction (w : String → Option Json) : Prop :=
  ∀ (k : String) (p : Property), GetProperty ⟨w, none⟩ k = .ok p → p.Status = "SOLD" →
    HasTransaction w p.PropertyID p.Owner

/-- The invocations that keep the three families of keys apart and create each
transaction record once: property ids are plain keys, `TransferProperty` uses a
transaction id whose key is unset, and `UpdatePropertyStatus` does not set the
status SOLD. -/
def Call.Admissible (w : String → Option Json) : Call → Prop
  | .registerUser _ _ _ _ _ _ => True
  | .updateUserVerification _ _ => True
  | .registerProperty propertyID _ _ _ _ _ _ _ _ _ => PlainKey propertyID
  | .verifyProperty propertyID _ => PlainKey propertyID
  | .updatePropertyPrice propertyID _ => PlainKey propertyID
  | .incrementPropertyViews propertyID => PlainKey propertyID
  | .transferProperty propertyID _ _ transactionID =>
    PlainKey propertyID ∧ w ("TXN_" ++ transactionID) = none
  | .updatePropertyStatus propertyID status => PlainKey propertyID ∧ status ≠ "SOLD"

/-- World states reachable from the empty ledger by admissible invocations. -/
inductive AdmissiblyReachable : (String → Option Json) → Prop
  | empty : AdmissiblyReachable (fun _ => none)
  | step (w : String → Option Json) (ts : Option Timestamp) (c : Call) :
      AdmissiblyReachable w → c.Admissible w → AdmissiblyReachable (c.run ⟨w, ts⟩).2.state

/-- What the ledger holds when the key families are kept apart: plain keys hold
properties that carry their key as id, with a 64-bit view count and, when SOLD,
a matching transaction record; `TXN_` keys hold COMPLETED transaction records;
`USER_` keys hold user records. -/
def LedgerInv (w : String → Option Json) : Prop :=
  (∀ (k : String) (v : Json), PlainKey k → w k = some v →
    ∃ p : Property, jsonMarshalProperty p = .ok v ∧
      (-9223372036854775808 ≤ p.Views ∧ p.Views < 9223372036854775808) ∧
      p.PropertyID = k ∧ (p.Status = "SOLD" → HasTransaction w k p.Owner)) ∧
  (∀ (t : String) (v : Json), w ("TXN_" ++ t) = some v →
    ∃ tx : Transaction, jsonMarshalTransaction tx = .ok v ∧ tx.Status = "COMPLETED") ∧
  (∀ (u : String) (v : Json), w ("USER_" ++ u) = some v →
    ∃ usr : User, jsonMarshalUser usr = .ok v)

/-- The ledger after `RegisterProperty` of `P1` and `UpdatePropertyStatus` of `P1`
to SOLD. -/
def soldByStatusLedger : String → Option Json :=
  (Call.run (.updatePropertyStatus "P1" "SOLD") ⟨(Call.run (.registerProperty "P1" "alice"
    "Alice" "12 Hill Road" ⟨1, 0⟩ ⟨2, 0⟩ "RESIDENTIAL" "plot" ⟨3, 0⟩ ⟨4, 0⟩)
    ⟨fun _ => none, some ⟨100, 0⟩⟩).2.state, some ⟨200, 0⟩⟩).2.state

/-- Method `queryProperties`: a value that does not decode is skipped. -/
def queryProperties (q : ReadStub) (queryString : String) : Except String (List Property) :=
  match q.GetQueryResult queryString with
  | .error err => .error err
  | .ok resultsIterator => collectLenient jsonUnmarshalProperty resultsIterator []

/-- Method `GetPropertiesByStatus`: the argument is pasted into the selector text
by `fmt.Sprintf` as it is. -/
def GetPropertiesByStatus (q : ReadStub) (status : String) : Except String (List Property) :=
  queryProperties q ("\x7b\"selector\":\x7b\"status\":\"" ++ status ++ "\"\x7d\x7d")

/-- Method `GetPropertiesByType` of the contract. -/
def GetPropertiesByType (q : ReadStub) (propertyType : String) : Except String (List Property) :=
  queryProperties q ("\x7b\"selector\":\x7b\"propertyType\":\"" ++ propertyType ++ "\"\x7d\x7d")

/-- Method `GetPropertiesByOwner` of the contract. -/
def GetPropertiesByOwner (q : ReadStub) (owner : String) : Except String (List Property) :=
  queryProperties q ("\x7b\"selector\":\x7b\"owner\":\"" ++ owner ++ "\"\x7d\x7d")

/-- Method `GetAllProperties`: a value that does not decode is skipped. -/
def GetAllProperties (q : ReadStub) : Except String (List Property) :=
  match q.GetStateByRange "" "" with
  | .error err => .error err
  | .ok resultsIterator => collectLenient jsonUnmarshalProperty resultsIterator []

/-- Method `GetPropertyHistory` of the contract. -/
def GetPropertyHistory (q : ReadStub) (propertyID : String) :
    Except String (List (HistoryEntry Property)) :=
  match q.GetHistoryForKey propertyID with
  | .error err => .error err
  | .ok resultsIterator =>
    collectHistory jsonUnmarshalProperty
      ⟨"", "", "", "", Float64.zero, Float64.zero, "", "", "", [], "", Time.zero, Time.zero,
        Time.zero, 0, Float64.zero, Float64.zero⟩ resultsIterator []

/-- The five values of the property status named at the `Status` field. -/
def statuses : List String :=
  ["PENDING_VERIFICATION", "VERIFIED", "AVAILABLE", "UNDER_CONTRACT", "SOLD"]

/-- The invocations whose property ids are plain keys and in which
`UpdatePropertyStatus` sets one of the five statuses. -/
def Call.InEnum : Call → Prop
  | .registerUser _ _ _ _ _ _ => True
  | .updateUserVerification _ _ => True
  | .registerProperty propertyID _ _ _ _ _ _ _ _ _ => PlainKey propertyID
  | .verifyProperty propertyID _ => PlainKey propertyID
  | .updatePropertyPrice propertyID _ => PlainKey propertyID
  | .incrementPropertyViews propertyID => PlainKey propertyID
  | .transferProperty propertyID _ _ _ => PlainKey propertyID
  | .updatePropertyStatus propertyID status => PlainKey propertyID ∧ status ∈ statuses

/-- World states reachable from the empty ledger by invocations that are
`InEnum`. -/
inductive EnumReachable : (String → Option Json) → Prop
  | empty : EnumReachable (fun _ => none)
  | step (w : String → Option Json) (ts : Option Timestamp) (c : Call) :
      EnumReachable w → c.InEnum → EnumReachable (c.run ⟨w, ts⟩).2.state

/-- Every value under a plain key is the encoding of a property with a 64-bit
view count and one of the five statuses. -/
def StatusInv (w : String → Option Json) : Prop :=
  ∀ (k : String) (v : Json), PlainKey k → w k = some v →
    ∃ p : Property, jsonMarshalProperty p = .ok v ∧
      (-9223372036854775808 ≤ p.Views ∧ p.Views < 9223372036854775808) ∧ p.Status ∈ statuses

/-- The ledger after `RegisterProperty` of `P1` and `UpdatePropertyStatus` of `P1`
to `ARCHIVED`. -/
def archivedLedger : String → Option Json :=
  (Call.run (.updatePropertyStatus "P1" "ARCHIVED") ⟨(Call.run (.registerProperty "P1" "alice"
    "Alice" "12 Hill Road" ⟨1, 0⟩ ⟨2, 0⟩ "RESIDENTIAL" "plot" ⟨3, 0⟩ ⟨4, 0⟩)
    ⟨fun _ => none, some ⟨100, 0⟩⟩).2.state, some ⟨200, 0⟩⟩).2.state

/-- The zero value of `Property`, what `var property Property` holds before a
decode. -/
def Property.zero : Property :=
  ⟨"", "", "", "", Float64.zero, Float64.zero, "", "", "", [], "", Time.zero, Time.zero,
    Time.zero, 0, Float64.zero, Float64.zero⟩

/-- The keys an invocation writes when it succeeds: the `USER_` key of a user
operation, the property id of a property operation and, for `TransferProperty`,
the `TXN_` key of the transaction record as well. -/
def Call.writes : Call → List String
  | .registerUser userID _ _ _ _ _ => ["USER_" ++ userID]
  | .updateUserVerification userID _ => ["USER_" ++ userID]
  | .registerProperty propertyID _ _ _ _ _ _ _ _ _ => [propertyID]
  | .verifyProperty propertyID _ => [propertyID]
  | .updatePropertyPrice propertyID _ => [propertyID]
  | .incrementPropertyViews propertyID => [propertyID]
  | .transferProperty propertyID _ _ transactionID => [propertyID, "TXN_" ++ transactionID]
  | .updatePropertyStatus propertyID _ => [propertyID]

/-- On the empty ledger: `RegisterProperty`, `VerifyProperty` and
`TransferProperty` of property `P1` in the transactions `tx1`, `tx2` and `tx3`,
with the registration of a user between the first two. -/
def sampleWrites : ThreeWrites Call :=
  { start := Ledger.empty, key := "P1",
    first := ⟨"tx1", ⟨100, 0⟩, .registerProperty "P1" "alice" "Alice" "12 Hill Road" ⟨1, 0⟩
      ⟨2, 0⟩ "RESIDENTIAL" "plot" ⟨3, 0⟩ ⟨4, 0⟩⟩,
    between1 := [⟨"tx1a", ⟨120, 0⟩, .registerUser "u1" "Una" "una@example.org" "BUYER" "0x01"
      "555"⟩],
    second := ⟨"tx2", ⟨150, 0⟩, .verifyProperty "P1" "admin"⟩, between2 := [],
    third := ⟨"tx3", ⟨200, 0⟩, .transferProperty "P1" "bob" "Bob" "T1"⟩, after := [] }

end PropertyContract

/-! ## User contract (`user-contract/user.go`) -/

namespace UserContract

/-- The `Document` record. -/
structure Document where
  DocumentID : String
  DocumentType : String
  DocumentHash : String
  UploadedAt : Time
  VerifiedBy : String
  IsVerified : Bool
deriving DecidableEq, Repr

/-- The `User` record of the user contract. -/
structure User where
  UserID : String
  Name : String
  Email : String
  Phone : String
  Aadhar : String
  PAN : String
  Address : String
  Role : String
  WalletAddress : String
  Documents : List Document
  PasswordHash : String
  IsVerified : Bool
  RegisteredAt : Time
  LastLogin : Time
deriving DecidableEq, Repr

/-- Go's `json.Marshal` on a `Document`. -/
def encodeDocument (d : Document) : Json :=
  .obj [("documentId", .str d.DocumentID), ("documentType", .str d.DocumentType),
    ("documentHash", .str d.DocumentHash), ("uploadedAt", .time d.UploadedAt),
    ("verifiedBy", .str d.VerifiedBy), ("isVerified", .bool d.IsVerified)]

/-- Go's `json.Unmarshal` into a `Document` (one element of `documents`). -/
def decodeDocument : Json → Except String Document
  | .null => .ok ⟨"", "", "", Time.zero, "", false⟩
  | .obj kvs =>
    match Json.getString kvs "documentId", Json.getString kvs "documentType",
      Json.getString kvs "documentHash", Json.getTime kvs "uploadedAt",
      Json.getString kvs "verifiedBy", Json.getBool kvs "isVerified" with
    | .ok a, .ok b, .ok c, .ok d, .ok e, .ok f => .ok ⟨a, b, c, d, e, f⟩
    | _, _, _, _, _, _ => .error "json: cannot unmarshal object into Go value of type main.Document"
  | _ => .error "json: cannot unmarshal value into Go value of type main.Document"

/-- Decode the `documents` field, a `[]Document`.  The nil slice and the empty
slice are both the empty list. -/
def getDocuments (kvs : List (String × Json)) : Except String (List Document) :=
  match Json.lookupField kvs "documents" with
  | none => .ok []
  | some .null => .ok []
  | some (.arr xs) => xs.mapM decodeDocument
  | some _ => .error "json: cannot unmarshal value into Go struct field .documents of type []main.Document"

/-- Go's `json.Marshal` on a `User`. -/
def jsonMarshal (u : User) : Except String Json :=
  .ok (.obj [("userId", .str u.UserID), ("name", .str u.Name), ("email", .str u.Email),
    ("phone", .str u.Phone), ("aadhar", .str u.Aadhar), ("pan", .str u.PAN),
    ("address", .str u.Address), ("role", .str u.Role),
    ("walletAddress", .str u.WalletAddress), ("documents", .arr (u.Documents.map encodeDocument)),
    ("passwordHash", .str u.PasswordHash), ("isVerified", .bool u.IsVerified),
    ("registeredAt", .time u.RegisteredAt), ("lastLogin", .time u.LastLogin)])

/-- Go's `json.Unmarshal` into a `User`. -/
def jsonUnmarshal : Json → Except String User
  | .null => .ok ⟨"", "", "", "", "", "", "", "", "", [], "", false, Time.zero, Time.zero⟩
  | .obj kvs =>
    match Json.getString kvs "userId", Json.getString kvs "name", Json.getString kvs "email",
      Json.getString kvs "phone", Json.getString kvs "aadhar", Json.getString kvs "pan",
      Json.getString kvs "address" with
    | .ok a, .ok b, .ok c, .ok d, .ok e, .ok f, .ok g =>
      match Json.getString kvs "role", Json.getString kvs "walletAddress", getDocuments kvs,
        Json.getString kvs "passwordHash", Json.getBool kvs "isVerified",
        Json.getTime kvs "registeredAt", Json.getTime kvs "lastLogin" with
      | .ok h, .ok i, .ok j, .ok k, .ok l, .ok m, .ok n =>
        .ok ⟨a, b, c, d, e, f, g, h, i, j, k, l, m, n⟩
      | _, _, _, _, _, _, _ => .error "json: cannot unmarshal object into Go value of type main.User"
    | _, _, _, _, _, _, _ => .error "json: cannot unmarshal object into Go value of type main.User"
  | _ => .error "json: cannot unmarshal value into Go value of type main.User"

/-- Method `UserExists`: users live under the bare user id. -/
def UserExists (ctx : Stub) (userID : String) : Except String Bool :=
  match ctx.GetState userID with
  | .error err => .error ("failed to read user: " ++ err)
  | .ok userJSON => .ok userJSON.isSome

/-- Method `GetUser` of the contract. -/
def GetUser (ctx : Stub) (userID : String) : Except String User :=
  match ctx.GetState userID with
  | .error err => .error ("failed to read user: " ++ err)
  | .ok none => .error ("user " ++ userID ++ " does not exist")
  | .ok (some userJSON) => jsonUnmarshal userJSON

/-- Method `RegisterUser` of the contract. -/
def RegisterUser (ctx : Stub)
    (userID name email phone aadhar pan address role walletAddress passwordHash : String) :
    Except String Unit × Stub :=
  match UserExists ctx userID with
  | .error err => (.error err, ctx)
  | .ok true => (.error ("user " ++ userID ++ " already exists"), ctx)
  | .ok false =>
    match ctx.GetTxTimestamp with
    | .error err => (.error ("failed to get transaction timestamp: " ++ err), ctx)
    | .ok txTimestamp =>
      let timestamp := timeUnix txTimestamp.Seconds txTimestamp.Nanos
      let user : User :=
        { UserID := userID, Name := name, Email := email, Phone := phone, Aadhar := aadhar,
          PAN := pan, Address := address, Role := role, WalletAddress := walletAddress,
          Documents := [], PasswordHash := passwordHash, IsVerified := false,
          RegisteredAt := timestamp, LastLogin := timestamp }
      match jsonMarshal user with
      | .error err => (.error err, ctx)
      | .ok userJSON => ctx.PutState userID userJSON

/-- Method `UpdateUserVerification` of the contract. -/
def UpdateUserVerification (ctx : Stub) (userID : String) (isVerified : Bool) :
    Except String Unit × Stub :=
  match GetUser ctx userID with
  | .error err => (.error err, ctx)
  | .ok user =>
    let user1 : User := { user with IsVerified := isVerified }
    match jsonMarshal user1 with
    | .error err => (.error err, ctx)
    | .ok userJSON => ctx.PutState userID userJSON

/-- Method `AddDocument` of the contract. -/
def AddDocument (ctx : Stub) (userID documentID documentType documentHash : String) :
    Except String Unit × Stub :=
  match GetUser ctx userID with
  | .error err => (.error err, ctx)
  | .ok user =>
    match ctx.GetTxTimestamp with
    | .error err => (.error ("failed to get transaction timestamp: " ++ err), ctx)
    | .ok txTimestamp =>
      let timestamp := timeUnix txTimestamp.Seconds txTimestamp.Nanos
      let document : Document :=
        { DocumentID := documentID, DocumentType := documentType, DocumentHash := documentHash,
          UploadedAt := timestamp, VerifiedBy := "", IsVerified := false }
      let user1 : User := { user with Documents := user.Documents ++ [document] }
      match jsonMarshal user1 with
      | .error err => (.error err, ctx)
      | .ok userJSON => ctx.PutState userID userJSON

/-- The loop of `VerifyDocument`: the first document whose id is `documentID` is
marked verified by `adminID` and the loop breaks; the flag tells whether one was
found. -/
def markVerified (documentID adminID : String) : List Document → List Document × Bool
  | [] => ([], false)
  | doc :: rest =>
    if doc.DocumentID = documentID then
      ({ doc with IsVerified := true, VerifiedBy := adminID } :: rest, true)
    else
      match markVerified documentID adminID rest with
      | (rest1, found) => (doc :: rest1, found)

/-- Method `VerifyDocument` of the contract. -/
def VerifyDocument (ctx : Stub) (userID documentID adminID : String) : Except String Unit × Stub :=
  match GetUser ctx userID with
  | .error err => (.error err, ctx)
  | .ok user =>
    match markVerified documentID adminID user.Documents with
    | (_, false) => (.error ("document " ++ documentID ++ " not found for user " ++ userID), ctx)
    | (documents, true) =>
      let user1 : User := { user with Documents := documents }
      match jsonMarshal user1 with
      | .error err => (.error err, ctx)
      | .ok userJSON => ctx.PutState userID userJSON

/-- Method `UpdateLastLogin` of the contract. -/
def UpdateLastLogin (ctx : Stub) (userID : String) : Except String Unit × Stub :=
  match GetUser ctx userID with
  | .error err => (.error err, ctx)
  | .ok user =>
    match ctx.GetTxTimestamp with
    | .error err => (.error ("failed to get transaction timestamp: " ++ err), ctx)
    | .ok txTimestamp =>
      let timestamp := timeUnix txTimestamp.Seconds txTimestamp.Nanos
      let user1 : User := { user with LastLogin := timestamp }
      match jsonMarshal user1 with
      | .error err => (.error err, ctx)
      | .ok userJSON => ctx.PutState userID userJSON

/-- The ledger after `RegisterUser` of user `u1` on the empty ledger. -/
def userLedger : String → Option Json :=
  (RegisterUser ⟨fun _ => none, some ⟨100, 0⟩⟩ "u1" "Una" "una@example.org" "555" "1234" "ABCDE"
    "12 Hill Road" "BUYER" "0x01" "hash").2.state

/-- One invocation of a state-changing operation of the user contract. -/
inductive Call where
  | registerUser
      (userID name email phone aadhar pan address role walletAddress passwordHash : String)
  | updateUserVerification (userID : String) (isVerified : Bool)
  | addDocument (userID documentID documentType documentHash : String)
  | verifyDocument (userID documentID adminID : String)
  | updateLastLogin (userID : String)

/-- Run an invocation against a stub. -/
def Call.run : Call → Stub → Except String Unit × Stub
  | .registerUser userID name email phone aadhar pan address role walletAddress passwordHash,
      ctx =>
    RegisterUser ctx userID name email phone aadhar pan address role walletAddress passwordHash
  | .updateUserVerification userID isVerified, ctx => UpdateUserVerification ctx userID isVerified
  | .addDocument userID documentID documentType documentHash, ctx =>
    AddDocument ctx userID documentID documentType documentHash
  | .verifyDocument userID documentID adminID, ctx => VerifyDocument ctx userID documentID adminID
  | .updateLastLogin userID, ctx => UpdateLastLogin ctx userID

/-- Method `queryUsers`: a value that does not decode is skipped. -/
def queryUsers (q : ReadStub) (queryString : String) : Except String (List User) :=
  match q.GetQueryResult queryString with
  | .error err => .error err
  | .ok resultsIterator => collectLenient jsonUnmarshal resultsIterator []

/-- Method `GetUsersByRole`: the argument is pasted into the selector text by
`fmt.Sprintf` as it is. -/
def GetUsersByRole (q : ReadStub) (role : String) : Except String (List User) :=
  queryUsers q ("\x7b\"selector\":\x7b\"role\":\"" ++ role ++ "\"\x7d\x7d")

/-- Method `GetAllUsers`: a value that does not decode is skipped. -/
def GetAllUsers (q : ReadStub) : Except String (List User) :=
  match q.GetStateByRange "" "" with
  | .error err => .error err
  | .ok resultsIterator => collectLenient jsonUnmarshal resultsIterator []

/-- World states reachable from the empty ledger by invocations of the user
contract, each in a transaction of its own (with or without a timestamp). -/
inductive Reachable : (String → Option Json) → Prop
  | empty : Reachable (fun _ => none)
  | step (w : String → Option Json) (ts : Option Timestamp) (c : Call) :
      Reachable w → Reachable (c.run ⟨w, ts⟩).2.state

/-- The ledger after `RegisterUser` of user `u1` and three `AddDocument` calls,
the last two with the same document id `d1`. -/
def documentsLedger : String → Option Json :=
  (AddDocument ⟨(AddDocument ⟨(AddDocument ⟨userLedger, some ⟨200, 0⟩⟩ "u1" "d0" "PAN" "h0").2.state,
    some ⟨300, 0⟩⟩ "u1" "d1" "DEED" "h1").2.state, some ⟨400, 0⟩⟩ "u1" "d1" "DEED" "h2").2.state

/-- The user `u1` of `documentsLedger` with the given documents. -/
def sampleUser (documents : List Document) : User :=
  ⟨"u1", "Una", "una@example.org", "555", "1234", "ABCDE", "12 Hill Road", "BUYER", "0x01",
    documents, "hash", false, ⟨100, 0⟩, ⟨100, 0⟩⟩

/-- The user id an invocation targets. -/
def Call.key : Call → String
  | .registerUser userID _ _ _ _ _ _ _ _ _ => userID
  | .updateUserVerification userID _ => userID
  | .addDocument userID _ _ _ => userID
  | .verifyDocument userID _ _ => userID
  | .updateLastLogin userID => userID

/-- Every stored value is the encoding of a user record whose `userId` is the key
it is stored under. -/
def KeyAgrees (w : String → Option Json) : Prop :=
  ∀ k v, w k = some v → ∃ u, jsonMarshal u = .ok v ∧ u.UserID = k

end UserContract

/-! ## Selector texts

The query text handed to `GetQueryResult` is read by the ledger as a JSON
document.  `Selector.parse` reads the texts of the shape the contracts build: an
object with the one member `selector`, itself an object whose members are
strings, each member one field-equality predicate.  A text of another shape is
refused (`none`).  The escape `\u` is not read. -/

namespace Selector

/-- The double quote. -/
def quote : Char := Char.ofNat 34

/-- The backslash. -/
def backslash : Char := Char.ofNat 92

/-- The closing brace. -/
def closeBrace : Char := Char.ofNat 125

/-- The character a two-character escape of a JSON string stands for. -/
def unescape (c : Char) : Option Char :=
  if c = quote then some quote
  else if c = backslash then some backslash
  else if c = '/' then some '/'
  else if c = 'b' then some (Char.ofNat 8)
  else if c = 'f' then some (Char.ofNat 12)
  else if c = 'n' then some (Char.ofNat 10)
  else if c = 'r' then some (Char.ofNat 13)
  else if c = 't' then some (Char.ofNat 9)
  else none

/-- Read a JSON string after its opening quote: the characters up to the closing
quote with the escapes resolved, and the input after the closing quote.  The
flag tells that the previous character was an unescaped backslash. -/
def readString : List Char → Bool → List Char → Option (String × List Char)
  | [], _, _ => none
  | c :: rest, true, acc =>
    match unescape c with
    | some e => readString rest false (e :: acc)
    | none => none
  | c :: rest, false, acc =>
    if c = quote then some (String.mk acc.reverse, rest)
    else if c = backslash then readString rest true acc
    else if c.toNat < 32 then none
    else readString rest false (c :: acc)

/-- Read the members of the selector object after its opening brace up to its
closing brace: each member is a field name, a colon and a string value. -/
def readMembers : Nat → List Char → List (String × String) →
    Option (List (String × String) × List Char)
  | 0, _, _ => none
  | fuel + 1, input, acc =>
    match input with
    | [] => none
    | c :: rest =>
      if c = quote then
        match readString rest false [] with
        | some (field, c1 :: c2 :: rest2) =>
          if c1 = ':' ∧ c2 = quote then
            match readString rest2 false [] with
            | some (value, c3 :: rest3) =>
              if c3 = ',' then readMembers fuel rest3 (acc ++ [(field, value)])
              else if c3 = closeBrace then some (acc ++ [(field, value)], rest3)
              else none
            | _ => none
          else none
        | _ => none
      else none

/-- The input after a given beginning, when it begins so. -/
def dropOpening : List Char → List Char → Option (List Char)
  | [], input => some input
  | _ :: _, [] => none
  | o :: opening, c :: input => if o = c then dropOpening opening input else none

/-- The field-equality predicates of a query text, in the order of the text. -/
def parse (queryString : String) : Option (List (String × String)) :=
  match dropOpening "\x7b\"selector\":\x7b".data queryString.data with
  | none => none
  | some rest =>
    match readMembers rest.length rest [] with
    | some (predicates, [c]) => if c = closeBrace then some predicates else none
    | _ => none

/-- A character that stands for itself in a JSON string: no quote, no backslash,
no control character. -/
def Plain (c : Char) : Prop := c ≠ quote ∧ c ≠ backslash ∧ ¬ c.toNat < 32

end Selector

/-! # Properties of the contracts -/

/-! ## The stub -/

theorem Stub.PutState_fst (ctx : Stub) (key : String) (value : Json) :
    (ctx.PutState key value).1 = .ok () := rfl

theorem Stub.PutState_state_self (ctx : Stub) (key : String) (value : Json) :
    (ctx.PutState key value).2.state key = some value := by
  simp [Stub.PutState]

theorem Stub.PutState_state_other (ctx : Stub) (key k : String) (value : Json) (h : k ≠ key) :
    (ctx.PutState key value).2.state k = ctx.state k := by
  simp [Stub.PutState, h]

theorem Stub.PutState_txTimestamp (ctx : Stub) (key : String) (value : Json) :
    (ctx.PutState key value).2.txTimestamp = ctx.txTimestamp := rfl

/-! ## Escrow contract: properties -/

namespace EscrowContract

/-- Decoding inverts encoding on escrow records. -/
theorem unmarshal_marshal_escrow (e : Escrow) (j : Json) (h : jsonMarshal e = .ok j) :
    jsonUnmarshal j = .ok e := by
  cases h
  rfl

/-- Method `GetEscrow` reads only the world state. -/
theorem GetEscrow_congr (ctx ctx1 : Stub) (escrowID : String)
    (h : ctx1.state escrowID = ctx.state escrowID) :
    GetEscrow ctx1 escrowID = GetEscrow ctx escrowID := by
  simp [GetEscrow, Stub.GetState, h]

/-- Reading back the record just written. -/
theorem GetEscrow_PutState (ctx : Stub) (escrowID : String) (e : Escrow) (j : Json)
    (h : jsonMarshal e = .ok j) : GetEscrow (ctx.PutState escrowID j).2 escrowID = .ok e := by
  simp [GetEscrow, Stub.GetState, Stub.PutState, unmarshal_marshal_escrow e j h]

/-- The two outcomes of `CreateEscrow`. -/
theorem CreateEscrow_cases (ctx : Stub) (escrowID propertyID buyer seller : String)
    (amount : Float64) :
    (∃ msg, CreateEscrow ctx escrowID propertyID buyer seller amount = (.error msg, ctx)) ∨
    (∃ ts j, ctx.state escrowID = none ∧ ctx.txTimestamp = some ts ∧
      jsonMarshal ⟨escrowID, propertyID, buyer, seller, amount, "CREATED", "",
        timeUnix ts.Seconds ts.Nanos, timeUnix ts.Seconds ts.Nanos⟩ = .ok j ∧
      CreateEscrow ctx escrowID propertyID buyer seller amount = ctx.PutState escrowID j) := by
  unfold CreateEscrow EscrowExists Stub.GetState
  cases hst : ctx.state escrowID with
  | some v => exact Or.inl ⟨_, rfl⟩
  | none =>
    cases hts : ctx.txTimestamp with
    | none => exact Or.inl (by simp [Stub.GetTxTimestamp, hts])
    | some ts =>
      exact Or.inr ⟨ts, _, rfl, rfl, rfl, by simp [Stub.GetTxTimestamp, hts, jsonMarshal]⟩

/-- The two outcomes of `FundEscrow`. -/
theorem FundEscrow_cases (ctx : Stub) (escrowID txHash : String) :
    (∃ msg, FundEscrow ctx escrowID txHash = (.error msg, ctx)) ∨
    (∃ e ts j, GetEscrow ctx escrowID = .ok e ∧ e.Status = "CREATED" ∧
      ctx.txTimestamp = some ts ∧
      jsonMarshal { e with Status := "FUNDED", TransactionHash := txHash,
                           UpdatedAt := timeUnix ts.Seconds ts.Nanos } = .ok j ∧
      FundEscrow ctx escrowID txHash = ctx.PutState escrowID j) := by
  unfold FundEscrow
  cases hget : GetEscrow ctx escrowID with
  | error err => exact Or.inl ⟨_, rfl⟩
  | ok e =>
    by_cases hs : e.Status = "CREATED"
    · cases hts : ctx.txTimestamp with
      | none => exact Or.inl (by simp [hs, Stub.GetTxTimestamp, hts])
      | some ts =>
        exact Or.inr ⟨e, ts, _, rfl, hs, rfl, rfl, by simp [hs, Stub.GetTxTimestamp, hts, jsonMarshal]⟩
    · exact Or.inl (by simp [hs])

/-- The two outcomes of `ReleaseEscrow`. -/
theorem ReleaseEscrow_cases (ctx : Stub) (escrowID txHash : String) :
    (∃ msg, ReleaseEscrow ctx escrowID txHash = (.error msg, ctx)) ∨
    (∃ e ts j, GetEscrow ctx escrowID = .ok e ∧ e.Status = "FUNDED" ∧
      ctx.txTimestamp = some ts ∧
      jsonMarshal { e with Status := "RELEASED", TransactionHash := txHash,
                           UpdatedAt := timeUnix ts.Seconds ts.Nanos } = .ok j ∧
      ReleaseEscrow ctx escrowID txHash = ctx.PutState escrowID j) := by
  unfold ReleaseEscrow
  cases hget : GetEscrow ctx escrowID with
  | error err => exact Or.inl ⟨_, rfl⟩
  | ok e =>
    by_cases hs : e.Status = "FUNDED"
    · cases hts : ctx.txTimestamp with
      | none => exact Or.inl (by simp [hs, Stub.GetTxTimestamp, hts])
      | some ts =>
        exact Or.inr ⟨e, ts, _, rfl, hs, rfl, rfl, by simp [hs, Stub.GetTxTimestamp, hts, jsonMarshal]⟩
    · exact Or.inl (by simp [hs])

/-- The two outcomes of `CancelEscrow`. -/
theorem CancelEscrow_cases (ctx : Stub) (escrowID txHash : String) :
    (∃ msg, CancelEscrow ctx escrowID txHash = (.error msg, ctx)) ∨
    (∃ e ts j, GetEscrow ctx escrowID = .ok e ∧ e.Status ≠ "RELEASED" ∧
      ctx.txTimestamp = some ts ∧
      jsonMarshal { e with Status := "CANCELLED", TransactionHash := txHash,
                           UpdatedAt := timeUnix ts.Seconds ts.Nanos } = .ok j ∧
      CancelEscrow ctx escrowID txHash = ctx.PutState escrowID j) := by
  unfold CancelEscrow
  cases hget : GetEscrow ctx escrowID with
  | error err => exact Or.inl ⟨_, rfl⟩
  | ok e =>
    by_cases hs : e.Status = "RELEASED"
    · exact Or.inl (by simp [hs])
    · cases hts : ctx.txTimestamp with
      | none => exact Or.inl (by simp [hs, Stub.GetTxTimestamp, hts])
      | some ts =>
        exact Or.inr ⟨e, ts, _, rfl, hs, rfl, rfl, by simp [hs, Stub.GetTxTimestamp, hts, jsonMarshal]⟩

end EscrowContract

/-! ## Offer contract: properties -/

namespace OfferContract

/-- Decoding inverts encoding on offer records. -/
theorem unmarshal_marshal_offer (o : Offer) (j : Json) (h : jsonMarshal o = .ok j) :
    jsonUnmarshal j = .ok o := by
  cases h
  rfl

/-- Method `GetOffer` reads only the world state. -/
theorem GetOffer_congr (ctx ctx1 : Stub) (offerID : String)
    (h : ctx1.state offerID = ctx.state offerID) :
    GetOffer ctx1 offerID = GetOffer ctx offerID := by
  simp [GetOffer, Stub.GetState, h]

/-- Reading back the record just written. -/
theorem GetOffer_PutState (ctx : Stub) (offerID : String) (o : Offer) (j : Json)
    (h : jsonMarshal o = .ok j) : GetOffer (ctx.PutState offerID j).2 offerID = .ok o := by
  simp [GetOffer, Stub.GetState, Stub.PutState, unmarshal_marshal_offer o j h]

/-- The two outcomes of `CreateOffer`. -/
theorem CreateOffer_cases (ctx : Stub)
    (offerID propertyID buyerID buyerName sellerID sellerName : String) (offerAmount : Float64)
    (message : String) :
    (∃ msg, CreateOffer ctx offerID propertyID buyerID buyerName sellerID sellerName offerAmount
      message = (.error msg, ctx)) ∨
    (∃ ts j, ctx.state offerID = none ∧ ctx.txTimestamp = some ts ∧
      jsonMarshal ⟨offerID, propertyID, buyerID, buyerName, sellerID, sellerName, offerAmount,
        "PENDING", message, false, "", Time.zero, "", timeUnix ts.Seconds ts.Nanos,
        timeUnix ts.Seconds ts.Nanos⟩ = .ok j ∧
      CreateOffer ctx offerID propertyID buyerID buyerName sellerID sellerName offerAmount
        message = ctx.PutState offerID j) := by
  unfold CreateOffer OfferExists Stub.GetState
  cases hst : ctx.state offerID with
  | some v => exact Or.inl ⟨_, rfl⟩
  | none =>
    cases hts : ctx.txTimestamp with
    | none => exact Or.inl (by simp [Stub.GetTxTimestamp, hts])
    | some ts =>
      exact Or.inr ⟨ts, _, rfl, rfl, rfl, by simp [Stub.GetTxTimestamp, hts, jsonMarshal]⟩

/-- The two outcomes of `AcceptOffer`. -/
theorem AcceptOffer_cases (ctx : Stub) (offerID : String) :
    (∃ msg, AcceptOffer ctx offerID = (.error msg, ctx)) ∨
    (∃ o ts j, GetOffer ctx offerID = .ok o ∧ o.Status = "PENDING" ∧
      ctx.txTimestamp = some ts ∧
      jsonMarshal { o with Status := "ACCEPTED", UpdatedAt := timeUnix ts.Seconds ts.Nanos } = .ok j ∧
      AcceptOffer ctx offerID = ctx.PutState offerID j) := by
  unfold AcceptOffer
  cases hget : GetOffer ctx offerID with
  | error err => exact Or.inl ⟨_, rfl⟩
  | ok o =>
    by_cases hs : o.Status = "PENDING"
    · cases hts : ctx.txTimestamp with
      | none => exact Or.inl (by simp [hs, Stub.GetTxTimestamp, hts])
      | some ts =>
        exact Or.inr ⟨o, ts, _, rfl, hs, rfl, rfl, by simp [hs, Stub.GetTxTimestamp, hts, jsonMarshal]⟩
    · exact Or.inl (by simp [hs])

/-- The two outcomes of `RejectOffer`. -/
theorem RejectOffer_cases (ctx : Stub) (offerID : String) :
    (∃ msg, RejectOffer ctx offerID = (.error msg, ctx)) ∨
    (∃ o ts j, GetOffer ctx offerID = .ok o ∧ o.Status = "PENDING" ∧
      ctx.txTimestamp = some ts ∧
      jsonMarshal { o with Status := "REJECTED", UpdatedAt := timeUnix ts.Seconds ts.Nanos } = .ok j ∧
      RejectOffer ctx offerID = ctx.PutState offerID j) := by
  unfold RejectOffer
  cases hget : GetOffer ctx offerID with
  | error err => exact Or.inl ⟨_, rfl⟩
  | ok o =>
    by_cases hs : o.Status = "PENDING"
    · cases hts : ctx.txTimestamp with
      | none => exact Or.inl (by simp [hs, Stub.GetTxTimestamp, hts])
      | some ts =>
        exact Or.inr ⟨o, ts, _, rfl, hs, rfl, rfl, by simp [hs, Stub.GetTxTimestamp, hts, jsonMarshal]⟩
    · exact Or.inl (by simp [hs])

/-- The two outcomes of `AdminVerifyOffer`. -/
theorem AdminVerifyOffer_cases (ctx : Stub) (offerID adminID sepoliaTxHash : String) :
    (∃ msg, AdminVerifyOffer ctx offerID adminID sepoliaTxHash = (.error msg, ctx)) ∨
    (∃ o ts j, GetOffer ctx offerID = .ok o ∧ o.Status = "ACCEPTED" ∧
      ctx.txTimestamp = some ts ∧
      jsonMarshal { o with Status := "ADMIN_VERIFIED", AdminVerified := true, AdminID := adminID,
                           VerifiedAt := timeUnix ts.Seconds ts.Nanos,
                           SepoliaTxHash := sepoliaTxHash,
                           UpdatedAt := timeUnix ts.Seconds ts.Nanos } = .ok j ∧
      AdminVerifyOffer ctx offerID adminID sepoliaTxHash = ctx.PutState offerID j) := by
  unfold AdminVerifyOffer
  cases hget : GetOffer ctx offerID with
  | error err => exact Or.inl ⟨_, rfl⟩
  | ok o =>
    by_cases hs : o.Status = "ACCEPTED"
    · cases hts : ctx.txTimestamp with
      | none => exact Or.inl (by simp [hs, Stub.GetTxTimestamp, hts])
      | some ts =>
        exact Or.inr ⟨o, ts, _, rfl, hs, rfl, rfl, by simp [hs, Stub.GetTxTimestamp, hts, jsonMarshal]⟩
    · exact Or.inl (by simp [hs])

/-- The two outcomes of `CompleteOffer`. -/
theorem CompleteOffer_cases (ctx : Stub) (offerID : String) :
    (∃ msg, CompleteOffer ctx offerID = (.error msg, ctx)) ∨
    (∃ o ts j, GetOffer ctx offerID = .ok o ∧ o.Status = "ADMIN_VERIFIED" ∧
      ctx.txTimestamp = some ts ∧
      jsonMarshal { o with Status := "COMPLETED", UpdatedAt := timeUnix ts.Seconds ts.Nanos } = .ok j ∧
      CompleteOffer ctx offerID = ctx.PutState offerID j) := by
  unfold CompleteOffer
  cases hget : GetOffer ctx offerID with
  | error err => exact Or.inl ⟨_, rfl⟩
  | ok o =>
    by_cases hs : o.Status = "ADMIN_VERIFIED"
    · cases hts : ctx.txTimestamp with
      | none => exact Or.inl (by simp [hs, Stub.GetTxTimestamp, hts])
      | some ts =>
        exact Or.inr ⟨o, ts, _, rfl, hs, rfl, rfl, by simp [hs, Stub.GetTxTimestamp, hts, jsonMarshal]⟩
    · exact Or.inl (by simp [hs])

/-- The two outcomes of `CancelOffer`. -/
theorem CancelOffer_cases (ctx : Stub) (offerID : String) :
    (∃ msg, CancelOffer ctx offerID = (.error msg, ctx)) ∨
    (∃ o ts j, GetOffer ctx offerID = .ok o ∧ o.Status ≠ "COMPLETED" ∧
      ctx.txTimestamp = some ts ∧
      jsonMarshal { o with Status := "CANCELLED", UpdatedAt := timeUnix ts.Seconds ts.Nanos } = .ok j ∧
      CancelOffer ctx offerID = ctx.PutState offerID j) := by
  unfold CancelOffer
  cases hget : GetOffer ctx offerID with
  | error err => exact Or.inl ⟨_, rfl⟩
  | ok o =>
    by_cases hs : o.Status = "COMPLETED"
    · exact Or.inl (by simp [hs])
    · cases hts : ctx.txTimestamp with
      | none => exact Or.inl (by simp [hs, Stub.GetTxTimestamp, hts])
      | some ts =>
        exact Or.inr ⟨o, ts, _, rfl, hs, rfl, rfl, by simp [hs, Stub.GetTxTimestamp, hts, jsonMarshal]⟩

end OfferContract

/-! ## Transition guards -/

/-- C1: in a ledger where `escrowID` holds a decodable escrow record, within a
transaction whose timestamp is available, `FundEscrow` succeeds exactly when the
stored status is CREATED, `ReleaseEscrow` exactly when it is FUNDED, and
`CancelEscrow` exactly when it is not RELEASED. -/
theorem escrow_mutator_succeeds_iff (w : String → Option Json) (ts : Timestamp)
    (escrowID txHash : String) (e : EscrowContract.Escrow)
    (hget : EscrowContract.GetEscrow ⟨w, some ts⟩ escrowID = .ok e) :
    ((EscrowContract.FundEscrow ⟨w, some ts⟩ escrowID txHash).1 = .ok () ↔
      e.Status = "CREATED") ∧
    ((EscrowContract.ReleaseEscrow ⟨w, some ts⟩ escrowID txHash).1 = .ok () ↔
      e.Status = "FUNDED") ∧
    ((EscrowContract.CancelEscrow ⟨w, some ts⟩ escrowID txHash).1 = .ok () ↔
      e.Status ≠ "RELEASED") := by
  refine ⟨?_, ?_, ?_⟩
  · unfold EscrowContract.FundEscrow
    rw [hget]
    by_cases h : e.Status = "CREATED"
    · simp [h, Stub.GetTxTimestamp, EscrowContract.jsonMarshal, Stub.PutState]
    · simp [h]
  · unfold EscrowContract.ReleaseEscrow
    rw [hget]
    by_cases h : e.Status = "FUNDED"
    · simp [h, Stub.GetTxTimestamp, EscrowContract.jsonMarshal, Stub.PutState]
    · simp [h]
  · unfold EscrowContract.CancelEscrow
    rw [hget]
    by_cases h : e.Status = "RELEASED"
    · simp [h]
    · simp [h, Stub.GetTxTimestamp, EscrowContract.jsonMarshal, Stub.PutState]

/-- C1 at the sample escrow in status FUNDED: only `FundEscrow` is refused. -/
theorem escrow_mutator_succeeds_iff_witness :
    EscrowContract.GetEscrow ⟨EscrowContract.sampleLedger "FUNDED", some ⟨200, 0⟩⟩ "E1" =
      .ok (EscrowContract.sampleEscrow "FUNDED") ∧
    (((EscrowContract.FundEscrow ⟨EscrowContract.sampleLedger "FUNDED", some ⟨200, 0⟩⟩ "E1"
        "0xabc").1 = .ok () ↔ (EscrowContract.sampleEscrow "FUNDED").Status = "CREATED") ∧
     ((EscrowContract.ReleaseEscrow ⟨EscrowContract.sampleLedger "FUNDED", some ⟨200, 0⟩⟩ "E1"
        "0xabc").1 = .ok () ↔ (EscrowContract.sampleEscrow "FUNDED").Status = "FUNDED") ∧
     ((EscrowContract.CancelEscrow ⟨EscrowContract.sampleLedger "FUNDED", some ⟨200, 0⟩⟩ "E1"
        "0xabc").1 = .ok () ↔ (EscrowContract.sampleEscrow "FUNDED").Status ≠ "RELEASED")) :=
  ⟨rfl, escrow_mutator_succeeds_iff (EscrowContract.sampleLedger "FUNDED") ⟨200, 0⟩ "E1" "0xabc"
    (EscrowContract.sampleEscrow "FUNDED") rfl⟩

/-- C2: in a ledger where `offerID` holds a decodable offer record, within a
transaction whose timestamp is available, `AcceptOffer` and `RejectOffer` succeed
exactly when the stored status is PENDING, `AdminVerifyOffer` exactly when it is
ACCEPTED, `CompleteOffer` exactly when it is ADMIN_VERIFIED, and `CancelOffer`
exactly when it is not COMPLETED. -/
theorem offer_mutator_succeeds_iff (w : String → Option Json) (ts : Timestamp)
    (offerID adminID sepoliaTxHash : String) (o : OfferContract.Offer)
    (hget : OfferContract.GetOffer ⟨w, some ts⟩ offerID = .ok o) :
    ((OfferContract.AcceptOffer ⟨w, some ts⟩ offerID).1 = .ok () ↔ o.Status = "PENDING") ∧
    ((OfferContract.RejectOffer ⟨w, some ts⟩ offerID).1 = .ok () ↔ o.Status = "PENDING") ∧
    ((OfferContract.AdminVerifyOffer ⟨w, some ts⟩ offerID adminID sepoliaTxHash).1 = .ok () ↔
      o.Status = "ACCEPTED") ∧
    ((OfferContract.CompleteOffer ⟨w, some ts⟩ offerID).1 = .ok () ↔
      o.Status = "ADMIN_VERIFIED") ∧
    ((OfferContract.CancelOffer ⟨w, some ts⟩ offerID).1 = .ok () ↔ o.Status ≠ "COMPLETED") := by
  refine ⟨?_, ?_, ?_, ?_, ?_⟩
  · unfold OfferContract.AcceptOffer
    rw [hget]
    by_cases h : o.Status = "PENDING"
    · simp [h, Stub.GetTxTimestamp, OfferContract.jsonMarshal, Stub.PutState]
    · simp [h]
  · unfold OfferContract.RejectOffer
    rw [hget]
    by_cases h : o.Status = "PENDING"
    · simp [h, Stub.GetTxTimestamp, OfferContract.jsonMarshal, Stub.PutState]
    · simp [h]
  · unfold OfferContract.AdminVerifyOffer
    rw [hget]
    by_cases h : o.Status = "ACCEPTED"
    · simp [h, Stub.GetTxTimestamp, OfferContract.jsonMarshal, Stub.PutState]
    · simp [h]
  · unfold OfferContract.CompleteOffer
    rw [hget]
    by_cases h : o.Status = "ADMIN_VERIFIED"
    · simp [h, Stub.GetTxTimestamp, OfferContract.jsonMarshal, Stub.PutState]
    · simp [h]
  · unfold OfferContract.CancelOffer
    rw [hget]
    by_cases h : o.Status = "COMPLETED"
    · simp [h]
    · simp [h, Stub.GetTxTimestamp, OfferContract.jsonMarshal, Stub.PutState]

/-- C2 at the sample offer in status ACCEPTED. -/
theorem offer_mutator_succeeds_iff_witness :
    OfferContract.GetOffer ⟨OfferContract.sampleLedger "ACCEPTED", some ⟨200, 0⟩⟩ "O1" =
      .ok (OfferContract.sampleOffer "ACCEPTED") ∧
    (((OfferContract.AcceptOffer ⟨OfferContract.sampleLedger "ACCEPTED", some ⟨200, 0⟩⟩ "O1").1 =
        .ok () ↔ (OfferContract.sampleOffer "ACCEPTED").Status = "PENDING") ∧
     ((OfferContract.RejectOffer ⟨OfferContract.sampleLedger "ACCEPTED", some ⟨200, 0⟩⟩ "O1").1 =
        .ok () ↔ (OfferContract.sampleOffer "ACCEPTED").Status = "PENDING") ∧
     ((OfferContract.AdminVerifyOffer ⟨OfferContract.sampleLedger "ACCEPTED", some ⟨200, 0⟩⟩ "O1"
        "admin" "0xabc").1 = .ok () ↔ (OfferContract.sampleOffer "ACCEPTED").Status = "ACCEPTED") ∧
     ((OfferContract.CompleteOffer ⟨OfferContract.sampleLedger "ACCEPTED", some ⟨200, 0⟩⟩ "O1").1 =
        .ok () ↔ (OfferContract.sampleOffer "ACCEPTED").Status = "ADMIN_VERIFIED") ∧
     ((OfferContract.CancelOffer ⟨OfferContract.sampleLedger "ACCEPTED", some ⟨200, 0⟩⟩ "O1").1 =
        .ok () ↔ (OfferContract.sampleOffer "ACCEPTED").Status ≠ "COMPLETED")) :=
  ⟨rfl, offer_mutator_succeeds_iff (OfferContract.sampleLedger "ACCEPTED") ⟨200, 0⟩ "O1" "admin"
    "0xabc" (OfferContract.sampleOffer "ACCEPTED") rfl⟩

/-- C3: a status-transition operation called on a record whose stored status is
outside the precondition set of the operation returns an error and leaves the
stub, hence every key of the ledger, as it was before the call.  This holds for
the three escrow mutators and the five offer mutators. -/
theorem rejected_transition_leaves_ledger (ctx : Stub) (id : String) :
    (∀ (e : EscrowContract.Escrow) (txHash : String), EscrowContract.GetEscrow ctx id = .ok e →
      (e.Status ≠ "CREATED" → EscrowContract.FundEscrow ctx id txHash =
        (.error ("escrow " ++ id ++ " is not in CREATED status"), ctx)) ∧
      (e.Status ≠ "FUNDED" → EscrowContract.ReleaseEscrow ctx id txHash =
        (.error ("escrow " ++ id ++ " is not in FUNDED status"), ctx)) ∧
      (e.Status = "RELEASED" → EscrowContract.CancelEscrow ctx id txHash =
        (.error ("escrow " ++ id ++ " has already been released"), ctx))) ∧
    (∀ (o : OfferContract.Offer) (adminID sepoliaTxHash : String),
      OfferContract.GetOffer ctx id = .ok o →
      (o.Status ≠ "PENDING" → OfferContract.AcceptOffer ctx id =
        (.error ("offer " ++ id ++ " is not in PENDING status"), ctx)) ∧
      (o.Status ≠ "PENDING" → OfferContract.RejectOffer ctx id =
        (.error ("offer " ++ id ++ " is not in PENDING status"), ctx)) ∧
      (o.Status ≠ "ACCEPTED" → OfferContract.AdminVerifyOffer ctx id adminID sepoliaTxHash =
        (.error ("offer " ++ id ++ " must be ACCEPTED before admin verification"), ctx)) ∧
      (o.Status ≠ "ADMIN_VERIFIED" → OfferContract.CompleteOffer ctx id =
        (.error ("offer " ++ id ++ " must be ADMIN_VERIFIED before completion"), ctx)) ∧
      (o.Status = "COMPLETED" → OfferContract.CancelOffer ctx id =
        (.error ("cannot cancel completed offer " ++ id), ctx))) := by
  refine ⟨?_, ?_⟩
  · intro e txHash hget
    refine ⟨?_, ?_, ?_⟩
    · intro h
      simp [EscrowContract.FundEscrow, hget, h]
    · intro h
      simp [EscrowContract.ReleaseEscrow, hget, h]
    · intro h
      simp [EscrowContract.CancelEscrow, hget, h]
  · intro o adminID sepoliaTxHash hget
    refine ⟨?_, ?_, ?_, ?_, ?_⟩
    · intro h
      simp [OfferContract.AcceptOffer, hget, h]
    · intro h
      simp [OfferContract.RejectOffer, hget, h]
    · intro h
      simp [OfferContract.AdminVerifyOffer, hget, h]
    · intro h
      simp [OfferContract.CompleteOffer, hget, h]
    · intro h
      simp [OfferContract.CancelOffer, hget, h]

/-- C3 at the sample escrow in status RELEASED and the sample offer in status
COMPLETED, which lie outside the precondition set of every mutator. -/
theorem rejected_transition_leaves_ledger_witness :
    (EscrowContract.FundEscrow ⟨EscrowContract.sampleLedger "RELEASED", none⟩ "E1" "0xabc" =
      (.error ("escrow " ++ "E1" ++ " is not in CREATED status"),
        ⟨EscrowContract.sampleLedger "RELEASED", none⟩)) ∧
    (EscrowContract.ReleaseEscrow ⟨EscrowContract.sampleLedger "RELEASED", none⟩ "E1" "0xabc" =
      (.error ("escrow " ++ "E1" ++ " is not in FUNDED status"),
        ⟨EscrowContract.sampleLedger "RELEASED", none⟩)) ∧
    (EscrowContract.CancelEscrow ⟨EscrowContract.sampleLedger "RELEASED", none⟩ "E1" "0xabc" =
      (.error ("escrow " ++ "E1" ++ " has already been released"),
        ⟨EscrowContract.sampleLedger "RELEASED", none⟩)) ∧
    (OfferContract.AcceptOffer ⟨OfferContract.sampleLedger "COMPLETED", none⟩ "O1" =
      (.error ("offer " ++ "O1" ++ " is not in PENDING status"),
        ⟨OfferContract.sampleLedger "COMPLETED", none⟩)) ∧
    (OfferContract.CancelOffer ⟨OfferContract.sampleLedger "COMPLETED", none⟩ "O1" =
      (.error ("cannot cancel completed offer " ++ "O1"),
        ⟨OfferContract.sampleLedger "COMPLETED", none⟩)) :=
  have he := (rejected_transition_leaves_ledger ⟨EscrowContract.sampleLedger "RELEASED", none⟩
    "E1").1 (EscrowContract.sampleEscrow "RELEASED") "0xabc" rfl
  have ho := (rejected_transition_leaves_ledger ⟨OfferContract.sampleLedger "COMPLETED", none⟩
    "O1").2 (OfferContract.sampleOffer "COMPLETED") "admin" "0xabc" rfl
  ⟨he.1 (by decide), he.2.1 (by decide), he.2.2 rfl, ho.1 (by decide), ho.2.2.2.2 rfl⟩

/-! ## Create on an existing key -/

/-- C4: a create operation called on a key that already holds a value fails with
the already-exists error and writes nothing (the stub after the call is the stub
before it), so the matching `Get` returns afterwards what it returned before.
This holds for `CreateEscrow`, `CreateOffer`, `RegisterProperty` and `RegisterUser`
of the property contract (key `USER_` followed by the id) and of the user
contract. -/
theorem create_on_existing_key_fails (ctx : Stub) (id : String) (v : Json) :
    (ctx.state id = some v →
      ∀ (propertyID buyer seller : String) (amount : Float64),
        EscrowContract.CreateEscrow ctx id propertyID buyer seller amount =
          (.error ("escrow " ++ id ++ " already exists"), ctx) ∧
        EscrowContract.GetEscrow
          (EscrowContract.CreateEscrow ctx id propertyID buyer seller amount).2 id =
          EscrowContract.GetEscrow ctx id) ∧
    (ctx.state id = some v →
      ∀ (propertyID buyerID buyerName sellerID sellerName : String) (offerAmount : Float64)
        (message : String),
        OfferContract.CreateOffer ctx id propertyID buyerID buyerName sellerID sellerName
          offerAmount message = (.error ("offer " ++ id ++ " already exists"), ctx) ∧
        OfferContract.GetOffer (OfferContract.CreateOffer ctx id propertyID buyerID buyerName
          sellerID sellerName offerAmount message).2 id = OfferContract.GetOffer ctx id) ∧
    (ctx.state id = some v →
      ∀ (owner ownerName location : String) (area price : Float64)
        (propertyType description : String) (latitude longitude : Float64),
        PropertyContract.RegisterProperty ctx id owner ownerName location area price propertyType
          description latitude longitude =
          (.error ("property " ++ id ++ " already exists"), ctx) ∧
        PropertyContract.GetProperty (PropertyContract.RegisterProperty ctx id owner ownerName
          location area price propertyType description latitude longitude).2 id =
          PropertyContract.GetProperty ctx id) ∧
    (ctx.state ("USER_" ++ id) = some v →
      ∀ (name email role walletAddress phone : String),
        PropertyContract.RegisterUser ctx id name email role walletAddress phone =
          (.error ("user " ++ id ++ " already exists"), ctx) ∧
        PropertyContract.GetUser
          (PropertyContract.RegisterUser ctx id name email role walletAddress phone).2 id =
          PropertyContract.GetUser ctx id) ∧
    (ctx.state id = some v →
      ∀ (name email phone aadhar pan address role walletAddress passwordHash : String),
        UserContract.RegisterUser ctx id name email phone aadhar pan address role walletAddress
          passwordHash = (.error ("user " ++ id ++ " already exists"), ctx) ∧
        UserContract.GetUser (UserContract.RegisterUser ctx id name email phone aadhar pan address
          role walletAddress passwordHash).2 id = UserContract.GetUser ctx id) := by
  refine ⟨?_, ?_, ?_, ?_, ?_⟩
  · intro h propertyID buyer seller amount
    have hc : EscrowContract.CreateEscrow ctx id propertyID buyer seller amount =
        (.error ("escrow " ++ id ++ " already exists"), ctx) := by
      simp [EscrowContract.CreateEscrow, EscrowContract.EscrowExists, Stub.GetState, h]
    exact ⟨hc, by rw [hc]⟩
  · intro h propertyID buyerID buyerName sellerID sellerName offerAmount message
    have hc : OfferContract.CreateOffer ctx id propertyID buyerID buyerName sellerID sellerName
        offerAmount message = (.error ("offer " ++ id ++ " already exists"), ctx) := by
      simp [OfferContract.CreateOffer, OfferContract.OfferExists, Stub.GetState, h]
    exact ⟨hc, by rw [hc]⟩
  · intro h owner ownerName location area price propertyType description latitude longitude
    have hc : PropertyContract.RegisterProperty ctx id owner ownerName location area price
        propertyType description latitude longitude =
        (.error ("property " ++ id ++ " already exists"), ctx) := by
      simp [PropertyContract.RegisterProperty, PropertyContract.PropertyExists, Stub.GetState, h]
    exact ⟨hc, by rw [hc]⟩
  · intro h name email role walletAddress phone
    have hc : PropertyContract.RegisterUser ctx id name email role walletAddress phone =
        (.error ("user " ++ id ++ " already exists"), ctx) := by
      simp [PropertyContract.RegisterUser, PropertyContract.UserExists, Stub.GetState, h]
    exact ⟨hc, by rw [hc]⟩
  · intro h name email phone aadhar pan address role walletAddress passwordHash
    have hc : UserContract.RegisterUser ctx id name email phone aadhar pan address role
        walletAddress passwordHash = (.error ("user " ++ id ++ " already exists"), ctx) := by
      simp [UserContract.RegisterUser, UserContract.UserExists, Stub.GetState, h]
    exact ⟨hc, by rw [hc]⟩

/-- C4 on ledgers that hold the sample escrow, offer and property and a
registered user. -/
theorem create_on_existing_key_fails_witness :
    (EscrowContract.CreateEscrow ⟨EscrowContract.sampleLedger "FUNDED", some ⟨200, 0⟩⟩ "E1" "P2"
        "ann" "joe" ⟨7, 0⟩ = (.error ("escrow " ++ "E1" ++ " already exists"),
          ⟨EscrowContract.sampleLedger "FUNDED", some ⟨200, 0⟩⟩)) ∧
    (OfferContract.CreateOffer ⟨OfferContract.sampleLedger "PENDING", some ⟨200, 0⟩⟩ "O1" "P2" "b2"
        "ann" "s2" "joe" ⟨7, 0⟩ "hi" = (.error ("offer " ++ "O1" ++ " already exists"),
          ⟨OfferContract.sampleLedger "PENDING", some ⟨200, 0⟩⟩)) ∧
    (PropertyContract.GetProperty (PropertyContract.RegisterProperty
        ⟨PropertyContract.sampleLedger "SOLD", some ⟨200, 0⟩⟩ "P1" "ann" "Ann" "1 Low Road" ⟨7, 0⟩
        ⟨8, 0⟩ "COMMERCIAL" "shop" ⟨5, 0⟩ ⟨6, 0⟩).2 "P1" =
      PropertyContract.GetProperty ⟨PropertyContract.sampleLedger "SOLD", some ⟨200, 0⟩⟩ "P1") ∧
    (PropertyContract.RegisterUser ⟨PropertyContract.userLedger, some ⟨200, 0⟩⟩ "u1" "Ann"
        "ann@example.org" "SELLER" "0x02" "556" = (.error ("user " ++ "u1" ++ " already exists"),
          ⟨PropertyContract.userLedger, some ⟨200, 0⟩⟩)) ∧
    (UserContract.RegisterUser ⟨UserContract.userLedger, some ⟨200, 0⟩⟩ "u1" "Ann"
        "ann@example.org" "556" "4321" "EDCBA" "1 Low Road" "SELLER" "0x02" "hash2" =
          (.error ("user " ++ "u1" ++ " already exists"),
          ⟨UserContract.userLedger, some ⟨200, 0⟩⟩)) :=
  ⟨((create_on_existing_key_fails ⟨EscrowContract.sampleLedger "FUNDED", some ⟨200, 0⟩⟩ "E1"
      _).1 rfl "P2" "ann" "joe" ⟨7, 0⟩).1,
   ((create_on_existing_key_fails ⟨OfferContract.sampleLedger "PENDING", some ⟨200, 0⟩⟩ "O1"
      _).2.1 rfl "P2" "b2" "ann" "s2" "joe" ⟨7, 0⟩ "hi").1,
   ((create_on_existing_key_fails ⟨PropertyContract.sampleLedger "SOLD", some ⟨200, 0⟩⟩ "P1"
      _).2.2.1 rfl "ann" "Ann" "1 Low Road" ⟨7, 0⟩ ⟨8, 0⟩ "COMMERCIAL" "shop" ⟨5, 0⟩ ⟨6, 0⟩).2,
   ((create_on_existing_key_fails ⟨PropertyContract.userLedger, some ⟨200, 0⟩⟩ "u1"
      _).2.2.2.1 rfl "Ann" "ann@example.org" "SELLER" "0x02" "556").1,
   ((create_on_existing_key_fails ⟨UserContract.userLedger, some ⟨200, 0⟩⟩ "u1"
      _).2.2.2.2 rfl "Ann" "ann@example.org" "556" "4321" "EDCBA" "1 Low Road" "SELLER" "0x02"
      "hash2").1⟩

/-! ## The escrow state machine -/

namespace EscrowContract

/-- A successful `GetEscrow` decodes the value stored under the key. -/
theorem GetEscrow_ok_state (ctx : Stub) (escrowID : String) (e : Escrow)
    (h : GetEscrow ctx escrowID = .ok e) :
    ∃ v, ctx.state escrowID = some v ∧ jsonUnmarshal v = .ok e := by
  unfold GetEscrow Stub.GetState at h
  cases hst : ctx.state escrowID with
  | none => simp [hst] at h
  | some v => exact ⟨v, rfl, by simpa [hst] using h⟩

/-- Writing a well-formed record keeps the ledger well formed. -/
theorem wellFormed_put_escrow (ctx : Stub) (key : String) (e : Escrow) (j : Json)
    (hw : WellFormed ctx.state) (hj : jsonMarshal e = .ok j) (hs : e.Status ∈ statuses) :
    WellFormed (ctx.PutState key j).2.state := by
  intro k v hk
  by_cases hkey : k = key
  · subst hkey
    rw [Stub.PutState_state_self] at hk
    cases hk
    exact ⟨e, hj, hs⟩
  · rw [Stub.PutState_state_other ctx key k j hkey] at hk
    exact hw k v hk

/-- One invocation keeps the ledger well formed. -/
theorem wellFormed_run_escrow (w : String → Option Json) (ts : Option Timestamp) (c : Call)
    (hw : WellFormed w) : WellFormed (c.run ⟨w, ts⟩).2.state := by
  cases c with
  | create escrowID propertyID buyer seller amount =>
    rcases CreateEscrow_cases ⟨w, ts⟩ escrowID propertyID buyer seller amount with
      ⟨msg, h⟩ | ⟨t, j, _, _, hj, h⟩
    · simpa [Call.run, h] using hw
    · simp only [Call.run, h]
      exact wellFormed_put_escrow ⟨w, ts⟩ escrowID _ j hw hj (by simp [statuses])
  | fund escrowID txHash =>
    rcases FundEscrow_cases ⟨w, ts⟩ escrowID txHash with ⟨msg, h⟩ | ⟨e, t, j, _, _, _, hj, h⟩
    · simpa [Call.run, h] using hw
    · simp only [Call.run, h]
      exact wellFormed_put_escrow ⟨w, ts⟩ escrowID _ j hw hj (by simp [statuses])
  | release escrowID txHash =>
    rcases ReleaseEscrow_cases ⟨w, ts⟩ escrowID txHash with ⟨msg, h⟩ | ⟨e, t, j, _, _, _, hj, h⟩
    · simpa [Call.run, h] using hw
    · simp only [Call.run, h]
      exact wellFormed_put_escrow ⟨w, ts⟩ escrowID _ j hw hj (by simp [statuses])
  | cancel escrowID txHash =>
    rcases CancelEscrow_cases ⟨w, ts⟩ escrowID txHash with ⟨msg, h⟩ | ⟨e, t, j, _, _, _, hj, h⟩
    · simpa [Call.run, h] using hw
    · simp only [Call.run, h]
      exact wellFormed_put_escrow ⟨w, ts⟩ escrowID _ j hw hj (by simp [statuses])

/-- Every reachable ledger is well formed. -/
theorem Reachable.wellFormed_escrow (w : String → Option Json) (h : Reachable w) : WellFormed w := by
  induction h with
  | empty =>
    intro k v hk
    cases hk
  | step w ts c _ ih => exact wellFormed_run_escrow w ts c ih

/-- In a reachable ledger every record read by `GetEscrow` has one of the four
statuses. -/
theorem Reachable.status_mem_escrow (w : String → Option Json) (h : Reachable w)
    (ts : Option Timestamp) (escrowID : String) (e : Escrow)
    (hget : GetEscrow ⟨w, ts⟩ escrowID = .ok e) : e.Status ∈ statuses := by
  obtain ⟨v, hv, hdec⟩ := GetEscrow_ok_state _ _ _ hget
  obtain ⟨e0, hj, hs⟩ := h.wellFormed_escrow w escrowID v hv
  rw [unmarshal_marshal_escrow e0 v hj] at hdec
  cases hdec
  exact hs

end EscrowContract

/-- C5 as stated fails: on the reachable ledger left by `CreateEscrow` then
`CancelEscrow`, a second `CancelEscrow` succeeds on an escrow whose status is
CANCELLED and leaves it CANCELLED, a step that is not among the four stated
ones. -/
theorem escrow_cancel_of_cancelled_succeeds :
    EscrowContract.Reachable EscrowContract.cancelledLedger ∧
    EscrowContract.GetEscrow ⟨EscrowContract.cancelledLedger, some ⟨300, 0⟩⟩ "E1" =
      .ok ⟨"E1", "P1", "bob", "sue", ⟨5, 0⟩, "CANCELLED", "r1", ⟨100, 0⟩, ⟨200, 0⟩⟩ ∧
    (EscrowContract.CancelEscrow ⟨EscrowContract.cancelledLedger, some ⟨300, 0⟩⟩ "E1" "r2").1 =
      .ok () ∧
    EscrowContract.GetEscrow
      (EscrowContract.CancelEscrow ⟨EscrowContract.cancelledLedger, some ⟨300, 0⟩⟩ "E1" "r2").2
      "E1" = .ok ⟨"E1", "P1", "bob", "sue", ⟨5, 0⟩, "CANCELLED", "r2", ⟨100, 0⟩, ⟨300, 0⟩⟩ ∧
    ("CANCELLED", "CANCELLED") ∉ EscrowContract.statedSteps := by
  refine ⟨?_, rfl, rfl, rfl, by decide⟩
  exact EscrowContract.Reachable.step _ (some ⟨200, 0⟩) (.cancel "E1" "r1")
    (EscrowContract.Reachable.step _ (some ⟨100, 0⟩) (.create "E1" "P1" "bob" "sue" ⟨5, 0⟩)
      EscrowContract.Reachable.empty)

/-- C5 (amended): in every ledger reachable from the empty ledger by escrow
operations, a successful escrow mutator takes the stored status along one of
CREATED to FUNDED, FUNDED to RELEASED, CREATED to CANCELLED, FUNDED to CANCELLED
or CANCELLED to CANCELLED, and is never applied to an escrow whose status is
RELEASED; each of these five steps is taken by some successful mutator on some
reachable ledger. -/
theorem escrow_mutator_steps :
    (∀ (w : String → Option Json) (ts : Option Timestamp) (c : EscrowContract.Call),
      EscrowContract.Reachable w → c.isMutator = true → (c.run ⟨w, ts⟩).1 = .ok () →
      ∃ e e1, EscrowContract.GetEscrow ⟨w, ts⟩ c.key = .ok e ∧
        EscrowContract.GetEscrow (c.run ⟨w, ts⟩).2 c.key = .ok e1 ∧
        (e.Status, e1.Status) ∈ EscrowContract.steps ∧ e.Status ≠ "RELEASED") ∧
    (∀ p ∈ EscrowContract.steps,
      ∃ (w : String → Option Json) (ts : Option Timestamp) (c : EscrowContract.Call) (e e1 : _),
        EscrowContract.Reachable w ∧ c.isMutator = true ∧ (c.run ⟨w, ts⟩).1 = .ok () ∧
        EscrowContract.GetEscrow ⟨w, ts⟩ c.key = .ok e ∧
        EscrowContract.GetEscrow (c.run ⟨w, ts⟩).2 c.key = .ok e1 ∧
        (e.Status, e1.Status) = p) := by
  refine ⟨?_, ?_⟩
  · intro w ts c hw hc hok
    cases c with
    | create escrowID propertyID buyer seller amount => simp [EscrowContract.Call.isMutator] at hc
    | fund escrowID txHash =>
      rcases EscrowContract.FundEscrow_cases ⟨w, ts⟩ escrowID txHash with
        ⟨msg, h⟩ | ⟨e, t, j, hget, hs, _, hj, h⟩
      · simp [EscrowContract.Call.run, h] at hok
      · refine ⟨e, { e with Status := "FUNDED", TransactionHash := txHash,
                              UpdatedAt := timeUnix t.Seconds t.Nanos }, hget, ?_, ?_, ?_⟩
        · simp only [EscrowContract.Call.run, EscrowContract.Call.key, h]
          exact EscrowContract.GetEscrow_PutState _ _ _ j hj
        · simp [hs, EscrowContract.steps]
        · simp [hs]
    | release escrowID txHash =>
      rcases EscrowContract.ReleaseEscrow_cases ⟨w, ts⟩ escrowID txHash with
        ⟨msg, h⟩ | ⟨e, t, j, hget, hs, _, hj, h⟩
      · simp [EscrowContract.Call.run, h] at hok
      · refine ⟨e, { e with Status := "RELEASED", TransactionHash := txHash,
                              UpdatedAt := timeUnix t.Seconds t.Nanos }, hget, ?_, ?_, ?_⟩
        · simp only [EscrowContract.Call.run, EscrowContract.Call.key, h]
          exact EscrowContract.GetEscrow_PutState _ _ _ j hj
        · simp [hs, EscrowContract.steps]
        · simp [hs]
    | cancel escrowID txHash =>
      rcases EscrowContract.CancelEscrow_cases ⟨w, ts⟩ escrowID txHash with
        ⟨msg, h⟩ | ⟨e, t, j, hget, hs, _, hj, h⟩
      · simp [EscrowContract.Call.run, h] at hok
      · refine ⟨e, { e with Status := "CANCELLED", TransactionHash := txHash,
                              UpdatedAt := timeUnix t.Seconds t.Nanos }, hget, ?_, ?_, hs⟩
        · simp only [EscrowContract.Call.run, EscrowContract.Call.key, h]
          exact EscrowContract.GetEscrow_PutState _ _ _ j hj
        · have hmem := hw.status_mem_escrow w ts escrowID e hget
          simp only [EscrowContract.statuses, List.mem_cons, List.mem_singleton,
            List.not_mem_nil, or_false] at hmem
          rcases hmem with h1 | h1 | h1 | h1
          · simp [h1, EscrowContract.steps]
          · simp [h1, EscrowContract.steps]
          · exact absurd h1 hs
          · simp [h1, EscrowContract.steps]
  · have hcreated : EscrowContract.Reachable EscrowContract.createdLedger :=
      EscrowContract.Reachable.step _ (some ⟨100, 0⟩) (.create "E1" "P1" "bob" "sue" ⟨5, 0⟩)
        EscrowContract.Reachable.empty
    have hfunded : EscrowContract.Reachable EscrowContract.fundedLedger :=
      EscrowContract.Reachable.step _ (some ⟨150, 0⟩) (.fund "E1" "f1") hcreated
    have hcancelled : EscrowContract.Reachable EscrowContract.cancelledLedger :=
      EscrowContract.Reachable.step _ (some ⟨200, 0⟩) (.cancel "E1" "r1") hcreated
    intro p hp
    simp only [EscrowContract.steps, List.mem_cons, List.mem_singleton, List.not_mem_nil,
      or_false] at hp
    rcases hp with rfl | rfl | rfl | rfl | rfl
    · exact ⟨EscrowContract.createdLedger, some ⟨300, 0⟩, .fund "E1" "f2", _, _, hcreated, rfl,
        rfl, rfl, rfl, rfl⟩
    · exact ⟨EscrowContract.fundedLedger, some ⟨300, 0⟩, .release "E1" "f2", _, _, hfunded, rfl,
        rfl, rfl, rfl, rfl⟩
    · exact ⟨EscrowContract.createdLedger, some ⟨300, 0⟩, .cancel "E1" "f2", _, _, hcreated, rfl,
        rfl, rfl, rfl, rfl⟩
    · exact ⟨EscrowContract.fundedLedger, some ⟨300, 0⟩, .cancel "E1" "f2", _, _, hfunded, rfl,
        rfl, rfl, rfl, rfl⟩
    · exact ⟨EscrowContract.cancelledLedger, some ⟨300, 0⟩, .cancel "E1" "f2", _, _, hcancelled,
        rfl, rfl, rfl, rfl, rfl⟩

/-- C5 (amended) at the second `CancelEscrow` of a cancelled escrow. -/
theorem escrow_mutator_steps_witness :
    ∃ e e1, EscrowContract.GetEscrow ⟨EscrowContract.cancelledLedger, some ⟨300, 0⟩⟩ "E1" =
        .ok e ∧
      EscrowContract.GetEscrow (EscrowContract.CancelEscrow
        ⟨EscrowContract.cancelledLedger, some ⟨300, 0⟩⟩ "E1" "r2").2 "E1" = .ok e1 ∧
      (e.Status, e1.Status) ∈ EscrowContract.steps ∧ e.Status ≠ "RELEASED" :=
  escrow_mutator_steps.1 EscrowContract.cancelledLedger (some ⟨300, 0⟩) (.cancel "E1" "r2")
    (EscrowContract.Reachable.step _ (some ⟨200, 0⟩) (.cancel "E1" "r1")
      (EscrowContract.Reachable.step _ (some ⟨100, 0⟩) (.create "E1" "P1" "bob" "sue" ⟨5, 0⟩)
        EscrowContract.Reachable.empty)) rfl rfl

/-! ## The offer state machine -/

namespace OfferContract

/-- A successful `GetOffer` decodes the value stored under the key. -/
theorem GetOffer_ok_state (ctx : Stub) (offerID : String) (o : Offer)
    (h : GetOffer ctx offerID = .ok o) :
    ∃ v, ctx.state offerID = some v ∧ jsonUnmarshal v = .ok o := by
  unfold GetOffer Stub.GetState at h
  cases hst : ctx.state offerID with
  | none => simp [hst] at h
  | some v => exact ⟨v, rfl, by simpa [hst] using h⟩

/-- Writing a well-formed record keeps the ledger well formed. -/
theorem wellFormed_put_offer (ctx : Stub) (key : String) (o : Offer) (j : Json)
    (hw : WellFormed ctx.state) (hj : jsonMarshal o = .ok j) (hs : o.Status ∈ statuses) :
    WellFormed (ctx.PutState key j).2.state := by
  intro k v hk
  by_cases hkey : k = key
  · subst hkey
    rw [Stub.PutState_state_self] at hk
    cases hk
    exact ⟨o, hj, hs⟩
  · rw [Stub.PutState_state_other ctx key k j hkey] at hk
    exact hw k v hk

/-- One invocation keeps the ledger well formed. -/
theorem wellFormed_run_offer (w : String → Option Json) (ts : Option Timestamp) (c : Call)
    (hw : WellFormed w) : WellFormed (c.run ⟨w, ts⟩).2.state := by
  cases c with
  | create offerID propertyID buyerID buyerName sellerID sellerName offerAmount message =>
    rcases CreateOffer_cases ⟨w, ts⟩ offerID propertyID buyerID buyerName sellerID sellerName
      offerAmount message with ⟨msg, h⟩ | ⟨t, j, _, _, hj, h⟩
    · simpa [Call.run, h] using hw
    · simp only [Call.run, h]
      exact wellFormed_put_offer ⟨w, ts⟩ offerID _ j hw hj (by simp [statuses])
  | accept offerID =>
    rcases AcceptOffer_cases ⟨w, ts⟩ offerID with ⟨msg, h⟩ | ⟨o, t, j, _, _, _, hj, h⟩
    · simpa [Call.run, h] using hw
    · simp only [Call.run, h]
      exact wellFormed_put_offer ⟨w, ts⟩ offerID _ j hw hj (by simp [statuses])
  | reject offerID =>
    rcases RejectOffer_cases ⟨w, ts⟩ offerID with ⟨msg, h⟩ | ⟨o, t, j, _, _, _, hj, h⟩
    · simpa [Call.run, h] using hw
    · simp only [Call.run, h]
      exact wellFormed_put_offer ⟨w, ts⟩ offerID _ j hw hj (by simp [statuses])
  | adminVerify offerID adminID sepoliaTxHash =>
    rcases AdminVerifyOffer_cases ⟨w, ts⟩ offerID adminID sepoliaTxHash with ⟨msg, h⟩ | ⟨o, t, j, _, _, _, hj, h⟩
    · simpa [Call.run, h] using hw
    · simp only [Call.run, h]
      exact wellFormed_put_offer ⟨w, ts⟩ offerID _ j hw hj (by simp [statuses])
  | complete offerID =>
    rcases CompleteOffer_cases ⟨w, ts⟩ offerID with ⟨msg, h⟩ | ⟨o, t, j, _, _, _, hj, h⟩
    · simpa [Call.run, h] using hw
    · simp only [Call.run, h]
      exact wellFormed_put_offer ⟨w, ts⟩ offerID _ j hw hj (by simp [statuses])
  | cancel offerID =>
    rcases CancelOffer_cases ⟨w, ts⟩ offerID with ⟨msg, h⟩ | ⟨o, t, j, _, _, _, hj, h⟩
    · simpa [Call.run, h] using hw
    · simp only [Call.run, h]
      exact wellFormed_put_offer ⟨w, ts⟩ offerID _ j hw hj (by simp [statuses])

/-- Every reachable ledger is well formed. -/
theorem Reachable.wellFormed_offer (w : String → Option Json) (h : Reachable w) : WellFormed w := by
  induction h with
  | empty =>
    intro k v hk
    cases hk
  | step w ts c _ ih => exact wellFormed_run_offer w ts c ih

/-- In a reachable ledger every record read by `GetOffer` has one of the six
statuses. -/
theorem Reachable.status_mem_offer (w : String → Option Json) (h : Reachable w)
    (ts : Option Timestamp) (offerID : String) (o : Offer)
    (hget : GetOffer ⟨w, ts⟩ offerID = .ok o) : o.Status ∈ statuses := by
  obtain ⟨v, hv, hdec⟩ := GetOffer_ok_state _ _ _ hget
  obtain ⟨o0, hj, hs⟩ := h.wellFormed_offer w offerID v hv
  rw [unmarshal_marshal_offer o0 v hj] at hdec
  cases hdec
  exact hs

/-- No invocation changes the value stored under the key of a completed offer. -/
theorem run_state_of_completed (w : String → Option Json) (ts0 ts : Option Timestamp) (c : Call)
    (k : String) (o : Offer) (hget : GetOffer ⟨w, ts0⟩ k = .ok o)
    (hs : o.Status = "COMPLETED") : (c.run ⟨w, ts⟩).2.state k = w k := by
  cases c with
  | create offerID propertyID buyerID buyerName sellerID sellerName offerAmount message =>
    rcases CreateOffer_cases ⟨w, ts⟩ offerID propertyID buyerID buyerName sellerID sellerName
      offerAmount message with ⟨msg, h⟩ | ⟨t, j, hnone, _, _, h⟩
    · simp [Call.run, h]
    · simp only [Call.run, h]
      by_cases hk : k = offerID
      · subst hk
        obtain ⟨v, hv, _⟩ := GetOffer_ok_state _ _ _ hget
        simp only at hnone hv
        rw [hnone] at hv
        cases hv
      · exact Stub.PutState_state_other _ _ _ _ hk
  | accept offerID =>
    rcases AcceptOffer_cases ⟨w, ts⟩ offerID with ⟨msg, h⟩ | ⟨o1, t, j, hget1, hs1, _, _, h⟩
    · simp [Call.run, h]
    · simp only [Call.run, h]
      by_cases hk : k = offerID
      · subst hk
        rw [GetOffer_congr ⟨w, ts0⟩ ⟨w, ts⟩ k rfl, hget] at hget1
        cases hget1
        rw [hs] at hs1
        exact absurd hs1 (by decide)
      · exact Stub.PutState_state_other _ _ _ _ hk
  | reject offerID =>
    rcases RejectOffer_cases ⟨w, ts⟩ offerID with ⟨msg, h⟩ | ⟨o1, t, j, hget1, hs1, _, _, h⟩
    · simp [Call.run, h]
    · simp only [Call.run, h]
      by_cases hk : k = offerID
      · subst hk
        rw [GetOffer_congr ⟨w, ts0⟩ ⟨w, ts⟩ k rfl, hget] at hget1
        cases hget1
        rw [hs] at hs1
        exact absurd hs1 (by decide)
      · exact Stub.PutState_state_other _ _ _ _ hk
  | adminVerify offerID adminID sepoliaTxHash =>
    rcases AdminVerifyOffer_cases ⟨w, ts⟩ offerID adminID sepoliaTxHash with ⟨msg, h⟩ | ⟨o1, t, j, hget1, hs1, _, _, h⟩
    · simp [Call.run, h]
    · simp only [Call.run, h]
      by_cases hk : k = offerID
      · subst hk
        rw [GetOffer_congr ⟨w, ts0⟩ ⟨w, ts⟩ k rfl, hget] at hget1
        cases hget1
        rw [hs] at hs1
        exact absurd hs1 (by decide)
      · exact Stub.PutState_state_other _ _ _ _ hk
  | complete offerID =>
    rcases CompleteOffer_cases ⟨w, ts⟩ offerID with ⟨msg, h⟩ | ⟨o1, t, j, hget1, hs1, _, _, h⟩
    · simp [Call.run, h]
    · simp only [Call.run, h]
      by_cases hk : k = offerID
      · subst hk
        rw [GetOffer_congr ⟨w, ts0⟩ ⟨w, ts⟩ k rfl, hget] at hget1
        cases hget1
        rw [hs] at hs1
        exact absurd hs1 (by decide)
      · exact Stub.PutState_state_other _ _ _ _ hk
  | cancel offerID =>
    rcases CancelOffer_cases ⟨w, ts⟩ offerID with ⟨msg, h⟩ | ⟨o1, t, j, hget1, hs1, _, _, h⟩
    · simp [Call.run, h]
    · simp only [Call.run, h]
      by_cases hk : k = offerID
      · subst hk
        rw [GetOffer_congr ⟨w, ts0⟩ ⟨w, ts⟩ k rfl, hget] at hget1
        cases hget1
        exact absurd hs hs1
      · exact Stub.PutState_state_other _ _ _ _ hk

/-- No sequence of invocations changes the value stored under the key of a
completed offer. -/
theorem runAll_state_of_completed (calls : List (Option Timestamp × Call))
    (w : String → Option Json) (ts0 : Option Timestamp) (k : String) (o : Offer)
    (hget : GetOffer ⟨w, ts0⟩ k = .ok o) (hs : o.Status = "COMPLETED") :
    runAll calls w k = w k := by
  induction calls generalizing w with
  | nil => rfl
  | cons tc rest ih =>
    obtain ⟨ts, c⟩ := tc
    have hstep := run_state_of_completed w ts0 ts c k o hget hs
    have hget1 : GetOffer ⟨(c.run ⟨w, ts⟩).2.state, ts0⟩ k = .ok o := by
      rw [GetOffer_congr ⟨w, ts0⟩ ⟨(c.run ⟨w, ts⟩).2.state, ts0⟩ k hstep]
      exact hget
    simp only [runAll]
    rw [ih _ hget1, hstep]

end OfferContract

/-- C6: in every ledger reachable from the empty ledger by offer operations the
status of every stored offer is one of PENDING, ACCEPTED, REJECTED,
ADMIN_VERIFIED, COMPLETED, CANCELLED; a successful offer mutator takes the status
along PENDING to ACCEPTED, ACCEPTED to ADMIN_VERIFIED, ADMIN_VERIFIED to
COMPLETED, PENDING to REJECTED, or from a status other than COMPLETED to
CANCELLED; and once an offer is COMPLETED no sequence of operations changes its
record, so its status stays COMPLETED. -/
theorem offer_state_machine :
    (∀ (w : String → Option Json) (ts : Option Timestamp) (k : String) (o : OfferContract.Offer),
      OfferContract.Reachable w → OfferContract.GetOffer ⟨w, ts⟩ k = .ok o →
      o.Status ∈ OfferContract.statuses) ∧
    (∀ (w : String → Option Json) (ts : Option Timestamp) (c : OfferContract.Call),
      OfferContract.Reachable w → c.isMutator = true → (c.run ⟨w, ts⟩).1 = .ok () →
      ∃ o o1, OfferContract.GetOffer ⟨w, ts⟩ c.key = .ok o ∧
        OfferContract.GetOffer (c.run ⟨w, ts⟩).2 c.key = .ok o1 ∧
        OfferContract.isStep o.Status o1.Status) ∧
    (∀ (w : String → Option Json) (ts : Option Timestamp) (k : String) (o : OfferContract.Offer)
      (calls : List (Option Timestamp × OfferContract.Call)),
      OfferContract.GetOffer ⟨w, ts⟩ k = .ok o → o.Status = "COMPLETED" →
      OfferContract.GetOffer ⟨OfferContract.runAll calls w, ts⟩ k = .ok o) := by
  refine ⟨?_, ?_, ?_⟩
  · intro w ts k o hw hget
    exact hw.status_mem_offer w ts k o hget
  · intro w ts c hw hc hok
    cases c with
    | create offerID propertyID buyerID buyerName sellerID sellerName offerAmount message =>
      simp [OfferContract.Call.isMutator] at hc
    | accept offerID =>
      rcases OfferContract.AcceptOffer_cases ⟨w, ts⟩ offerID with
        ⟨msg, h⟩ | ⟨o, t, j, hget, hs, _, hj, h⟩
      · simp [OfferContract.Call.run, h] at hok
      · refine ⟨o, { o with Status := "ACCEPTED", UpdatedAt := timeUnix t.Seconds t.Nanos }, hget, ?_, ?_⟩
        · simp only [OfferContract.Call.run, OfferContract.Call.key, h]
          exact OfferContract.GetOffer_PutState _ _ _ j hj
        · simp [hs, OfferContract.isStep]
    | reject offerID =>
      rcases OfferContract.RejectOffer_cases ⟨w, ts⟩ offerID with
        ⟨msg, h⟩ | ⟨o, t, j, hget, hs, _, hj, h⟩
      · simp [OfferContract.Call.run, h] at hok
      · refine ⟨o, { o with Status := "REJECTED", UpdatedAt := timeUnix t.Seconds t.Nanos }, hget, ?_, ?_⟩
        · simp only [OfferContract.Call.run, OfferContract.Call.key, h]
          exact OfferContract.GetOffer_PutState _ _ _ j hj
        · simp [hs, OfferContract.isStep]
    | adminVerify offerID adminID sepoliaTxHash =>
      rcases OfferContract.AdminVerifyOffer_cases ⟨w, ts⟩ offerID adminID sepoliaTxHash with
        ⟨msg, h⟩ | ⟨o, t, j, hget, hs, _, hj, h⟩
      · simp [OfferContract.Call.run, h] at hok
      · refine ⟨o, { o with Status := "ADMIN_VERIFIED", AdminVerified := true,
                              AdminID := adminID, VerifiedAt := timeUnix t.Seconds t.Nanos,
                              SepoliaTxHash := sepoliaTxHash, UpdatedAt := timeUnix t.Seconds t.Nanos }, hget, ?_, ?_⟩
        · simp only [OfferContract.Call.run, OfferContract.Call.key, h]
          exact OfferContract.GetOffer_PutState _ _ _ j hj
        · simp [hs, OfferContract.isStep]
    | complete offerID =>
      rcases OfferContract.CompleteOffer_cases ⟨w, ts⟩ offerID with
        ⟨msg, h⟩ | ⟨o, t, j, hget, hs, _, hj, h⟩
      · simp [OfferContract.Call.run, h] at hok
      · refine ⟨o, { o with Status := "COMPLETED", UpdatedAt := timeUnix t.Seconds t.Nanos }, hget, ?_, ?_⟩
        · simp only [OfferContract.Call.run, OfferContract.Call.key, h]
          exact OfferContract.GetOffer_PutState _ _ _ j hj
        · simp [hs, OfferContract.isStep]
    | cancel offerID =>
      rcases OfferContract.CancelOffer_cases ⟨w, ts⟩ offerID with
        ⟨msg, h⟩ | ⟨o, t, j, hget, hs, _, hj, h⟩
      · simp [OfferContract.Call.run, h] at hok
      · refine ⟨o, { o with Status := "CANCELLED", UpdatedAt := timeUnix t.Seconds t.Nanos }, hget, ?_, ?_⟩
        · simp only [OfferContract.Call.run, OfferContract.Call.key, h]
          exact OfferContract.GetOffer_PutState _ _ _ j hj
        · simp [hs, OfferContract.isStep]
  · intro w ts k o calls hget hs
    rw [OfferContract.GetOffer_congr ⟨w, ts⟩ ⟨OfferContract.runAll calls w, ts⟩ k
      (OfferContract.runAll_state_of_completed calls w ts k o hget hs)]
    exact hget

/-- C6 on the ledgers left by create, accept and admin-verify of offer `O1` and
by its completion: the status read is one of the six, the completing call takes
ADMIN_VERIFIED to COMPLETED, and a later `CancelOffer` and `AcceptOffer` leave
the completed record as it is. -/
theorem offer_state_machine_witness :
    OfferContract.Reachable OfferContract.verifiedLedger ∧
    OfferContract.GetOffer ⟨OfferContract.verifiedLedger, none⟩ "O1" =
      .ok ⟨"O1", "P1", "b1", "bob", "s1", "sue", ⟨5, 0⟩, "ADMIN_VERIFIED", "hello", true, "admin",
        ⟨300, 0⟩, "0xabc", ⟨100, 0⟩, ⟨300, 0⟩⟩ ∧
    "ADMIN_VERIFIED" ∈ OfferContract.statuses ∧
    (∃ o o1, OfferContract.GetOffer ⟨OfferContract.verifiedLedger, some ⟨400, 0⟩⟩ "O1" = .ok o ∧
      OfferContract.GetOffer (OfferContract.CompleteOffer
        ⟨OfferContract.verifiedLedger, some ⟨400, 0⟩⟩ "O1").2 "O1" = .ok o1 ∧
      OfferContract.isStep o.Status o1.Status) ∧
    OfferContract.GetOffer ⟨OfferContract.runAll
        [(some ⟨500, 0⟩, .cancel "O1"), (some ⟨600, 0⟩, .accept "O1")]
        OfferContract.completedLedger, none⟩ "O1" =
      .ok ⟨"O1", "P1", "b1", "bob", "s1", "sue", ⟨5, 0⟩, "COMPLETED", "hello", true, "admin",
        ⟨300, 0⟩, "0xabc", ⟨100, 0⟩, ⟨400, 0⟩⟩ :=
  have hr : OfferContract.Reachable OfferContract.verifiedLedger :=
    OfferContract.Reachable.step _ (some ⟨300, 0⟩) (.adminVerify "O1" "admin" "0xabc")
      (OfferContract.Reachable.step _ (some ⟨200, 0⟩) (.accept "O1")
        (OfferContract.Reachable.step _ (some ⟨100, 0⟩)
          (.create "O1" "P1" "b1" "bob" "s1" "sue" ⟨5, 0⟩ "hello") OfferContract.Reachable.empty))
  ⟨hr, rfl,
   offer_state_machine.1 OfferContract.verifiedLedger none "O1"
     ⟨"O1", "P1", "b1", "bob", "s1", "sue", ⟨5, 0⟩, "ADMIN_VERIFIED", "hello", true, "admin",
       ⟨300, 0⟩, "0xabc", ⟨100, 0⟩, ⟨300, 0⟩⟩ hr rfl,
   offer_state_machine.2.1 OfferContract.verifiedLedger (some ⟨400, 0⟩) (.complete "O1") hr rfl
     rfl,
   offer_state_machine.2.2 OfferContract.completedLedger none "O1" _
     [(some ⟨500, 0⟩, .cancel "O1"), (some ⟨600, 0⟩, .accept "O1")] rfl rfl⟩

/-! ## Successful and refused calls -/

namespace EscrowContract

/-- A successful `CreateEscrow`: the result and the record read back. -/
theorem CreateEscrow_ok (ctx : Stub) (escrowID propertyID buyer seller : String)
    (amount : Float64) (ts : Timestamp) (hfresh : ctx.state escrowID = none)
    (hts : ctx.txTimestamp = some ts) :
    (CreateEscrow ctx escrowID propertyID buyer seller amount).1 = .ok () ∧
    GetEscrow (CreateEscrow ctx escrowID propertyID buyer seller amount).2 escrowID =
      .ok ⟨escrowID, propertyID, buyer, seller, amount, "CREATED", "",
        timeUnix ts.Seconds ts.Nanos, timeUnix ts.Seconds ts.Nanos⟩ := by
  unfold CreateEscrow
  simp only [EscrowExists, Stub.GetState, hfresh, Option.isSome_none, Stub.GetTxTimestamp, hts,
    jsonMarshal]
  exact ⟨rfl, by simp [GetEscrow, Stub.GetState, Stub.PutState]; rfl⟩

/-- A successful `FundEscrow`: the result and the record read back. -/
theorem FundEscrow_ok (ctx : Stub) (escrowID txHash : String) (e : Escrow) (ts : Timestamp)
    (hget : GetEscrow ctx escrowID = .ok e) (hs : e.Status = "CREATED")
    (hts : ctx.txTimestamp = some ts) :
    (FundEscrow ctx escrowID txHash).1 = .ok () ∧
    GetEscrow (FundEscrow ctx escrowID txHash).2 escrowID =
      .ok { e with Status := "FUNDED", TransactionHash := txHash,
                   UpdatedAt := timeUnix ts.Seconds ts.Nanos } := by
  unfold FundEscrow
  simp only [hget, hs, Stub.GetTxTimestamp, hts, jsonMarshal, ne_eq, not_true_eq_false,
    not_false_eq_true, if_true, if_false]
  exact ⟨rfl, by simp [GetEscrow, Stub.GetState, Stub.PutState]; rfl⟩

/-- A successful `ReleaseEscrow`: the result and the record read back. -/
theorem ReleaseEscrow_ok (ctx : Stub) (escrowID txHash : String) (e : Escrow) (ts : Timestamp)
    (hget : GetEscrow ctx escrowID = .ok e) (hs : e.Status = "FUNDED")
    (hts : ctx.txTimestamp = some ts) :
    (ReleaseEscrow ctx escrowID txHash).1 = .ok () ∧
    GetEscrow (ReleaseEscrow ctx escrowID txHash).2 escrowID =
      .ok { e with Status := "RELEASED", TransactionHash := txHash,
                   UpdatedAt := timeUnix ts.Seconds ts.Nanos } := by
  unfold ReleaseEscrow
  simp only [hget, hs, Stub.GetTxTimestamp, hts, jsonMarshal, ne_eq, not_true_eq_false,
    not_false_eq_true, if_true, if_false]
  exact ⟨rfl, by simp [GetEscrow, Stub.GetState, Stub.PutState]; rfl⟩

/-- A successful `CancelEscrow`: the result and the record read back. -/
theorem CancelEscrow_ok (ctx : Stub) (escrowID txHash : String) (e : Escrow) (ts : Timestamp)
    (hget : GetEscrow ctx escrowID = .ok e) (hs : e.Status ≠ "RELEASED")
    (hts : ctx.txTimestamp = some ts) :
    (CancelEscrow ctx escrowID txHash).1 = .ok () ∧
    GetEscrow (CancelEscrow ctx escrowID txHash).2 escrowID =
      .ok { e with Status := "CANCELLED", TransactionHash := txHash,
                   UpdatedAt := timeUnix ts.Seconds ts.Nanos } := by
  unfold CancelEscrow
  simp only [hget, hs, Stub.GetTxTimestamp, hts, jsonMarshal, ne_eq, not_true_eq_false,
    not_false_eq_true, if_true, if_false]
  exact ⟨rfl, by simp [GetEscrow, Stub.GetState, Stub.PutState]; rfl⟩

/-- Method `FundEscrow` refused by its status guard. -/
theorem FundEscrow_rejected (ctx : Stub) (escrowID txHash : String) (e : Escrow)
    (hget : GetEscrow ctx escrowID = .ok e) (hs : e.Status ≠ "CREATED") :
    ∃ msg, FundEscrow ctx escrowID txHash = (.error msg, ctx) := by
  unfold FundEscrow
  simp [hget, hs]

/-- Method `ReleaseEscrow` refused by its status guard. -/
theorem ReleaseEscrow_rejected (ctx : Stub) (escrowID txHash : String) (e : Escrow)
    (hget : GetEscrow ctx escrowID = .ok e) (hs : e.Status ≠ "FUNDED") :
    ∃ msg, ReleaseEscrow ctx escrowID txHash = (.error msg, ctx) := by
  unfold ReleaseEscrow
  simp [hget, hs]

/-- Method `CancelEscrow` refused by its status guard. -/
theorem CancelEscrow_rejected (ctx : Stub) (escrowID txHash : String) (e : Escrow)
    (hget : GetEscrow ctx escrowID = .ok e) (hs : e.Status = "RELEASED") :
    ∃ msg, CancelEscrow ctx escrowID txHash = (.error msg, ctx) := by
  unfold CancelEscrow
  simp [hget, hs]

end EscrowContract

namespace OfferContract

/-- A successful `CreateOffer`: the result and the record read back. -/
theorem CreateOffer_ok (ctx : Stub)
    (offerID propertyID buyerID buyerName sellerID sellerName : String) (offerAmount : Float64)
    (message : String) (ts : Timestamp) (hfresh : ctx.state offerID = none)
    (hts : ctx.txTimestamp = some ts) :
    (CreateOffer ctx offerID propertyID buyerID buyerName sellerID sellerName offerAmount
      message).1 = .ok () ∧
    GetOffer (CreateOffer ctx offerID propertyID buyerID buyerName sellerID sellerName offerAmount
      message).2 offerID =
      .ok ⟨offerID, propertyID, buyerID, buyerName, sellerID, sellerName, offerAmount, "PENDING",
        message, false, "", Time.zero, "", timeUnix ts.Seconds ts.Nanos,
        timeUnix ts.Seconds ts.Nanos⟩ := by
  unfold CreateOffer
  simp only [OfferExists, Stub.GetState, hfresh, Option.isSome_none, Stub.GetTxTimestamp, hts,
    jsonMarshal]
  exact ⟨rfl, by simp [GetOffer, Stub.GetState, Stub.PutState]; rfl⟩

/-- A successful `AcceptOffer`: the result and the record read back. -/
theorem AcceptOffer_ok (ctx : Stub) (offerID : String) (o : Offer) (ts : Timestamp)
    (hget : GetOffer ctx offerID = .ok o) (hs : o.Status = "PENDING")
    (hts : ctx.txTimestamp = some ts) :
    (AcceptOffer ctx offerID).1 = .ok () ∧
    GetOffer (AcceptOffer ctx offerID).2 offerID =
      .ok { o with Status := "ACCEPTED", UpdatedAt := timeUnix ts.Seconds ts.Nanos } := by
  unfold AcceptOffer
  simp only [hget, hs, Stub.GetTxTimestamp, hts, jsonMarshal, ne_eq, not_true_eq_false,
    not_false_eq_true, if_true, if_false]
  exact ⟨rfl, by simp [GetOffer, Stub.GetState, Stub.PutState]; rfl⟩

/-- A successful `RejectOffer`: the result and the record read back. -/
theorem RejectOffer_ok (ctx : Stub) (offerID : String) (o : Offer) (ts : Timestamp)
    (hget : GetOffer ctx offerID = .ok o) (hs : o.Status = "PENDING")
    (hts : ctx.txTimestamp = some ts) :
    (RejectOffer ctx offerID).1 = .ok () ∧
    GetOffer (RejectOffer ctx offerID).2 offerID =
      .ok { o with Status := "REJECTED", UpdatedAt := timeUnix ts.Seconds ts.Nanos } := by
  unfold RejectOffer
  simp only [hget, hs, Stub.GetTxTimestamp, hts, jsonMarshal, ne_eq, not_true_eq_false,
    not_false_eq_true, if_true, if_false]
  exact ⟨rfl, by simp [GetOffer, Stub.GetState, Stub.PutState]; rfl⟩

/-- A successful `AdminVerifyOffer`: the result and the record read back. -/
theorem AdminVerifyOffer_ok (ctx : Stub) (offerID adminID sepoliaTxHash : String) (o : Offer) (ts : Timestamp)
    (hget : GetOffer ctx offerID = .ok o) (hs : o.Status = "ACCEPTED")
    (hts : ctx.txTimestamp = some ts) :
    (AdminVerifyOffer ctx offerID adminID sepoliaTxHash).1 = .ok () ∧
    GetOffer (AdminVerifyOffer ctx offerID adminID sepoliaTxHash).2 offerID =
      .ok { o with Status := "ADMIN_VERIFIED", AdminVerified := true, AdminID := adminID,
                   VerifiedAt := timeUnix ts.Seconds ts.Nanos,
                   SepoliaTxHash := sepoliaTxHash, UpdatedAt := timeUnix ts.Seconds ts.Nanos } := by
  unfold AdminVerifyOffer
  simp only [hget, hs, Stub.GetTxTimestamp, hts, jsonMarshal, ne_eq, not_true_eq_false,
    not_false_eq_true, if_true, if_false]
  exact ⟨rfl, by simp [GetOffer, Stub.GetState, Stub.PutState]; rfl⟩

/-- A successful `CompleteOffer`: the result and the record read back. -/
theorem CompleteOffer_ok (ctx : Stub) (offerID : String) (o : Offer) (ts : Timestamp)
    (hget : GetOffer ctx offerID = .ok o) (hs : o.Status = "ADMIN_VERIFIED")
    (hts : ctx.txTimestamp = some ts) :
    (CompleteOffer ctx offerID).1 = .ok () ∧
    GetOffer (CompleteOffer ctx offerID).2 offerID =
      .ok { o with Status := "COMPLETED", UpdatedAt := timeUnix ts.Seconds ts.Nanos } := by
  unfold CompleteOffer
  simp only [hget, hs, Stub.GetTxTimestamp, hts, jsonMarshal, ne_eq, not_true_eq_false,
    not_false_eq_true, if_true, if_false]
  exact ⟨rfl, by simp [GetOffer, Stub.GetState, Stub.PutState]; rfl⟩

/-- A successful `CancelOffer`: the result and the record read back. -/
theorem CancelOffer_ok (ctx : Stub) (offerID : String) (o : Offer) (ts : Timestamp)
    (hget : GetOffer ctx offerID = .ok o) (hs : o.Status ≠ "COMPLETED")
    (hts : ctx.txTimestamp = some ts) :
    (CancelOffer ctx offerID).1 = .ok () ∧
    GetOffer (CancelOffer ctx offerID).2 offerID =
      .ok { o with Status := "CANCELLED", UpdatedAt := timeUnix ts.Seconds ts.Nanos } := by
  unfold CancelOffer
  simp only [hget, hs, Stub.GetTxTimestamp, hts, jsonMarshal, ne_eq, not_true_eq_false,
    not_false_eq_true, if_true, if_false]
  exact ⟨rfl, by simp [GetOffer, Stub.GetState, Stub.PutState]; rfl⟩

/-- Method `CompleteOffer` refused by its status guard. -/
theorem CompleteOffer_rejected (ctx : Stub) (offerID : String) (o : Offer)
    (hget : GetOffer ctx offerID = .ok o) (hs : o.Status ≠ "ADMIN_VERIFIED") :
    ∃ msg, CompleteOffer ctx offerID = (.error msg, ctx) := by
  unfold CompleteOffer
  simp [hget, hs]

/-- Method `CancelOffer` refused by its status guard. -/
theorem CancelOffer_rejected (ctx : Stub) (offerID : String) (o : Offer)
    (hget : GetOffer ctx offerID = .ok o) (hs : o.Status = "COMPLETED") :
    ∃ msg, CancelOffer ctx offerID = (.error msg, ctx) := by
  unfold CancelOffer
  simp [hget, hs]

end OfferContract

/-! ## Lifecycles -/

/-- C7: on a ledger where `escrowID` is fresh, `CreateEscrow` (timestamp `t0`),
`FundEscrow` with hash `h1` (timestamp `t1`) and `ReleaseEscrow` with hash `h2`
(timestamp `t2`) all succeed and leave the record with status RELEASED,
transaction hash `h2`, `createdAt` the instant of `t0` and `updatedAt` the
instant of `t2`; `ReleaseEscrow` directly after `CreateEscrow` fails, and
`CancelEscrow` after the release fails. -/
theorem escrow_lifecycle (w : String → Option Json)
    (escrowID propertyID buyer seller : String) (amount : Float64) (h1 h2 h3 : String)
    (t0 t1 t2 t3 : Timestamp) (hfresh : w escrowID = none) :
    let created := EscrowContract.CreateEscrow ⟨w, some t0⟩ escrowID propertyID buyer seller amount
    let funded := EscrowContract.FundEscrow (created.2.withTx (some t1)) escrowID h1
    let released := EscrowContract.ReleaseEscrow (funded.2.withTx (some t2)) escrowID h2
    created.1 = .ok () ∧ funded.1 = .ok () ∧ released.1 = .ok () ∧
    EscrowContract.GetEscrow released.2 escrowID =
      .ok ⟨escrowID, propertyID, buyer, seller, amount, "RELEASED", h2,
        timeUnix t0.Seconds t0.Nanos, timeUnix t2.Seconds t2.Nanos⟩ ∧
    (∃ msg, (EscrowContract.ReleaseEscrow (created.2.withTx (some t1)) escrowID h2).1 =
      .error msg) ∧
    (∃ msg, (EscrowContract.CancelEscrow (released.2.withTx (some t3)) escrowID h3).1 =
      .error msg) := by
  intro created funded released
  obtain ⟨hc, hgc⟩ := EscrowContract.CreateEscrow_ok ⟨w, some t0⟩ escrowID propertyID buyer
    seller amount t0 hfresh rfl
  have hg1 : EscrowContract.GetEscrow (created.2.withTx (some t1)) escrowID = _ :=
    (EscrowContract.GetEscrow_congr created.2 (created.2.withTx (some t1)) escrowID rfl).trans hgc
  obtain ⟨hf, hgf⟩ := EscrowContract.FundEscrow_ok (created.2.withTx (some t1)) escrowID h1 _ t1
    hg1 rfl rfl
  obtain ⟨msg1, hrel1⟩ := EscrowContract.ReleaseEscrow_rejected (created.2.withTx (some t1))
    escrowID h2 _ hg1 (by show "CREATED" ≠ "FUNDED"; decide)
  have hg2 : EscrowContract.GetEscrow (funded.2.withTx (some t2)) escrowID = _ :=
    (EscrowContract.GetEscrow_congr funded.2 (funded.2.withTx (some t2)) escrowID rfl).trans hgf
  obtain ⟨hr, hgr⟩ := EscrowContract.ReleaseEscrow_ok (funded.2.withTx (some t2)) escrowID h2 _
    t2 hg2 rfl rfl
  have hg3 : EscrowContract.GetEscrow (released.2.withTx (some t3)) escrowID = _ :=
    (EscrowContract.GetEscrow_congr released.2 (released.2.withTx (some t3)) escrowID rfl).trans
      hgr
  obtain ⟨msg3, hcan⟩ := EscrowContract.CancelEscrow_rejected (released.2.withTx (some t3))
    escrowID h3 _ hg3 rfl
  exact ⟨hc, hf, hr, hgr, ⟨msg1, by rw [hrel1]⟩, ⟨msg3, by rw [hcan]⟩⟩

/-- C7 on the empty ledger with escrow `E1`. -/
theorem escrow_lifecycle_witness :
    (fun _ => none : String → Option Json) "E1" = none ∧
    EscrowContract.GetEscrow (EscrowContract.ReleaseEscrow ((EscrowContract.FundEscrow
      ((EscrowContract.CreateEscrow ⟨fun _ => none, some ⟨100, 0⟩⟩ "E1" "P1" "bob" "sue"
      ⟨5, 0⟩).2.withTx (some ⟨200, 0⟩)) "E1" "f1").2.withTx (some ⟨300, 5⟩)) "E1" "f2").2 "E1" =
      .ok ⟨"E1", "P1", "bob", "sue", ⟨5, 0⟩, "RELEASED", "f2", timeUnix 100 0, timeUnix 300 5⟩ ∧
    (∃ msg, (EscrowContract.ReleaseEscrow ((EscrowContract.CreateEscrow
      ⟨fun _ => none, some ⟨100, 0⟩⟩ "E1" "P1" "bob" "sue" ⟨5, 0⟩).2.withTx (some ⟨200, 0⟩)) "E1"
      "f2").1 = .error msg) :=
  ⟨rfl, (escrow_lifecycle (fun _ => none) "E1" "P1" "bob" "sue" ⟨5, 0⟩ "f1" "f2" "f3" ⟨100, 0⟩
      ⟨200, 0⟩ ⟨300, 5⟩ ⟨400, 0⟩ rfl).2.2.2.1,
    (escrow_lifecycle (fun _ => none) "E1" "P1" "bob" "sue" ⟨5, 0⟩ "f1" "f2" "f3" ⟨100, 0⟩
      ⟨200, 0⟩ ⟨300, 5⟩ ⟨400, 0⟩ rfl).2.2.2.2.1⟩

/-- C8: on a ledger where `offerID` is fresh, `CreateOffer`, `AcceptOffer`,
`AdminVerifyOffer` and `CompleteOffer` in that order all succeed and leave status
COMPLETED; `CompleteOffer` on the offer while it is PENDING or ACCEPTED fails;
`CancelOffer` after the completion fails; and `CancelOffer` directly after
`CreateOffer` succeeds and leaves status CANCELLED. -/
theorem offer_lifecycle (w : String → Option Json)
    (offerID propertyID buyerID buyerName sellerID sellerName : String) (offerAmount : Float64)
    (message adminID sepoliaTxHash : String) (t0 t1 t2 t3 t4 : Timestamp)
    (hfresh : w offerID = none) :
    let created := OfferContract.CreateOffer ⟨w, some t0⟩ offerID propertyID buyerID buyerName
      sellerID sellerName offerAmount message
    let accepted := OfferContract.AcceptOffer (created.2.withTx (some t1)) offerID
    let verified := OfferContract.AdminVerifyOffer (accepted.2.withTx (some t2)) offerID adminID
      sepoliaTxHash
    let completed := OfferContract.CompleteOffer (verified.2.withTx (some t3)) offerID
    let cancelled := OfferContract.CancelOffer (created.2.withTx (some t1)) offerID
    created.1 = .ok () ∧ accepted.1 = .ok () ∧ verified.1 = .ok () ∧ completed.1 = .ok () ∧
    OfferContract.GetOffer completed.2 offerID =
      .ok ⟨offerID, propertyID, buyerID, buyerName, sellerID, sellerName, offerAmount,
        "COMPLETED", message, true, adminID, timeUnix t2.Seconds t2.Nanos, sepoliaTxHash,
        timeUnix t0.Seconds t0.Nanos, timeUnix t3.Seconds t3.Nanos⟩ ∧
    (∃ msg, (OfferContract.CompleteOffer (created.2.withTx (some t1)) offerID).1 = .error msg) ∧
    (∃ msg, (OfferContract.CompleteOffer (accepted.2.withTx (some t2)) offerID).1 = .error msg) ∧
    (∃ msg, (OfferContract.CancelOffer (completed.2.withTx (some t4)) offerID).1 = .error msg) ∧
    cancelled.1 = .ok () ∧
    OfferContract.GetOffer cancelled.2 offerID =
      .ok ⟨offerID, propertyID, buyerID, buyerName, sellerID, sellerName, offerAmount,
        "CANCELLED", message, false, "", Time.zero, "", timeUnix t0.Seconds t0.Nanos,
        timeUnix t1.Seconds t1.Nanos⟩ := by
  intro created accepted verified completed cancelled
  obtain ⟨hc, hgc⟩ := OfferContract.CreateOffer_ok ⟨w, some t0⟩ offerID propertyID buyerID
    buyerName sellerID sellerName offerAmount message t0 hfresh rfl
  have hg1 : OfferContract.GetOffer (created.2.withTx (some t1)) offerID = _ :=
    (OfferContract.GetOffer_congr created.2 (created.2.withTx (some t1)) offerID rfl).trans hgc
  obtain ⟨ha, hga⟩ := OfferContract.AcceptOffer_ok (created.2.withTx (some t1)) offerID _ t1 hg1
    rfl rfl
  obtain ⟨hx, hgx⟩ := OfferContract.CancelOffer_ok (created.2.withTx (some t1)) offerID _ t1 hg1
    (by show "PENDING" ≠ "COMPLETED"; decide) rfl
  obtain ⟨msg1, hcomp1⟩ := OfferContract.CompleteOffer_rejected (created.2.withTx (some t1))
    offerID _ hg1 (by show "PENDING" ≠ "ADMIN_VERIFIED"; decide)
  have hg2 : OfferContract.GetOffer (accepted.2.withTx (some t2)) offerID = _ :=
    (OfferContract.GetOffer_congr accepted.2 (accepted.2.withTx (some t2)) offerID rfl).trans hga
  obtain ⟨hv, hgv⟩ := OfferContract.AdminVerifyOffer_ok (accepted.2.withTx (some t2)) offerID
    adminID sepoliaTxHash _ t2 hg2 rfl rfl
  obtain ⟨msg2, hcomp2⟩ := OfferContract.CompleteOffer_rejected (accepted.2.withTx (some t2))
    offerID _ hg2 (by show "ACCEPTED" ≠ "ADMIN_VERIFIED"; decide)
  have hg3 : OfferContract.GetOffer (verified.2.withTx (some t3)) offerID = _ :=
    (OfferContract.GetOffer_congr verified.2 (verified.2.withTx (some t3)) offerID rfl).trans hgv
  obtain ⟨hd, hgd⟩ := OfferContract.CompleteOffer_ok (verified.2.withTx (some t3)) offerID _ t3
    hg3 rfl rfl
  have hg4 : OfferContract.GetOffer (completed.2.withTx (some t4)) offerID = _ :=
    (OfferContract.GetOffer_congr completed.2 (completed.2.withTx (some t4)) offerID rfl).trans
      hgd
  obtain ⟨msg4, hcan⟩ := OfferContract.CancelOffer_rejected (completed.2.withTx (some t4))
    offerID _ hg4 rfl
  exact ⟨hc, ha, hv, hd, hgd, ⟨msg1, by rw [hcomp1]⟩, ⟨msg2, by rw [hcomp2]⟩,
    ⟨msg4, by rw [hcan]⟩, hx, hgx⟩

/-- C8 on the empty ledger with offer `O1`. -/
theorem offer_lifecycle_witness :
    (fun _ => none : String → Option Json) "O1" = none ∧
    OfferContract.GetOffer (OfferContract.CompleteOffer ((OfferContract.AdminVerifyOffer
      ((OfferContract.AcceptOffer ((OfferContract.CreateOffer ⟨fun _ => none, some ⟨100, 0⟩⟩ "O1"
      "P1" "b1" "bob" "s1" "sue" ⟨5, 0⟩ "hello").2.withTx (some ⟨200, 0⟩)) "O1").2.withTx
      (some ⟨300, 0⟩)) "O1" "admin" "0xabc").2.withTx (some ⟨400, 0⟩)) "O1").2 "O1" =
      .ok ⟨"O1", "P1", "b1", "bob", "s1", "sue", ⟨5, 0⟩, "COMPLETED", "hello", true, "admin",
        timeUnix 300 0, "0xabc", timeUnix 100 0, timeUnix 400 0⟩ ∧
    (OfferContract.CancelOffer ((OfferContract.CreateOffer ⟨fun _ => none, some ⟨100, 0⟩⟩ "O1"
      "P1" "b1" "bob" "s1" "sue" ⟨5, 0⟩ "hello").2.withTx (some ⟨200, 0⟩)) "O1").1 = .ok () :=
  ⟨rfl, (offer_lifecycle (fun _ => none) "O1" "P1" "b1" "bob" "s1" "sue" ⟨5, 0⟩ "hello" "admin"
      "0xabc" ⟨100, 0⟩ ⟨200, 0⟩ ⟨300, 0⟩ ⟨400, 0⟩ ⟨500, 0⟩ rfl).2.2.2.2.1,
    (offer_lifecycle (fun _ => none) "O1" "P1" "b1" "bob" "s1" "sue" ⟨5, 0⟩ "hello" "admin"
      "0xabc" ⟨100, 0⟩ ⟨200, 0⟩ ⟨300, 0⟩ ⟨400, 0⟩ ⟨500, 0⟩ rfl).2.2.2.2.2.2.2.2.1⟩

/-! ## Property contract: properties -/

namespace PropertyContract

/-- Decoding a list of JSON strings gives back the strings. -/
theorem mapM_elemString_map_str (l : List String) :
    (l.map Json.str).mapM Json.elemString = .ok l := by
  induction l with
  | nil => rfl
  | cons a l ih =>
    simp only [List.map_cons, List.mapM_cons, ih, Json.elemString]
    rfl

/-- An `int` field that decodes lies in the 64-bit range. -/
theorem getInt_range (kvs : List (String × Json)) (name : String) (i : Int)
    (h : Json.getInt kvs name = .ok i) :
    -9223372036854775808 ≤ i ∧ i < 9223372036854775808 := by
  unfold Json.getInt at h
  split at h
  · cases h
    decide
  · cases h
    decide
  · split at h
    · cases h
      assumption
    · cases h
  · cases h

/-- A decoded property has its view count in the 64-bit range. -/
theorem jsonUnmarshalProperty_views (v : Json) (p : Property)
    (h : jsonUnmarshalProperty v = .ok p) :
    -9223372036854775808 ≤ p.Views ∧ p.Views < 9223372036854775808 := by
  cases v with
  | null =>
    cases h
    decide
  | obj kvs =>
    simp only [jsonUnmarshalProperty] at h
    split at h
    · split at h
      · cases h
        exact getInt_range kvs "views" _ (by assumption)
      · cases h
    · cases h
  | bool b => cases h
  | int i => cases h
  | num f => cases h
  | str t => cases h
  | time t => cases h
  | arr xs => cases h

/-- Decoding inverts encoding on property records whose view count is a 64-bit
integer. -/
theorem jsonUnmarshalProperty_jsonMarshalProperty (p : Property) (j : Json)
    (hj : jsonMarshalProperty p = .ok j)
    (hv : -9223372036854775808 ≤ p.Views ∧ p.Views < 9223372036854775808) :
    jsonUnmarshalProperty j = .ok p := by
  cases hj
  have hdocs : Json.getStrings [("propertyId", .str p.PropertyID), ("owner", .str p.Owner),
    ("ownerName", .str p.OwnerName), ("location", .str p.Location), ("area", .num p.Area),
    ("price", .num p.Price), ("status", .str p.Status), ("propertyType", .str p.PropertyType),
    ("description", .str p.Description), ("documents", .arr (p.Documents.map Json.str)),
    ("verifiedBy", .str p.VerifiedBy), ("verifiedAt", .time p.VerifiedAt),
    ("registeredAt", .time p.RegisteredAt), ("lastUpdated", .time p.LastUpdated),
    ("views", .int p.Views), ("latitude", .num p.Latitude), ("longitude", .num p.Longitude)]
      "documents" = .ok p.Documents := mapM_elemString_map_str p.Documents
  have hviews : Json.getInt [("propertyId", .str p.PropertyID), ("owner", .str p.Owner),
    ("ownerName", .str p.OwnerName), ("location", .str p.Location), ("area", .num p.Area),
    ("price", .num p.Price), ("status", .str p.Status), ("propertyType", .str p.PropertyType),
    ("description", .str p.Description), ("documents", .arr (p.Documents.map Json.str)),
    ("verifiedBy", .str p.VerifiedBy), ("verifiedAt", .time p.VerifiedAt),
    ("registeredAt", .time p.RegisteredAt), ("lastUpdated", .time p.LastUpdated),
    ("views", .int p.Views), ("latitude", .num p.Latitude), ("longitude", .num p.Longitude)]
      "views" = .ok p.Views := if_pos hv
  unfold jsonUnmarshalProperty
  simp only [hdocs, hviews]
  rfl

/-- A successful `GetProperty` decodes the value stored under the key. -/
theorem GetProperty_ok_state (ctx : Stub) (propertyID : String) (p : Property)
    (h : GetProperty ctx propertyID = .ok p) :
    ∃ v, ctx.state propertyID = some v ∧ jsonUnmarshalProperty v = .ok p := by
  unfold GetProperty Stub.GetState at h
  cases hst : ctx.state propertyID with
  | none => simp [hst] at h
  | some v => exact ⟨v, rfl, by simpa [hst] using h⟩

/-- Method `GetProperty` reads only the world state. -/
theorem GetProperty_congr (ctx ctx1 : Stub) (propertyID : String)
    (h : ctx1.state propertyID = ctx.state propertyID) :
    GetProperty ctx1 propertyID = GetProperty ctx propertyID := by
  simp [GetProperty, Stub.GetState, h]

/-- A property read from the ledger has its view count in the 64-bit range. -/
theorem GetProperty_views (ctx : Stub) (propertyID : String) (p : Property)
    (h : GetProperty ctx propertyID = .ok p) :
    -9223372036854775808 ≤ p.Views ∧ p.Views < 9223372036854775808 := by
  obtain ⟨v, _, hdec⟩ := GetProperty_ok_state ctx propertyID p h
  exact jsonUnmarshalProperty_views v p hdec

/-- Reading back the property just written. -/
theorem GetProperty_PutState (ctx : Stub) (propertyID : String) (p : Property) (j : Json)
    (h : jsonMarshalProperty p = .ok j)
    (hv : -9223372036854775808 ≤ p.Views ∧ p.Views < 9223372036854775808) :
    GetProperty (ctx.PutState propertyID j).2 propertyID = .ok p := by
  simp [GetProperty, Stub.GetState, Stub.PutState, jsonUnmarshalProperty_jsonMarshalProperty p j h hv]

/-- Method `VerifyProperty` succeeds on an existing property whatever its status. -/
theorem VerifyProperty_fst (ctx : Stub) (propertyID verifierID : String) (p : Property)
    (ts : Timestamp) (hget : GetProperty ctx propertyID = .ok p)
    (hts : ctx.txTimestamp = some ts) :
    (VerifyProperty ctx propertyID verifierID).1 = .ok () := by
  simp [VerifyProperty, hget, Stub.GetTxTimestamp, hts, jsonMarshalProperty, Stub.PutState]

/-- Method `UpdatePropertyPrice` succeeds on an existing property whatever its status. -/
theorem UpdatePropertyPrice_fst (ctx : Stub) (propertyID : String) (price : Float64)
    (p : Property) (ts : Timestamp) (hget : GetProperty ctx propertyID = .ok p)
    (hts : ctx.txTimestamp = some ts) :
    (UpdatePropertyPrice ctx propertyID price).1 = .ok () := by
  simp [UpdatePropertyPrice, hget, Stub.GetTxTimestamp, hts, jsonMarshalProperty, Stub.PutState]

/-- Method `TransferProperty` succeeds on an existing property whatever its status. -/
theorem TransferProperty_fst (ctx : Stub) (propertyID newOwner newOwnerName transactionID : String)
    (p : Property) (ts : Timestamp) (hget : GetProperty ctx propertyID = .ok p)
    (hts : ctx.txTimestamp = some ts) :
    (TransferProperty ctx propertyID newOwner newOwnerName transactionID).1 = .ok () := by
  simp [TransferProperty, hget, Stub.GetTxTimestamp, hts, jsonMarshalProperty,
    jsonMarshalTransaction, Stub.PutState]

/-- Method `UpdatePropertyStatus` succeeds on an existing property whatever its status. -/
theorem UpdatePropertyStatus_fst (ctx : Stub) (propertyID status : String) (p : Property)
    (ts : Timestamp) (hget : GetProperty ctx propertyID = .ok p)
    (hts : ctx.txTimestamp = some ts) :
    (UpdatePropertyStatus ctx propertyID status).1 = .ok () := by
  simp [UpdatePropertyStatus, hget, Stub.GetTxTimestamp, hts, jsonMarshalProperty, Stub.PutState]

/-- Method `IncrementPropertyViews` succeeds on an existing property whatever its status;
it does not read the transaction timestamp. -/
theorem IncrementPropertyViews_fst (ctx : Stub) (propertyID : String) (p : Property)
    (hget : GetProperty ctx propertyID = .ok p) :
    (IncrementPropertyViews ctx propertyID).1 = .ok () := by
  simp [IncrementPropertyViews, hget, jsonMarshalProperty, Stub.PutState]

/-- What a successful `TransferProperty` leaves when the transaction key differs
from the property key: the updated property, the transaction record, and every
other key as before. -/
theorem TransferProperty_distinct_keys (w : String → Option Json) (ts : Timestamp)
    (propertyID newOwner newOwnerName transactionID : String) (p : Property)
    (hget : GetProperty ⟨w, some ts⟩ propertyID = .ok p)
    (hne : "TXN_" ++ transactionID ≠ propertyID) :
    (TransferProperty ⟨w, some ts⟩ propertyID newOwner newOwnerName transactionID).1 = .ok () ∧
    GetProperty (TransferProperty ⟨w, some ts⟩ propertyID newOwner newOwnerName transactionID).2
      propertyID = .ok { p with Owner := newOwner, OwnerName := newOwnerName, Status := "SOLD",
                                LastUpdated := timeUnix ts.Seconds ts.Nanos } ∧
    (∃ v, (TransferProperty ⟨w, some ts⟩ propertyID newOwner newOwnerName transactionID).2.state
        ("TXN_" ++ transactionID) = some v ∧
      jsonUnmarshalTransaction v = .ok ⟨transactionID, propertyID, p.Owner, newOwner, p.Price,
        "COMPLETED", "", timeUnix ts.Seconds ts.Nanos⟩) ∧
    (∀ k, k ≠ propertyID → k ≠ "TXN_" ++ transactionID →
      (TransferProperty ⟨w, some ts⟩ propertyID newOwner newOwnerName transactionID).2.state k =
        w k) := by
  have hv := GetProperty_views _ _ _ hget
  have hne1 : propertyID ≠ "TXN_" ++ transactionID := fun h => hne h.symm
  unfold TransferProperty
  simp only [hget, Stub.GetTxTimestamp, jsonMarshalProperty, jsonMarshalTransaction,
    Stub.PutState]
  refine ⟨trivial, ?_, ?_, ?_⟩
  · simp only [GetProperty, Stub.GetState, hne1, if_false, if_true]
    exact jsonUnmarshalProperty_jsonMarshalProperty
      { p with Owner := newOwner, OwnerName := newOwnerName, Status := "SOLD",
               LastUpdated := timeUnix ts.Seconds ts.Nanos } _ rfl hv
  · simp only [if_true]
    exact ⟨_, rfl, rfl⟩
  · intro k hk1 hk2
    simp [hk1, hk2]

end PropertyContract

/-! ## Property mutators -/

/-- C9 as stated fails: with the transaction timestamp available, none of
`VerifyProperty`, `UpdatePropertyPrice`, `TransferProperty` and
`UpdatePropertyStatus` is ever refused on an existing property, so there is no
status value for which one of them is rejected. -/
theorem property_mutator_never_refused :
    (¬ ∃ (w : String → Option Json) (ts : Timestamp) (propertyID verifierID : String)
        (p : PropertyContract.Property),
        PropertyContract.GetProperty ⟨w, some ts⟩ propertyID = .ok p ∧
        (PropertyContract.VerifyProperty ⟨w, some ts⟩ propertyID verifierID).1 ≠ .ok ()) ∧
    (¬ ∃ (w : String → Option Json) (ts : Timestamp) (propertyID : String) (price : Float64)
        (p : PropertyContract.Property),
        PropertyContract.GetProperty ⟨w, some ts⟩ propertyID = .ok p ∧
        (PropertyContract.UpdatePropertyPrice ⟨w, some ts⟩ propertyID price).1 ≠ .ok ()) ∧
    (¬ ∃ (w : String → Option Json) (ts : Timestamp)
        (propertyID newOwner newOwnerName transactionID : String) (p : PropertyContract.Property),
        PropertyContract.GetProperty ⟨w, some ts⟩ propertyID = .ok p ∧
        (PropertyContract.TransferProperty ⟨w, some ts⟩ propertyID newOwner newOwnerName
          transactionID).1 ≠ .ok ()) ∧
    (¬ ∃ (w : String → Option Json) (ts : Timestamp) (propertyID status : String)
        (p : PropertyContract.Property),
        PropertyContract.GetProperty ⟨w, some ts⟩ propertyID = .ok p ∧
        (PropertyContract.UpdatePropertyStatus ⟨w, some ts⟩ propertyID status).1 ≠ .ok ()) := by
  refine ⟨?_, ?_, ?_, ?_⟩
  · rintro ⟨w, ts, propertyID, verifierID, p, hget, hfail⟩
    exact hfail (PropertyContract.VerifyProperty_fst _ _ _ p ts hget rfl)
  · rintro ⟨w, ts, propertyID, price, p, hget, hfail⟩
    exact hfail (PropertyContract.UpdatePropertyPrice_fst _ _ _ p ts hget rfl)
  · rintro ⟨w, ts, propertyID, newOwner, newOwnerName, transactionID, p, hget, hfail⟩
    exact hfail (PropertyContract.TransferProperty_fst _ _ _ _ _ p ts hget rfl)
  · rintro ⟨w, ts, propertyID, status, p, hget, hfail⟩
    exact hfail (PropertyContract.UpdatePropertyStatus_fst _ _ _ p ts hget rfl)

/-- C9 (amended): no Property mutator is guarded by the status.  On an existing
property, whatever its current status, `IncrementPropertyViews` succeeds (with or
without a transaction timestamp), and so do `VerifyProperty`,
`UpdatePropertyPrice`, `TransferProperty` and `UpdatePropertyStatus` whenever the
transaction timestamp is available. -/
theorem property_mutators_unguarded (w : String → Option Json) (ts : Timestamp)
    (anyTs : Option Timestamp)
    (propertyID verifierID newOwner newOwnerName transactionID status : String)
    (price : Float64) (p : PropertyContract.Property)
    (hget : PropertyContract.GetProperty ⟨w, some ts⟩ propertyID = .ok p) :
    (PropertyContract.IncrementPropertyViews ⟨w, anyTs⟩ propertyID).1 = .ok () ∧
    (PropertyContract.VerifyProperty ⟨w, some ts⟩ propertyID verifierID).1 = .ok () ∧
    (PropertyContract.UpdatePropertyPrice ⟨w, some ts⟩ propertyID price).1 = .ok () ∧
    (PropertyContract.TransferProperty ⟨w, some ts⟩ propertyID newOwner newOwnerName
      transactionID).1 = .ok () ∧
    (PropertyContract.UpdatePropertyStatus ⟨w, some ts⟩ propertyID status).1 = .ok () :=
  ⟨PropertyContract.IncrementPropertyViews_fst _ _ p
      ((PropertyContract.GetProperty_congr ⟨w, some ts⟩ ⟨w, anyTs⟩ propertyID rfl).trans hget),
    PropertyContract.VerifyProperty_fst _ _ _ p ts hget rfl,
    PropertyContract.UpdatePropertyPrice_fst _ _ _ p ts hget rfl,
    PropertyContract.TransferProperty_fst _ _ _ _ _ p ts hget rfl,
    PropertyContract.UpdatePropertyStatus_fst _ _ _ p ts hget rfl⟩

/-- C9 (amended) at the sample property once it is SOLD. -/
theorem property_mutators_unguarded_witness :
    PropertyContract.GetProperty ⟨PropertyContract.sampleLedger "SOLD", some ⟨200, 0⟩⟩ "P1" =
      .ok (PropertyContract.sampleProperty "SOLD") ∧
    (PropertyContract.IncrementPropertyViews ⟨PropertyContract.sampleLedger "SOLD", none⟩
      "P1").1 = .ok () ∧
    (PropertyContract.VerifyProperty ⟨PropertyContract.sampleLedger "SOLD", some ⟨200, 0⟩⟩ "P1"
      "vera").1 = .ok () ∧
    (PropertyContract.UpdatePropertyPrice ⟨PropertyContract.sampleLedger "SOLD", some ⟨200, 0⟩⟩
      "P1" ⟨9, 0⟩).1 = .ok () ∧
    (PropertyContract.TransferProperty ⟨PropertyContract.sampleLedger "SOLD", some ⟨200, 0⟩⟩ "P1"
      "bob" "Bob" "T1").1 = .ok () ∧
    (PropertyContract.UpdatePropertyStatus ⟨PropertyContract.sampleLedger "SOLD", some ⟨200, 0⟩⟩
      "P1" "AVAILABLE").1 = .ok () :=
  ⟨rfl, property_mutators_unguarded (PropertyContract.sampleLedger "SOLD") ⟨200, 0⟩ none "P1"
    "vera" "bob" "Bob" "T1" "AVAILABLE" ⟨9, 0⟩ (PropertyContract.sampleProperty "SOLD") rfl⟩

/-- C10 at a failing input: the property registered under the id `TXN_1` is
transferred with transaction id `1`.  The call succeeds, the transaction record
is written under `TXN_1` over the property, and `GetProperty` then reads a
record with no owner and status COMPLETED instead of owner `bob` and status
SOLD. -/
theorem transfer_overwrites_prefixed_property :
    PropertyContract.GetProperty ⟨PropertyContract.prefixedLedger, some ⟨200, 0⟩⟩ "TXN_1" =
      .ok ⟨"TXN_1", "alice", "Alice", "12 Hill Road", ⟨1, 0⟩, ⟨2, 0⟩, "PENDING_VERIFICATION",
        "RESIDENTIAL", "plot", [], "", Time.zero, ⟨100, 0⟩, ⟨100, 0⟩, 0, ⟨3, 0⟩, ⟨4, 0⟩⟩ ∧
    (PropertyContract.TransferProperty ⟨PropertyContract.prefixedLedger, some ⟨200, 0⟩⟩ "TXN_1"
      "bob" "Bob" "1").1 = .ok () ∧
    PropertyContract.GetProperty (PropertyContract.TransferProperty
      ⟨PropertyContract.prefixedLedger, some ⟨200, 0⟩⟩ "TXN_1" "bob" "Bob" "1").2 "TXN_1" =
      .ok ⟨"TXN_1", "", "", "", Float64.zero, Float64.zero, "COMPLETED", "", "", [], "",
        Time.zero, Time.zero, Time.zero, 0, Float64.zero, Float64.zero⟩ ∧
    (PropertyContract.TransferProperty ⟨PropertyContract.prefixedLedger, some ⟨200, 0⟩⟩ "TXN_1"
      "bob" "Bob" "1").2.state ("TXN_" ++ "1") =
      some (.obj [("transactionId", .str "1"), ("propertyId", .str "TXN_1"),
        ("fromOwner", .str "alice"), ("toOwner", .str "bob"), ("amount", .num ⟨2, 0⟩),
        ("status", .str "COMPLETED"), ("escrowId", .str ""), ("timestamp", .time ⟨200, 0⟩)]) :=
  ⟨rfl, rfl, rfl, rfl⟩

/-! ## Keys that hold no value -/

/-- C20: on a key that holds no value, `Get` returns the not-found error (never a
record), the `Exists` probe returns false, and every mutator of the contract
returns that same not-found error and leaves the stub, hence the ledger, as it
was.  This holds for the escrow, offer and user contracts and for the properties
and the users (key `USER_` followed by the id) of the property contract. -/
theorem missing_key_not_found (ctx : Stub) (id : String) :
    (ctx.state id = none →
      EscrowContract.GetEscrow ctx id = .error ("escrow " ++ id ++ " does not exist") ∧
      EscrowContract.EscrowExists ctx id = .ok false ∧
      ∀ txHash : String,
        EscrowContract.FundEscrow ctx id txHash =
          (.error ("escrow " ++ id ++ " does not exist"), ctx) ∧
        EscrowContract.ReleaseEscrow ctx id txHash =
          (.error ("escrow " ++ id ++ " does not exist"), ctx) ∧
        EscrowContract.CancelEscrow ctx id txHash =
          (.error ("escrow " ++ id ++ " does not exist"), ctx)) ∧
    (ctx.state id = none →
      OfferContract.GetOffer ctx id = .error ("offer " ++ id ++ " does not exist") ∧
      OfferContract.OfferExists ctx id = .ok false ∧
      ∀ adminID sepoliaTxHash : String,
        OfferContract.AcceptOffer ctx id = (.error ("offer " ++ id ++ " does not exist"), ctx) ∧
        OfferContract.RejectOffer ctx id = (.error ("offer " ++ id ++ " does not exist"), ctx) ∧
        OfferContract.AdminVerifyOffer ctx id adminID sepoliaTxHash =
          (.error ("offer " ++ id ++ " does not exist"), ctx) ∧
        OfferContract.CompleteOffer ctx id =
          (.error ("offer " ++ id ++ " does not exist"), ctx) ∧
        OfferContract.CancelOffer ctx id = (.error ("offer " ++ id ++ " does not exist"), ctx)) ∧
    (ctx.state id = none →
      PropertyContract.GetProperty ctx id = .error ("property " ++ id ++ " does not exist") ∧
      PropertyContract.PropertyExists ctx id = .ok false ∧
      ∀ (verifierID newOwner newOwnerName transactionID status : String) (price : Float64),
        PropertyContract.VerifyProperty ctx id verifierID =
          (.error ("property " ++ id ++ " does not exist"), ctx) ∧
        PropertyContract.UpdatePropertyPrice ctx id price =
          (.error ("property " ++ id ++ " does not exist"), ctx) ∧
        PropertyContract.IncrementPropertyViews ctx id =
          (.error ("property " ++ id ++ " does not exist"), ctx) ∧
        PropertyContract.TransferProperty ctx id newOwner newOwnerName transactionID =
          (.error ("property " ++ id ++ " does not exist"), ctx) ∧
        PropertyContract.UpdatePropertyStatus ctx id status =
          (.error ("property " ++ id ++ " does not exist"), ctx)) ∧
    (ctx.state ("USER_" ++ id) = none →
      PropertyContract.GetUser ctx id = .error ("user " ++ id ++ " does not exist") ∧
      PropertyContract.UserExists ctx id = .ok false ∧
      ∀ isVerified : Bool,
        PropertyContract.UpdateUserVerification ctx id isVerified =
          (.error ("user " ++ id ++ " does not exist"), ctx)) ∧
    (ctx.state id = none →
      UserContract.GetUser ctx id = .error ("user " ++ id ++ " does not exist") ∧
      UserContract.UserExists ctx id = .ok false ∧
      ∀ (isVerified : Bool) (documentID documentType documentHash adminID : String),
        UserContract.UpdateUserVerification ctx id isVerified =
          (.error ("user " ++ id ++ " does not exist"), ctx) ∧
        UserContract.AddDocument ctx id documentID documentType documentHash =
          (.error ("user " ++ id ++ " does not exist"), ctx) ∧
        UserContract.VerifyDocument ctx id documentID adminID =
          (.error ("user " ++ id ++ " does not exist"), ctx) ∧
        UserContract.UpdateLastLogin ctx id =
          (.error ("user " ++ id ++ " does not exist"), ctx)) := by
  refine ⟨?_, ?_, ?_, ?_, ?_⟩
  · intro h
    have hget : EscrowContract.GetEscrow ctx id = .error ("escrow " ++ id ++ " does not exist") := by
      simp [EscrowContract.GetEscrow, Stub.GetState, h]
    refine ⟨hget, by simp [EscrowContract.EscrowExists, Stub.GetState, h], ?_⟩
    intro txHash
    simp [EscrowContract.FundEscrow, EscrowContract.ReleaseEscrow, EscrowContract.CancelEscrow,
      hget]
  · intro h
    have hget : OfferContract.GetOffer ctx id = .error ("offer " ++ id ++ " does not exist") := by
      simp [OfferContract.GetOffer, Stub.GetState, h]
    refine ⟨hget, by simp [OfferContract.OfferExists, Stub.GetState, h], ?_⟩
    intro adminID sepoliaTxHash
    simp [OfferContract.AcceptOffer, OfferContract.RejectOffer, OfferContract.AdminVerifyOffer,
      OfferContract.CompleteOffer, OfferContract.CancelOffer, hget]
  · intro h
    have hget : PropertyContract.GetProperty ctx id =
        .error ("property " ++ id ++ " does not exist") := by
      simp [PropertyContract.GetProperty, Stub.GetState, h]
    refine ⟨hget, by simp [PropertyContract.PropertyExists, Stub.GetState, h], ?_⟩
    intro verifierID newOwner newOwnerName transactionID status price
    simp [PropertyContract.VerifyProperty, PropertyContract.UpdatePropertyPrice,
      PropertyContract.IncrementPropertyViews, PropertyContract.TransferProperty,
      PropertyContract.UpdatePropertyStatus, hget]
  · intro h
    have hget : PropertyContract.GetUser ctx id = .error ("user " ++ id ++ " does not exist") := by
      simp [PropertyContract.GetUser, Stub.GetState, h]
    refine ⟨hget, by simp [PropertyContract.UserExists, Stub.GetState, h], ?_⟩
    intro isVerified
    simp [PropertyContract.UpdateUserVerification, hget]
  · intro h
    have hget : UserContract.GetUser ctx id = .error ("user " ++ id ++ " does not exist") := by
      simp [UserContract.GetUser, Stub.GetState, h]
    refine ⟨hget, by simp [UserContract.UserExists, Stub.GetState, h], ?_⟩
    intro isVerified documentID documentType documentHash adminID
    simp [UserContract.UpdateUserVerification, UserContract.AddDocument,
      UserContract.VerifyDocument, UserContract.UpdateLastLogin, hget]

/-- C20 on the empty ledger, whose keys all hold no value. -/
theorem missing_key_not_found_witness :
    EscrowContract.GetEscrow (Stub.empty (some ⟨100, 0⟩)) "E1" =
      .error ("escrow " ++ "E1" ++ " does not exist") ∧
    OfferContract.CancelOffer (Stub.empty (some ⟨100, 0⟩)) "O1" =
      (.error ("offer " ++ "O1" ++ " does not exist"), Stub.empty (some ⟨100, 0⟩)) ∧
    PropertyContract.IncrementPropertyViews (Stub.empty (some ⟨100, 0⟩)) "P1" =
      (.error ("property " ++ "P1" ++ " does not exist"), Stub.empty (some ⟨100, 0⟩)) ∧
    PropertyContract.UserExists (Stub.empty (some ⟨100, 0⟩)) "u1" = .ok false ∧
    UserContract.UpdateLastLogin (Stub.empty (some ⟨100, 0⟩)) "u1" =
      (.error ("user " ++ "u1" ++ " does not exist"), Stub.empty (some ⟨100, 0⟩)) :=
  ⟨((missing_key_not_found (Stub.empty (some ⟨100, 0⟩)) "E1").1 rfl).1,
   (((missing_key_not_found (Stub.empty (some ⟨100, 0⟩)) "O1").2.1 rfl).2.2 "admin"
      "0xabc").2.2.2.2,
   (((missing_key_not_found (Stub.empty (some ⟨100, 0⟩)) "P1").2.2.1 rfl).2.2 "vera" "bob" "Bob"
      "T1" "SOLD" ⟨9, 0⟩).2.2.1,
   ((missing_key_not_found (Stub.empty (some ⟨100, 0⟩)) "u1").2.2.2.1 rfl).2.1,
   (((missing_key_not_found (Stub.empty (some ⟨100, 0⟩)) "u1").2.2.2.2 rfl).2.2 true "d1" "PAN"
      "h" "admin").2.2.2⟩

/-! ## Create followed by Get -/

namespace PropertyContract

/-- A successful `RegisterProperty`: the result and the record read back. -/
theorem RegisterProperty_ok (ctx : Stub) (propertyID owner ownerName location : String)
    (area price : Float64) (propertyType description : String) (latitude longitude : Float64)
    (ts : Timestamp) (hfresh : ctx.state propertyID = none) (hts : ctx.txTimestamp = some ts) :
    (RegisterProperty ctx propertyID owner ownerName location area price propertyType description
      latitude longitude).1 = .ok () ∧
    GetProperty (RegisterProperty ctx propertyID owner ownerName location area price propertyType
      description latitude longitude).2 propertyID =
      .ok ⟨propertyID, owner, ownerName, location, area, price, "PENDING_VERIFICATION",
        propertyType, description, [], "", Time.zero, timeUnix ts.Seconds ts.Nanos,
        timeUnix ts.Seconds ts.Nanos, 0, latitude, longitude⟩ := by
  unfold RegisterProperty
  simp only [PropertyExists, Stub.GetState, hfresh, Option.isSome_none, Stub.GetTxTimestamp, hts,
    jsonMarshalProperty]
  exact ⟨rfl, by simp [GetProperty, Stub.GetState, Stub.PutState]; rfl⟩

end PropertyContract

namespace UserContract

/-- A successful `RegisterUser`: the result and the record read back. -/
theorem RegisterUser_ok (ctx : Stub)
    (userID name email phone aadhar pan address role walletAddress passwordHash : String)
    (ts : Timestamp) (hfresh : ctx.state userID = none) (hts : ctx.txTimestamp = some ts) :
    (RegisterUser ctx userID name email phone aadhar pan address role walletAddress
      passwordHash).1 = .ok () ∧
    GetUser (RegisterUser ctx userID name email phone aadhar pan address role walletAddress
      passwordHash).2 userID =
      .ok ⟨userID, name, email, phone, aadhar, pan, address, role, walletAddress, [],
        passwordHash, false, timeUnix ts.Seconds ts.Nanos, timeUnix ts.Seconds ts.Nanos⟩ := by
  unfold RegisterUser
  simp only [UserExists, Stub.GetState, hfresh, Option.isSome_none, Stub.GetTxTimestamp, hts,
    jsonMarshal]
  exact ⟨rfl, by simp [GetUser, Stub.GetState, Stub.PutState]; rfl⟩

end UserContract

/-- C19: on a fresh key, with the transaction timestamp `t` available, each create
operation succeeds and the matching `Get` then returns the record made of the
arguments, in its initial status (CREATED, PENDING, PENDING_VERIFICATION; not
verified and without documents for a user), with empty transaction hash, admin
id, Sepolia hash and verifier, and with the creation and update timestamps both
the instant of `t`. -/
theorem create_then_get (w : String → Option Json) (t : Timestamp) (id : String)
    (hfresh : w id = none) :
    (∀ (propertyID buyer seller : String) (amount : Float64),
      (EscrowContract.CreateEscrow ⟨w, some t⟩ id propertyID buyer seller amount).1 = .ok () ∧
      EscrowContract.GetEscrow
        (EscrowContract.CreateEscrow ⟨w, some t⟩ id propertyID buyer seller amount).2 id =
        .ok ⟨id, propertyID, buyer, seller, amount, "CREATED", "",
          timeUnix t.Seconds t.Nanos, timeUnix t.Seconds t.Nanos⟩) ∧
    (∀ (propertyID buyerID buyerName sellerID sellerName : String) (offerAmount : Float64)
      (message : String),
      (OfferContract.CreateOffer ⟨w, some t⟩ id propertyID buyerID buyerName sellerID sellerName
        offerAmount message).1 = .ok () ∧
      OfferContract.GetOffer (OfferContract.CreateOffer ⟨w, some t⟩ id propertyID buyerID
        buyerName sellerID sellerName offerAmount message).2 id =
        .ok ⟨id, propertyID, buyerID, buyerName, sellerID, sellerName, offerAmount, "PENDING",
          message, false, "", Time.zero, "", timeUnix t.Seconds t.Nanos,
          timeUnix t.Seconds t.Nanos⟩) ∧
    (∀ (owner ownerName location : String) (area price : Float64)
      (propertyType description : String) (latitude longitude : Float64),
      (PropertyContract.RegisterProperty ⟨w, some t⟩ id owner ownerName location area price
        propertyType description latitude longitude).1 = .ok () ∧
      PropertyContract.GetProperty (PropertyContract.RegisterProperty ⟨w, some t⟩ id owner
        ownerName location area price propertyType description latitude longitude).2 id =
        .ok ⟨id, owner, ownerName, location, area, price, "PENDING_VERIFICATION", propertyType,
          description, [], "", Time.zero, timeUnix t.Seconds t.Nanos,
          timeUnix t.Seconds t.Nanos, 0, latitude, longitude⟩) ∧
    (∀ (name email phone aadhar pan address role walletAddress passwordHash : String),
      (UserContract.RegisterUser ⟨w, some t⟩ id name email phone aadhar pan address role
        walletAddress passwordHash).1 = .ok () ∧
      UserContract.GetUser (UserContract.RegisterUser ⟨w, some t⟩ id name email phone aadhar pan
        address role walletAddress passwordHash).2 id =
        .ok ⟨id, name, email, phone, aadhar, pan, address, role, walletAddress, [], passwordHash,
          false, timeUnix t.Seconds t.Nanos, timeUnix t.Seconds t.Nanos⟩) :=
  ⟨fun propertyID buyer seller amount =>
      EscrowContract.CreateEscrow_ok ⟨w, some t⟩ id propertyID buyer seller amount t hfresh rfl,
    fun propertyID buyerID buyerName sellerID sellerName offerAmount message =>
      OfferContract.CreateOffer_ok ⟨w, some t⟩ id propertyID buyerID buyerName sellerID
        sellerName offerAmount message t hfresh rfl,
    fun owner ownerName location area price propertyType description latitude longitude =>
      PropertyContract.RegisterProperty_ok ⟨w, some t⟩ id owner ownerName location area price
        propertyType description latitude longitude t hfresh rfl,
    fun name email phone aadhar pan address role walletAddress passwordHash =>
      UserContract.RegisterUser_ok ⟨w, some t⟩ id name email phone aadhar pan address role
        walletAddress passwordHash t hfresh rfl⟩

/-- C19 on the empty ledger: the property `P1` and the user `u1` read back after
their registration. -/
theorem create_then_get_witness :
    (fun _ => none : String → Option Json) "P1" = none ∧
    PropertyContract.GetProperty (PropertyContract.RegisterProperty
      ⟨fun _ => none, some ⟨100, 7⟩⟩ "P1" "alice" "Alice" "12 Hill Road" ⟨1, 0⟩ ⟨2, 0⟩
      "RESIDENTIAL" "plot" ⟨3, 0⟩ ⟨4, 0⟩).2 "P1" =
      .ok ⟨"P1", "alice", "Alice", "12 Hill Road", ⟨1, 0⟩, ⟨2, 0⟩, "PENDING_VERIFICATION",
        "RESIDENTIAL", "plot", [], "", Time.zero, timeUnix 100 7, timeUnix 100 7, 0, ⟨3, 0⟩,
        ⟨4, 0⟩⟩ ∧
    UserContract.GetUser (UserContract.RegisterUser ⟨fun _ => none, some ⟨100, 7⟩⟩ "u1" "Una"
      "una@example.org" "555" "1234" "ABCDE" "12 Hill Road" "BUYER" "0x01" "hash").2 "u1" =
      .ok ⟨"u1", "Una", "una@example.org", "555", "1234", "ABCDE", "12 Hill Road", "BUYER",
        "0x01", [], "hash", false, timeUnix 100 7, timeUnix 100 7⟩ :=
  ⟨rfl,
   ((create_then_get (fun _ => none) ⟨100, 7⟩ "P1" rfl).2.2.1 "alice" "Alice" "12 Hill Road"
      ⟨1, 0⟩ ⟨2, 0⟩ "RESIDENTIAL" "plot" ⟨3, 0⟩ ⟨4, 0⟩).2,
   ((create_then_get (fun _ => none) ⟨100, 7⟩ "u1" rfl).2.2.2 "Una" "una@example.org" "555"
      "1234" "ABCDE" "12 Hill Road" "BUYER" "0x01" "hash").2⟩

/-! ## Determinism -/

/-- Over the stub, in which a stored time is kept as its instant and not as its
text, the operations respect equality of the world state and of the transaction
timestamp.  Two executions on stubs with equal world states return the same result from every point read and existence probe,
and, when the transaction timestamps are equal too, the same result (success or
the same error) and the same stub, hence equal ledger states, from every
state-changing operation of the four contracts.  Two executions of a bulk read
return the same result as soon as the ledger hands out the same iterator for the
scan, the query text or the key the read opens. -/
theorem operations_deterministic (ctx1 ctx2 : Stub) (hstate : ctx1.state = ctx2.state) :
    (∀ id : String,
      EscrowContract.GetEscrow ctx1 id = EscrowContract.GetEscrow ctx2 id ∧
      EscrowContract.EscrowExists ctx1 id = EscrowContract.EscrowExists ctx2 id ∧
      OfferContract.GetOffer ctx1 id = OfferContract.GetOffer ctx2 id ∧
      OfferContract.OfferExists ctx1 id = OfferContract.OfferExists ctx2 id ∧
      PropertyContract.GetProperty ctx1 id = PropertyContract.GetProperty ctx2 id ∧
      PropertyContract.PropertyExists ctx1 id = PropertyContract.PropertyExists ctx2 id ∧
      PropertyContract.GetUser ctx1 id = PropertyContract.GetUser ctx2 id ∧
      PropertyContract.UserExists ctx1 id = PropertyContract.UserExists ctx2 id ∧
      UserContract.GetUser ctx1 id = UserContract.GetUser ctx2 id ∧
      UserContract.UserExists ctx1 id = UserContract.UserExists ctx2 id) ∧
    (ctx1.txTimestamp = ctx2.txTimestamp →
      (∀ c : EscrowContract.Call, c.run ctx1 = c.run ctx2) ∧
      (∀ c : OfferContract.Call, c.run ctx1 = c.run ctx2) ∧
      (∀ c : PropertyContract.Call, c.run ctx1 = c.run ctx2) ∧
      (∀ c : UserContract.Call, c.run ctx1 = c.run ctx2)) ∧
    (∀ q1 q2 : ReadStub,
      (q1.GetStateByRange "" "" = q2.GetStateByRange "" "" →
        EscrowContract.GetAllEscrows q1 = EscrowContract.GetAllEscrows q2 ∧
        OfferContract.GetAllOffers q1 = OfferContract.GetAllOffers q2 ∧
        PropertyContract.GetAllProperties q1 = PropertyContract.GetAllProperties q2 ∧
        UserContract.GetAllUsers q1 = UserContract.GetAllUsers q2) ∧
      ((∀ queryString, q1.GetQueryResult queryString = q2.GetQueryResult queryString) →
        ∀ arg : String,
          OfferContract.queryOffers q1 arg = OfferContract.queryOffers q2 arg ∧
          OfferContract.GetOffersByProperty q1 arg = OfferContract.GetOffersByProperty q2 arg ∧
          OfferContract.GetOffersByBuyer q1 arg = OfferContract.GetOffersByBuyer q2 arg ∧
          OfferContract.GetOffersBySeller q1 arg = OfferContract.GetOffersBySeller q2 arg ∧
          OfferContract.GetOffersByStatus q1 arg = OfferContract.GetOffersByStatus q2 arg ∧
          OfferContract.GetPendingAdminVerifications q1 =
            OfferContract.GetPendingAdminVerifications q2 ∧
          PropertyContract.queryProperties q1 arg = PropertyContract.queryProperties q2 arg ∧
          PropertyContract.GetPropertiesByStatus q1 arg =
            PropertyContract.GetPropertiesByStatus q2 arg ∧
          PropertyContract.GetPropertiesByType q1 arg =
            PropertyContract.GetPropertiesByType q2 arg ∧
          PropertyContract.GetPropertiesByOwner q1 arg =
            PropertyContract.GetPropertiesByOwner q2 arg ∧
          UserContract.queryUsers q1 arg = UserContract.queryUsers q2 arg ∧
          UserContract.GetUsersByRole q1 arg = UserContract.GetUsersByRole q2 arg) ∧
      (∀ key : String, q1.GetHistoryForKey key = q2.GetHistoryForKey key →
        EscrowContract.GetEscrowHistory q1 key = EscrowContract.GetEscrowHistory q2 key ∧
        OfferContract.GetOfferHistory q1 key = OfferContract.GetOfferHistory q2 key ∧
        PropertyContract.GetPropertyHistory q1 key =
          PropertyContract.GetPropertyHistory q2 key)) := by
  refine ⟨?_, ?_, ?_⟩
  · intro id
    simp [EscrowContract.GetEscrow, EscrowContract.EscrowExists, OfferContract.GetOffer,
      OfferContract.OfferExists, PropertyContract.GetProperty, PropertyContract.PropertyExists,
      PropertyContract.GetUser, PropertyContract.UserExists, UserContract.GetUser,
      UserContract.UserExists, Stub.GetState, hstate]
  · intro hts
    have h : ctx1 = ctx2 := by
      cases ctx1
      cases ctx2
      simp only at hstate hts
      rw [hstate, hts]
    subst h
    exact ⟨fun _ => rfl, fun _ => rfl, fun _ => rfl, fun _ => rfl⟩
  · intro q1 q2
    refine ⟨?_, ?_, ?_⟩
    · intro h
      simp [EscrowContract.GetAllEscrows, OfferContract.GetAllOffers,
        PropertyContract.GetAllProperties, UserContract.GetAllUsers, h]
    · intro h arg
      simp [OfferContract.queryOffers, OfferContract.GetOffersByProperty,
        OfferContract.GetOffersByBuyer, OfferContract.GetOffersBySeller,
        OfferContract.GetOffersByStatus, OfferContract.GetPendingAdminVerifications,
        PropertyContract.queryProperties, PropertyContract.GetPropertiesByStatus,
        PropertyContract.GetPropertiesByType, PropertyContract.GetPropertiesByOwner,
        UserContract.queryUsers, UserContract.GetUsersByRole, h]
    · intro key h
      simp [EscrowContract.GetEscrowHistory, OfferContract.GetOfferHistory,
        PropertyContract.GetPropertyHistory, h]

/-- Two stubs over the sample escrow ledger, one of them given its timestamp
afterwards: `FundEscrow` is replayed with the same outcome. -/
theorem operations_deterministic_witness :
    EscrowContract.FundEscrow ⟨EscrowContract.sampleLedger "CREATED", some ⟨200, 0⟩⟩ "E1" "0xabc" =
      EscrowContract.FundEscrow
        (Stub.withTx ⟨EscrowContract.sampleLedger "CREATED", none⟩ (some ⟨200, 0⟩)) "E1" "0xabc" ∧
    EscrowContract.GetEscrow ⟨EscrowContract.sampleLedger "CREATED", some ⟨200, 0⟩⟩ "E1" =
      EscrowContract.GetEscrow ⟨EscrowContract.sampleLedger "CREATED", none⟩ "E1" :=
  ⟨((operations_deterministic ⟨EscrowContract.sampleLedger "CREATED", some ⟨200, 0⟩⟩
      (Stub.withTx ⟨EscrowContract.sampleLedger "CREATED", none⟩ (some ⟨200, 0⟩)) rfl).2.1
      rfl).1 (.fund "E1" "0xabc"),
   ((operations_deterministic ⟨EscrowContract.sampleLedger "CREATED", some ⟨200, 0⟩⟩
      ⟨EscrowContract.sampleLedger "CREATED", none⟩ rfl).1 "E1").1⟩

/-! ## The view counter -/

/-- The wrapped value of a Go `int` lies in the 64-bit range. -/
theorem wrapInt64_range (x : Int) :
    -9223372036854775808 ≤ wrapInt64 x ∧ wrapInt64 x < 9223372036854775808 := by
  unfold wrapInt64
  omega

/-- Wrapping leaves a value of the 64-bit range as it is. -/
theorem wrapInt64_of_range (x : Int) (h : -9223372036854775808 ≤ x ∧ x < 9223372036854775808) :
    wrapInt64 x = x := by
  unfold wrapInt64
  omega

namespace PropertyContract

/-- A call of `IncrementPropertyViews` on an existing property: the result and the
record read back. -/
theorem IncrementPropertyViews_ok (ctx : Stub) (propertyID : String) (p : Property)
    (hget : GetProperty ctx propertyID = .ok p) :
    (IncrementPropertyViews ctx propertyID).1 = .ok () ∧
    GetProperty (IncrementPropertyViews ctx propertyID).2 propertyID =
      .ok { p with Views := wrapInt64 (p.Views + 1) } := by
  unfold IncrementPropertyViews
  simp only [hget, jsonMarshalProperty]
  exact ⟨rfl, GetProperty_PutState ctx propertyID { p with Views := wrapInt64 (p.Views + 1) } _
    rfl (wrapInt64_range _)⟩

/-- After `n` calls of `IncrementPropertyViews` the count has grown by `n`, as
long as it stays below `2^63`. -/
theorem incrementViewsN_views (n : Nat) (ctx : Stub) (propertyID : String) (p : Property)
    (hget : GetProperty ctx propertyID = .ok p) (hn : p.Views + n < 9223372036854775808) :
    GetProperty (incrementViewsN n ctx propertyID) propertyID =
      .ok { p with Views := p.Views + n } := by
  induction n generalizing ctx p with
  | zero => simpa [incrementViewsN] using hget
  | succ n ih =>
    have hv := GetProperty_views ctx propertyID p hget
    have hstep := (IncrementPropertyViews_ok ctx propertyID p hget).2
    rw [wrapInt64_of_range (p.Views + 1) (by push_cast at hn; omega)] at hstep
    have h := ih (IncrementPropertyViews ctx propertyID).2 { p with Views := p.Views + 1 } hstep
      (by push_cast at hn ⊢; show p.Views + 1 + (n : Int) < 9223372036854775808; omega)
    simp only [incrementViewsN]
    rw [h]
    have hsum : p.Views + 1 + (n : Int) = p.Views + ((n + 1 : Nat) : Int) := by
      push_cast
      omega
    simp only [hsum]

end PropertyContract

/-- C18 as stated fails: on a property whose stored view count is `2^63 - 1`,
`IncrementPropertyViews` succeeds and stores `-2^63`, which is smaller than the
previous count and is not the previous count plus one. -/
theorem increment_views_wraps_around :
    PropertyContract.GetProperty ⟨PropertyContract.viewedLedger 9223372036854775807, none⟩ "P1" =
      .ok { PropertyContract.sampleProperty "AVAILABLE" with Views := 9223372036854775807 } ∧
    (PropertyContract.IncrementPropertyViews
      ⟨PropertyContract.viewedLedger 9223372036854775807, none⟩ "P1").1 = .ok () ∧
    PropertyContract.GetProperty (PropertyContract.IncrementPropertyViews
      ⟨PropertyContract.viewedLedger 9223372036854775807, none⟩ "P1").2 "P1" =
      .ok { PropertyContract.sampleProperty "AVAILABLE" with Views := -9223372036854775808 } ∧
    ¬ ((9223372036854775807 : Int) < -9223372036854775808) :=
  ⟨rfl, rfl, rfl, by decide⟩

/-- C18 (amended): on an existing property, whatever its status and whether or
not a transaction timestamp is available, `IncrementPropertyViews` succeeds and
stores the previous count plus one wrapped to 64 bits; this is exactly the
previous count plus one, hence strictly greater, whenever the previous count is
below `2^63 - 1`.  Consequently `n` successive calls on a property whose count is
`v` leave the count at `v + n` as long as `v + n < 2^63`, and `n < 2^63` calls after
`RegisterProperty` leave it at `n`. -/
theorem increment_views_counts (w : String → Option Json) (ts : Option Timestamp)
    (propertyID : String) (p : PropertyContract.Property)
    (hget : PropertyContract.GetProperty ⟨w, ts⟩ propertyID = .ok p) :
    (PropertyContract.IncrementPropertyViews ⟨w, ts⟩ propertyID).1 = .ok () ∧
    PropertyContract.GetProperty (PropertyContract.IncrementPropertyViews ⟨w, ts⟩ propertyID).2
      propertyID = .ok { p with Views := wrapInt64 (p.Views + 1) } ∧
    (p.Views < 9223372036854775807 →
      PropertyContract.GetProperty (PropertyContract.IncrementPropertyViews ⟨w, ts⟩ propertyID).2
        propertyID = .ok { p with Views := p.Views + 1 } ∧ p.Views < p.Views + 1) ∧
    (∀ n : Nat, p.Views + n < 9223372036854775808 →
      PropertyContract.GetProperty (PropertyContract.incrementViewsN n ⟨w, ts⟩ propertyID)
        propertyID = .ok { p with Views := p.Views + n }) ∧
    (∀ (n : Nat) (w0 : String → Option Json) (t : Timestamp) (owner ownerName location : String)
      (area price : Float64) (propertyType description : String) (latitude longitude : Float64),
      w0 propertyID = none → (n : Int) < 9223372036854775808 →
      PropertyContract.GetProperty (PropertyContract.incrementViewsN n
        (PropertyContract.RegisterProperty ⟨w0, some t⟩ propertyID owner ownerName location area
          price propertyType description latitude longitude).2 propertyID) propertyID =
        .ok ⟨propertyID, owner, ownerName, location, area, price, "PENDING_VERIFICATION",
          propertyType, description, [], "", Time.zero, timeUnix t.Seconds t.Nanos,
          timeUnix t.Seconds t.Nanos, n, latitude, longitude⟩) := by
  have hv := PropertyContract.GetProperty_views _ _ _ hget
  obtain ⟨hok, hafter⟩ := PropertyContract.IncrementPropertyViews_ok ⟨w, ts⟩ propertyID p hget
  refine ⟨hok, hafter, ?_, ?_, ?_⟩
  · intro hlt
    rw [wrapInt64_of_range (p.Views + 1) (by omega)] at hafter
    exact ⟨hafter, by omega⟩
  · intro n hn
    exact PropertyContract.incrementViewsN_views n ⟨w, ts⟩ propertyID p hget hn
  · intro n w0 t owner ownerName location area price propertyType description latitude longitude
      hfresh hn
    have hreg := (PropertyContract.RegisterProperty_ok ⟨w0, some t⟩ propertyID owner ownerName
      location area price propertyType description latitude longitude t hfresh rfl).2
    have h := PropertyContract.incrementViewsN_views n _ propertyID _ hreg
      (by simpa using hn)
    rw [h]
    simp

/-- C18 (amended) at the sample property with five views: the sixth view, and
three more. -/
theorem increment_views_counts_witness :
    PropertyContract.GetProperty ⟨PropertyContract.viewedLedger 5, none⟩ "P1" =
      .ok { PropertyContract.sampleProperty "AVAILABLE" with Views := 5 } ∧
    PropertyContract.GetProperty (PropertyContract.IncrementPropertyViews
      ⟨PropertyContract.viewedLedger 5, none⟩ "P1").2 "P1" =
      .ok { PropertyContract.sampleProperty "AVAILABLE" with Views := 5 + 1 } ∧
    PropertyContract.GetProperty (PropertyContract.incrementViewsN 3
      ⟨PropertyContract.viewedLedger 5, none⟩ "P1") "P1" =
      .ok { PropertyContract.sampleProperty "AVAILABLE" with Views := 5 + (3 : Nat) } :=
  ⟨rfl,
   ((increment_views_counts (PropertyContract.viewedLedger 5) none "P1"
      { PropertyContract.sampleProperty "AVAILABLE" with Views := 5 } rfl).2.2.1
      (by decide)).1,
   (increment_views_counts (PropertyContract.viewedLedger 5) none "P1"
      { PropertyContract.sampleProperty "AVAILABLE" with Views := 5 } rfl).2.2.2.1 3
      (by decide)⟩

/-! ## Property contract: outcomes of the operations -/

namespace PropertyContract

/-- The two outcomes of `VerifyProperty`. -/
theorem VerifyProperty_cases (ctx : Stub) (propertyID verifierID : String) :
    (∃ msg, VerifyProperty ctx propertyID verifierID = (.error msg, ctx)) ∨
    (∃ p ts j, GetProperty ctx propertyID = .ok p ∧ ctx.txTimestamp = some ts ∧
      jsonMarshalProperty { p with Status := "VERIFIED", VerifiedBy := verifierID,
                                   VerifiedAt := timeUnix ts.Seconds ts.Nanos,
                                   LastUpdated := timeUnix ts.Seconds ts.Nanos } = .ok j ∧
      VerifyProperty ctx propertyID verifierID = ctx.PutState propertyID j) := by
  unfold VerifyProperty
  cases hget : GetProperty ctx propertyID with
  | error err => exact Or.inl ⟨_, rfl⟩
  | ok p =>
    cases hts : ctx.txTimestamp with
    | none => exact Or.inl (by simp [Stub.GetTxTimestamp, hts])
    | some ts =>
      exact Or.inr ⟨p, ts, _, rfl, rfl, rfl, by simp [Stub.GetTxTimestamp, hts, jsonMarshalProperty]⟩

/-- The two outcomes of `UpdatePropertyPrice`. -/
theorem UpdatePropertyPrice_cases (ctx : Stub) (propertyID : String) (price : Float64) :
    (∃ msg, UpdatePropertyPrice ctx propertyID price = (.error msg, ctx)) ∨
    (∃ p ts j, GetProperty ctx propertyID = .ok p ∧ ctx.txTimestamp = some ts ∧
      jsonMarshalProperty { p with Price := price, LastUpdated := timeUnix ts.Seconds ts.Nanos } = .ok j ∧
      UpdatePropertyPrice ctx propertyID price = ctx.PutState propertyID j) := by
  unfold UpdatePropertyPrice
  cases hget : GetProperty ctx propertyID with
  | error err => exact Or.inl ⟨_, rfl⟩
  | ok p =>
    cases hts : ctx.txTimestamp with
    | none => exact Or.inl (by simp [Stub.GetTxTimestamp, hts])
    | some ts =>
      exact Or.inr ⟨p, ts, _, rfl, rfl, rfl, by simp [Stub.GetTxTimestamp, hts, jsonMarshalProperty]⟩

/-- The two outcomes of `UpdatePropertyStatus`. -/
theorem UpdatePropertyStatus_cases (ctx : Stub) (propertyID status : String) :
    (∃ msg, UpdatePropertyStatus ctx propertyID status = (.error msg, ctx)) ∨
    (∃ p ts j, GetProperty ctx propertyID = .ok p ∧ ctx.txTimestamp = some ts ∧
      jsonMarshalProperty { p with Status := status, LastUpdated := timeUnix ts.Seconds ts.Nanos } = .ok j ∧
      UpdatePropertyStatus ctx propertyID status = ctx.PutState propertyID j) := by
  unfold UpdatePropertyStatus
  cases hget : GetProperty ctx propertyID with
  | error err => exact Or.inl ⟨_, rfl⟩
  | ok p =>
    cases hts : ctx.txTimestamp with
    | none => exact Or.inl (by simp [Stub.GetTxTimestamp, hts])
    | some ts =>
      exact Or.inr ⟨p, ts, _, rfl, rfl, rfl, by simp [Stub.GetTxTimestamp, hts, jsonMarshalProperty]⟩

/-- The two outcomes of `IncrementPropertyViews`. -/
theorem IncrementPropertyViews_cases (ctx : Stub) (propertyID : String) :
    (∃ msg, IncrementPropertyViews ctx propertyID = (.error msg, ctx)) ∨
    (∃ p j, GetProperty ctx propertyID = .ok p ∧
      jsonMarshalProperty { p with Views := wrapInt64 (p.Views + 1) } = .ok j ∧
      IncrementPropertyViews ctx propertyID = ctx.PutState propertyID j) := by
  unfold IncrementPropertyViews
  cases hget : GetProperty ctx propertyID with
  | error err => exact Or.inl ⟨_, rfl⟩
  | ok p => exact Or.inr ⟨p, _, rfl, rfl, by simp [jsonMarshalProperty]⟩

/-- The two outcomes of `TransferProperty`: an error before any write, or the
write of the property followed by the write of the transaction record. -/
theorem TransferProperty_cases (ctx : Stub)
    (propertyID newOwner newOwnerName transactionID : String) :
    (∃ msg, TransferProperty ctx propertyID newOwner newOwnerName transactionID =
      (.error msg, ctx)) ∨
    (∃ p ts j tj, GetProperty ctx propertyID = .ok p ∧ ctx.txTimestamp = some ts ∧
      jsonMarshalProperty { p with Owner := newOwner, OwnerName := newOwnerName,
                                   Status := "SOLD",
                                   LastUpdated := timeUnix ts.Seconds ts.Nanos } = .ok j ∧
      jsonMarshalTransaction ⟨transactionID, propertyID, p.Owner, newOwner, p.Price, "COMPLETED",
        "", timeUnix ts.Seconds ts.Nanos⟩ = .ok tj ∧
      TransferProperty ctx propertyID newOwner newOwnerName transactionID =
        (ctx.PutState propertyID j).2.PutState ("TXN_" ++ transactionID) tj) := by
  unfold TransferProperty
  cases hget : GetProperty ctx propertyID with
  | error err => exact Or.inl ⟨_, rfl⟩
  | ok p =>
    cases hts : ctx.txTimestamp with
    | none => exact Or.inl (by simp [Stub.GetTxTimestamp, hts])
    | some ts =>
      exact Or.inr ⟨p, ts, _, _, rfl, rfl, rfl, rfl, by
        simp [Stub.GetTxTimestamp, hts, jsonMarshalProperty, jsonMarshalTransaction,
          Stub.PutState]⟩

/-- The two outcomes of `RegisterProperty`. -/
theorem RegisterProperty_cases (ctx : Stub) (propertyID owner ownerName location : String)
    (area price : Float64) (propertyType description : String) (latitude longitude : Float64) :
    (∃ msg, RegisterProperty ctx propertyID owner ownerName location area price propertyType
      description latitude longitude = (.error msg, ctx)) ∨
    (∃ ts j, ctx.state propertyID = none ∧ ctx.txTimestamp = some ts ∧
      jsonMarshalProperty ⟨propertyID, owner, ownerName, location, area, price,
        "PENDING_VERIFICATION", propertyType, description, [], "", Time.zero,
        timeUnix ts.Seconds ts.Nanos, timeUnix ts.Seconds ts.Nanos, 0, latitude,
        longitude⟩ = .ok j ∧
      RegisterProperty ctx propertyID owner ownerName location area price propertyType
        description latitude longitude = ctx.PutState propertyID j) := by
  unfold RegisterProperty PropertyExists Stub.GetState
  cases hst : ctx.state propertyID with
  | some v => exact Or.inl ⟨_, rfl⟩
  | none =>
    cases hts : ctx.txTimestamp with
    | none => exact Or.inl (by simp [Stub.GetTxTimestamp, hts])
    | some ts =>
      exact Or.inr ⟨ts, _, rfl, rfl, rfl, by simp [Stub.GetTxTimestamp, hts, jsonMarshalProperty]⟩

/-- The two outcomes of `RegisterUser` of the property contract. -/
theorem RegisterUser_cases (ctx : Stub) (userID name email role walletAddress phone : String) :
    (∃ msg, RegisterUser ctx userID name email role walletAddress phone = (.error msg, ctx)) ∨
    (∃ ts j, ctx.state ("USER_" ++ userID) = none ∧ ctx.txTimestamp = some ts ∧
      jsonMarshalUser ⟨userID, name, email, role, walletAddress, phone, false,
        timeUnix ts.Seconds ts.Nanos, timeUnix ts.Seconds ts.Nanos⟩ = .ok j ∧
      RegisterUser ctx userID name email role walletAddress phone =
        ctx.PutState ("USER_" ++ userID) j) := by
  unfold RegisterUser UserExists Stub.GetState
  cases hst : ctx.state ("USER_" ++ userID) with
  | some v => exact Or.inl ⟨_, rfl⟩
  | none =>
    cases hts : ctx.txTimestamp with
    | none => exact Or.inl (by simp [Stub.GetTxTimestamp, hts])
    | some ts =>
      exact Or.inr ⟨ts, _, rfl, rfl, rfl, by simp [Stub.GetTxTimestamp, hts, jsonMarshalUser]⟩

/-- The two outcomes of `UpdateUserVerification` of the property contract. -/
theorem UpdateUserVerification_cases (ctx : Stub) (userID : String) (isVerified : Bool) :
    (∃ msg, UpdateUserVerification ctx userID isVerified = (.error msg, ctx)) ∨
    (∃ u j, GetUser ctx userID = .ok u ∧
      jsonMarshalUser { u with IsVerified := isVerified } = .ok j ∧
      UpdateUserVerification ctx userID isVerified = ctx.PutState ("USER_" ++ userID) j) := by
  unfold UpdateUserVerification
  cases hget : GetUser ctx userID with
  | error err => exact Or.inl ⟨_, rfl⟩
  | ok u => exact Or.inr ⟨u, _, rfl, rfl, by simp [jsonMarshalUser]⟩

end PropertyContract

/-! ## The shared key space of the property contract -/

namespace PropertyContract

/-- Either `TransferProperty` returns an error and leaves the stub as it was, or
it succeeds after issuing both writes, the property first and the transaction
record second. -/
theorem TransferProperty_both_writes (ctx : Stub)
    (propertyID newOwner newOwnerName transactionID : String) :
    ((TransferProperty ctx propertyID newOwner newOwnerName transactionID).1 ≠ .ok () ∧
      (TransferProperty ctx propertyID newOwner newOwnerName transactionID).2 = ctx) ∨
    ((TransferProperty ctx propertyID newOwner newOwnerName transactionID).1 = .ok () ∧
      ∃ p ts j tj, GetProperty ctx propertyID = .ok p ∧ ctx.txTimestamp = some ts ∧
        jsonMarshalProperty { p with Owner := newOwner, OwnerName := newOwnerName,
                                     Status := "SOLD",
                                     LastUpdated := timeUnix ts.Seconds ts.Nanos } = .ok j ∧
        jsonMarshalTransaction ⟨transactionID, propertyID, p.Owner, newOwner, p.Price,
          "COMPLETED", "", timeUnix ts.Seconds ts.Nanos⟩ = .ok tj ∧
        (TransferProperty ctx propertyID newOwner newOwnerName transactionID).2.state =
          fun k => if k = "TXN_" ++ transactionID then some tj
            else if k = propertyID then some j else ctx.state k) := by
  rcases TransferProperty_cases ctx propertyID newOwner newOwnerName transactionID with
    ⟨msg, h⟩ | ⟨p, ts, j, tj, hget, hts, hj, htj, h⟩
  · exact Or.inl (by simp [h])
  · exact Or.inr ⟨by rw [h]; rfl, p, ts, j, tj, hget, hts, hj, htj, by rw [h]; rfl⟩

end PropertyContract

/-- C11 at a failing input: the property registered under the id `TXN_1` is
transferred with transaction id `1`.  The call succeeds, yet afterwards the key
of the property holds the transaction document and not the updated property:
of the two records only the transaction record is present. -/
theorem transfer_leaves_one_record :
    (PropertyContract.TransferProperty ⟨PropertyContract.prefixedLedger, some ⟨300, 0⟩⟩ "TXN_1"
      "carol" "Carol" "1").1 = .ok () ∧
    (PropertyContract.TransferProperty ⟨PropertyContract.prefixedLedger, some ⟨300, 0⟩⟩ "TXN_1"
      "carol" "Carol" "1").2.state "TXN_1" =
      some (.obj [("transactionId", .str "1"), ("propertyId", .str "TXN_1"),
        ("fromOwner", .str "alice"), ("toOwner", .str "carol"), ("amount", .num ⟨2, 0⟩),
        ("status", .str "COMPLETED"), ("escrowId", .str ""), ("timestamp", .time ⟨300, 0⟩)]) ∧
    (PropertyContract.GetProperty (PropertyContract.TransferProperty
      ⟨PropertyContract.prefixedLedger, some ⟨300, 0⟩⟩ "TXN_1" "carol" "Carol" "1").2
      "TXN_1").map (fun p => (p.Owner, p.Status)) = .ok ("", "COMPLETED") :=
  ⟨rfl, rfl, rfl⟩

/-- C13 at a failing input: after `P1` was transferred to `bob` under transaction
id `T1`, a second `TransferProperty` of `P1` with the same transaction id
succeeds and replaces the transaction record stored under `TXN_T1`. -/
theorem transfer_replaces_transaction_record :
    PropertyContract.transferredLedger "TXN_T1" =
      some (.obj [("transactionId", .str "T1"), ("propertyId", .str "P1"),
        ("fromOwner", .str "alice"), ("toOwner", .str "bob"), ("amount", .num ⟨2, 0⟩),
        ("status", .str "COMPLETED"), ("escrowId", .str ""), ("timestamp", .time ⟨200, 0⟩)]) ∧
    (PropertyContract.TransferProperty ⟨PropertyContract.transferredLedger, some ⟨300, 0⟩⟩ "P1"
      "carol" "Carol" "T1").1 = .ok () ∧
    (PropertyContract.TransferProperty ⟨PropertyContract.transferredLedger, some ⟨300, 0⟩⟩ "P1"
      "carol" "Carol" "T1").2.state "TXN_T1" =
      some (.obj [("transactionId", .str "T1"), ("propertyId", .str "P1"),
        ("fromOwner", .str "bob"), ("toOwner", .str "carol"), ("amount", .num ⟨2, 0⟩),
        ("status", .str "COMPLETED"), ("escrowId", .str ""), ("timestamp", .time ⟨300, 0⟩)]) :=
  ⟨rfl, rfl, rfl⟩

/-- C14 at failing inputs: `RegisterProperty` with the id `USER_u1` is refused
because the key of user `u1` holds a value, and with the id `TXN_T1` because the
key of transaction `T1` does; `RegisterUser` of `u1` is refused because a
property was registered under the id `USER_u1`. -/
theorem prefixed_ids_collide :
    PropertyContract.RegisterProperty ⟨PropertyContract.userLedger, some ⟨200, 0⟩⟩ "USER_u1"
      "alice" "Alice" "12 Hill Road" ⟨1, 0⟩ ⟨2, 0⟩ "RESIDENTIAL" "plot" ⟨3, 0⟩ ⟨4, 0⟩ =
      (.error "property USER_u1 already exists",
        ⟨PropertyContract.userLedger, some ⟨200, 0⟩⟩) ∧
    PropertyContract.RegisterProperty ⟨PropertyContract.transferredLedger, some ⟨300, 0⟩⟩
      "TXN_T1" "alice" "Alice" "12 Hill Road" ⟨1, 0⟩ ⟨2, 0⟩ "RESIDENTIAL" "plot" ⟨3, 0⟩ ⟨4, 0⟩ =
      (.error "property TXN_T1 already exists",
        ⟨PropertyContract.transferredLedger, some ⟨300, 0⟩⟩) ∧
    PropertyContract.RegisterUser ⟨PropertyContract.prefixedUserLedger, some ⟨200, 0⟩⟩ "u1" "Una"
      "una@example.org" "BUYER" "0x01" "555" =
      (.error "user u1 already exists", ⟨PropertyContract.prefixedUserLedger, some ⟨200, 0⟩⟩) :=
  ⟨rfl, rfl, rfl⟩

/-- C15 at a failing input: the property registered at instant 100 under the id
`TXN_1` is transferred with transaction id `1`; the call succeeds and the
`registeredAt` read back is the zero time. -/
theorem transfer_loses_registeredAt :
    (PropertyContract.GetProperty ⟨PropertyContract.prefixedLedger, some ⟨400, 0⟩⟩ "TXN_1").map
      (fun p => p.RegisteredAt) = .ok ⟨100, 0⟩ ∧
    (PropertyContract.TransferProperty ⟨PropertyContract.prefixedLedger, some ⟨400, 0⟩⟩ "TXN_1"
      "dave" "Dave" "1").1 = .ok () ∧
    (PropertyContract.GetProperty (PropertyContract.TransferProperty
      ⟨PropertyContract.prefixedLedger, some ⟨400, 0⟩⟩ "TXN_1" "dave" "Dave" "1").2 "TXN_1").map
      (fun p => p.RegisteredAt) = .ok Time.zero ∧
    Time.zero ≠ (⟨100, 0⟩ : Time) :=
  ⟨rfl, rfl, rfl, by decide⟩

/-- C16 at a failing input: `IncrementPropertyViews` on the sample property, last
updated at instant 100, in a transaction whose timestamp is 200, succeeds and
leaves `lastUpdated` at instant 100. -/
theorem increment_views_keeps_lastUpdated :
    (PropertyContract.IncrementPropertyViews
      ⟨PropertyContract.sampleLedger "AVAILABLE", some ⟨200, 0⟩⟩ "P1").1 = .ok () ∧
    (PropertyContract.GetProperty (PropertyContract.IncrementPropertyViews
      ⟨PropertyContract.sampleLedger "AVAILABLE", some ⟨200, 0⟩⟩ "P1").2 "P1").map
      (fun p => (p.Views, p.LastUpdated)) = .ok (1, ⟨100, 0⟩) ∧
    (⟨100, 0⟩ : Time) ≠ timeUnix 200 0 :=
  ⟨rfl, rfl, by decide⟩

/-! ## Creation and update timestamps -/

namespace PropertyContract

/-- Reading the property back after the three mutators that take the property
through the timestamp: `registeredAt` is kept and `lastUpdated` is the instant
of the transaction. -/
theorem stamped_mutators_timestamps (w : String → Option Json) (t : Timestamp)
    (propertyID : String) (p : Property) (hget : GetProperty ⟨w, some t⟩ propertyID = .ok p) :
    (∀ verifierID : String,
      GetProperty (VerifyProperty ⟨w, some t⟩ propertyID verifierID).2 propertyID =
        .ok { p with Status := "VERIFIED", VerifiedBy := verifierID,
                     VerifiedAt := timeUnix t.Seconds t.Nanos,
                     LastUpdated := timeUnix t.Seconds t.Nanos }) ∧
    (∀ price : Float64,
      GetProperty (UpdatePropertyPrice ⟨w, some t⟩ propertyID price).2 propertyID =
        .ok { p with Price := price, LastUpdated := timeUnix t.Seconds t.Nanos }) ∧
    (∀ status : String,
      GetProperty (UpdatePropertyStatus ⟨w, some t⟩ propertyID status).2 propertyID =
        .ok { p with Status := status, LastUpdated := timeUnix t.Seconds t.Nanos }) := by
  have hv := GetProperty_views _ _ _ hget
  refine ⟨?_, ?_, ?_⟩
  · intro verifierID
    rcases VerifyProperty_cases ⟨w, some t⟩ propertyID verifierID with
      ⟨msg, h⟩ | ⟨p1, ts, j, hget1, hts, hj, h⟩
    · have := VerifyProperty_fst ⟨w, some t⟩ propertyID verifierID p t hget rfl
      simp [h] at this
    · rw [hget] at hget1
      cases hget1
      cases hts
      rw [h]
      exact GetProperty_PutState _ _ _ j hj hv
  · intro price
    rcases UpdatePropertyPrice_cases ⟨w, some t⟩ propertyID price with
      ⟨msg, h⟩ | ⟨p1, ts, j, hget1, hts, hj, h⟩
    · have := UpdatePropertyPrice_fst ⟨w, some t⟩ propertyID price p t hget rfl
      simp [h] at this
    · rw [hget] at hget1
      cases hget1
      cases hts
      rw [h]
      exact GetProperty_PutState _ _ _ j hj hv
  · intro status
    rcases UpdatePropertyStatus_cases ⟨w, some t⟩ propertyID status with
      ⟨msg, h⟩ | ⟨p1, ts, j, hget1, hts, hj, h⟩
    · have := UpdatePropertyStatus_fst ⟨w, some t⟩ propertyID status p t hget rfl
      simp [h] at this
    · rw [hget] at hget1
      cases hget1
      cases hts
      rw [h]
      exact GetProperty_PutState _ _ _ j hj hv

end PropertyContract

namespace UserContract

/-- Decoding a list of encoded documents gives back the documents. -/
theorem mapM_decodeDocument_map_encode (l : List Document) :
    (l.map encodeDocument).mapM decodeDocument = .ok l := by
  induction l with
  | nil => rfl
  | cons a l ih =>
    simp only [List.map_cons, List.mapM_cons, ih]
    rfl

/-- Decoding inverts encoding on user records. -/
theorem unmarshal_marshal_user (u : User) (j : Json) (hj : jsonMarshal u = .ok j) :
    jsonUnmarshal j = .ok u := by
  cases hj
  have hdocs : getDocuments [("userId", .str u.UserID), ("name", .str u.Name),
    ("email", .str u.Email), ("phone", .str u.Phone), ("aadhar", .str u.Aadhar),
    ("pan", .str u.PAN), ("address", .str u.Address), ("role", .str u.Role),
    ("walletAddress", .str u.WalletAddress), ("documents", .arr (u.Documents.map encodeDocument)),
    ("passwordHash", .str u.PasswordHash), ("isVerified", .bool u.IsVerified),
    ("registeredAt", .time u.RegisteredAt), ("lastLogin", .time u.LastLogin)] =
      .ok u.Documents := mapM_decodeDocument_map_encode u.Documents
  unfold jsonUnmarshal
  simp only [hdocs]
  rfl

/-- Reading back the user just written. -/
theorem GetUser_PutState (ctx : Stub) (userID : String) (u : User) (j : Json)
    (h : jsonMarshal u = .ok j) : GetUser (ctx.PutState userID j).2 userID = .ok u := by
  simp [GetUser, Stub.GetState, Stub.PutState, unmarshal_marshal_user u j h]

/-- The user contract's mutators keep `registeredAt`: after a successful call the
user read back carries the instant it carried before. -/
theorem user_mutators_keep_registeredAt (ctx : Stub) (userID : String) (u : User)
    (hget : GetUser ctx userID = .ok u) :
    (∀ isVerified : Bool,
      GetUser (UpdateUserVerification ctx userID isVerified).2 userID =
        .ok { u with IsVerified := isVerified }) ∧
    (∀ (documentID documentType documentHash : String) (t : Timestamp),
      ctx.txTimestamp = some t →
      GetUser (AddDocument ctx userID documentID documentType documentHash).2 userID =
        .ok { u with Documents := u.Documents ++
          [⟨documentID, documentType, documentHash, timeUnix t.Seconds t.Nanos, "", false⟩] }) ∧
    (∀ documentID adminID : String,
      (VerifyDocument ctx userID documentID adminID).1 = .ok () →
      GetUser (VerifyDocument ctx userID documentID adminID).2 userID =
        .ok { u with Documents := (markVerified documentID adminID u.Documents).1 }) ∧
    (∀ t : Timestamp, ctx.txTimestamp = some t →
      GetUser (UpdateLastLogin ctx userID).2 userID =
        .ok { u with LastLogin := timeUnix t.Seconds t.Nanos }) := by
  refine ⟨?_, ?_, ?_, ?_⟩
  · intro isVerified
    simp only [UpdateUserVerification, hget, jsonMarshal]
    exact GetUser_PutState ctx userID { u with IsVerified := isVerified } _ rfl
  · intro documentID documentType documentHash t hts
    simp only [AddDocument, hget, Stub.GetTxTimestamp, hts, jsonMarshal]
    exact GetUser_PutState ctx userID { u with Documents := u.Documents ++
      [⟨documentID, documentType, documentHash, timeUnix t.Seconds t.Nanos, "", false⟩] } _ rfl
  · intro documentID adminID hok
    unfold VerifyDocument at hok ⊢
    simp only [hget] at hok ⊢
    rcases hm : markVerified documentID adminID u.Documents with ⟨docs, found⟩
    rw [hm] at hok
    cases found with
    | false => simp at hok
    | true =>
      simp only [jsonMarshal]
      exact GetUser_PutState ctx userID { u with Documents := docs } _ rfl
  · intro t hts
    simp only [UpdateLastLogin, hget, Stub.GetTxTimestamp, hts, jsonMarshal]
    exact GetUser_PutState ctx userID { u with LastLogin := timeUnix t.Seconds t.Nanos } _ rfl

end UserContract

/-! ## SOLD properties and their transaction records -/

/-- A key with the `TXN_` prefix is not a key with the `USER_` prefix. -/
theorem txn_key_ne_user_key (t u : String) : "TXN_" ++ t ≠ "USER_" ++ u := by
  intro h
  have h1 := congrArg String.data h
  rw [String.data_append, String.data_append] at h1
  have h2 : ("TXN_" : String).data = ['T', 'X', 'N', '_'] := rfl
  have h3 : ("USER_" : String).data = ['U', 'S', 'E', 'R', '_'] := rfl
  rw [h2, h3] at h1
  simp at h1

/-- The key `P1` is plain. -/
theorem plainKey_P1 : PropertyContract.PlainKey "P1" := by
  have h3 : ("P1" : String).data = ['P', '1'] := rfl
  refine ⟨?_, ?_⟩
  · intro t h
    have h1 := congrArg String.data h
    rw [String.data_append, h3] at h1
    have h2 : ("TXN_" : String).data = ['T', 'X', 'N', '_'] := rfl
    rw [h2] at h1
    simp at h1
  · intro u h
    have h1 := congrArg String.data h
    rw [String.data_append, h3] at h1
    have h2 : ("USER_" : String).data = ['U', 'S', 'E', 'R', '_'] := rfl
    rw [h2] at h1
    simp at h1

namespace PropertyContract

/-- Decoding inverts encoding on transaction records. -/
theorem unmarshal_marshal_transaction (tx : Transaction) (j : Json)
    (h : jsonMarshalTransaction tx = .ok j) : jsonUnmarshalTransaction j = .ok tx := by
  cases h
  rfl

/-- A transaction document read as a property: only the id and the status bind. -/
theorem jsonUnmarshalProperty_of_transaction (tx : Transaction) (j : Json)
    (h : jsonMarshalTransaction tx = .ok j) :
    jsonUnmarshalProperty j = .ok ⟨tx.PropertyID, "", "", "", Float64.zero, Float64.zero,
      tx.Status, "", "", [], "", Time.zero, Time.zero, Time.zero, 0, Float64.zero,
      Float64.zero⟩ := by
  cases h
  rfl

/-- A user document read as a property: only `registeredAt` binds. -/
theorem jsonUnmarshalProperty_of_user (usr : User) (j : Json) (h : jsonMarshalUser usr = .ok j) :
    jsonUnmarshalProperty j = .ok ⟨"", "", "", "", Float64.zero, Float64.zero, "", "", "", [],
      "", Time.zero, usr.RegisteredAt, Time.zero, 0, Float64.zero, Float64.zero⟩ := by
  cases h
  rfl

/-- A matching transaction record stays one when the `TXN_` keys keep their
values. -/
theorem hasTransaction_mono (w w1 : String → Option Json) (propertyID owner : String)
    (h : HasTransaction w propertyID owner)
    (hkeep : ∀ t v, w ("TXN_" ++ t) = some v → w1 ("TXN_" ++ t) = some v) :
    HasTransaction w1 propertyID owner := by
  obtain ⟨t, v, tx, hv, hdec, h1, h2⟩ := h
  exact ⟨t, v, tx, hkeep t v hv, hdec, h1, h2⟩

/-- Writing a user record under a `USER_` key keeps the invariant. -/
theorem ledgerInv_put_user (ctx : Stub) (u : String) (usr : User) (j : Json)
    (hinv : LedgerInv ctx.state) (hj : jsonMarshalUser usr = .ok j) :
    LedgerInv (ctx.PutState ("USER_" ++ u) j).2.state := by
  obtain ⟨hp, ht, hu⟩ := hinv
  have hkeep : ∀ t v, ctx.state ("TXN_" ++ t) = some v →
      (ctx.PutState ("USER_" ++ u) j).2.state ("TXN_" ++ t) = some v := by
    intro t v hv
    rw [Stub.PutState_state_other _ _ _ _ (txn_key_ne_user_key t u)]
    exact hv
  refine ⟨?_, ?_, ?_⟩
  · intro k v hk hv
    rw [Stub.PutState_state_other _ _ _ _ (hk.2 u)] at hv
    obtain ⟨p, h1, h2, h3, h4⟩ := hp k v hk hv
    exact ⟨p, h1, h2, h3, fun hs => hasTransaction_mono _ _ _ _ (h4 hs) hkeep⟩
  · intro t v hv
    rw [Stub.PutState_state_other _ _ _ _ (txn_key_ne_user_key t u)] at hv
    exact ht t v hv
  · intro u1 v hv
    by_cases h : "USER_" ++ u1 = "USER_" ++ u
    · rw [h, Stub.PutState_state_self] at hv
      cases hv
      exact ⟨usr, hj⟩
    · rw [Stub.PutState_state_other _ _ _ _ h] at hv
      exact hu u1 v hv

/-- Writing, under a plain key, a property that carries the key as id and is not
SOLD without a matching transaction record keeps the invariant. -/
theorem ledgerInv_put_property (ctx : Stub) (propertyID : String) (p : Property) (j : Json)
    (hinv : LedgerInv ctx.state) (hplain : PlainKey propertyID)
    (hj : jsonMarshalProperty p = .ok j)
    (hviews : -9223372036854775808 ≤ p.Views ∧ p.Views < 9223372036854775808)
    (hid : p.PropertyID = propertyID)
    (hsold : p.Status = "SOLD" → HasTransaction ctx.state propertyID p.Owner) :
    LedgerInv (ctx.PutState propertyID j).2.state := by
  obtain ⟨hp, ht, hu⟩ := hinv
  have hkeep : ∀ t v, ctx.state ("TXN_" ++ t) = some v →
      (ctx.PutState propertyID j).2.state ("TXN_" ++ t) = some v := by
    intro t v hv
    rw [Stub.PutState_state_other _ _ _ _ (fun h => hplain.1 t h.symm)]
    exact hv
  refine ⟨?_, ?_, ?_⟩
  · intro k v hk hv
    by_cases h : k = propertyID
    · subst h
      rw [Stub.PutState_state_self] at hv
      cases hv
      exact ⟨p, hj, hviews, hid, fun hs => hasTransaction_mono _ _ _ _ (hsold hs) hkeep⟩
    · rw [Stub.PutState_state_other _ _ _ _ h] at hv
      obtain ⟨p0, h1, h2, h3, h4⟩ := hp k v hk hv
      exact ⟨p0, h1, h2, h3, fun hs => hasTransaction_mono _ _ _ _ (h4 hs) hkeep⟩
  · intro t v hv
    rw [Stub.PutState_state_other _ _ _ _ (fun h => hplain.1 t h.symm)] at hv
    exact ht t v hv
  · intro u v hv
    rw [Stub.PutState_state_other _ _ _ _ (fun h => hplain.2 u h.symm)] at hv
    exact hu u v hv

/-- The two writes of a transfer, the property under a plain key and the
transaction record under an unset `TXN_` key, keep the invariant. -/
theorem ledgerInv_put_transfer (ctx : Stub) (propertyID transactionID : String) (p : Property)
    (tx : Transaction) (j tj : Json) (hinv : LedgerInv ctx.state) (hplain : PlainKey propertyID)
    (hfresh : ctx.state ("TXN_" ++ transactionID) = none)
    (hj : jsonMarshalProperty p = .ok j)
    (hviews : -9223372036854775808 ≤ p.Views ∧ p.Views < 9223372036854775808)
    (hid : p.PropertyID = propertyID) (htj : jsonMarshalTransaction tx = .ok tj)
    (htx1 : tx.PropertyID = propertyID) (htx2 : tx.ToOwner = p.Owner)
    (htx3 : tx.Status = "COMPLETED") :
    LedgerInv ((ctx.PutState propertyID j).2.PutState ("TXN_" ++ transactionID) tj).2.state := by
  obtain ⟨hp, ht, hu⟩ := hinv
  have hkeep : ∀ t v, ctx.state ("TXN_" ++ t) = some v →
      ((ctx.PutState propertyID j).2.PutState ("TXN_" ++ transactionID) tj).2.state
        ("TXN_" ++ t) = some v := by
    intro t v hv
    have hne : "TXN_" ++ t ≠ "TXN_" ++ transactionID := by
      intro h
      rw [h, hfresh] at hv
      cases hv
    rw [Stub.PutState_state_other _ _ _ _ hne,
      Stub.PutState_state_other _ _ _ _ (fun h => hplain.1 t h.symm)]
    exact hv
  refine ⟨?_, ?_, ?_⟩
  · intro k v hk hv
    rw [Stub.PutState_state_other _ _ _ _ (hk.1 transactionID)] at hv
    by_cases h : k = propertyID
    · subst h
      rw [Stub.PutState_state_self] at hv
      cases hv
      refine ⟨p, hj, hviews, hid, fun _ => ⟨transactionID, tj, tx, ?_, ?_, htx1, htx2⟩⟩
      · exact Stub.PutState_state_self _ _ _
      · exact unmarshal_marshal_transaction tx tj htj
    · rw [Stub.PutState_state_other _ _ _ _ h] at hv
      obtain ⟨p0, h1, h2, h3, h4⟩ := hp k v hk hv
      exact ⟨p0, h1, h2, h3, fun hs => hasTransaction_mono _ _ _ _ (h4 hs) hkeep⟩
  · intro t v hv
    by_cases h : "TXN_" ++ t = "TXN_" ++ transactionID
    · rw [h, Stub.PutState_state_self] at hv
      cases hv
      exact ⟨tx, htj, htx3⟩
    · rw [Stub.PutState_state_other _ _ _ _ h,
        Stub.PutState_state_other _ _ _ _ (fun h => hplain.1 t h.symm)] at hv
      exact ht t v hv
  · intro u v hv
    rw [Stub.PutState_state_other _ _ _ _ (fun h => txn_key_ne_user_key transactionID u h.symm),
      Stub.PutState_state_other _ _ _ _ (fun h => hplain.2 u h.symm)] at hv
    exact hu u v hv

/-- Under the invariant, a property read from a plain key carries the key as id,
has a 64-bit view count and, when SOLD, a matching transaction record. -/
theorem ledgerInv_get_property (ctx : Stub) (propertyID : String) (p : Property)
    (hinv : LedgerInv ctx.state) (hplain : PlainKey propertyID)
    (hget : GetProperty ctx propertyID = .ok p) :
    (-9223372036854775808 ≤ p.Views ∧ p.Views < 9223372036854775808) ∧
    p.PropertyID = propertyID ∧
    (p.Status = "SOLD" → HasTransaction ctx.state propertyID p.Owner) := by
  obtain ⟨v, hv, hdec⟩ := GetProperty_ok_state ctx propertyID p hget
  obtain ⟨p0, h1, h2, h3, h4⟩ := hinv.1 propertyID v hplain hv
  rw [jsonUnmarshalProperty_jsonMarshalProperty p0 v h1 h2] at hdec
  cases hdec
  exact ⟨h2, h3, h4⟩

/-- An admissible invocation keeps the invariant. -/
theorem ledgerInv_run (w : String → Option Json) (ts : Option Timestamp) (c : Call)
    (hinv : LedgerInv w) (hadm : c.Admissible w) : LedgerInv (c.run ⟨w, ts⟩).2.state := by
  cases c with
  | registerUser userID name email role walletAddress phone =>
    rcases RegisterUser_cases ⟨w, ts⟩ userID name email role walletAddress phone with
      ⟨msg, h⟩ | ⟨t, j, _, _, hj, h⟩
    · simpa [Call.run, h] using hinv
    · simp only [Call.run, h]
      exact ledgerInv_put_user ⟨w, ts⟩ userID _ j hinv hj
  | updateUserVerification userID isVerified =>
    rcases UpdateUserVerification_cases ⟨w, ts⟩ userID isVerified with
      ⟨msg, h⟩ | ⟨u, j, _, hj, h⟩
    · simpa [Call.run, h] using hinv
    · simp only [Call.run, h]
      exact ledgerInv_put_user ⟨w, ts⟩ userID _ j hinv hj
  | registerProperty propertyID owner ownerName location area price propertyType description
      latitude longitude =>
    rcases RegisterProperty_cases ⟨w, ts⟩ propertyID owner ownerName location area price
      propertyType description latitude longitude with ⟨msg, h⟩ | ⟨t, j, _, _, hj, h⟩
    · simpa [Call.run, h] using hinv
    · simp only [Call.run, h]
      exact ledgerInv_put_property ⟨w, ts⟩ propertyID _ j hinv hadm hj
        (by show (-9223372036854775808 : Int) ≤ 0 ∧ (0 : Int) < 9223372036854775808; decide) rfl
        (fun hs => absurd hs (by show ¬ "PENDING_VERIFICATION" = "SOLD"; decide))
  | verifyProperty propertyID verifierID =>
    rcases VerifyProperty_cases ⟨w, ts⟩ propertyID verifierID with
      ⟨msg, h⟩ | ⟨p, t, j, hget, _, hj, h⟩
    · simpa [Call.run, h] using hinv
    · obtain ⟨hv, hid, _⟩ := ledgerInv_get_property ⟨w, ts⟩ propertyID p hinv hadm hget
      simp only [Call.run, h]
      exact ledgerInv_put_property ⟨w, ts⟩ propertyID _ j hinv hadm hj hv hid
        (fun hs => absurd hs (by show ¬ "VERIFIED" = "SOLD"; decide))
  | updatePropertyPrice propertyID price =>
    rcases UpdatePropertyPrice_cases ⟨w, ts⟩ propertyID price with
      ⟨msg, h⟩ | ⟨p, t, j, hget, _, hj, h⟩
    · simpa [Call.run, h] using hinv
    · obtain ⟨hv, hid, hsold⟩ := ledgerInv_get_property ⟨w, ts⟩ propertyID p hinv hadm hget
      simp only [Call.run, h]
      exact ledgerInv_put_property ⟨w, ts⟩ propertyID _ j hinv hadm hj hv hid hsold
  | incrementPropertyViews propertyID =>
    rcases IncrementPropertyViews_cases ⟨w, ts⟩ propertyID with ⟨msg, h⟩ | ⟨p, j, hget, hj, h⟩
    · simpa [Call.run, h] using hinv
    · obtain ⟨_, hid, hsold⟩ := ledgerInv_get_property ⟨w, ts⟩ propertyID p hinv hadm hget
      simp only [Call.run, h]
      exact ledgerInv_put_property ⟨w, ts⟩ propertyID _ j hinv hadm hj (wrapInt64_range _) hid
        hsold
  | transferProperty propertyID newOwner newOwnerName transactionID =>
    rcases TransferProperty_cases ⟨w, ts⟩ propertyID newOwner newOwnerName transactionID with
      ⟨msg, h⟩ | ⟨p, t, j, tj, hget, _, hj, htj, h⟩
    · simpa [Call.run, h] using hinv
    · obtain ⟨hv, hid, _⟩ := ledgerInv_get_property ⟨w, ts⟩ propertyID p hinv hadm.1 hget
      simp only [Call.run, h]
      exact ledgerInv_put_transfer ⟨w, ts⟩ propertyID transactionID _ _ j tj hinv hadm.1 hadm.2
        hj hv hid htj rfl rfl rfl
  | updatePropertyStatus propertyID status =>
    rcases UpdatePropertyStatus_cases ⟨w, ts⟩ propertyID status with
      ⟨msg, h⟩ | ⟨p, t, j, hget, _, hj, h⟩
    · simpa [Call.run, h] using hinv
    · obtain ⟨hv, hid, _⟩ := ledgerInv_get_property ⟨w, ts⟩ propertyID p hinv hadm.1 hget
      simp only [Call.run, h]
      exact ledgerInv_put_property ⟨w, ts⟩ propertyID _ j hinv hadm.1 hj hv hid
        (fun hs => absurd hs hadm.2)

/-- Every admissibly reachable ledger satisfies the invariant. -/
theorem AdmissiblyReachable.ledgerInv (w : String → Option Json) (h : AdmissiblyReachable w) :
    LedgerInv w := by
  induction h with
  | empty =>
    refine ⟨?_, ?_, ?_⟩
    · intro k v _ hv
      cases hv
    · intro t v hv
      cases hv
    · intro u v hv
      cases hv
  | step w ts c _ hadm ih => exact ledgerInv_run w ts c ih hadm

/-- Under the invariant, whatever key a SOLD property is read from, a matching
transaction record is in the ledger. -/
theorem ledgerInv_sold (w : String → Option Json) (hinv : LedgerInv w) (k : String)
    (p : Property) (hget : GetProperty ⟨w, none⟩ k = .ok p) (hs : p.Status = "SOLD") :
    HasTransaction w p.PropertyID p.Owner := by
  by_cases hplain : PlainKey k
  · obtain ⟨_, hid, hsold⟩ := ledgerInv_get_property ⟨w, none⟩ k p hinv hplain hget
    rw [hid]
    exact hsold hs
  · obtain ⟨v, hv, hdec⟩ := GetProperty_ok_state ⟨w, none⟩ k p hget
    have hcases : (∃ t, k = "TXN_" ++ t) ∨ (∃ u, k = "USER_" ++ u) := by
      unfold PlainKey at hplain
      by_contra hcon
      apply hplain
      constructor
      · intro t ht
        exact hcon (Or.inl ⟨t, ht⟩)
      · intro u hu
        exact hcon (Or.inr ⟨u, hu⟩)
    rcases hcases with ⟨t, rfl⟩ | ⟨u, rfl⟩
    · obtain ⟨tx, htx, hstat⟩ := hinv.2.1 t v hv
      rw [jsonUnmarshalProperty_of_transaction tx v htx] at hdec
      cases hdec
      rw [hstat] at hs
      exact absurd hs (by show ¬ "COMPLETED" = "SOLD"; decide)
    · obtain ⟨usr, husr⟩ := hinv.2.2 u v hv
      rw [jsonUnmarshalProperty_of_user usr v husr] at hdec
      cases hdec
      exact absurd hs (by show ¬ "" = "SOLD"; decide)

/-- The operation `RegisterProperty` writes no key but the property id. -/
theorem RegisterProperty_state_other (ctx : Stub) (propertyID owner ownerName location : String)
    (area price : Float64) (propertyType description : String) (latitude longitude : Float64)
    (k : String) (hk : k ≠ propertyID) :
    (RegisterProperty ctx propertyID owner ownerName location area price propertyType description
      latitude longitude).2.state k = ctx.state k := by
  rcases RegisterProperty_cases ctx propertyID owner ownerName location area price propertyType
    description latitude longitude with ⟨msg, h⟩ | ⟨t, j, _, _, _, h⟩
  · rw [h]
  · rw [h]
    exact Stub.PutState_state_other _ _ _ _ hk

/-- The operation `UpdatePropertyStatus` writes no key but the property id. -/
theorem UpdatePropertyStatus_state_other (ctx : Stub) (propertyID status : String) (k : String)
    (hk : k ≠ propertyID) :
    (UpdatePropertyStatus ctx propertyID status).2.state k = ctx.state k := by
  rcases UpdatePropertyStatus_cases ctx propertyID status with ⟨msg, h⟩ | ⟨p, t, j, _, _, _, h⟩
  · rw [h]
  · rw [h]
    exact Stub.PutState_state_other _ _ _ _ hk

end PropertyContract

/-- C12 as stated fails: on the reachable ledger left by `RegisterProperty` of `P1`
and `UpdatePropertyStatus` of `P1` to SOLD, the property `P1` is SOLD and no
`TXN_` key holds a transaction record for it. -/
theorem sold_without_transaction :
    PropertyContract.Reachable PropertyContract.soldByStatusLedger ∧
    PropertyContract.GetProperty ⟨PropertyContract.soldByStatusLedger, none⟩ "P1" =
      .ok ⟨"P1", "alice", "Alice", "12 Hill Road", ⟨1, 0⟩, ⟨2, 0⟩, "SOLD", "RESIDENTIAL", "plot",
        [], "", Time.zero, ⟨100, 0⟩, ⟨200, 0⟩, 0, ⟨3, 0⟩, ⟨4, 0⟩⟩ ∧
    ¬ PropertyContract.HasTransaction PropertyContract.soldByStatusLedger "P1" "alice" := by
  refine ⟨?_, rfl, ?_⟩
  · exact PropertyContract.Reachable.step _ (some ⟨200, 0⟩) (.updatePropertyStatus "P1" "SOLD")
      (PropertyContract.Reachable.step _ (some ⟨100, 0⟩) (.registerProperty "P1" "alice" "Alice"
        "12 Hill Road" ⟨1, 0⟩ ⟨2, 0⟩ "RESIDENTIAL" "plot" ⟨3, 0⟩ ⟨4, 0⟩)
        PropertyContract.Reachable.empty)
  · rintro ⟨t, v, tx, hv, _⟩
    have hne : "TXN_" ++ t ≠ "P1" := fun h => plainKey_P1.1 t h.symm
    unfold PropertyContract.soldByStatusLedger at hv
    simp only [PropertyContract.Call.run] at hv
    rw [PropertyContract.UpdatePropertyStatus_state_other _ _ _ _ hne,
      PropertyContract.RegisterProperty_state_other _ _ _ _ _ _ _ _ _ _ _ _ hne] at hv
    cases hv

/-- C12 (amended): in every ledger state reachable from the empty ledger by
property-contract operations whose property ids do not begin with `TXN_` or
`USER_`, whose transfers use a transaction id with an unset key, and in which
`UpdatePropertyStatus` does not set SOLD, every stored property whose status is
SOLD has a matching transaction record: a record under a `TXN_` key whose
`propertyId` is the property's id and whose `toOwner` is its current owner. -/
theorem sold_has_transaction (w : String → Option Json)
    (hw : PropertyContract.AdmissiblyReachable w) (k : String) (p : PropertyContract.Property)
    (hget : PropertyContract.GetProperty ⟨w, none⟩ k = .ok p) (hs : p.Status = "SOLD") :
    PropertyContract.HasTransaction w p.PropertyID p.Owner :=
  PropertyContract.ledgerInv_sold w (hw.ledgerInv w) k p hget hs

/-- C12 (amended) on the ledger left by `RegisterProperty` of `P1` and its
`TransferProperty` to `bob` under transaction id `T1`. -/
theorem sold_has_transaction_witness :
    PropertyContract.AdmissiblyReachable PropertyContract.transferredLedger ∧
    PropertyContract.HasTransaction PropertyContract.transferredLedger "P1" "bob" :=
  have hw : PropertyContract.AdmissiblyReachable PropertyContract.transferredLedger :=
    PropertyContract.AdmissiblyReachable.step _ (some ⟨200, 0⟩)
      (.transferProperty "P1" "bob" "Bob" "T1")
      (PropertyContract.AdmissiblyReachable.step _ (some ⟨100, 0⟩)
        (.registerProperty "P1" "alice" "Alice" "12 Hill Road" ⟨1, 0⟩ ⟨2, 0⟩ "RESIDENTIAL" "plot"
          ⟨3, 0⟩ ⟨4, 0⟩) PropertyContract.AdmissiblyReachable.empty plainKey_P1)
      ⟨plainKey_P1, rfl⟩
  ⟨hw, sold_has_transaction PropertyContract.transferredLedger hw "P1"
    ⟨"P1", "bob", "Bob", "12 Hill Road", ⟨1, 0⟩, ⟨2, 0⟩, "SOLD", "RESIDENTIAL", "plot", [], "",
      Time.zero, ⟨100, 0⟩, ⟨200, 0⟩, 0, ⟨3, 0⟩, ⟨4, 0⟩⟩ rfl rfl⟩

/-! ## The pending admin verifications -/

/-- C22: `GetPendingAdminVerifications` is the status query for ACCEPTED: on every
reading stub it returns what `GetOffersByStatus` returns for the argument
`ACCEPTED`, the same records in the same order or the same error. -/
theorem pending_admin_verifications_is_accepted_query (q : ReadStub) :
    OfferContract.GetPendingAdminVerifications q = OfferContract.GetOffersByStatus q "ACCEPTED" :=
  rfl

/-! ## Frame of the escrow mutators -/

/-- C28: a successful `FundEscrow`, `ReleaseEscrow` or `CancelEscrow` on `escrowID`
leaves the value under every other key as it was, and the record read back at
`escrowID` differs from the record read before at most in `status`,
`transactionHash` and `updatedAt`; its `transactionHash` is the hash argument of
the call. -/
theorem escrow_mutator_frame (ctx : Stub)
    (f : Stub → String → String → Except String Unit × Stub)
    (hf : f = EscrowContract.FundEscrow ∨ f = EscrowContract.ReleaseEscrow ∨
      f = EscrowContract.CancelEscrow)
    (escrowID hash : String) (hok : (f ctx escrowID hash).1 = .ok ()) :
    (∀ k, k ≠ escrowID → (f ctx escrowID hash).2.state k = ctx.state k) ∧
    ∃ e e1, EscrowContract.GetEscrow ctx escrowID = .ok e ∧
      EscrowContract.GetEscrow (f ctx escrowID hash).2 escrowID = .ok e1 ∧
      e1.EscrowID = e.EscrowID ∧ e1.PropertyID = e.PropertyID ∧ e1.Buyer = e.Buyer ∧
      e1.Seller = e.Seller ∧ e1.Amount = e.Amount ∧ e1.CreatedAt = e.CreatedAt ∧
      e1.TransactionHash = hash := by
  have key : ∀ (e1 : EscrowContract.Escrow) (e : EscrowContract.Escrow) (j : Json),
      EscrowContract.GetEscrow ctx escrowID = .ok e → EscrowContract.jsonMarshal e1 = .ok j →
      f ctx escrowID hash = ctx.PutState escrowID j →
      e1.EscrowID = e.EscrowID ∧ e1.PropertyID = e.PropertyID ∧ e1.Buyer = e.Buyer ∧
      e1.Seller = e.Seller ∧ e1.Amount = e.Amount ∧ e1.CreatedAt = e.CreatedAt ∧
      e1.TransactionHash = hash →
      (∀ k, k ≠ escrowID → (f ctx escrowID hash).2.state k = ctx.state k) ∧
      ∃ e e1, EscrowContract.GetEscrow ctx escrowID = .ok e ∧
        EscrowContract.GetEscrow (f ctx escrowID hash).2 escrowID = .ok e1 ∧
        e1.EscrowID = e.EscrowID ∧ e1.PropertyID = e.PropertyID ∧ e1.Buyer = e.Buyer ∧
        e1.Seller = e.Seller ∧ e1.Amount = e.Amount ∧ e1.CreatedAt = e.CreatedAt ∧
        e1.TransactionHash = hash := by
    intro e1 e j hget hj hrun hfields
    rw [hrun]
    exact ⟨fun k hk => Stub.PutState_state_other ctx escrowID k j hk,
      e, e1, hget, EscrowContract.GetEscrow_PutState ctx escrowID e1 j hj, hfields⟩
  rcases hf with hf | hf | hf
  · rcases EscrowContract.FundEscrow_cases ctx escrowID hash with ⟨msg, h⟩ | ⟨e, ts, j, hget, _, _, hj, h⟩
    · rw [hf, h] at hok
      cases hok
    · exact key _ e j hget hj (by rw [hf, h]) ⟨rfl, rfl, rfl, rfl, rfl, rfl, rfl⟩
  · rcases EscrowContract.ReleaseEscrow_cases ctx escrowID hash with
      ⟨msg, h⟩ | ⟨e, ts, j, hget, _, _, hj, h⟩
    · rw [hf, h] at hok
      cases hok
    · exact key _ e j hget hj (by rw [hf, h]) ⟨rfl, rfl, rfl, rfl, rfl, rfl, rfl⟩
  · rcases EscrowContract.CancelEscrow_cases ctx escrowID hash with
      ⟨msg, h⟩ | ⟨e, ts, j, hget, _, _, hj, h⟩
    · rw [hf, h] at hok
      cases hok
    · exact key _ e j hget hj (by rw [hf, h]) ⟨rfl, rfl, rfl, rfl, rfl, rfl, rfl⟩

/-- C28 on `FundEscrow` of escrow `E1` after its `CreateEscrow`. -/
theorem escrow_mutator_frame_witness :
    (EscrowContract.FundEscrow ⟨EscrowContract.createdLedger, some ⟨150, 0⟩⟩ "E1" "f1").1 =
      .ok () ∧
    ((∀ k, k ≠ "E1" →
      (EscrowContract.FundEscrow ⟨EscrowContract.createdLedger, some ⟨150, 0⟩⟩ "E1" "f1").2.state k =
        EscrowContract.createdLedger k) ∧
    ∃ e e1, EscrowContract.GetEscrow ⟨EscrowContract.createdLedger, some ⟨150, 0⟩⟩ "E1" = .ok e ∧
      EscrowContract.GetEscrow
        (EscrowContract.FundEscrow ⟨EscrowContract.createdLedger, some ⟨150, 0⟩⟩ "E1" "f1").2
        "E1" = .ok e1 ∧
      e1.EscrowID = e.EscrowID ∧ e1.PropertyID = e.PropertyID ∧ e1.Buyer = e.Buyer ∧
      e1.Seller = e.Seller ∧ e1.Amount = e.Amount ∧ e1.CreatedAt = e.CreatedAt ∧
      e1.TransactionHash = "f1") :=
  ⟨rfl, escrow_mutator_frame ⟨EscrowContract.createdLedger, some ⟨150, 0⟩⟩
    EscrowContract.FundEscrow (Or.inl rfl) "E1" "f1" rfl⟩

/-! ## Documents of a user -/

namespace UserContract

/-- The loop of `VerifyDocument` finds a document exactly when the list holds one
with the id. -/
theorem markVerified_found (documentID adminID : String) (l : List Document) :
    (markVerified documentID adminID l).2 = true ↔ ∃ d ∈ l, d.DocumentID = documentID := by
  induction l with
  | nil => simp [markVerified]
  | cons doc rest ih =>
    unfold markVerified
    by_cases h : doc.DocumentID = documentID
    · simp [h]
    · simp only [h, if_false, List.mem_cons, exists_eq_or_imp, false_or]
      exact ih

/-- The loop of `VerifyDocument`, when it finds a document, changes the list at
the first document with the id and nowhere else. -/
theorem markVerified_split (documentID adminID : String) (l : List Document)
    (h : (markVerified documentID adminID l).2 = true) :
    ∃ pre doc post, l = pre ++ doc :: post ∧ (∀ d ∈ pre, d.DocumentID ≠ documentID) ∧
      doc.DocumentID = documentID ∧
      (markVerified documentID adminID l).1 =
        pre ++ { doc with IsVerified := true, VerifiedBy := adminID } :: post := by
  induction l with
  | nil => simp [markVerified] at h
  | cons doc rest ih =>
    unfold markVerified at h ⊢
    by_cases hd : doc.DocumentID = documentID
    · exact ⟨[], doc, rest, rfl, by simp, hd, by simp [hd]⟩
    · simp only [hd, if_false] at h ⊢
      rcases ih h with ⟨pre, d, post, hl, hpre, hid, hm⟩
      refine ⟨doc :: pre, d, post, by simp [hl], ?_, hid, by simp [hm]⟩
      intro x hx
      rcases List.mem_cons.mp hx with rfl | hx
      · exact hd
      · exact hpre x hx

/-- Method `VerifyDocument` on a user none of whose documents has the id. -/
theorem VerifyDocument_not_found (ctx : Stub) (userID documentID adminID : String) (u : User)
    (hget : GetUser ctx userID = .ok u)
    (hnone : (markVerified documentID adminID u.Documents).2 = false) :
    VerifyDocument ctx userID documentID adminID =
      (.error ("document " ++ documentID ++ " not found for user " ++ userID), ctx) := by
  unfold VerifyDocument
  simp only [hget]
  rcases hm : markVerified documentID adminID u.Documents with ⟨docs, found⟩
  rw [hm] at hnone
  cases hnone
  rfl

/-- Method `VerifyDocument` on a user one of whose documents has the id. -/
theorem VerifyDocument_found (ctx : Stub) (userID documentID adminID : String) (u : User)
    (hget : GetUser ctx userID = .ok u)
    (hfound : (markVerified documentID adminID u.Documents).2 = true) :
    ∃ j, jsonMarshal { u with Documents := (markVerified documentID adminID u.Documents).1 } =
        .ok j ∧
      VerifyDocument ctx userID documentID adminID = ctx.PutState userID j := by
  unfold VerifyDocument
  simp only [hget]
  rcases hm : markVerified documentID adminID u.Documents with ⟨docs, found⟩
  rw [hm] at hfound
  cases hfound
  exact ⟨_, rfl, rfl⟩

end UserContract

/-- C26: on an existing user with document list `ds`, in a transaction with
timestamp `t`, `AddDocument` succeeds and the user read back has the document list
`ds` followed by the one new document with the given id, type and hash,
`uploadedAt` the instant of `t`, `verifiedBy` empty and `isVerified` false: the
earlier documents keep their places, the length grows by one and every other
field of the user is as before. -/
theorem add_document_appends (ctx : Stub) (userID documentID documentType documentHash : String)
    (u : UserContract.User) (t : Timestamp) (hget : UserContract.GetUser ctx userID = .ok u)
    (hts : ctx.txTimestamp = some t) :
    (UserContract.AddDocument ctx userID documentID documentType documentHash).1 = .ok () ∧
    ∃ u1, UserContract.GetUser
        (UserContract.AddDocument ctx userID documentID documentType documentHash).2 userID =
          .ok u1 ∧
      u1.Documents = u.Documents ++
        [⟨documentID, documentType, documentHash, timeUnix t.Seconds t.Nanos, "", false⟩] ∧
      u1.Documents.length = u.Documents.length + 1 ∧
      u1.Documents.take u.Documents.length = u.Documents ∧
      u1 = { u with Documents := u1.Documents } := by
  refine ⟨?_, _, (UserContract.user_mutators_keep_registeredAt ctx userID u hget).2.1 documentID
    documentType documentHash t hts, rfl, by simp, by simp, rfl⟩
  simp only [UserContract.AddDocument, hget, Stub.GetTxTimestamp, hts, UserContract.jsonMarshal]
  rfl

/-- C26 on the user `u1` with two documents, adding a third. -/
theorem add_document_appends_witness :
    (UserContract.AddDocument ⟨(UserContract.AddDocument ⟨(UserContract.AddDocument
      ⟨UserContract.userLedger, some ⟨200, 0⟩⟩ "u1" "d0" "PAN" "h0").2.state,
      some ⟨300, 0⟩⟩ "u1" "d1" "DEED" "h1").2.state, some ⟨400, 0⟩⟩ "u1" "d1" "DEED" "h2").1 =
      .ok () ∧
    UserContract.GetUser ⟨UserContract.documentsLedger, none⟩ "u1" =
      .ok (UserContract.sampleUser [⟨"d0", "PAN", "h0", ⟨200, 0⟩, "", false⟩,
        ⟨"d1", "DEED", "h1", ⟨300, 0⟩, "", false⟩, ⟨"d1", "DEED", "h2", ⟨400, 0⟩, "", false⟩]) :=
  have h := add_document_appends ⟨(UserContract.AddDocument ⟨(UserContract.AddDocument
      ⟨UserContract.userLedger, some ⟨200, 0⟩⟩ "u1" "d0" "PAN" "h0").2.state,
      some ⟨300, 0⟩⟩ "u1" "d1" "DEED" "h1").2.state, some ⟨400, 0⟩⟩ "u1" "d1" "DEED" "h2"
    (UserContract.sampleUser [⟨"d0", "PAN", "h0", ⟨200, 0⟩, "", false⟩,
      ⟨"d1", "DEED", "h1", ⟨300, 0⟩, "", false⟩]) ⟨400, 0⟩ rfl rfl
  ⟨h.1, rfl⟩

/-- C27: on an existing user, `VerifyDocument` with a document id that no document
of the user has returns the document-not-found error and leaves the ledger as it
was; with an id that some document has it succeeds, and the list read back
differs from the list before only at the first document with that id, whose
`isVerified` becomes true and `verifiedBy` the admin id: the documents before it
(none of which has the id), the documents after it (whatever their ids), the
length and every other field of the user are as before. -/
theorem verify_document_marks_first (ctx : Stub) (userID documentID adminID : String)
    (u : UserContract.User) (hget : UserContract.GetUser ctx userID = .ok u) :
    ((∀ d ∈ u.Documents, d.DocumentID ≠ documentID) →
      UserContract.VerifyDocument ctx userID documentID adminID =
        (.error ("document " ++ documentID ++ " not found for user " ++ userID), ctx)) ∧
    ((∃ d ∈ u.Documents, d.DocumentID = documentID) →
      (UserContract.VerifyDocument ctx userID documentID adminID).1 = .ok () ∧
      ∃ pre doc post, u.Documents = pre ++ doc :: post ∧
        (∀ d ∈ pre, d.DocumentID ≠ documentID) ∧ doc.DocumentID = documentID ∧
        UserContract.GetUser (UserContract.VerifyDocument ctx userID documentID adminID).2 userID =
          .ok { u with Documents :=
            pre ++ { doc with IsVerified := true, VerifiedBy := adminID } :: post } ∧
        (pre ++ { doc with IsVerified := true, VerifiedBy := adminID } :: post).length =
          u.Documents.length) := by
  constructor
  · intro hnone
    apply UserContract.VerifyDocument_not_found ctx userID documentID adminID u hget
    cases hm : (UserContract.markVerified documentID adminID u.Documents).2 with
    | false => rfl
    | true =>
      rcases (UserContract.markVerified_found documentID adminID u.Documents).mp hm with
        ⟨d, hd, hid⟩
      exact absurd hid (hnone d hd)
  · intro hsome
    have hm := (UserContract.markVerified_found documentID adminID u.Documents).mpr hsome
    rcases UserContract.VerifyDocument_found ctx userID documentID adminID u hget hm with
      ⟨j, hj, hrun⟩
    rcases UserContract.markVerified_split documentID adminID u.Documents hm with
      ⟨pre, doc, post, hl, hpre, hid, hmark⟩
    refine ⟨by rw [hrun]; rfl, pre, doc, post, hl, hpre, hid, ?_, by rw [hl]; simp⟩
    rw [hrun, ← hmark]
    exact UserContract.GetUser_PutState ctx userID _ j hj

/-- C27 on the user `u1` with the documents `d0`, `d1`, `d1`: verifying `d1` marks
the second document and leaves the third, which has the same id, as it was. -/
theorem verify_document_marks_first_witness :
    UserContract.GetUser ⟨UserContract.documentsLedger, none⟩ "u1" =
      .ok (UserContract.sampleUser [⟨"d0", "PAN", "h0", ⟨200, 0⟩, "", false⟩,
        ⟨"d1", "DEED", "h1", ⟨300, 0⟩, "", false⟩, ⟨"d1", "DEED", "h2", ⟨400, 0⟩, "", false⟩]) ∧
    (UserContract.VerifyDocument ⟨UserContract.documentsLedger, none⟩ "u1" "d1" "admin").1 =
      .ok () ∧
    UserContract.GetUser
      (UserContract.VerifyDocument ⟨UserContract.documentsLedger, none⟩ "u1" "d1" "admin").2 "u1" =
      .ok (UserContract.sampleUser [⟨"d0", "PAN", "h0", ⟨200, 0⟩, "", false⟩,
        ⟨"d1", "DEED", "h1", ⟨300, 0⟩, "admin", true⟩,
        ⟨"d1", "DEED", "h2", ⟨400, 0⟩, "", false⟩]) ∧
    UserContract.VerifyDocument ⟨UserContract.documentsLedger, none⟩ "u1" "d2" "admin" =
      (.error "document d2 not found for user u1", ⟨UserContract.documentsLedger, none⟩) :=
  have h := verify_document_marks_first ⟨UserContract.documentsLedger, none⟩ "u1" "d1" "admin"
    (UserContract.sampleUser [⟨"d0", "PAN", "h0", ⟨200, 0⟩, "", false⟩,
      ⟨"d1", "DEED", "h1", ⟨300, 0⟩, "", false⟩, ⟨"d1", "DEED", "h2", ⟨400, 0⟩, "", false⟩]) rfl
  ⟨rfl, (h.2 ⟨⟨"d1", "DEED", "h1", ⟨300, 0⟩, "", false⟩, by simp [UserContract.sampleUser], rfl⟩).1,
    rfl, rfl⟩

/-! ## Keys and identifiers -/

namespace EscrowContract

/-- Writing under a key a record that carries the key keeps the agreement. -/
theorem keyAgrees_put_escrow (ctx : Stub) (key : String) (e : Escrow) (j : Json)
    (hw : KeyAgrees ctx.state) (hj : jsonMarshal e = .ok j) (hid : e.EscrowID = key) :
    KeyAgrees (ctx.PutState key j).2.state := by
  intro k v hk
  by_cases hkey : k = key
  · subst hkey
    rw [Stub.PutState_state_self] at hk
    cases hk
    exact ⟨e, hj, hid⟩
  · rw [Stub.PutState_state_other ctx key k j hkey] at hk
    exact hw k v hk

/-- Under the agreement a record read by `GetEscrow` carries the key. -/
theorem keyAgrees_get_escrow (ctx : Stub) (hw : KeyAgrees ctx.state) (escrowID : String)
    (e : Escrow) (hget : GetEscrow ctx escrowID = .ok e) : e.EscrowID = escrowID := by
  obtain ⟨v, hv, hdec⟩ := GetEscrow_ok_state _ _ _ hget
  obtain ⟨e0, hj, hid⟩ := hw escrowID v hv
  rw [unmarshal_marshal_escrow e0 v hj] at hdec
  cases hdec
  exact hid

/-- One invocation keeps the agreement of keys and identifiers. -/
theorem keyAgrees_run_escrow (w : String → Option Json) (ts : Option Timestamp) (c : Call)
    (hw : KeyAgrees w) : KeyAgrees (c.run ⟨w, ts⟩).2.state := by
  cases c with
  | create escrowID propertyID buyer seller amount =>
    rcases CreateEscrow_cases ⟨w, ts⟩ escrowID propertyID buyer seller amount with
      ⟨msg, h⟩ | ⟨t, j, _, _, hj, h⟩
    · simpa [Call.run, h] using hw
    · simp only [Call.run, h]
      exact keyAgrees_put_escrow ⟨w, ts⟩ escrowID _ j hw hj rfl
  | fund escrowID txHash =>
    rcases FundEscrow_cases ⟨w, ts⟩ escrowID txHash with ⟨msg, h⟩ | ⟨e, t, j, hget, _, _, hj, h⟩
    · simpa [Call.run, h] using hw
    · simp only [Call.run, h]
      exact keyAgrees_put_escrow ⟨w, ts⟩ escrowID _ j hw hj
        (keyAgrees_get_escrow ⟨w, ts⟩ hw escrowID e hget)
  | release escrowID txHash =>
    rcases ReleaseEscrow_cases ⟨w, ts⟩ escrowID txHash with
      ⟨msg, h⟩ | ⟨e, t, j, hget, _, _, hj, h⟩
    · simpa [Call.run, h] using hw
    · simp only [Call.run, h]
      exact keyAgrees_put_escrow ⟨w, ts⟩ escrowID _ j hw hj
        (keyAgrees_get_escrow ⟨w, ts⟩ hw escrowID e hget)
  | cancel escrowID txHash =>
    rcases CancelEscrow_cases ⟨w, ts⟩ escrowID txHash with
      ⟨msg, h⟩ | ⟨e, t, j, hget, _, _, hj, h⟩
    · simpa [Call.run, h] using hw
    · simp only [Call.run, h]
      exact keyAgrees_put_escrow ⟨w, ts⟩ escrowID _ j hw hj
        (keyAgrees_get_escrow ⟨w, ts⟩ hw escrowID e hget)

/-- In every reachable ledger keys and identifiers agree. -/
theorem Reachable.keyAgrees_escrow (w : String → Option Json) (h : Reachable w) :
    KeyAgrees w := by
  induction h with
  | empty =>
    intro k v hk
    cases hk
  | step w ts c _ ih => exact keyAgrees_run_escrow w ts c ih

end EscrowContract

namespace OfferContract

/-- Writing under a key a record that carries the key keeps the agreement. -/
theorem keyAgrees_put_offer (ctx : Stub) (key : String) (o : Offer) (j : Json)
    (hw : KeyAgrees ctx.state) (hj : jsonMarshal o = .ok j) (hid : o.OfferID = key) :
    KeyAgrees (ctx.PutState key j).2.state := by
  intro k v hk
  by_cases hkey : k = key
  · subst hkey
    rw [Stub.PutState_state_self] at hk
    cases hk
    exact ⟨o, hj, hid⟩
  · rw [Stub.PutState_state_other ctx key k j hkey] at hk
    exact hw k v hk

/-- Under the agreement a record read by `GetOffer` carries the key. -/
theorem keyAgrees_get_offer (ctx : Stub) (hw : KeyAgrees ctx.state) (offerID : String)
    (o : Offer) (hget : GetOffer ctx offerID = .ok o) : o.OfferID = offerID := by
  obtain ⟨v, hv, hdec⟩ := GetOffer_ok_state _ _ _ hget
  obtain ⟨o0, hj, hid⟩ := hw offerID v hv
  rw [unmarshal_marshal_offer o0 v hj] at hdec
  cases hdec
  exact hid

/-- One invocation keeps the agreement of keys and identifiers. -/
theorem keyAgrees_run_offer (w : String → Option Json) (ts : Option Timestamp) (c : Call)
    (hw : KeyAgrees w) : KeyAgrees (c.run ⟨w, ts⟩).2.state := by
  cases c with
  | create offerID propertyID buyerID buyerName sellerID sellerName offerAmount message =>
    rcases CreateOffer_cases ⟨w, ts⟩ offerID propertyID buyerID buyerName sellerID sellerName
      offerAmount message with ⟨msg, h⟩ | ⟨t, j, _, _, hj, h⟩
    · simpa [Call.run, h] using hw
    · simp only [Call.run, h]
      exact keyAgrees_put_offer ⟨w, ts⟩ offerID _ j hw hj rfl
  | accept offerID =>
    rcases AcceptOffer_cases ⟨w, ts⟩ offerID with ⟨msg, h⟩ | ⟨o, t, j, hget, _, _, hj, h⟩
    · simpa [Call.run, h] using hw
    · simp only [Call.run, h]
      exact keyAgrees_put_offer ⟨w, ts⟩ offerID _ j hw hj
        (keyAgrees_get_offer ⟨w, ts⟩ hw offerID o hget)
  | reject offerID =>
    rcases RejectOffer_cases ⟨w, ts⟩ offerID with ⟨msg, h⟩ | ⟨o, t, j, hget, _, _, hj, h⟩
    · simpa [Call.run, h] using hw
    · simp only [Call.run, h]
      exact keyAgrees_put_offer ⟨w, ts⟩ offerID _ j hw hj
        (keyAgrees_get_offer ⟨w, ts⟩ hw offerID o hget)
  | adminVerify offerID adminID sepoliaTxHash =>
    rcases AdminVerifyOffer_cases ⟨w, ts⟩ offerID adminID sepoliaTxHash with
      ⟨msg, h⟩ | ⟨o, t, j, hget, _, _, hj, h⟩
    · simpa [Call.run, h] using hw
    · simp only [Call.run, h]
      exact keyAgrees_put_offer ⟨w, ts⟩ offerID _ j hw hj
        (keyAgrees_get_offer ⟨w, ts⟩ hw offerID o hget)
  | complete offerID =>
    rcases CompleteOffer_cases ⟨w, ts⟩ offerID with ⟨msg, h⟩ | ⟨o, t, j, hget, _, _, hj, h⟩
    · simpa [Call.run, h] using hw
    · simp only [Call.run, h]
      exact keyAgrees_put_offer ⟨w, ts⟩ offerID _ j hw hj
        (keyAgrees_get_offer ⟨w, ts⟩ hw offerID o hget)
  | cancel offerID =>
    rcases CancelOffer_cases ⟨w, ts⟩ offerID with ⟨msg, h⟩ | ⟨o, t, j, hget, _, _, hj, h⟩
    · simpa [Call.run, h] using hw
    · simp only [Call.run, h]
      exact keyAgrees_put_offer ⟨w, ts⟩ offerID _ j hw hj
        (keyAgrees_get_offer ⟨w, ts⟩ hw offerID o hget)

/-- In every reachable ledger keys and identifiers agree. -/
theorem Reachable.keyAgrees_offer (w : String → Option Json) (h : Reachable w) :
    KeyAgrees w := by
  induction h with
  | empty =>
    intro k v hk
    cases hk
  | step w ts c _ ih => exact keyAgrees_run_offer w ts c ih

end OfferContract

namespace UserContract

/-- A successful `GetUser` decodes the value stored under the key. -/
theorem GetUser_ok_state (ctx : Stub) (userID : String) (u : User)
    (h : GetUser ctx userID = .ok u) :
    ∃ v, ctx.state userID = some v ∧ jsonUnmarshal v = .ok u := by
  unfold GetUser Stub.GetState at h
  cases hst : ctx.state userID with
  | none => simp [hst] at h
  | some v => exact ⟨v, rfl, by simpa [hst] using h⟩

/-- The two outcomes of an invocation of the user contract: an error that leaves
the stub as it was, or one write under the user id, of a new record that carries
the id or of a record with the `userId` of the record read. -/
theorem run_cases_user (ctx : Stub) (c : Call) :
    (∃ msg, c.run ctx = (.error msg, ctx)) ∨
    (∃ u1 j, jsonMarshal u1 = .ok j ∧ c.run ctx = ctx.PutState c.key j ∧
      (u1.UserID = c.key ∨ ∃ u, GetUser ctx c.key = .ok u ∧ u1.UserID = u.UserID)) := by
  cases c with
  | registerUser userID name email phone aadhar pan address role walletAddress passwordHash =>
    simp only [Call.run, Call.key]
    unfold RegisterUser UserExists Stub.GetState
    cases hst : ctx.state userID with
    | some v => exact Or.inl ⟨_, rfl⟩
    | none =>
      cases hts : ctx.txTimestamp with
      | none => exact Or.inl (by simp [Stub.GetTxTimestamp, hts])
      | some t =>
        exact Or.inr ⟨⟨userID, name, email, phone, aadhar, pan, address, role, walletAddress, [],
          passwordHash, false, timeUnix t.Seconds t.Nanos, timeUnix t.Seconds t.Nanos⟩, _, rfl,
          by simp [Stub.GetTxTimestamp, hts, jsonMarshal], Or.inl rfl⟩
  | updateUserVerification userID isVerified =>
    simp only [Call.run, Call.key]
    unfold UpdateUserVerification
    cases hget : GetUser ctx userID with
    | error err => exact Or.inl ⟨_, rfl⟩
    | ok u =>
      exact Or.inr ⟨{ u with IsVerified := isVerified }, _, rfl, by simp [jsonMarshal],
        Or.inr ⟨u, rfl, rfl⟩⟩
  | addDocument userID documentID documentType documentHash =>
    simp only [Call.run, Call.key]
    unfold AddDocument
    cases hget : GetUser ctx userID with
    | error err => exact Or.inl ⟨_, rfl⟩
    | ok u =>
      cases hts : ctx.txTimestamp with
      | none => exact Or.inl (by simp [Stub.GetTxTimestamp, hts])
      | some t =>
        exact Or.inr ⟨{ u with Documents := u.Documents ++
          [⟨documentID, documentType, documentHash, timeUnix t.Seconds t.Nanos, "", false⟩] }, _,
          rfl, by simp [Stub.GetTxTimestamp, hts, jsonMarshal], Or.inr ⟨u, rfl, rfl⟩⟩
  | verifyDocument userID documentID adminID =>
    simp only [Call.run, Call.key]
    cases hget : GetUser ctx userID with
    | error err => exact Or.inl ⟨err, by simp [VerifyDocument, hget]⟩
    | ok u =>
      cases hm : (markVerified documentID adminID u.Documents).2 with
      | false =>
        exact Or.inl ⟨_, VerifyDocument_not_found ctx userID documentID adminID u hget hm⟩
      | true =>
        rcases VerifyDocument_found ctx userID documentID adminID u hget hm with ⟨j, hj, hrun⟩
        exact Or.inr ⟨_, j, hj, hrun, Or.inr ⟨u, rfl, rfl⟩⟩
  | updateLastLogin userID =>
    simp only [Call.run, Call.key]
    unfold UpdateLastLogin
    cases hget : GetUser ctx userID with
    | error err => exact Or.inl ⟨_, rfl⟩
    | ok u =>
      cases hts : ctx.txTimestamp with
      | none => exact Or.inl (by simp [Stub.GetTxTimestamp, hts])
      | some t =>
        exact Or.inr ⟨{ u with LastLogin := timeUnix t.Seconds t.Nanos }, _, rfl,
          by simp [Stub.GetTxTimestamp, hts, jsonMarshal], Or.inr ⟨u, rfl, rfl⟩⟩

/-- Under the agreement a record read by `GetUser` carries the key. -/
theorem keyAgrees_get_user (ctx : Stub) (hw : KeyAgrees ctx.state) (userID : String)
    (u : User) (hget : GetUser ctx userID = .ok u) : u.UserID = userID := by
  obtain ⟨v, hv, hdec⟩ := GetUser_ok_state _ _ _ hget
  obtain ⟨u0, hj, hid⟩ := hw userID v hv
  rw [unmarshal_marshal_user u0 v hj] at hdec
  cases hdec
  exact hid

/-- One invocation keeps the agreement of keys and identifiers. -/
theorem keyAgrees_run_user (w : String → Option Json) (ts : Option Timestamp) (c : Call)
    (hw : KeyAgrees w) : KeyAgrees (c.run ⟨w, ts⟩).2.state := by
  rcases run_cases_user ⟨w, ts⟩ c with ⟨msg, h⟩ | ⟨u1, j, hj, h, hid⟩
  · simpa [h] using hw
  · rw [h]
    have hid1 : u1.UserID = c.key := by
      rcases hid with hid | ⟨u, hget, hid⟩
      · exact hid
      · rw [hid]
        exact keyAgrees_get_user ⟨w, ts⟩ hw c.key u hget
    intro k v hk
    by_cases hkey : k = c.key
    · subst hkey
      rw [Stub.PutState_state_self] at hk
      cases hk
      exact ⟨u1, hj, hid1⟩
    · rw [Stub.PutState_state_other ⟨w, ts⟩ c.key k j hkey] at hk
      exact hw k v hk

/-- In every reachable ledger keys and identifiers agree. -/
theorem Reachable.keyAgrees_user (w : String → Option Json) (h : Reachable w) :
    KeyAgrees w := by
  induction h with
  | empty =>
    intro k v hk
    cases hk
  | step w ts c _ ih => exact keyAgrees_run_user w ts c ih

end UserContract

/-- C29: in every ledger state reachable from the empty ledger by the operations
of the escrow contract (of the offer contract, of the user contract), every value
stored under a key `k` is read by `GetEscrow` (`GetOffer`, `GetUser`) of `k` as a
record whose `escrowId` (`offerId`, `userId`) is `k`, and no record read under `k`
carries another id. -/
theorem key_identifier_agreement (we wo wu : String → Option Json)
    (he : EscrowContract.Reachable we) (ho : OfferContract.Reachable wo)
    (hu : UserContract.Reachable wu) (ts : Option Timestamp) (k : String) :
    ((∀ v, we k = some v → ∃ e, EscrowContract.GetEscrow ⟨we, ts⟩ k = .ok e ∧ e.EscrowID = k) ∧
      ∀ e, EscrowContract.GetEscrow ⟨we, ts⟩ k = .ok e → e.EscrowID = k) ∧
    ((∀ v, wo k = some v → ∃ o, OfferContract.GetOffer ⟨wo, ts⟩ k = .ok o ∧ o.OfferID = k) ∧
      ∀ o, OfferContract.GetOffer ⟨wo, ts⟩ k = .ok o → o.OfferID = k) ∧
    ((∀ v, wu k = some v → ∃ u, UserContract.GetUser ⟨wu, ts⟩ k = .ok u ∧ u.UserID = k) ∧
      ∀ u, UserContract.GetUser ⟨wu, ts⟩ k = .ok u → u.UserID = k) := by
  refine ⟨⟨?_, ?_⟩, ⟨?_, ?_⟩, ⟨?_, ?_⟩⟩
  · intro v hv
    obtain ⟨e, hj, hid⟩ := he.keyAgrees_escrow we k v hv
    exact ⟨e, by simp [EscrowContract.GetEscrow, Stub.GetState, hv,
      EscrowContract.unmarshal_marshal_escrow e v hj], hid⟩
  · exact fun e hget => EscrowContract.keyAgrees_get_escrow ⟨we, ts⟩ (he.keyAgrees_escrow we) k e hget
  · intro v hv
    obtain ⟨o, hj, hid⟩ := ho.keyAgrees_offer wo k v hv
    exact ⟨o, by simp [OfferContract.GetOffer, Stub.GetState, hv,
      OfferContract.unmarshal_marshal_offer o v hj], hid⟩
  · exact fun o hget => OfferContract.keyAgrees_get_offer ⟨wo, ts⟩ (ho.keyAgrees_offer wo) k o hget
  · intro v hv
    obtain ⟨u, hj, hid⟩ := hu.keyAgrees_user wu k v hv
    exact ⟨u, by simp [UserContract.GetUser, Stub.GetState, hv,
      UserContract.unmarshal_marshal_user u v hj], hid⟩
  · exact fun u hget => UserContract.keyAgrees_get_user ⟨wu, ts⟩ (hu.keyAgrees_user wu) k u hget

/-- C29 on the ledgers left by `CreateEscrow` of `E1`, by `CreateOffer`,
`AcceptOffer` and `AdminVerifyOffer` of `O1`, and by `RegisterUser` of `u1`, at the
key `E1`. -/
theorem key_identifier_agreement_witness :
    EscrowContract.Reachable EscrowContract.createdLedger ∧
    OfferContract.Reachable OfferContract.verifiedLedger ∧
    UserContract.Reachable UserContract.userLedger ∧
    (∃ e, EscrowContract.GetEscrow ⟨EscrowContract.createdLedger, none⟩ "E1" = .ok e ∧
      e.EscrowID = "E1") :=
  have he : EscrowContract.Reachable EscrowContract.createdLedger :=
    EscrowContract.Reachable.step _ (some ⟨100, 0⟩) (.create "E1" "P1" "bob" "sue" ⟨5, 0⟩)
      EscrowContract.Reachable.empty
  have ho : OfferContract.Reachable OfferContract.verifiedLedger :=
    OfferContract.Reachable.step _ (some ⟨300, 0⟩) (.adminVerify "O1" "admin" "0xabc")
      (OfferContract.Reachable.step _ (some ⟨200, 0⟩) (.accept "O1")
        (OfferContract.Reachable.step _ (some ⟨100, 0⟩)
          (.create "O1" "P1" "b1" "bob" "s1" "sue" ⟨5, 0⟩ "hello") OfferContract.Reachable.empty))
  have hu : UserContract.Reachable UserContract.userLedger :=
    UserContract.Reachable.step _ (some ⟨100, 0⟩) (.registerUser "u1" "Una" "una@example.org"
      "555" "1234" "ABCDE" "12 Hill Road" "BUYER" "0x01" "hash") UserContract.Reachable.empty
  ⟨he, ho, hu,
    (key_identifier_agreement EscrowContract.createdLedger OfferContract.verifiedLedger
      UserContract.userLedger he ho hu none "E1").1.1 _ rfl⟩

/-! ## Admin verification of offers -/

namespace OfferContract

/-- An invocation that fails logs no verification. -/
theorem logVerification_of_error (c : Call) (ctx : Stub) (log : String → List Timestamp)
    (msg : String) (h : c.run ctx = (.error msg, ctx)) : c.logVerification ctx log = log := by
  cases c <;> simp only [Call.logVerification, h]

/-- A successful `AdminVerifyOffer` logs the timestamp of its transaction. -/
theorem logVerification_adminVerify (ctx : Stub) (offerID adminID sepoliaTxHash : String)
    (log : String → List Timestamp) (t : Timestamp) (j : Json)
    (hts : ctx.txTimestamp = some t)
    (h : AdminVerifyOffer ctx offerID adminID sepoliaTxHash = ctx.PutState offerID j) :
    (Call.adminVerify offerID adminID sepoliaTxHash).logVerification ctx log =
      fun k => if k = offerID then log k ++ [t] else log k := by
  simp only [Call.logVerification, Call.run, h, hts, Stub.PutState]

/-- Writing an offer whose admin fields agree with the log keeps the invariant. -/
theorem logInv_put (ctx : Stub) (log log1 : String → List Timestamp) (key : String) (o : Offer)
    (j : Json) (hw : LogInv ctx.state log) (hj : jsonMarshal o = .ok j)
    (hc : AdminConsistent (log1 key) o) (hother : ∀ k, k ≠ key → log1 k = log k) :
    LogInv (ctx.PutState key j).2.state log1 := by
  intro k
  by_cases hkey : k = key
  · subst hkey
    rw [Stub.PutState_state_self]
    refine ⟨fun h => (by cases h), fun v hv => ?_⟩
    cases hv
    exact ⟨o, hj, hc⟩
  · rw [Stub.PutState_state_other ctx key k j hkey, hother k hkey]
    exact hw k

/-- Under the invariant the admin fields of a record read by `GetOffer` agree
with the log. -/
theorem logInv_get (ctx : Stub) (log : String → List Timestamp) (hw : LogInv ctx.state log)
    (offerID : String) (o : Offer) (hget : GetOffer ctx offerID = .ok o) :
    AdminConsistent (log offerID) o := by
  obtain ⟨v, hv, hdec⟩ := GetOffer_ok_state _ _ _ hget
  obtain ⟨o0, hj, hc⟩ := (hw offerID).2 v hv
  rw [unmarshal_marshal_offer o0 v hj] at hdec
  cases hdec
  exact hc

/-- A change of status and `updatedAt` that leaves the class of the status keeps
the agreement of the admin fields with the log. -/
theorem adminConsistent_restatus (l : List Timestamp) (o : Offer) (status : String) (t : Time)
    (hc : AdminConsistent l o)
    (hv : (status = "ADMIN_VERIFIED" ∨ status = "COMPLETED") → o.AdminVerified = true)
    (hp : (status = "PENDING" ∨ status = "ACCEPTED" ∨ status = "REJECTED") →
      o.AdminVerified = false ∧ o.AdminID = "" ∧ o.SepoliaTxHash = "") :
    AdminConsistent l { o with Status := status, UpdatedAt := t } :=
  ⟨hv, hp, hc.2.2.1, hc.2.2.2⟩

end OfferContract

namespace OfferContract

/-- One invocation keeps the agreement of the admin fields with the log. -/
theorem logInv_run (w : String → Option Json) (log : String → List Timestamp)
    (ts : Option Timestamp) (c : Call) (hw : LogInv w log) :
    LogInv (c.run ⟨w, ts⟩).2.state (c.logVerification ⟨w, ts⟩ log) := by
  have hfail : ∀ msg, c.run ⟨w, ts⟩ = (.error msg, ⟨w, ts⟩) →
      LogInv (c.run ⟨w, ts⟩).2.state (c.logVerification ⟨w, ts⟩ log) := by
    intro msg h
    rw [logVerification_of_error c ⟨w, ts⟩ log msg h, h]
    exact hw
  cases c with
  | create offerID propertyID buyerID buyerName sellerID sellerName offerAmount message =>
    rcases CreateOffer_cases ⟨w, ts⟩ offerID propertyID buyerID buyerName sellerID sellerName
      offerAmount message with ⟨msg, h⟩ | ⟨t, j, hfresh, _, hj, h⟩
    · exact hfail msg h
    · show LogInv (CreateOffer _ _ _ _ _ _ _ _ _).2.state log
      rw [h]
      refine logInv_put ⟨w, ts⟩ log log offerID _ j hw hj ?_ (fun _ _ => rfl)
      exact ⟨by simp, by simp, by simp, fun _ => (hw offerID).1 hfresh⟩
  | accept offerID =>
    rcases AcceptOffer_cases ⟨w, ts⟩ offerID with ⟨msg, h⟩ | ⟨o, t, j, hget, hs, _, hj, h⟩
    · exact hfail msg h
    · show LogInv (AcceptOffer _ _).2.state log
      rw [h]
      have hc := logInv_get ⟨w, ts⟩ log hw offerID o hget
      exact logInv_put ⟨w, ts⟩ log log offerID _ j hw hj
        (adminConsistent_restatus _ o _ _ hc (by simp) (fun _ => hc.2.1 (Or.inl hs)))
        (fun _ _ => rfl)
  | reject offerID =>
    rcases RejectOffer_cases ⟨w, ts⟩ offerID with ⟨msg, h⟩ | ⟨o, t, j, hget, hs, _, hj, h⟩
    · exact hfail msg h
    · show LogInv (RejectOffer _ _).2.state log
      rw [h]
      have hc := logInv_get ⟨w, ts⟩ log hw offerID o hget
      exact logInv_put ⟨w, ts⟩ log log offerID _ j hw hj
        (adminConsistent_restatus _ o _ _ hc (by simp) (fun _ => hc.2.1 (Or.inl hs)))
        (fun _ _ => rfl)
  | adminVerify offerID adminID sepoliaTxHash =>
    rcases AdminVerifyOffer_cases ⟨w, ts⟩ offerID adminID sepoliaTxHash with
      ⟨msg, h⟩ | ⟨o, t, j, hget, hs, hts, hj, h⟩
    · exact hfail msg h
    · rw [logVerification_adminVerify ⟨w, ts⟩ offerID adminID sepoliaTxHash log t j hts h]
      show LogInv (AdminVerifyOffer _ _ _ _).2.state _
      rw [h]
      have hc := logInv_get ⟨w, ts⟩ log hw offerID o hget
      have hl : log offerID = [] := hc.2.2.2 (hc.2.1 (Or.inr (Or.inl hs))).1
      refine logInv_put ⟨w, ts⟩ log _ offerID _ j hw hj ?_ (fun k hk => by simp [hk])
      exact ⟨fun _ => rfl, by simp, fun _ => ⟨t, by simp [hl], rfl⟩, by simp⟩
  | complete offerID =>
    rcases CompleteOffer_cases ⟨w, ts⟩ offerID with ⟨msg, h⟩ | ⟨o, t, j, hget, hs, _, hj, h⟩
    · exact hfail msg h
    · show LogInv (CompleteOffer _ _).2.state log
      rw [h]
      have hc := logInv_get ⟨w, ts⟩ log hw offerID o hget
      exact logInv_put ⟨w, ts⟩ log log offerID _ j hw hj
        (adminConsistent_restatus _ o _ _ hc (fun _ => hc.1 (Or.inl hs)) (by simp))
        (fun _ _ => rfl)
  | cancel offerID =>
    rcases CancelOffer_cases ⟨w, ts⟩ offerID with ⟨msg, h⟩ | ⟨o, t, j, hget, hs, _, hj, h⟩
    · exact hfail msg h
    · show LogInv (CancelOffer _ _).2.state log
      rw [h]
      have hc := logInv_get ⟨w, ts⟩ log hw offerID o hget
      exact logInv_put ⟨w, ts⟩ log log offerID _ j hw hj
        (adminConsistent_restatus _ o _ _ hc (by simp) (by simp)) (fun _ _ => rfl)

/-- Every reachable ledger agrees with its log of verifications. -/
theorem Traced.logInv (w : String → Option Json) (log : String → List Timestamp)
    (h : Traced w log) : LogInv w log := by
  induction h with
  | empty => exact fun k => ⟨fun _ => rfl, fun v hv => by cases hv⟩
  | step w log ts c _ ih => exact logInv_run w log ts c ih

/-- The ledgers of `Traced` are the ledgers of `Reachable`. -/
theorem traced_iff_reachable (w : String → Option Json) : (∃ log, Traced w log) ↔ Reachable w := by
  constructor
  · rintro ⟨log, h⟩
    induction h with
    | empty => exact Reachable.empty
    | step w log ts c _ ih => exact Reachable.step w ts c ih
  · intro h
    induction h with
    | empty => exact ⟨_, Traced.empty⟩
    | step w ts c _ ih =>
      obtain ⟨log, hl⟩ := ih
      exact ⟨_, Traced.step w log ts c hl⟩

end OfferContract

namespace OfferContract

/-- The two outcomes of an offer invocation: an error that leaves the stub as it
was, or one write under the offer id, onto an unset key or of a record that is
admin verified when the record read was. -/
theorem run_cases_offer (ctx : Stub) (c : Call) :
    (∃ msg, c.run ctx = (.error msg, ctx)) ∨
    (∃ o1 j, jsonMarshal o1 = .ok j ∧ c.run ctx = ctx.PutState c.key j ∧
      (ctx.state c.key = none ∨
        ∃ o, GetOffer ctx c.key = .ok o ∧ (o.AdminVerified = true → o1.AdminVerified = true))) := by
  cases c with
  | create offerID propertyID buyerID buyerName sellerID sellerName offerAmount message =>
    rcases CreateOffer_cases ctx offerID propertyID buyerID buyerName sellerID sellerName
      offerAmount message with ⟨msg, h⟩ | ⟨t, j, hfresh, _, hj, h⟩
    · exact Or.inl ⟨msg, h⟩
    · exact Or.inr ⟨_, j, hj, h, Or.inl hfresh⟩
  | accept offerID =>
    rcases AcceptOffer_cases ctx offerID with ⟨msg, h⟩ | ⟨o, t, j, hget, _, _, hj, h⟩
    · exact Or.inl ⟨msg, h⟩
    · exact Or.inr ⟨_, j, hj, h, Or.inr ⟨o, hget, fun hv => hv⟩⟩
  | reject offerID =>
    rcases RejectOffer_cases ctx offerID with ⟨msg, h⟩ | ⟨o, t, j, hget, _, _, hj, h⟩
    · exact Or.inl ⟨msg, h⟩
    · exact Or.inr ⟨_, j, hj, h, Or.inr ⟨o, hget, fun hv => hv⟩⟩
  | adminVerify offerID adminID sepoliaTxHash =>
    rcases AdminVerifyOffer_cases ctx offerID adminID sepoliaTxHash with
      ⟨msg, h⟩ | ⟨o, t, j, hget, _, _, hj, h⟩
    · exact Or.inl ⟨msg, h⟩
    · exact Or.inr ⟨_, j, hj, h, Or.inr ⟨o, hget, fun _ => rfl⟩⟩
  | complete offerID =>
    rcases CompleteOffer_cases ctx offerID with ⟨msg, h⟩ | ⟨o, t, j, hget, _, _, hj, h⟩
    · exact Or.inl ⟨msg, h⟩
    · exact Or.inr ⟨_, j, hj, h, Or.inr ⟨o, hget, fun hv => hv⟩⟩
  | cancel offerID =>
    rcases CancelOffer_cases ctx offerID with ⟨msg, h⟩ | ⟨o, t, j, hget, _, _, hj, h⟩
    · exact Or.inl ⟨msg, h⟩
    · exact Or.inr ⟨_, j, hj, h, Or.inr ⟨o, hget, fun hv => hv⟩⟩

/-- No invocation resets `adminVerified`: an offer that is admin verified is read
after any invocation as an offer that is admin verified. -/
theorem adminVerified_kept (ctx : Stub) (c : Call) (k : String) (o : Offer)
    (hget : GetOffer ctx k = .ok o) (hv : o.AdminVerified = true) :
    ∃ o1, GetOffer (c.run ctx).2 k = .ok o1 ∧ o1.AdminVerified = true := by
  rcases run_cases_offer ctx c with ⟨msg, h⟩ | ⟨o1, j, hj, h, hpre⟩
  · rw [h]
    exact ⟨o, hget, hv⟩
  · rw [h]
    by_cases hk : k = c.key
    · subst hk
      rcases hpre with hfresh | ⟨o0, hget0, hkeep⟩
      · obtain ⟨v, hst, _⟩ := GetOffer_ok_state _ _ _ hget
        rw [hfresh] at hst
        cases hst
      · rw [hget] at hget0
        cases hget0
        exact ⟨o1, GetOffer_PutState ctx _ o1 j hj, hkeep hv⟩
    · refine ⟨o, ?_, hv⟩
      rw [GetOffer_congr ctx (ctx.PutState c.key j).2 k
        (Stub.PutState_state_other ctx c.key k j hk)]
      exact hget

end OfferContract

/-- C30: in every ledger state reachable from the empty ledger by offer
operations, with the log of the admin verifications that led there: an offer
whose status is ADMIN_VERIFIED or COMPLETED has `adminVerified` true, was verified
by exactly one transaction, and its `verifiedAt` is the instant of that
transaction's timestamp; an offer whose status is PENDING, ACCEPTED or REJECTED
has `adminVerified` false and `adminId` and `sepoliaTxHash` empty; and an offer
with `adminVerified` true is read with `adminVerified` true after any further
invocation. -/
theorem admin_verification_consistent (w : String → Option Json)
    (log : String → List Timestamp) (h : OfferContract.Traced w log) (ts : Option Timestamp)
    (k : String) (o : OfferContract.Offer) (hget : OfferContract.GetOffer ⟨w, ts⟩ k = .ok o) :
    ((o.Status = "ADMIN_VERIFIED" ∨ o.Status = "COMPLETED") →
      o.AdminVerified = true ∧
      ∃ t, log k = [t] ∧ o.VerifiedAt = timeUnix t.Seconds t.Nanos) ∧
    ((o.Status = "PENDING" ∨ o.Status = "ACCEPTED" ∨ o.Status = "REJECTED") →
      o.AdminVerified = false ∧ o.AdminID = "" ∧ o.SepoliaTxHash = "") ∧
    (o.AdminVerified = true → ∀ c : OfferContract.Call,
      ∃ o1, OfferContract.GetOffer (c.run ⟨w, ts⟩).2 k = .ok o1 ∧ o1.AdminVerified = true) := by
  have hc := OfferContract.logInv_get ⟨w, ts⟩ log (h.logInv w log) k o hget
  exact ⟨fun hs => ⟨hc.1 hs, hc.2.2.1 (hc.1 hs)⟩, hc.2.1,
    fun hv c => OfferContract.adminVerified_kept ⟨w, ts⟩ c k o hget hv⟩

/-- C30 on the ledger left by `CreateOffer`, `AcceptOffer` and `AdminVerifyOffer`
(in the transaction with timestamp 300) of offer `O1`. -/
theorem admin_verification_consistent_witness :
    OfferContract.Traced OfferContract.verifiedLedger OfferContract.verifiedLog ∧
    OfferContract.GetOffer ⟨OfferContract.verifiedLedger, some ⟨500, 0⟩⟩ "O1" =
      .ok ⟨"O1", "P1", "b1", "bob", "s1", "sue", ⟨5, 0⟩, "ADMIN_VERIFIED", "hello", true, "admin",
        ⟨300, 0⟩, "0xabc", ⟨100, 0⟩, ⟨300, 0⟩⟩ ∧
    (∃ t, OfferContract.verifiedLog "O1" = [t] ∧ (⟨300, 0⟩ : Time) = timeUnix t.Seconds t.Nanos) ∧
    ∃ o1, OfferContract.GetOffer
      (OfferContract.CancelOffer ⟨OfferContract.verifiedLedger, some ⟨500, 0⟩⟩ "O1").2 "O1" =
        .ok o1 ∧ o1.AdminVerified = true :=
  have hr : OfferContract.Traced OfferContract.verifiedLedger OfferContract.verifiedLog :=
    OfferContract.Traced.step _ _ (some ⟨300, 0⟩) (.adminVerify "O1" "admin" "0xabc")
      (OfferContract.Traced.step _ _ (some ⟨200, 0⟩) (.accept "O1")
        (OfferContract.Traced.step _ _ (some ⟨100, 0⟩)
          (.create "O1" "P1" "b1" "bob" "s1" "sue" ⟨5, 0⟩ "hello") OfferContract.Traced.empty))
  have h := admin_verification_consistent OfferContract.verifiedLedger OfferContract.verifiedLog
    hr (some ⟨500, 0⟩) "O1"
    ⟨"O1", "P1", "b1", "bob", "s1", "sue", ⟨5, 0⟩, "ADMIN_VERIFIED", "hello", true, "admin",
      ⟨300, 0⟩, "0xabc", ⟨100, 0⟩, ⟨300, 0⟩⟩ rfl
  ⟨hr, rfl, (h.1 (Or.inl rfl)).2, h.2.2 rfl (.cancel "O1")⟩

/-! ## The values of the property status -/

namespace PropertyContract

/-- A write under a key that is not plain keeps the invariant of the plain keys. -/
theorem statusInv_put_other (ctx : Stub) (key : String) (j : Json) (hinv : StatusInv ctx.state)
    (hkey : ¬ PlainKey key) : StatusInv (ctx.PutState key j).2.state := by
  intro k v hk hv
  have hne : k ≠ key := fun h => hkey (h ▸ hk)
  rw [Stub.PutState_state_other _ _ _ _ hne] at hv
  exact hinv k v hk hv

/-- Writing a property with a 64-bit view count and one of the five statuses keeps
the invariant. -/
theorem statusInv_put_property (ctx : Stub) (propertyID : String) (p : Property) (j : Json)
    (hinv : StatusInv ctx.state) (hj : jsonMarshalProperty p = .ok j)
    (hviews : -9223372036854775808 ≤ p.Views ∧ p.Views < 9223372036854775808)
    (hs : p.Status ∈ statuses) : StatusInv (ctx.PutState propertyID j).2.state := by
  intro k v hk hv
  by_cases h : k = propertyID
  · subst h
    rw [Stub.PutState_state_self] at hv
    cases hv
    exact ⟨p, hj, hviews, hs⟩
  · rw [Stub.PutState_state_other _ _ _ _ h] at hv
    exact hinv k v hk hv

/-- Under the invariant, a property read from a plain key has a 64-bit view count
and one of the five statuses. -/
theorem statusInv_get_property (ctx : Stub) (propertyID : String) (p : Property)
    (hinv : StatusInv ctx.state) (hplain : PlainKey propertyID)
    (hget : GetProperty ctx propertyID = .ok p) :
    (-9223372036854775808 ≤ p.Views ∧ p.Views < 9223372036854775808) ∧ p.Status ∈ statuses := by
  obtain ⟨v, hv, hdec⟩ := GetProperty_ok_state ctx propertyID p hget
  obtain ⟨p0, h1, h2, h3⟩ := hinv propertyID v hplain hv
  rw [jsonUnmarshalProperty_jsonMarshalProperty p0 v h1 h2] at hdec
  cases hdec
  exact ⟨h2, h3⟩

/-- A key of the `USER_` family is not plain. -/
theorem user_key_not_plain (u : String) : ¬ PlainKey ("USER_" ++ u) := fun h => h.2 u rfl

/-- A key of the `TXN_` family is not plain. -/
theorem txn_key_not_plain (t : String) : ¬ PlainKey ("TXN_" ++ t) := fun h => h.1 t rfl

/-- An invocation that is `InEnum` keeps the invariant. -/
theorem statusInv_run (w : String → Option Json) (ts : Option Timestamp) (c : Call)
    (hinv : StatusInv w) (hadm : c.InEnum) : StatusInv (c.run ⟨w, ts⟩).2.state := by
  cases c with
  | registerUser userID name email role walletAddress phone =>
    rcases RegisterUser_cases ⟨w, ts⟩ userID name email role walletAddress phone with
      ⟨msg, h⟩ | ⟨t, j, _, _, hj, h⟩
    · simpa [Call.run, h] using hinv
    · simp only [Call.run, h]
      exact statusInv_put_other ⟨w, ts⟩ _ j hinv (user_key_not_plain userID)
  | updateUserVerification userID isVerified =>
    rcases UpdateUserVerification_cases ⟨w, ts⟩ userID isVerified with
      ⟨msg, h⟩ | ⟨u, j, _, hj, h⟩
    · simpa [Call.run, h] using hinv
    · simp only [Call.run, h]
      exact statusInv_put_other ⟨w, ts⟩ _ j hinv (user_key_not_plain userID)
  | registerProperty propertyID owner ownerName location area price propertyType description
      latitude longitude =>
    rcases RegisterProperty_cases ⟨w, ts⟩ propertyID owner ownerName location area price
      propertyType description latitude longitude with ⟨msg, h⟩ | ⟨t, j, _, _, hj, h⟩
    · simpa [Call.run, h] using hinv
    · simp only [Call.run, h]
      exact statusInv_put_property ⟨w, ts⟩ propertyID _ j hinv hj
        (by show (-9223372036854775808 : Int) ≤ 0 ∧ (0 : Int) < 9223372036854775808; decide)
        (by simp [statuses])
  | verifyProperty propertyID verifierID =>
    rcases VerifyProperty_cases ⟨w, ts⟩ propertyID verifierID with
      ⟨msg, h⟩ | ⟨p, t, j, hget, _, hj, h⟩
    · simpa [Call.run, h] using hinv
    · obtain ⟨hv, _⟩ := statusInv_get_property ⟨w, ts⟩ propertyID p hinv hadm hget
      simp only [Call.run, h]
      exact statusInv_put_property ⟨w, ts⟩ propertyID _ j hinv hj hv (by simp [statuses])
  | updatePropertyPrice propertyID price =>
    rcases UpdatePropertyPrice_cases ⟨w, ts⟩ propertyID price with
      ⟨msg, h⟩ | ⟨p, t, j, hget, _, hj, h⟩
    · simpa [Call.run, h] using hinv
    · obtain ⟨hv, hs⟩ := statusInv_get_property ⟨w, ts⟩ propertyID p hinv hadm hget
      simp only [Call.run, h]
      exact statusInv_put_property ⟨w, ts⟩ propertyID _ j hinv hj hv hs
  | incrementPropertyViews propertyID =>
    rcases IncrementPropertyViews_cases ⟨w, ts⟩ propertyID with ⟨msg, h⟩ | ⟨p, j, hget, hj, h⟩
    · simpa [Call.run, h] using hinv
    · obtain ⟨_, hs⟩ := statusInv_get_property ⟨w, ts⟩ propertyID p hinv hadm hget
      simp only [Call.run, h]
      exact statusInv_put_property ⟨w, ts⟩ propertyID _ j hinv hj (wrapInt64_range _) hs
  | transferProperty propertyID newOwner newOwnerName transactionID =>
    rcases TransferProperty_cases ⟨w, ts⟩ propertyID newOwner newOwnerName transactionID with
      ⟨msg, h⟩ | ⟨p, t, j, tj, hget, _, hj, htj, h⟩
    · simpa [Call.run, h] using hinv
    · obtain ⟨hv, _⟩ := statusInv_get_property ⟨w, ts⟩ propertyID p hinv hadm hget
      simp only [Call.run, h]
      exact statusInv_put_other _ _ tj
        (statusInv_put_property ⟨w, ts⟩ propertyID _ j hinv hj hv (by simp [statuses]))
        (txn_key_not_plain transactionID)
  | updatePropertyStatus propertyID status =>
    rcases UpdatePropertyStatus_cases ⟨w, ts⟩ propertyID status with
      ⟨msg, h⟩ | ⟨p, t, j, hget, _, hj, h⟩
    · simpa [Call.run, h] using hinv
    · obtain ⟨hv, _⟩ := statusInv_get_property ⟨w, ts⟩ propertyID p hinv hadm.1 hget
      simp only [Call.run, h]
      exact statusInv_put_property ⟨w, ts⟩ propertyID _ j hinv hj hv hadm.2

/-- Every ledger of `EnumReachable` satisfies the invariant. -/
theorem EnumReachable.statusInv (w : String → Option Json) (h : EnumReachable w) :
    StatusInv w := by
  induction h with
  | empty =>
    intro k v _ hv
    cases hv
  | step w ts c _ hadm ih => exact statusInv_run w ts c ih hadm

end PropertyContract

/-- C24 fails: on the reachable ledger left by `RegisterProperty` of `P1` and
`UpdatePropertyStatus` of `P1` with the argument `ARCHIVED`, the stored property
has the status `ARCHIVED`, which is none of the five values that the comment at
the `Status` field names. -/
theorem property_status_outside_enum :
    PropertyContract.Reachable PropertyContract.archivedLedger ∧
    PropertyContract.GetProperty ⟨PropertyContract.archivedLedger, none⟩ "P1" =
      .ok ⟨"P1", "alice", "Alice", "12 Hill Road", ⟨1, 0⟩, ⟨2, 0⟩, "ARCHIVED", "RESIDENTIAL",
        "plot", [], "", Time.zero, ⟨100, 0⟩, ⟨200, 0⟩, 0, ⟨3, 0⟩, ⟨4, 0⟩⟩ ∧
    "ARCHIVED" ∉ PropertyContract.statuses := by
  refine ⟨?_, rfl, by decide⟩
  exact PropertyContract.Reachable.step _ (some ⟨200, 0⟩) (.updatePropertyStatus "P1" "ARCHIVED")
    (PropertyContract.Reachable.step _ (some ⟨100, 0⟩) (.registerProperty "P1" "alice" "Alice"
      "12 Hill Road" ⟨1, 0⟩ ⟨2, 0⟩ "RESIDENTIAL" "plot" ⟨3, 0⟩ ⟨4, 0⟩)
      PropertyContract.Reachable.empty)

/-- Where the status stays one of the five: in every ledger state reachable from
the empty ledger by property-contract operations whose property ids do not begin
with `TXN_` or `USER_` and in which `UpdatePropertyStatus` is given one of the
five statuses,
every value stored under a key outside the `TXN_` and `USER_` families is read by
`GetProperty` as a property whose status is one of PENDING_VERIFICATION,
VERIFIED, AVAILABLE, UNDER_CONTRACT, SOLD. -/
theorem property_status_in_enum (w : String → Option Json)
    (hw : PropertyContract.EnumReachable w) (ts : Option Timestamp) (k : String)
    (hk : PropertyContract.PlainKey k) :
    (∀ v, w k = some v → ∃ p, PropertyContract.GetProperty ⟨w, ts⟩ k = .ok p) ∧
    ∀ p, PropertyContract.GetProperty ⟨w, ts⟩ k = .ok p → p.Status ∈ PropertyContract.statuses := by
  constructor
  · intro v hv
    obtain ⟨p, hj, hviews, _⟩ := hw.statusInv w k v hk hv
    exact ⟨p, by simp [PropertyContract.GetProperty, Stub.GetState, hv,
      PropertyContract.jsonUnmarshalProperty_jsonMarshalProperty p v hj hviews]⟩
  · intro p hget
    exact (PropertyContract.statusInv_get_property ⟨w, ts⟩ k p (hw.statusInv w) hk hget).2

/-- The status on the ledger left by `RegisterProperty` of `P1` and its
`TransferProperty` to `bob` under transaction id `T1`. -/
theorem property_status_in_enum_witness :
    PropertyContract.EnumReachable PropertyContract.transferredLedger ∧
    PropertyContract.PlainKey "P1" ∧
    "SOLD" ∈ PropertyContract.statuses :=
  have hw : PropertyContract.EnumReachable PropertyContract.transferredLedger :=
    PropertyContract.EnumReachable.step _ (some ⟨200, 0⟩)
      (.transferProperty "P1" "bob" "Bob" "T1")
      (PropertyContract.EnumReachable.step _ (some ⟨100, 0⟩)
        (.registerProperty "P1" "alice" "Alice" "12 Hill Road" ⟨1, 0⟩ ⟨2, 0⟩ "RESIDENTIAL" "plot"
          ⟨3, 0⟩ ⟨4, 0⟩) PropertyContract.EnumReachable.empty plainKey_P1)
      plainKey_P1
  ⟨hw, plainKey_P1,
    (property_status_in_enum PropertyContract.transferredLedger hw none "P1" plainKey_P1).2
      ⟨"P1", "bob", "Bob", "12 Hill Road", ⟨1, 0⟩, ⟨2, 0⟩, "SOLD", "RESIDENTIAL", "plot", [], "",
        Time.zero, ⟨100, 0⟩, ⟨200, 0⟩, 0, ⟨3, 0⟩, ⟨4, 0⟩⟩ rfl⟩

/-! ## Values that do not decode in bulk reads -/

/-- The skipping loop over values handed out without error returns the records
of the values that decode, in order. -/
theorem collectLenient_ok {α : Type} (decode : Json → Except String α) (kvs : List KV)
    (acc : List α) :
    collectLenient decode (kvs.map .ok) acc =
      .ok (acc ++ kvs.filterMap (fun kv => (decode kv.Value).toOption)) := by
  induction kvs generalizing acc with
  | nil => simp [collectLenient]
  | cons kv rest ih =>
    simp only [List.map_cons, collectLenient]
    cases hd : decode kv.Value with
    | error err => simp [ih, List.filterMap_cons, hd, Except.toOption]
    | ok r => simp [ih, List.filterMap_cons, hd, Except.toOption]

/-- The strict loop over values that all decode returns their records in order. -/
theorem collectStrict_ok {α : Type} (decode : Json → Except String α) (kvs : List KV)
    (acc : List α) (hall : ∀ kv ∈ kvs, ∃ r, decode kv.Value = .ok r) :
    collectStrict decode (kvs.map .ok) acc =
      .ok (acc ++ kvs.filterMap (fun kv => (decode kv.Value).toOption)) := by
  induction kvs generalizing acc with
  | nil => simp [collectStrict]
  | cons kv rest ih =>
    obtain ⟨r, hr⟩ := hall kv (List.mem_cons_self _ _)
    simp only [List.map_cons, collectStrict, hr]
    rw [ih _ (fun x hx => hall x (List.mem_cons_of_mem _ hx))]
    simp [List.filterMap_cons, hr, Except.toOption]

/-- The strict loop returns the error of the first value that does not decode. -/
theorem collectStrict_error {α : Type} (decode : Json → Except String α)
    (pre post : List KV) (kv : KV) (err : String) (acc : List α)
    (hpre : ∀ x ∈ pre, ∃ r, decode x.Value = .ok r) (hkv : decode kv.Value = .error err) :
    collectStrict decode ((pre ++ kv :: post).map .ok) acc = .error err := by
  induction pre generalizing acc with
  | nil => simp [collectStrict, hkv]
  | cons x rest ih =>
    obtain ⟨r, hr⟩ := hpre x (List.mem_cons_self _ _)
    simp only [List.cons_append, List.map_cons, collectStrict, hr]
    exact ih _ (fun y hy => hpre y (List.mem_cons_of_mem _ hy))

/-- The history loop over versions that all decode returns their entries in
order. -/
theorem collectHistory_ok {α : Type} (decode : Json → Except String α) (zero : α)
    (history : List KeyModification) (acc : List (HistoryEntry α))
    (hall : ∀ r ∈ history, ∃ entry, decodeVersion decode zero r = .ok entry) :
    collectHistory decode zero (history.map .ok) acc =
      .ok (acc ++ history.filterMap (fun r => (decodeVersion decode zero r).toOption)) := by
  induction history generalizing acc with
  | nil => simp [collectHistory]
  | cons r rest ih =>
    obtain ⟨entry, hr⟩ := hall r (List.mem_cons_self _ _)
    have hrest := fun acc1 => ih acc1 (fun x hx => hall x (List.mem_cons_of_mem _ hx))
    have hopt : (decodeVersion decode zero r).toOption = some entry := by rw [hr]; rfl
    rw [List.map_cons, List.filterMap_cons, hopt]
    unfold decodeVersion at hr
    simp only [collectHistory]
    cases hv : r.Value with
    | none =>
      simp only [hv] at hr
      cases hr
      simp only [hrest]
      simp
    | some value =>
      simp only [hv] at hr
      cases hd : decode value with
      | error err => simp [hd] at hr
      | ok record =>
        simp only [hd] at hr
        cases hr
        simp only [hrest]
        simp [hd]

/-- The history loop returns the error of the first version whose value does not
decode. -/
theorem collectHistory_error {α : Type} (decode : Json → Except String α) (zero : α)
    (pre post : List KeyModification) (r : KeyModification) (err : String)
    (acc : List (HistoryEntry α))
    (hpre : ∀ x ∈ pre, ∃ entry, decodeVersion decode zero x = .ok entry)
    (hr : decodeVersion decode zero r = .error err) :
    collectHistory decode zero ((pre ++ r :: post).map .ok) acc = .error err := by
  induction pre generalizing acc with
  | nil =>
    unfold decodeVersion at hr
    simp only [List.nil_append, List.map_cons, collectHistory]
    cases hv : r.Value with
    | none => simp [hv] at hr
    | some value =>
      simp only [hv] at hr
      cases hd : decode value with
      | error e =>
        simp only [hd] at hr
        cases hr
        simp [hd]
      | ok record => simp [hd] at hr
  | cons x rest ih =>
    obtain ⟨entry, hx⟩ := hpre x (List.mem_cons_self _ _)
    have hrest := fun acc1 => ih acc1 (fun y hy => hpre y (List.mem_cons_of_mem _ hy))
    unfold decodeVersion at hx
    simp only [List.cons_append, List.map_cons, collectHistory]
    cases hv : x.Value with
    | none => exact hrest _
    | some value =>
      simp only [hv] at hx
      cases hd : decode value with
      | error e => simp [hd] at hx
      | ok record =>
        simp only [hd]
        exact hrest _

/-- C21 fails for four of the bulk reads: over two ledger values of which the
first decodes and the second does not, `GetAllEscrows` does not skip the second
value and return the first record, it returns the decode error and no records;
and
over two versions of which the second does not decode `GetEscrowHistory`,
`GetOfferHistory` and `GetPropertyHistory` return the decode error and no
entries.  The sibling scan `GetAllOffers` over two such values skips the second
and returns the first record. -/
theorem strict_reads_abort_on_undecodable_value :
    EscrowContract.jsonUnmarshal (.obj [("escrowId", .str "E1")]) =
      .ok { EscrowContract.Escrow.zero with EscrowID := "E1" } ∧
    EscrowContract.GetAllEscrows
      (ReadStub.ofLists [⟨"E1", .obj [("escrowId", .str "E1")]⟩, ⟨"E2", .str "x"⟩] []) =
      .error "json: cannot unmarshal value into Go value of type main.Escrow" ∧
    EscrowContract.GetEscrowHistory
      (ReadStub.ofLists [] [⟨"tx1", some (.obj [("escrowId", .str "E1")]), ⟨100, 0⟩, false⟩,
        ⟨"tx2", some (.str "x"), ⟨200, 0⟩, false⟩]) "E1" =
      .error "json: cannot unmarshal value into Go value of type main.Escrow" ∧
    OfferContract.GetOfferHistory
      (ReadStub.ofLists [] [⟨"tx1", some (.obj [("offerId", .str "O1")]), ⟨100, 0⟩, false⟩,
        ⟨"tx2", some (.str "x"), ⟨200, 0⟩, false⟩]) "O1" =
      .error "json: cannot unmarshal value into Go value of type main.Offer" ∧
    PropertyContract.GetPropertyHistory
      (ReadStub.ofLists [] [⟨"tx1", some (.obj [("propertyId", .str "P1")]), ⟨100, 0⟩, false⟩,
        ⟨"tx2", some (.str "x"), ⟨200, 0⟩, false⟩]) "P1" =
      .error "json: cannot unmarshal value into Go value of type main.Property" ∧
    OfferContract.GetAllOffers
      (ReadStub.ofLists [⟨"O1", .obj [("offerId", .str "O1")]⟩, ⟨"O2", .str "x"⟩] []) =
      .ok [{ OfferContract.Offer.zero with OfferID := "O1" }] :=
  ⟨rfl, rfl, rfl, rfl, rfl, rfl⟩

/-- What each bulk read does with values that do not decode: for every sequence of
ledger values and of versions handed out without error, `GetAllOffers`, `GetAllProperties`, `GetAllUsers` and the selector
queries (`queryOffers`, `queryProperties`, `queryUsers` on any query text)
succeed and return the decoded records of exactly the decodable values, in
iteration order; `GetAllEscrows`, `GetEscrowHistory`, `GetOfferHistory` and
`GetPropertyHistory` return the decoded records in iteration order when every
value decodes, and return the decode error of the first value that does not
decode otherwise. -/
theorem bulk_reads_skip_or_abort (kvs : List KV) (history : List KeyModification)
    (queryString key : String) :
    (OfferContract.GetAllOffers (ReadStub.ofLists kvs history) =
        .ok (kvs.filterMap (fun kv => (OfferContract.jsonUnmarshal kv.Value).toOption)) ∧
      OfferContract.queryOffers (ReadStub.ofLists kvs history) queryString =
        .ok (kvs.filterMap (fun kv => (OfferContract.jsonUnmarshal kv.Value).toOption)) ∧
      PropertyContract.GetAllProperties (ReadStub.ofLists kvs history) =
        .ok (kvs.filterMap (fun kv => (PropertyContract.jsonUnmarshalProperty kv.Value).toOption)) ∧
      PropertyContract.queryProperties (ReadStub.ofLists kvs history) queryString =
        .ok (kvs.filterMap (fun kv => (PropertyContract.jsonUnmarshalProperty kv.Value).toOption)) ∧
      UserContract.GetAllUsers (ReadStub.ofLists kvs history) =
        .ok (kvs.filterMap (fun kv => (UserContract.jsonUnmarshal kv.Value).toOption)) ∧
      UserContract.queryUsers (ReadStub.ofLists kvs history) queryString =
        .ok (kvs.filterMap (fun kv => (UserContract.jsonUnmarshal kv.Value).toOption))) ∧
    (((∀ kv ∈ kvs, ∃ e, EscrowContract.jsonUnmarshal kv.Value = .ok e) →
        EscrowContract.GetAllEscrows (ReadStub.ofLists kvs history) =
          .ok (kvs.filterMap (fun kv => (EscrowContract.jsonUnmarshal kv.Value).toOption))) ∧
      ∀ pre kv post err, kvs = pre ++ kv :: post →
        (∀ x ∈ pre, ∃ e, EscrowContract.jsonUnmarshal x.Value = .ok e) →
        EscrowContract.jsonUnmarshal kv.Value = .error err →
        EscrowContract.GetAllEscrows (ReadStub.ofLists kvs history) = .error err) ∧
    (((∀ r ∈ history, ∃ entry,
          decodeVersion EscrowContract.jsonUnmarshal EscrowContract.Escrow.zero r = .ok entry) →
        EscrowContract.GetEscrowHistory (ReadStub.ofLists kvs history) key =
          .ok (history.filterMap (fun r =>
            (decodeVersion EscrowContract.jsonUnmarshal EscrowContract.Escrow.zero r).toOption))) ∧
      ∀ pre r post err, history = pre ++ r :: post →
        (∀ x ∈ pre, ∃ entry,
          decodeVersion EscrowContract.jsonUnmarshal EscrowContract.Escrow.zero x = .ok entry) →
        decodeVersion EscrowContract.jsonUnmarshal EscrowContract.Escrow.zero r = .error err →
        EscrowContract.GetEscrowHistory (ReadStub.ofLists kvs history) key = .error err) ∧
    (((∀ r ∈ history, ∃ entry,
          decodeVersion OfferContract.jsonUnmarshal OfferContract.Offer.zero r = .ok entry) →
        OfferContract.GetOfferHistory (ReadStub.ofLists kvs history) key =
          .ok (history.filterMap (fun r =>
            (decodeVersion OfferContract.jsonUnmarshal OfferContract.Offer.zero r).toOption))) ∧
      ∀ pre r post err, history = pre ++ r :: post →
        (∀ x ∈ pre, ∃ entry,
          decodeVersion OfferContract.jsonUnmarshal OfferContract.Offer.zero x = .ok entry) →
        decodeVersion OfferContract.jsonUnmarshal OfferContract.Offer.zero r = .error err →
        OfferContract.GetOfferHistory (ReadStub.ofLists kvs history) key = .error err) ∧
    (((∀ r ∈ history, ∃ entry,
          decodeVersion PropertyContract.jsonUnmarshalProperty PropertyContract.Property.zero r =
            .ok entry) →
        PropertyContract.GetPropertyHistory (ReadStub.ofLists kvs history) key =
          .ok (history.filterMap (fun r =>
            (decodeVersion PropertyContract.jsonUnmarshalProperty
              PropertyContract.Property.zero r).toOption))) ∧
      ∀ pre r post err, history = pre ++ r :: post →
        (∀ x ∈ pre, ∃ entry,
          decodeVersion PropertyContract.jsonUnmarshalProperty PropertyContract.Property.zero x =
            .ok entry) →
        decodeVersion PropertyContract.jsonUnmarshalProperty PropertyContract.Property.zero r =
          .error err →
        PropertyContract.GetPropertyHistory (ReadStub.ofLists kvs history) key = .error err) := by
  refine ⟨⟨?_, ?_, ?_, ?_, ?_, ?_⟩, ⟨?_, ?_⟩, ⟨?_, ?_⟩, ⟨?_, ?_⟩, ⟨?_, ?_⟩⟩
  · exact (collectLenient_ok OfferContract.jsonUnmarshal kvs []).trans (by simp)
  · exact (collectLenient_ok OfferContract.jsonUnmarshal kvs []).trans (by simp)
  · exact (collectLenient_ok PropertyContract.jsonUnmarshalProperty kvs []).trans (by simp)
  · exact (collectLenient_ok PropertyContract.jsonUnmarshalProperty kvs []).trans (by simp)
  · exact (collectLenient_ok UserContract.jsonUnmarshal kvs []).trans (by simp)
  · exact (collectLenient_ok UserContract.jsonUnmarshal kvs []).trans (by simp)
  · exact fun hall => (collectStrict_ok EscrowContract.jsonUnmarshal kvs [] hall).trans (by simp)
  · rintro pre kv post err rfl hpre hkv
    exact collectStrict_error EscrowContract.jsonUnmarshal pre post kv err [] hpre hkv
  · exact fun hall => (collectHistory_ok EscrowContract.jsonUnmarshal EscrowContract.Escrow.zero
      history [] hall).trans (by simp)
  · rintro pre r post err rfl hpre hr
    exact collectHistory_error EscrowContract.jsonUnmarshal EscrowContract.Escrow.zero pre post r
      err [] hpre hr
  · exact fun hall => (collectHistory_ok OfferContract.jsonUnmarshal OfferContract.Offer.zero
      history [] hall).trans (by simp)
  · rintro pre r post err rfl hpre hr
    exact collectHistory_error OfferContract.jsonUnmarshal OfferContract.Offer.zero pre post r
      err [] hpre hr
  · exact fun hall => (collectHistory_ok PropertyContract.jsonUnmarshalProperty
      PropertyContract.Property.zero history [] hall).trans (by simp)
  · rintro pre r post err rfl hpre hr
    exact collectHistory_error PropertyContract.jsonUnmarshalProperty
      PropertyContract.Property.zero pre post r err [] hpre hr

/-- The bulk reads on three ledger values of which the second does not decode:
`GetAllOffers` returns the two offers, and `GetAllEscrows` over the two values
that decode returns the two escrows. -/
theorem bulk_reads_skip_or_abort_witness :
    OfferContract.GetAllOffers (ReadStub.ofLists [⟨"O1", .obj [("offerId", .str "O1")]⟩,
      ⟨"X", .str "x"⟩, ⟨"O2", .obj [("offerId", .str "O2")]⟩] []) =
      .ok [{ OfferContract.Offer.zero with OfferID := "O1" },
        { OfferContract.Offer.zero with OfferID := "O2" }] ∧
    EscrowContract.GetAllEscrows (ReadStub.ofLists [⟨"E1", .obj [("escrowId", .str "E1")]⟩,
      ⟨"E2", .obj [("escrowId", .str "E2")]⟩] []) =
      .ok [{ EscrowContract.Escrow.zero with EscrowID := "E1" },
        { EscrowContract.Escrow.zero with EscrowID := "E2" }] :=
  ⟨(bulk_reads_skip_or_abort [⟨"O1", .obj [("offerId", .str "O1")]⟩, ⟨"X", .str "x"⟩,
      ⟨"O2", .obj [("offerId", .str "O2")]⟩] [] "" "").1.1.trans rfl,
    ((bulk_reads_skip_or_abort [⟨"E1", .obj [("escrowId", .str "E1")]⟩,
      ⟨"E2", .obj [("escrowId", .str "E2")]⟩] [] "" "").2.1.1 (by
        intro kv hkv
        simp only [List.mem_cons, List.mem_singleton, List.not_mem_nil, or_false] at hkv
        rcases hkv with rfl | rfl
        · exact ⟨_, rfl⟩
        · exact ⟨_, rfl⟩)).trans rfl⟩

/-! ## Selector texts: properties -/

namespace Selector

/-- A string of plain characters is read up to its closing quote as it is. -/
theorem readString_plain (cs acc rest : List Char) (hcs : ∀ c ∈ cs, Plain c) :
    readString (cs ++ quote :: rest) false acc = some (String.mk (acc.reverse ++ cs), rest) := by
  induction cs generalizing acc with
  | nil => simp [readString]
  | cons c cs ih =>
    obtain ⟨h1, h2, h3⟩ := hcs c (List.mem_cons_self _ _)
    simp only [List.cons_append, readString, h1, h2, h3, if_false]
    exact (ih (c :: acc) (fun x hx => hcs x (List.mem_cons_of_mem _ hx))).trans (by simp)

/-- Dropping a beginning from an input that begins with it. -/
theorem dropOpening_append (opening rest : List Char) :
    dropOpening opening (opening ++ rest) = some rest := by
  induction opening with
  | nil => cases rest <;> rfl
  | cons o opening ih => simp [dropOpening, ih]

/-- The text of one predicate whose field and value consist of plain characters
is read as that predicate. -/
theorem parse_one (field value : String) (hf : ∀ c ∈ field.data, Plain c)
    (hv : ∀ c ∈ value.data, Plain c) :
    parse ("\x7b\"selector\":\x7b\"" ++ field ++ "\":\"" ++ value ++ "\"\x7d\x7d") =
      some [(field, value)] := by
  have hdata : ("\x7b\"selector\":\x7b\"" ++ field ++ "\":\"" ++ value ++ "\"\x7d\x7d").data =
      "\x7b\"selector\":\x7b".data ++ (quote :: (field.data ++ quote :: ':' :: quote ::
        (value.data ++ quote :: closeBrace :: [closeBrace]))) := by
    have h1 : ("\x7b\"selector\":\x7b\"" : String).data =
        "\x7b\"selector\":\x7b".data ++ [quote] := by decide
    have h2 : ("\":\"" : String).data = [quote, ':', quote] := by decide
    have h3 : ("\"\x7d\x7d" : String).data = [quote, closeBrace, closeBrace] := by decide
    rw [String.data_append, String.data_append, String.data_append, String.data_append, h1, h2,
      h3]
    simp only [List.append_assoc, List.cons_append, List.nil_append]
  unfold parse
  rw [hdata, dropOpening_append]
  simp only [List.length_cons, readMembers, if_true]
  rw [readString_plain field.data [] _ hf]
  simp only [and_self, if_true]
  rw [readString_plain value.data [] _ hv]
  have hc : closeBrace ≠ ',' := by decide
  simp [hc]

end Selector

/-- The selector queries on an argument of plain characters (no double quote, no
backslash, no control character) issue the text of one predicate, the fixed
field with the argument as its value. -/
theorem selector_of_plain_argument (s : String) (hs : ∀ c ∈ s.data, Selector.Plain c) :
    (∃ t, OfferContract.GetOffersByStatus ReadStub.echo s = .error t ∧
      Selector.parse t = some [("status", s)]) ∧
    (∃ t, OfferContract.GetOffersByProperty ReadStub.echo s = .error t ∧
      Selector.parse t = some [("propertyId", s)]) ∧
    (∃ t, OfferContract.GetOffersByBuyer ReadStub.echo s = .error t ∧
      Selector.parse t = some [("buyerId", s)]) ∧
    (∃ t, OfferContract.GetOffersBySeller ReadStub.echo s = .error t ∧
      Selector.parse t = some [("sellerId", s)]) ∧
    (∃ t, PropertyContract.GetPropertiesByStatus ReadStub.echo s = .error t ∧
      Selector.parse t = some [("status", s)]) ∧
    (∃ t, PropertyContract.GetPropertiesByType ReadStub.echo s = .error t ∧
      Selector.parse t = some [("propertyType", s)]) ∧
    (∃ t, PropertyContract.GetPropertiesByOwner ReadStub.echo s = .error t ∧
      Selector.parse t = some [("owner", s)]) ∧
    (∃ t, UserContract.GetUsersByRole ReadStub.echo s = .error t ∧
      Selector.parse t = some [("role", s)]) := by
  have key : ∀ field : String, (∀ c ∈ field.data, Selector.Plain c) →
      ∀ lit : String, lit = "\x7b\"selector\":\x7b\"" ++ field ++ "\":\"" →
      Selector.parse (lit ++ s ++ "\"\x7d\x7d") = some [(field, s)] := by
    intro field hf lit hlit
    rw [hlit]
    exact Selector.parse_one field s hf hs
  have plain : ∀ field : String, (∀ c ∈ field.data, c ≠ Selector.quote ∧ c ≠ Selector.backslash ∧
      ¬ c.toNat < 32) → ∀ c ∈ field.data, Selector.Plain c := fun _ h => h
  exact ⟨⟨_, rfl, key "status" (plain _ (by decide)) _ (by decide)⟩,
    ⟨_, rfl, key "propertyId" (plain _ (by decide)) _ (by decide)⟩,
    ⟨_, rfl, key "buyerId" (plain _ (by decide)) _ (by decide)⟩,
    ⟨_, rfl, key "sellerId" (plain _ (by decide)) _ (by decide)⟩,
    ⟨_, rfl, key "status" (plain _ (by decide)) _ (by decide)⟩,
    ⟨_, rfl, key "propertyType" (plain _ (by decide)) _ (by decide)⟩,
    ⟨_, rfl, key "owner" (plain _ (by decide)) _ (by decide)⟩,
    ⟨_, rfl, key "role" (plain _ (by decide)) _ (by decide)⟩⟩

/-- C25 fails on an argument with double quotes: for the argument
`x","owner":"y` each selector query issues a text that reads as two
predicates, the fixed field with the value `x` and the field `owner` with the
value `y`; and for the argument `a"b` the text issued by `GetOffersByStatus` is
no selector at all. -/
theorem selector_argument_adds_predicate :
    (∃ t, OfferContract.GetOffersByStatus ReadStub.echo "x\",\"owner\":\"y" = .error t ∧
      Selector.parse t = some [("status", "x"), ("owner", "y")]) ∧
    (∃ t, OfferContract.GetOffersByProperty ReadStub.echo "x\",\"owner\":\"y" = .error t ∧
      Selector.parse t = some [("propertyId", "x"), ("owner", "y")]) ∧
    (∃ t, OfferContract.GetOffersByBuyer ReadStub.echo "x\",\"owner\":\"y" = .error t ∧
      Selector.parse t = some [("buyerId", "x"), ("owner", "y")]) ∧
    (∃ t, OfferContract.GetOffersBySeller ReadStub.echo "x\",\"owner\":\"y" = .error t ∧
      Selector.parse t = some [("sellerId", "x"), ("owner", "y")]) ∧
    (∃ t, PropertyContract.GetPropertiesByStatus ReadStub.echo "x\",\"owner\":\"y" = .error t ∧
      Selector.parse t = some [("status", "x"), ("owner", "y")]) ∧
    (∃ t, PropertyContract.GetPropertiesByType ReadStub.echo "x\",\"owner\":\"y" = .error t ∧
      Selector.parse t = some [("propertyType", "x"), ("owner", "y")]) ∧
    (∃ t, PropertyContract.GetPropertiesByOwner ReadStub.echo "x\",\"owner\":\"y" = .error t ∧
      Selector.parse t = some [("owner", "x"), ("owner", "y")]) ∧
    (∃ t, UserContract.GetUsersByRole ReadStub.echo "x\",\"owner\":\"y" = .error t ∧
      Selector.parse t = some [("role", "x"), ("owner", "y")]) ∧
    (∃ t, OfferContract.GetOffersByStatus ReadStub.echo "a\"b" = .error t ∧
      Selector.parse t = none) :=
  ⟨⟨_, rfl, by decide⟩, ⟨_, rfl, by decide⟩, ⟨_, rfl, by decide⟩, ⟨_, rfl, by decide⟩,
    ⟨_, rfl, by decide⟩, ⟨_, rfl, by decide⟩, ⟨_, rfl, by decide⟩, ⟨_, rfl, by decide⟩,
    ⟨_, rfl, by decide⟩⟩

/-! ## History reads -/

namespace Ledger

/-- A transaction that does not write a key leaves its value and its history. -/
theorem commit_other {Call α : Type} (run : Call → Stub → Except String Unit × Stub)
    (writes : Call → List String) (decode : Json → Except String α)
    (hspec : WritesDecodable run writes decode) (tx : Tx Call) (l : Ledger) (k : String)
    (hk : k ∉ writes tx.call) :
    (l.commit run writes tx).state k = l.state k ∧
    (l.commit run writes tx).history k = l.history k := by
  unfold commit
  rcases hspec tx.call ⟨l.state, some tx.timestamp⟩ with ⟨msg, h⟩ | ⟨hok, hframe, _⟩
  · rw [h]
    exact ⟨rfl, rfl⟩
  · rcases hrun : run tx.call ⟨l.state, some tx.timestamp⟩ with ⟨res, ctx⟩
    rw [hrun] at hok hframe
    cases res with
    | error e => cases hok
    | ok u => exact ⟨hframe k hk, by simp [hk]⟩

/-- Transactions that do not write a key leave its value and its history. -/
theorem commitAll_other {Call α : Type} (run : Call → Stub → Except String Unit × Stub)
    (writes : Call → List String) (decode : Json → Except String α)
    (hspec : WritesDecodable run writes decode) (txs : List (Tx Call)) (l : Ledger) (k : String)
    (hk : ∀ tx ∈ txs, k ∉ writes tx.call) :
    (l.commitAll run writes txs).state k = l.state k ∧
    (l.commitAll run writes txs).history k = l.history k := by
  induction txs generalizing l with
  | nil => exact ⟨rfl, rfl⟩
  | cons tx rest ih =>
    obtain ⟨h1, h2⟩ := ih (l.commit run writes tx) (fun x hx => hk x (List.mem_cons_of_mem _ hx))
    obtain ⟨h3, h4⟩ := commit_other run writes decode hspec tx l k
      (hk tx (List.mem_cons_self _ _))
    exact ⟨h1.trans h3, h2.trans h4⟩

/-- A successful transaction that writes a key adds one version to it, with the
transaction id, the value now under the key, which decodes, and the
timestamp. -/
theorem commit_write {Call α : Type} (run : Call → Stub → Except String Unit × Stub)
    (writes : Call → List String) (decode : Json → Except String α)
    (hspec : WritesDecodable run writes decode) (tx : Tx Call) (l : Ledger) (k : String)
    (hk : k ∈ writes tx.call)
    (hok : (run tx.call ⟨l.state, some tx.timestamp⟩).1 = .ok ()) :
    ∃ v r, (l.commit run writes tx).state k = some v ∧ decode v = .ok r ∧
      (l.commit run writes tx).history k =
        l.history k ++ [⟨tx.txId, some v, tx.timestamp, false⟩] := by
  unfold commit
  rcases hspec tx.call ⟨l.state, some tx.timestamp⟩ with ⟨msg, h⟩ | ⟨_, _, hdec⟩
  · rw [h] at hok
    cases hok
  · obtain ⟨v, r, hv, hr⟩ := hdec k hk
    rcases hrun : run tx.call ⟨l.state, some tx.timestamp⟩ with ⟨res, ctx⟩
    rw [hrun] at hok hv
    cases res with
    | error e => cases hok
    | ok u =>
      have hv1 : ctx.state k = some v := hv
      exact ⟨v, r, hv1, hr, by simp [hk, hv1]⟩

end Ledger

/-- After three successful writes of a new key the history loop returns three
entries, oldest first, each with the transaction id, the timestamp and the
decoded value of its version, and the last value is the value now under the
key. -/
theorem ThreeWrites.history {Call α : Type} (run : Call → Stub → Except String Unit × Stub)
    (writes : Call → List String) (decode : Json → Except String α) (zero : α)
    (hspec : WritesDecodable run writes decode) (s : ThreeWrites Call)
    (hvalid : s.Valid run writes) :
    ∃ v0 v1 v2 r0 r1 r2,
      ((s.ledger1 run writes).state s.key = some v0 ∧ decode v0 = .ok r0) ∧
      ((s.ledger2 run writes).state s.key = some v1 ∧ decode v1 = .ok r1) ∧
      ((s.final run writes).state s.key = some v2 ∧ decode v2 = .ok r2) ∧
      collectHistory decode zero (((s.final run writes).history s.key).map .ok) [] =
        .ok [⟨s.first.txId, s.first.timestamp, r0, false⟩,
          ⟨s.second.txId, s.second.timestamp, r1, false⟩,
          ⟨s.third.txId, s.third.timestamp, r2, false⟩] := by
  obtain ⟨hfresh, hhist, ⟨hk0, hok0⟩, hb1, ⟨hk1, hok1⟩, hb2, ⟨hk2, hok2⟩, hb3⟩ := hvalid
  obtain ⟨v0, r0, hs0, hd0, hh0⟩ :=
    Ledger.commit_write run writes decode hspec s.first s.start s.key hk0 hok0
  obtain ⟨_, hh0b⟩ := Ledger.commitAll_other run writes decode hspec s.between1
    (s.ledger1 run writes) s.key hb1
  obtain ⟨v1, r1, hs1, hd1, hh1⟩ :=
    Ledger.commit_write run writes decode hspec s.second (s.before2 run writes) s.key hk1 hok1
  obtain ⟨_, hh1b⟩ := Ledger.commitAll_other run writes decode hspec s.between2
    (s.ledger2 run writes) s.key hb2
  obtain ⟨v2, r2, hs2, hd2, hh2⟩ :=
    Ledger.commit_write run writes decode hspec s.third (s.before3 run writes) s.key hk2 hok2
  obtain ⟨hs2b, hh2b⟩ := Ledger.commitAll_other run writes decode hspec s.after
    (s.ledger3 run writes) s.key hb3
  refine ⟨v0, v1, v2, r0, r1, r2, ⟨hs0, hd0⟩, ⟨hs1, hd1⟩, ⟨hs2b.trans hs2, hd2⟩, ?_⟩
  have hfinal : (s.final run writes).history s.key =
      [⟨s.first.txId, some v0, s.first.timestamp, false⟩,
        ⟨s.second.txId, some v1, s.second.timestamp, false⟩,
        ⟨s.third.txId, some v2, s.third.timestamp, false⟩] := by
    have e1 : (s.before2 run writes).history s.key = (s.ledger1 run writes).history s.key := hh0b
    have e2 : (s.before3 run writes).history s.key = (s.ledger2 run writes).history s.key := hh1b
    have e3 : (s.final run writes).history s.key = (s.ledger3 run writes).history s.key := hh2b
    have f1 : (s.ledger1 run writes).history s.key = _ := hh0
    have f2 : (s.ledger2 run writes).history s.key = _ := hh1
    have f3 : (s.ledger3 run writes).history s.key = _ := hh2
    rw [e3, f3, e2, f2, e1, f1, hhist]
    rfl
  rw [hfinal]
  simp [collectHistory, hd0, hd1, hd2]

/-- One write of a value that decodes, as `WritesDecodable` asks of a successful
invocation that writes the one key. -/
theorem put_writesDecodable {α : Type} (decode : Json → Except String α) (ctx : Stub)
    (key : String) (j : Json) (r : α) (hdec : decode j = .ok r) :
    (ctx.PutState key j).1 = .ok () ∧
    (∀ k, k ∉ [key] → (ctx.PutState key j).2.state k = ctx.state k) ∧
    ∀ k ∈ [key], ∃ v r, (ctx.PutState key j).2.state k = some v ∧ decode v = .ok r := by
  refine ⟨rfl, fun k hk => ?_, fun k hk => ?_⟩
  · exact Stub.PutState_state_other ctx key k j (by simpa using hk)
  · rw [List.mem_singleton] at hk
    subst hk
    exact ⟨j, r, Stub.PutState_state_self ctx k j, hdec⟩

/-- The escrow invocations write the escrow id and leave an escrow under it. -/
theorem writesDecodable_escrow :
    WritesDecodable EscrowContract.Call.run EscrowContract.Call.writes
      EscrowContract.jsonUnmarshal := by
  intro c ctx
  cases c with
  | create escrowID propertyID buyer seller amount =>
    rcases EscrowContract.CreateEscrow_cases ctx escrowID propertyID buyer seller amount with
      ⟨msg, h⟩ | ⟨t, j, _, _, hj, h⟩
    · exact Or.inl ⟨msg, h⟩
    · refine Or.inr ?_
      simp only [EscrowContract.Call.run, EscrowContract.Call.writes, EscrowContract.Call.key, h]
      exact put_writesDecodable _ ctx escrowID j _ (EscrowContract.unmarshal_marshal_escrow _ j hj)
  | fund escrowID txHash =>
    rcases EscrowContract.FundEscrow_cases ctx escrowID txHash with
      ⟨msg, h⟩ | ⟨e, t, j, _, _, _, hj, h⟩
    · exact Or.inl ⟨msg, h⟩
    · refine Or.inr ?_
      simp only [EscrowContract.Call.run, EscrowContract.Call.writes, EscrowContract.Call.key, h]
      exact put_writesDecodable _ ctx escrowID j _ (EscrowContract.unmarshal_marshal_escrow _ j hj)
  | release escrowID txHash =>
    rcases EscrowContract.ReleaseEscrow_cases ctx escrowID txHash with
      ⟨msg, h⟩ | ⟨e, t, j, _, _, _, hj, h⟩
    · exact Or.inl ⟨msg, h⟩
    · refine Or.inr ?_
      simp only [EscrowContract.Call.run, EscrowContract.Call.writes, EscrowContract.Call.key, h]
      exact put_writesDecodable _ ctx escrowID j _ (EscrowContract.unmarshal_marshal_escrow _ j hj)
  | cancel escrowID txHash =>
    rcases EscrowContract.CancelEscrow_cases ctx escrowID txHash with
      ⟨msg, h⟩ | ⟨e, t, j, _, _, _, hj, h⟩
    · exact Or.inl ⟨msg, h⟩
    · refine Or.inr ?_
      simp only [EscrowContract.Call.run, EscrowContract.Call.writes, EscrowContract.Call.key, h]
      exact put_writesDecodable _ ctx escrowID j _ (EscrowContract.unmarshal_marshal_escrow _ j hj)

/-- The offer invocations write the offer id and leave an offer under it. -/
theorem writesDecodable_offer :
    WritesDecodable OfferContract.Call.run OfferContract.Call.writes
      OfferContract.jsonUnmarshal := by
  intro c ctx
  rcases OfferContract.run_cases_offer ctx c with ⟨msg, h⟩ | ⟨o1, j, hj, h, _⟩
  · exact Or.inl ⟨msg, h⟩
  · refine Or.inr ?_
    rw [h]
    exact put_writesDecodable _ ctx c.key j o1 (OfferContract.unmarshal_marshal_offer o1 j hj)

/-- The property-contract invocations write the keys of `Call.writes` and leave
under each of them a value that decodes as a property: a property, or a user or
transaction record read as one. -/
theorem writesDecodable_property :
    WritesDecodable PropertyContract.Call.run PropertyContract.Call.writes
      PropertyContract.jsonUnmarshalProperty := by
  intro c ctx
  cases c with
  | registerUser userID name email role walletAddress phone =>
    rcases PropertyContract.RegisterUser_cases ctx userID name email role walletAddress phone with
      ⟨msg, h⟩ | ⟨t, j, _, _, hj, h⟩
    · exact Or.inl ⟨msg, h⟩
    · refine Or.inr ?_
      simp only [PropertyContract.Call.run, PropertyContract.Call.writes, h]
      exact put_writesDecodable _ ctx _ j _ (PropertyContract.jsonUnmarshalProperty_of_user _ j hj)
  | updateUserVerification userID isVerified =>
    rcases PropertyContract.UpdateUserVerification_cases ctx userID isVerified with
      ⟨msg, h⟩ | ⟨u, j, _, hj, h⟩
    · exact Or.inl ⟨msg, h⟩
    · refine Or.inr ?_
      simp only [PropertyContract.Call.run, PropertyContract.Call.writes, h]
      exact put_writesDecodable _ ctx _ j _ (PropertyContract.jsonUnmarshalProperty_of_user _ j hj)
  | registerProperty propertyID owner ownerName location area price propertyType description
      latitude longitude =>
    rcases PropertyContract.RegisterProperty_cases ctx propertyID owner ownerName location area
      price propertyType description latitude longitude with ⟨msg, h⟩ | ⟨t, j, _, _, hj, h⟩
    · exact Or.inl ⟨msg, h⟩
    · refine Or.inr ?_
      simp only [PropertyContract.Call.run, PropertyContract.Call.writes, h]
      exact put_writesDecodable _ ctx _ j _
        (PropertyContract.jsonUnmarshalProperty_jsonMarshalProperty _ j hj
          (by show (-9223372036854775808 : Int) ≤ 0 ∧ (0 : Int) < 9223372036854775808; decide))
  | verifyProperty propertyID verifierID =>
    rcases PropertyContract.VerifyProperty_cases ctx propertyID verifierID with
      ⟨msg, h⟩ | ⟨p, t, j, hget, _, hj, h⟩
    · exact Or.inl ⟨msg, h⟩
    · refine Or.inr ?_
      simp only [PropertyContract.Call.run, PropertyContract.Call.writes, h]
      exact put_writesDecodable _ ctx _ j _
        (PropertyContract.jsonUnmarshalProperty_jsonMarshalProperty _ j hj
          (PropertyContract.GetProperty_views ctx propertyID p hget))
  | updatePropertyPrice propertyID price =>
    rcases PropertyContract.UpdatePropertyPrice_cases ctx propertyID price with
      ⟨msg, h⟩ | ⟨p, t, j, hget, _, hj, h⟩
    · exact Or.inl ⟨msg, h⟩
    · refine Or.inr ?_
      simp only [PropertyContract.Call.run, PropertyContract.Call.writes, h]
      exact put_writesDecodable _ ctx _ j _
        (PropertyContract.jsonUnmarshalProperty_jsonMarshalProperty _ j hj
          (PropertyContract.GetProperty_views ctx propertyID p hget))
  | incrementPropertyViews propertyID =>
    rcases PropertyContract.IncrementPropertyViews_cases ctx propertyID with
      ⟨msg, h⟩ | ⟨p, j, hget, hj, h⟩
    · exact Or.inl ⟨msg, h⟩
    · refine Or.inr ?_
      simp only [PropertyContract.Call.run, PropertyContract.Call.writes, h]
      exact put_writesDecodable _ ctx _ j _
        (PropertyContract.jsonUnmarshalProperty_jsonMarshalProperty _ j hj (wrapInt64_range _))
  | transferProperty propertyID newOwner newOwnerName transactionID =>
    rcases PropertyContract.TransferProperty_cases ctx propertyID newOwner newOwnerName
      transactionID with ⟨msg, h⟩ | ⟨p, t, j, tj, hget, _, hj, htj, h⟩
    · exact Or.inl ⟨msg, h⟩
    · refine Or.inr ?_
      simp only [PropertyContract.Call.run, PropertyContract.Call.writes, h]
      refine ⟨rfl, fun k hk => ?_, fun k hk => ?_⟩
      · simp only [List.mem_cons, List.mem_singleton, List.not_mem_nil, or_false, not_or] at hk
        rw [Stub.PutState_state_other _ _ _ _ hk.2, Stub.PutState_state_other _ _ _ _ hk.1]
      · by_cases hkt : k = "TXN_" ++ transactionID
        · subst hkt
          exact ⟨tj, _, Stub.PutState_state_self _ _ _,
            PropertyContract.jsonUnmarshalProperty_of_transaction _ tj htj⟩
        · simp only [List.mem_cons, List.mem_singleton, List.not_mem_nil, or_false, hkt] at hk
          subst hk
          refine ⟨j, _, ?_, PropertyContract.jsonUnmarshalProperty_jsonMarshalProperty _ j hj
            (PropertyContract.GetProperty_views ctx k p hget)⟩
          rw [Stub.PutState_state_other _ _ _ _ hkt]
          exact Stub.PutState_state_self _ _ _
  | updatePropertyStatus propertyID status =>
    rcases PropertyContract.UpdatePropertyStatus_cases ctx propertyID status with
      ⟨msg, h⟩ | ⟨p, t, j, hget, _, hj, h⟩
    · exact Or.inl ⟨msg, h⟩
    · refine Or.inr ?_
      simp only [PropertyContract.Call.run, PropertyContract.Call.writes, h]
      exact put_writesDecodable _ ctx _ j _
        (PropertyContract.jsonUnmarshalProperty_jsonMarshalProperty _ j hj
          (PropertyContract.GetProperty_views ctx propertyID p hget))

/-- C23: over the ledger that records one version per successful write to a key,
for an escrow (an offer, a property) whose key is new, is then written by three
successful transactions (the create and two mutations) and by no other
transaction: the history read of the key returns exactly three entries, oldest
first, each with the transaction id and timestamp of its version, the record
that the `Get` of the key returned after that version, and `isDelete` false; the
record of the last entry is the record the `Get` of the key returns now. -/
theorem history_of_three_writes (se : ThreeWrites EscrowContract.Call)
    (so : ThreeWrites OfferContract.Call) (sp : ThreeWrites PropertyContract.Call)
    (he : se.Valid EscrowContract.Call.run EscrowContract.Call.writes)
    (ho : so.Valid OfferContract.Call.run OfferContract.Call.writes)
    (hp : sp.Valid PropertyContract.Call.run PropertyContract.Call.writes) :
    (∃ r0 r1 r2,
      EscrowContract.GetEscrow ⟨(se.ledger1 EscrowContract.Call.run
        EscrowContract.Call.writes).state, none⟩ se.key = .ok r0 ∧
      EscrowContract.GetEscrow ⟨(se.ledger2 EscrowContract.Call.run
        EscrowContract.Call.writes).state, none⟩ se.key = .ok r1 ∧
      EscrowContract.GetEscrow ⟨(se.final EscrowContract.Call.run
        EscrowContract.Call.writes).state, none⟩ se.key = .ok r2 ∧
      EscrowContract.GetEscrowHistory (se.final EscrowContract.Call.run
        EscrowContract.Call.writes).historyStub se.key =
        .ok [⟨se.first.txId, se.first.timestamp, r0, false⟩,
          ⟨se.second.txId, se.second.timestamp, r1, false⟩,
          ⟨se.third.txId, se.third.timestamp, r2, false⟩]) ∧
    (∃ r0 r1 r2,
      OfferContract.GetOffer ⟨(so.ledger1 OfferContract.Call.run
        OfferContract.Call.writes).state, none⟩ so.key = .ok r0 ∧
      OfferContract.GetOffer ⟨(so.ledger2 OfferContract.Call.run
        OfferContract.Call.writes).state, none⟩ so.key = .ok r1 ∧
      OfferContract.GetOffer ⟨(so.final OfferContract.Call.run
        OfferContract.Call.writes).state, none⟩ so.key = .ok r2 ∧
      OfferContract.GetOfferHistory (so.final OfferContract.Call.run
        OfferContract.Call.writes).historyStub so.key =
        .ok [⟨so.first.txId, so.first.timestamp, r0, false⟩,
          ⟨so.second.txId, so.second.timestamp, r1, false⟩,
          ⟨so.third.txId, so.third.timestamp, r2, false⟩]) ∧
    (∃ r0 r1 r2,
      PropertyContract.GetProperty ⟨(sp.ledger1 PropertyContract.Call.run
        PropertyContract.Call.writes).state, none⟩ sp.key = .ok r0 ∧
      PropertyContract.GetProperty ⟨(sp.ledger2 PropertyContract.Call.run
        PropertyContract.Call.writes).state, none⟩ sp.key = .ok r1 ∧
      PropertyContract.GetProperty ⟨(sp.final PropertyContract.Call.run
        PropertyContract.Call.writes).state, none⟩ sp.key = .ok r2 ∧
      PropertyContract.GetPropertyHistory (sp.final PropertyContract.Call.run
        PropertyContract.Call.writes).historyStub sp.key =
        .ok [⟨sp.first.txId, sp.first.timestamp, r0, false⟩,
          ⟨sp.second.txId, sp.second.timestamp, r1, false⟩,
          ⟨sp.third.txId, sp.third.timestamp, r2, false⟩]) := by
  refine ⟨?_, ?_, ?_⟩
  · obtain ⟨v0, v1, v2, r0, r1, r2, ⟨hs0, hd0⟩, ⟨hs1, hd1⟩, ⟨hs2, hd2⟩, hh⟩ :=
      ThreeWrites.history _ _ EscrowContract.jsonUnmarshal EscrowContract.Escrow.zero
        writesDecodable_escrow se he
    exact ⟨r0, r1, r2, by simp [EscrowContract.GetEscrow, Stub.GetState, hs0, hd0],
      by simp [EscrowContract.GetEscrow, Stub.GetState, hs1, hd1],
      by simp [EscrowContract.GetEscrow, Stub.GetState, hs2, hd2], hh⟩
  · obtain ⟨v0, v1, v2, r0, r1, r2, ⟨hs0, hd0⟩, ⟨hs1, hd1⟩, ⟨hs2, hd2⟩, hh⟩ :=
      ThreeWrites.history _ _ OfferContract.jsonUnmarshal OfferContract.Offer.zero
        writesDecodable_offer so ho
    exact ⟨r0, r1, r2, by simp [OfferContract.GetOffer, Stub.GetState, hs0, hd0],
      by simp [OfferContract.GetOffer, Stub.GetState, hs1, hd1],
      by simp [OfferContract.GetOffer, Stub.GetState, hs2, hd2], hh⟩
  · obtain ⟨v0, v1, v2, r0, r1, r2, ⟨hs0, hd0⟩, ⟨hs1, hd1⟩, ⟨hs2, hd2⟩, hh⟩ :=
      ThreeWrites.history _ _ PropertyContract.jsonUnmarshalProperty
        PropertyContract.Property.zero writesDecodable_property sp hp
    exact ⟨r0, r1, r2, by simp [PropertyContract.GetProperty, Stub.GetState, hs0, hd0],
      by simp [PropertyContract.GetProperty, Stub.GetState, hs1, hd1],
      by simp [PropertyContract.GetProperty, Stub.GetState, hs2, hd2], hh⟩

/-- C23 on the empty ledger with `CreateEscrow`, `FundEscrow` and `ReleaseEscrow`
of `E1`, with `CreateOffer`, `AcceptOffer` and `AdminVerifyOffer` of `O1`, and
with `RegisterProperty`, `VerifyProperty` and `TransferProperty` of `P1`; the
history read of `E1` returns the CREATED, FUNDED and RELEASED records. -/
theorem history_of_three_writes_witness :
    EscrowContract.sampleWrites.Valid EscrowContract.Call.run EscrowContract.Call.writes ∧
    OfferContract.sampleWrites.Valid OfferContract.Call.run OfferContract.Call.writes ∧
    PropertyContract.sampleWrites.Valid PropertyContract.Call.run PropertyContract.Call.writes ∧
    (∃ r0 r1 r2,
      PropertyContract.GetProperty ⟨(PropertyContract.sampleWrites.ledger1
        PropertyContract.Call.run PropertyContract.Call.writes).state, none⟩ "P1" = .ok r0 ∧
      PropertyContract.GetProperty ⟨(PropertyContract.sampleWrites.ledger2
        PropertyContract.Call.run PropertyContract.Call.writes).state, none⟩ "P1" = .ok r1 ∧
      PropertyContract.GetProperty ⟨(PropertyContract.sampleWrites.final
        PropertyContract.Call.run PropertyContract.Call.writes).state, none⟩ "P1" = .ok r2 ∧
      PropertyContract.GetPropertyHistory (PropertyContract.sampleWrites.final
        PropertyContract.Call.run PropertyContract.Call.writes).historyStub "P1" =
        .ok [⟨"tx1", ⟨100, 0⟩, r0, false⟩, ⟨"tx2", ⟨150, 0⟩, r1, false⟩,
          ⟨"tx3", ⟨200, 0⟩, r2, false⟩]) ∧
    EscrowContract.GetEscrowHistory (EscrowContract.sampleWrites.final EscrowContract.Call.run
      EscrowContract.Call.writes).historyStub "E1" =
      .ok [⟨"tx1", ⟨100, 0⟩, ⟨"E1", "P1", "bob", "sue", ⟨5, 0⟩, "CREATED", "", ⟨100, 0⟩,
          ⟨100, 0⟩⟩, false⟩,
        ⟨"tx2", ⟨150, 0⟩, ⟨"E1", "P1", "bob", "sue", ⟨5, 0⟩, "FUNDED", "f1", ⟨100, 0⟩,
          ⟨150, 0⟩⟩, false⟩,
        ⟨"tx3", ⟨200, 0⟩, ⟨"E1", "P1", "bob", "sue", ⟨5, 0⟩, "RELEASED", "r1", ⟨100, 0⟩,
          ⟨200, 0⟩⟩, false⟩] :=
  have he : EscrowContract.sampleWrites.Valid EscrowContract.Call.run
      EscrowContract.Call.writes :=
    ⟨rfl, rfl, ⟨List.mem_singleton.mpr rfl, rfl⟩, fun _ h => absurd h (List.not_mem_nil _),
      ⟨List.mem_singleton.mpr rfl, rfl⟩, fun _ h => absurd h (List.not_mem_nil _),
      ⟨List.mem_singleton.mpr rfl, rfl⟩, fun _ h => absurd h (List.not_mem_nil _)⟩
  have ho : OfferContract.sampleWrites.Valid OfferContract.Call.run OfferContract.Call.writes :=
    ⟨rfl, rfl, ⟨List.mem_singleton.mpr rfl, rfl⟩, fun _ h => absurd h (List.not_mem_nil _),
      ⟨List.mem_singleton.mpr rfl, rfl⟩, fun _ h => absurd h (List.not_mem_nil _),
      ⟨List.mem_singleton.mpr rfl, rfl⟩, fun _ h => absurd h (List.not_mem_nil _)⟩
  have hp : PropertyContract.sampleWrites.Valid PropertyContract.Call.run
      PropertyContract.Call.writes :=
    ⟨rfl, rfl, ⟨List.mem_singleton.mpr rfl, rfl⟩,
      fun tx h => by
        rw [List.mem_singleton.mp h]
        decide,
      ⟨List.mem_singleton.mpr rfl, rfl⟩, fun _ h => absurd h (List.not_mem_nil _),
      ⟨List.mem_cons_self _ _, rfl⟩, fun _ h => absurd h (List.not_mem_nil _)⟩
  ⟨he, ho, hp,
    (history_of_three_writes EscrowContract.sampleWrites OfferContract.sampleWrites
      PropertyContract.sampleWrites he ho hp).2.2, rfl⟩

/-! ## The stored text of the timestamps -/

/-- C17 fails at the stored timestamps, whose text depends on the local time zone
of the peer, an input that is neither the ledger state nor an argument nor the
transaction timestamp.  `CreateEscrow` of `E1` on the empty ledger in the
transaction with timestamp `(100, 0)` stores `createdAt` and `updatedAt` made by
`time.Unix`; on a peer in UTC the document is written with the text
`1970-01-01T00:01:40Z` and on a peer at `+05:30` with
`1970-01-01T05:31:40+05:30`, so the two executions produce different ledger
values.  Likewise the `lastLogin` that `UpdateLastLogin` of `u1` stores in the
transaction with timestamp `(200, 0)` is written as `1970-01-01T00:03:20Z` on
the one peer and as `1970-01-01T05:33:20+05:30` on the other. -/
theorem stored_time_text_depends_on_zone :
    ((EscrowContract.CreateEscrow ⟨fun _ => none, some ⟨100, 0⟩⟩ "E1" "P1" "bob" "sue"
        ⟨5, 0⟩).2.state "E1").map (Json.written 0) =
      some (.ok (.obj [("escrowId", .str "E1"), ("propertyId", .str "P1"), ("buyer", .str "bob"),
        ("seller", .str "sue"), ("amount", .num ⟨5, 0⟩), ("status", .str "CREATED"),
        ("transactionHash", .str ""), ("createdAt", .str "\"1970-01-01T00:01:40Z\""),
        ("updatedAt", .str "\"1970-01-01T00:01:40Z\"")])) ∧
    ((EscrowContract.CreateEscrow ⟨fun _ => none, some ⟨100, 0⟩⟩ "E1" "P1" "bob" "sue"
        ⟨5, 0⟩).2.state "E1").map (Json.written 19800) =
      some (.ok (.obj [("escrowId", .str "E1"), ("propertyId", .str "P1"), ("buyer", .str "bob"),
        ("seller", .str "sue"), ("amount", .num ⟨5, 0⟩), ("status", .str "CREATED"),
        ("transactionHash", .str ""), ("createdAt", .str "\"1970-01-01T05:31:40+05:30\""),
        ("updatedAt", .str "\"1970-01-01T05:31:40+05:30\"")])) ∧
    ((UserContract.UpdateLastLogin ⟨UserContract.userLedger, some ⟨200, 0⟩⟩ "u1").2.state
        "u1").bind (fun v => v.field "lastLogin") = some (.time (timeUnix 200 0)) ∧
    Time.marshalJSON 0 (timeUnix 200 0) = .ok "\"1970-01-01T00:03:20Z\"" ∧
    Time.marshalJSON 19800 (timeUnix 200 0) = .ok "\"1970-01-01T05:33:20+05:30\"" :=
  ⟨rfl, rfl, rfl, rfl, rfl⟩
